import Mathlib

/-!
TVMPusher: the code-emission core of the TON Solidity compiler

A shallow embedding of `compiler/libsolidity/codegen/TVMPusher.cpp` and
`TVMPusher.hpp`.

Conventions of the embedding

* A C++ `int` is a Lean `Int`. The integers of this file are stack depths, tab
  counts, field widths and opcode arguments; none of the modelled paths comes
  near the 32-bit range, so no wrap-around is modelled.
* `solAssert`, `cast_error` and `solUnimplemented` abort the compilation: a
  function that can abort returns an `Option`, and `none` is the abort.
* Member functions take the object as an explicit argument and return the
  updated object.
* A `Declaration const*` is the identity of a declaration, a `Nat`.
-/

set_option autoImplicit false

/-! ## TVMStack -/

/-- Identity of a declaration (`Declaration const*`). -/
abbrev Declaration := Nat

/-- Model of `class TVMStack`: `m_size` and the map `m_params` from
declarations to absolute stack positions (`std::map<Declaration const*, int>`,
a finite partial function). -/
structure TVMStack where
  m_size : Int
  m_params : Declaration → Option Int

namespace TVMStack

/-- The default-constructed stack: `m_size{}` is 0 and `m_params` is empty. -/
def empty : TVMStack := ⟨0, fun _ => none⟩

/-- Model of `TVMStack::size`. -/
def size (s : TVMStack) : Int := s.m_size

/-- Model of `TVMStack::change`: `m_size += diff; solAssert(m_size >= 0)`. -/
def change (s : TVMStack) (diff : Int) : Option TVMStack :=
  if 0 ≤ s.m_size + diff then some ⟨s.m_size + diff, s.m_params⟩ else none

/-- Model of `TVMStack::isParam`: `m_params.count(name) > 0`. -/
def isParam (s : TVMStack) (name : Declaration) : Bool := (s.m_params name).isSome

/-- Model of `TVMStack::add`:
`solAssert(m_params.count(name) == 0); m_params[name] = doAllocation? m_size++ : m_size - 1`. -/
def add (s : TVMStack) (name : Declaration) (doAllocation : Bool) : Option TVMStack :=
  if s.isParam name then none
  else if doAllocation then
    some ⟨s.m_size + 1, fun d => if d = name then some s.m_size else s.m_params d⟩
  else
    some ⟨s.m_size, fun d => if d = name then some (s.m_size - 1) else s.m_params d⟩

/-- Model of `TVMStack::getOffset(int stackPos)`: `m_size - 1 - stackPos`. -/
def getOffsetPos (s : TVMStack) (stackPos : Int) : Int := s.m_size - 1 - stackPos

/-- Model of `TVMStack::getOffset(Declaration const*)`:
`solAssert(isParam(name)); return getOffset(m_params.at(name))`. -/
def getOffset (s : TVMStack) (name : Declaration) : Option Int :=
  match s.m_params name with
  | some pos => some (s.getOffsetPos pos)
  | none => none

/-- Model of `TVMStack::getStackSize`: `m_params.at(name)` (throws when absent). -/
def getStackSize (s : TVMStack) (name : Declaration) : Option Int := s.m_params name

/-- Model of `TVMStack::ensureSize`: `solAssert(savedStackSize == m_size)`. -/
def ensureSize (s : TVMStack) (savedStackSize : Int) : Option Unit :=
  if savedStackSize = s.m_size then some () else none

/-- The StackModel invariant of the specification: the size is not negative,
the map from declarations to positions is injective, and every bound position
lies in `[0, size)`. -/
def Inv (s : TVMStack) : Prop :=
  0 ≤ s.m_size ∧
  (∀ d₁ d₂ pos, s.m_params d₁ = some pos → s.m_params d₂ = some pos → d₁ = d₂) ∧
  (∀ d pos, s.m_params d = some pos → 0 ≤ pos ∧ pos < s.m_size)

/-- A stack of one slot bound to declaration 0 (the result of
`add(0, true)` on the empty stack). -/
def oneBound : TVMStack := ⟨1, fun d => if d = 0 then some 0 else none⟩

end TVMStack

/-! ## CodeLines -/

/-- Model of `struct CodeLines`: the emitted lines and the current indent. -/
structure CodeLines where
  lines : List String
  tabQty : Int

/-- The string `std::string(n, c)`. -/
def stdString (n : Int) (c : Char) : String := String.mk (List.replicate n.toNat c)

namespace CodeLines

/-- Model of `CodeLines::addTabs`. -/
def addTabs (c : CodeLines) (qty : Int) : CodeLines := { c with tabQty := c.tabQty + qty }

/-- Model of `CodeLines::subTabs`. -/
def subTabs (c : CodeLines) (qty : Int) : CodeLines := { c with tabQty := c.tabQty - qty }

/-- Model of `CodeLines::push`: an empty command or a lone newline is ignored,
a lone space records an empty line, anything else is recorded behind `tabQty`
tabs after `solAssert(tabQty >= 0)`. -/
def push (c : CodeLines) (cmd : String) : Option CodeLines :=
  if cmd = "" ∨ cmd = "\n" then some c
  else if cmd = " " then some { c with lines := c.lines ++ [""] }
  else if 0 ≤ c.tabQty then some { c with lines := c.lines ++ [stdString c.tabQty '\t' ++ cmd] }
  else none

/-- Model of `CodeLines::startContinuation`: `push("PUSHCONT {"); ++tabQty`. -/
def startContinuation (c : CodeLines) : Option CodeLines := do
  let c ← c.push "PUSHCONT \x7b"
  some (c.addTabs 1)

/-- Model of `CodeLines::endContinuation`:
`--tabQty; push("}"); solAssert(tabQty >= 0)`. -/
def endContinuation (c : CodeLines) : Option CodeLines := do
  let c ← (c.subTabs 1).push "\x7d"
  if 0 ≤ c.tabQty then some c else none

/-- Model of `CodeLines::append`: every line of `oth` behind `tabQty` tabs
(`std::string(tabQty, '\t')` throws for a negative count). -/
def append (c : CodeLines) (oth : CodeLines) : Option CodeLines :=
  if oth.lines = [] then some c
  else if 0 ≤ c.tabQty then
    some { c with lines := c.lines ++ oth.lines.map (fun s => stdString c.tabQty '\t' ++ s) }
  else none

end CodeLines

/-! ## Types of the source language, as far as the pusher inspects them -/

/-- The members of `Type::Category` that the pusher tests for; every other
category is `Other`. -/
inductive Category where
  | Address | Contract | Bool | Integer | FixedBytes | Enum | VarInteger | Array
  | Mapping | ExtraCurrencyCollection | Struct | TvmCell | TvmSlice | TvmBuilder
  | Function | StringLiteral | Other
  deriving DecidableEq, Repr

mutual
/-- A language type (`Type const*`), with the data the pusher reads from it:
the width and sign of an integer, the width of `bytesN`, the `TypeInfo` width
of an enum, `ArrayType::isByteArray` (true for `bytes` and `string`), the
identity of a struct, the parameter and return types of a function type and
the value of a string literal. -/
inductive SolType where
  | address
  | contract
  | bool
  | integer (numBits : Nat) (isSigned : Bool)
  | fixedBytes (numBytes : Nat)
  | enum (numBits : Nat)
  | varInteger
  | array (isByteArray : Bool)
  | mapping
  | extraCurrencyCollection
  | struct (id : Nat)
  | tvmCell
  | tvmSlice
  | tvmBuilder
  | function (parameterTypes : SolTypes) (returnParameterTypes : SolTypes)
  | stringLiteral (value : String)
  | other
/-- A list of language types (`TypePointers`). -/
inductive SolTypes where
  | nil
  | cons (head : SolType) (tail : SolTypes)
end

/-- Number of types in a list (`parameterTypes().size()`). -/
def SolTypes.size : SolTypes → Int
  | .nil => 0
  | .cons _ ts => ts.size + 1

/-- Model of `Type::category`. -/
def SolType.category : SolType → Category
  | .address => .Address
  | .contract => .Contract
  | .bool => .Bool
  | .integer _ _ => .Integer
  | .fixedBytes _ => .FixedBytes
  | .enum _ => .Enum
  | .varInteger => .VarInteger
  | .array _ => .Array
  | .mapping => .Mapping
  | .extraCurrencyCollection => .ExtraCurrencyCollection
  | .struct _ => .Struct
  | .tvmCell => .TvmCell
  | .tvmSlice => .TvmSlice
  | .tvmBuilder => .TvmBuilder
  | .function _ _ => .Function
  | .stringLiteral _ => .StringLiteral
  | .other => .Other

/-- Modelled from the spec: `TypeInfo` of TVMCommons.hpp, which is not part of
the sources: "derived from a language type: is_numeric, is_signed, num_bits".
Integers, `bool` (1 bit), `bytesN` (8N bits) and enums are numeric. -/
structure TypeInfo where
  isNumeric : Bool
  isSigned : Bool
  numBits : Int

/-- Modelled from the spec: the constructor `TypeInfo(type)`. -/
def TypeInfo.of : SolType → TypeInfo
  | .integer n s => ⟨true, s, n⟩
  | .bool => ⟨true, false, 1⟩
  | .fixedBytes n => ⟨true, false, 8 * n⟩
  | .enum n => ⟨true, false, n⟩
  | _ => ⟨false, false, 0⟩

/-- Modelled from the spec: `isIntegralType` of TVMCommons.hpp, the numeric
types. -/
def isIntegralType (t : SolType) : Bool := (TypeInfo.of t).isNumeric

/-- Modelled from the spec: `isUsualArray` of TVMCommons.hpp, an array that is
not a byte array. -/
def isUsualArray : SolType → Bool
  | .array isByteArray => !isByteArray
  | _ => false

/-- Modelled from the spec: `isByteArrayOrString` of TVMCommons.hpp, an array
type with `isByteArray()`. -/
def isByteArrayOrString : SolType → Bool
  | .array isByteArray => isByteArray
  | _ => false

/-- Modelled from the spec: `isStringOrStringLiteralOrBytes` of TVMCommons.hpp. -/
def isStringOrStringLiteralOrBytes (t : SolType) : Bool :=
  t.category = .StringLiteral || isByteArrayOrString t

/-! ## StackPusherHelper: state and elementary emitters -/

/-- Model of `class StackPusherHelper`: the stack model `m_stack` and the code
buffer `m_code`. The compiler context `m_ctx` is constant and is passed where
it is read. `history` is a ghost field: it records the arguments of every call
of `push`, oldest first, and nothing reads it. -/
structure StackPusherHelper where
  m_stack : TVMStack
  m_code : CodeLines
  history : List (Int × String)

/-- Splitting of a text in lines the way the `std::getline` loop of `pushLines`
does: a newline ends a line, and a last line without newline counts when it is
not empty. `acc` is the current line, reversed. -/
def getlines (acc : List Char) : List Char → List String
  | [] => if acc = [] then [] else [String.mk acc.reverse]
  | c :: rest =>
    if c = '\n' then String.mk acc.reverse :: getlines [] rest
    else getlines (c :: acc) rest

namespace StackPusherHelper

/-- Model of the constructor `StackPusherHelper(ctx, stackSize)`:
`m_stack.change(stackSize)` on an empty stack and an empty code buffer. -/
def create (stackSize : Int) : Option StackPusherHelper := do
  let stack ← TVMStack.empty.change stackSize
  some ⟨stack, ⟨[], 0⟩, []⟩

/-- The pusher `StackPusherHelper(ctx)` with the default `stackSize = 0`. -/
def fresh : StackPusherHelper := ⟨TVMStack.empty, ⟨[], 0⟩, []⟩

/-- Model of `StackPusherHelper::code`. -/
def code (p : StackPusherHelper) : CodeLines := p.m_code

/-- Model of `StackPusherHelper::push(int stackDiff, const string& cmd)`:
`m_code.push(cmd); m_stack.change(stackDiff)`. -/
def push (stackDiff : Int) (cmd : String) (p : StackPusherHelper) : Option StackPusherHelper := do
  let code ← p.m_code.push cmd
  let stack ← p.m_stack.change stackDiff
  some ⟨stack, code, p.history ++ [(stackDiff, cmd)]⟩

/-- Model of `StackPusherHelper::startContinuation`. -/
def startContinuation (p : StackPusherHelper) : Option StackPusherHelper := do
  let code ← p.m_code.startContinuation
  some { p with m_code := code }

/-- Model of `StackPusherHelper::endContinuation`. -/
def endContinuation (p : StackPusherHelper) : Option StackPusherHelper := do
  let code ← p.m_code.endContinuation
  some { p with m_code := code }

/-- Model of `StackPusherHelper::addTabs`. -/
def addTabs (qty : Int) (p : StackPusherHelper) : StackPusherHelper :=
  { p with m_code := p.m_code.addTabs qty }

/-- Model of `StackPusherHelper::subTabs`. -/
def subTabs (qty : Int) (p : StackPusherHelper) : StackPusherHelper :=
  { p with m_code := p.m_code.subTabs qty }

/-- The loop `for (s : lines) push(0, s)`. -/
def pushEach : List String → StackPusherHelper → Option StackPusherHelper
  | [], p => some p
  | l :: ls, p => do
    let p ← push 0 l p
    pushEach ls p

/-- Model of `StackPusherHelper::pushLines`: every line of the text, with
delta 0. -/
def pushLines (lines : String) (p : StackPusherHelper) : Option StackPusherHelper :=
  pushEach (getlines [] lines.data) p

/-- Model of `StackPusherHelper::push(const CodeLines&)`. -/
def pushCode (codeLines : CodeLines) (p : StackPusherHelper) : Option StackPusherHelper :=
  pushEach codeLines.lines p

/-- Model of `StackPusherHelper::pushCont`: the opening line, every line of the
continuation behind one more tab, and the closing brace with delta +1. -/
def pushCont (cont : CodeLines) (comment : String) (p : StackPusherHelper) :
    Option StackPusherHelper := do
  let p ← if comment = "" then push 0 "PUSHCONT \x7b" p
          else push 0 ("PUSHCONT \x7b ; " ++ comment) p
  let p ← pushEach (cont.lines.map (fun l => "\t" ++ l)) p
  push 1 "\x7d" p

/-- Model of `StackPusherHelper::pushInt`. -/
def pushInt (i : Int) (p : StackPusherHelper) : Option StackPusherHelper :=
  push 1 ("PUSHINT " ++ toString i) p

/-- Model of `StackPusherHelper::pushS`. -/
def pushS (i : Int) (p : StackPusherHelper) : Option StackPusherHelper :=
  if i < 0 then none
  else if i = 0 then push 1 "DUP" p
  else push 1 ("PUSH S" ++ toString i) p

/-- Model of `StackPusherHelper::untuple`. -/
def untuple (n : Int) (p : StackPusherHelper) : Option StackPusherHelper :=
  if n < 0 then none
  else if n ≤ 15 then push (-1 + n) ("UNTUPLE " ++ toString n) p
  else if n ≤ 255 then do
    let p ← pushInt n p
    push (-2 + n) "UNTUPLEVAR" p
  else none

/-- Model of `StackPusherHelper::index`. -/
def index (index : Int) (p : StackPusherHelper) : Option StackPusherHelper :=
  if index < 0 then none
  else if index ≤ 15 then push (-1 + 1) ("INDEX " ++ toString index) p
  else if index ≤ 254 then do
    let p ← pushInt index p
    push (-2 + 1) "INDEXVAR" p
  else none

/-- Model of `StackPusherHelper::set_index`. -/
def set_index (index : Int) (p : StackPusherHelper) : Option StackPusherHelper :=
  if index < 0 then none
  else if index ≤ 15 then push (-2 + 1) ("SETINDEX " ++ toString index) p
  else if index ≤ 254 then do
    let p ← pushInt index p
    push (-1 - 2 + 1) "SETINDEXVAR" p
  else none

/-- Model of `StackPusherHelper::tuple`. -/
def tuple (qty : Int) (p : StackPusherHelper) : Option StackPusherHelper :=
  if qty < 0 then none
  else if qty ≤ 15 then push (-qty + 1) ("TUPLE " ++ toString qty) p
  else if qty ≤ 255 then do
    let p ← pushInt qty p
    push (-1 - qty + 1) "TUPLEVAR" p
  else none

/-- Model of `StackPusherHelper::getGlob(int)`. -/
def getGlob (index : Int) (p : StackPusherHelper) : Option StackPusherHelper :=
  if index < 0 then none
  else if index ≤ 31 then push 1 ("GETGLOB " ++ toString index) p
  else if index < 255 then do
    let p ← pushInt index p
    push (-1 + 1) "GETGLOBVAR" p
  else none

/-- Model of `StackPusherHelper::setGlob(int)`. -/
def setGlob (index : Int) (p : StackPusherHelper) : Option StackPusherHelper :=
  if index ≤ 31 then push (-1) ("SETGLOB " ++ toString index) p
  else if index < 255 then do
    let p ← pushInt index p
    push (-1 - 1) "SETGLOBVAR" p
  else none

/-- Model of `StackPusherHelper::pushZeroAddress`. -/
def pushZeroAddress (p : StackPusherHelper) : Option StackPusherHelper :=
  push 1 "PUSHSLICE x8000000000000000000000000000000000000000000000000000000000000000001_" p

/-- Model of `StackPusherHelper::pushPrivateFunctionOrMacroCall`. -/
def pushPrivateFunctionOrMacroCall (stackDelta : Int) (fname : String)
    (p : StackPusherHelper) : Option StackPusherHelper :=
  push stackDelta ("CALL $" ++ fname ++ "$") p

/-- Model of `StackPusherHelper::drop`. -/
def drop (cnt : Int) (p : StackPusherHelper) : Option StackPusherHelper :=
  if cnt < 0 then none
  else if cnt = 0 then some p
  else if cnt = 1 then push (-1) "DROP" p
  else if cnt = 2 then push (-2) "DROP2" p
  else if cnt > 15 then do
    let p ← pushInt cnt p
    push (-(cnt + 1)) "DROPX" p
  else push (-cnt) ("BLKDROP " ++ toString cnt) p

/-- Model of `StackPusherHelper::exchange`. The inner calls of the last branch
have `i = 0`, which is what the recursion decreases on. -/
def exchange (i j : Int) (p : StackPusherHelper) : Option StackPusherHelper :=
  if ¬ (i ≤ j) then none
  else if ¬ (i ≥ 0) then none
  else if ¬ (j ≥ 1) then none
  else if h0 : i = 0 ∧ j ≤ 255 then
    if j = 1 then push 0 "SWAP" p
    else if j ≤ 15 then push 0 ("XCHG s" ++ toString j) p
    else push 0 ("XCHG s0,s" ++ toString j) p
  else if i = 1 ∧ 2 ≤ j ∧ j ≤ 15 then push 0 ("XCHG s1,s" ++ toString j) p
  else if 1 ≤ i ∧ i < j ∧ j ≤ 15 then push 0 ("XCHG s" ++ toString i ++ ",s" ++ toString j) p
  else if hj : j ≤ 255 then do
    let p ← exchange 0 i p
    let p ← exchange 0 j p
    exchange 0 i p
  else none
termination_by (if i = 0 then 0 else 1 : Nat)
decreasing_by
  all_goals simp_wf
  all_goals (have hi : i ≠ 0 := fun h => h0 ⟨h, hj⟩)
  all_goals simp [hi]

end StackPusherHelper

namespace StackPusherHelper

/-- Model of `StackPusherHelper::blockSwap`. -/
def blockSwap (m n : Int) (p : StackPusherHelper) : Option StackPusherHelper :=
  if m < 0 then none
  else if n < 0 then none
  else if m = 0 ∨ n = 0 then some p
  else if m = 1 ∧ n = 1 then exchange 0 1 p
  else if m = 1 ∧ n = 2 then push 0 "ROT" p
  else if m = 2 ∧ n = 1 then push 0 "ROTREV" p
  else if m = 2 ∧ n = 2 then push 0 "SWAP2" p
  else if n ≤ 16 ∧ m ≤ 16 then push 0 ("BLKSWAP " ++ toString m ++ ", " ++ toString n) p
  else do
    let p ← pushInt m p
    let p ← pushInt n p
    push (-2) "BLKSWX" p

/-- Model of `StackPusherHelper::reverse`. -/
def reverse (i j : Int) (p : StackPusherHelper) : Option StackPusherHelper :=
  if i < 2 then none
  else if j < 0 then none
  else if i = 2 ∧ j = 0 then push 0 "SWAP" p
  else if i = 3 ∧ j = 0 then push 0 "XCHG s2" p
  else if i - 2 ≤ 15 ∧ j ≤ 15 then push 0 ("REVERSE " ++ toString i ++ ", " ++ toString j) p
  else do
    let p ← pushInt i p
    let p ← pushInt j p
    push (-2) "REVX" p

/-- The lambda `f` of `StackPusherHelper::dropUnder`. -/
def dropUnder.f (leftCount droppedCount : Int) (p : StackPusherHelper) :
    Option StackPusherHelper :=
  if droppedCount > 15 ∨ leftCount > 15 then do
    let p ← pushInt droppedCount p
    let p ← pushInt leftCount p
    let p ← push (-2) "BLKSWX" p
    drop droppedCount p
  else
    push (-droppedCount)
      ("BLKDROP2 " ++ toString droppedCount ++ ", " ++ toString leftCount) p

/-- Model of `StackPusherHelper::dropUnder`. -/
def dropUnder (leftCount droppedCount : Int) (p : StackPusherHelper) :
    Option StackPusherHelper :=
  if leftCount < 0 then none
  else if droppedCount < 0 then none
  else if droppedCount = 0 then some p
  else if leftCount = 0 then drop droppedCount p
  else if droppedCount = 1 then
    if leftCount = 1 then push (-1) "NIP" p
    else dropUnder.f leftCount droppedCount p
  else if droppedCount = 2 then
    if leftCount = 1 then do
      let p ← push (-1) "NIP" p
      push (-1) "NIP" p
    else dropUnder.f leftCount droppedCount p
  else
    if leftCount = 1 then do
      let p ← exchange 0 droppedCount p
      drop droppedCount p
    else dropUnder.f leftCount droppedCount p

/-- Model of `StackPusherHelper::loadArray`. -/
def loadArray (directOrder : Bool) (p : StackPusherHelper) : Option StackPusherHelper := do
  let p ← pushLines "LDU 32\nLDDICT\nROTREV\nPAIR\n" p
  let p ← if directOrder then exchange 0 1 p else some p
  push (-1 + 2) "" p

/-- Model of `StackPusherHelper::preLoadArray`. -/
def preLoadArray (p : StackPusherHelper) : Option StackPusherHelper := do
  let p ← pushLines "LDU 32\nPLDDICT\nPAIR\n" p
  push (-1 + 1) "" p

/-- Model of `StackPusherHelper::load`. -/
def load (type : SolType) (p : StackPusherHelper) : Option StackPusherHelper :=
  if isUsualArray type then loadArray true p
  else
    let ti := TypeInfo.of type
    if ¬ ti.isNumeric then none
    else
      let cmd := if ti.isSigned then "LDI " else "LDU "
      push (-1 + 2) (cmd ++ toString ti.numBits) p

/-- Model of `StackPusherHelper::preload`. -/
def preload (type : SolType) (p : StackPusherHelper) : Option StackPusherHelper :=
  if isUsualArray type then preLoadArray p
  else if type.category = .Mapping ∨ type.category = .ExtraCurrencyCollection then
    push 0 "PLDDICT" p
  else if type.category = .VarInteger then do
    let p ← push 0 "LDVARUINT32" p
    push 0 "DROP" p
  else
    let ti := TypeInfo.of type
    if ¬ ti.isNumeric then none
    else
      let cmd := if ti.isSigned then "PLDI " else "PLDU "
      push (-1 + 1) (cmd ++ toString ti.numBits) p

/-- Model of `StackPusherHelper::prepareKeyForDictOperations`. -/
def prepareKeyForDictOperations (key : SolType) (p : StackPusherHelper) :
    Option StackPusherHelper :=
  if isStringOrStringLiteralOrBytes key then do
    let p ← push 1 "PUSH s1" p
    let p ← push (-1 + 1) "HASHCU" p
    push (-1) "POP s2" p
  else some p

/-- Model of `StackPusherHelper::stzeroes`. -/
def stzeroes (qty : Int) (p : StackPusherHelper) : Option StackPusherHelper :=
  if qty > 0 then
    if qty = 1 then push 0 "STSLICECONST 0" p
    else do
      let p ← pushInt qty p
      push (-1) "STZEROES" p
  else some p

/-- Model of `StackPusherHelper::stones`. -/
def stones (qty : Int) (p : StackPusherHelper) : Option StackPusherHelper :=
  if qty > 0 then
    if qty = 1 then push 0 "STSLICECONST 1" p
    else do
      let p ← pushInt qty p
      push (-1) "STONES" p
  else some p

/-- Model of `StackPusherHelper::sendrawmsg`. -/
def sendrawmsg (p : StackPusherHelper) : Option StackPusherHelper :=
  push (-2) "SENDRAWMSG" p

end StackPusherHelper

/-! ## Bit strings and their slice literals -/

/-- The value `std::stoi(str, nullptr, 2)` of a string of binary digits, most
significant digit first; `acc` is the value read so far. On a string with
another character `std::stoi` throws or stops early; the bit strings of the
pusher never contain one, and the model aborts there. -/
def stoi2 (acc : Nat) : List Char → Option Nat
  | [] => some acc
  | c :: cs =>
    if c = '0' then stoi2 (2 * acc) cs
    else if c = '1' then stoi2 (2 * acc + 1) cs
    else none

/-- The text that `sstream << std::hex << x` writes: lower-case hexadecimal. -/
def hexOf (x : Nat) : String := String.mk (Nat.toDigits 16 x)

/-- The loop of `binaryStringToSlice`: `stoi(s.substr(i, 4), nullptr, 2)` is
written in hexadecimal for `i = 0, 4, 8, ...` below the length. -/
def hexGroups : List Char → Option String
  | [] => some ""
  | a :: b :: c :: d :: rest => do
    let x ← stoi2 0 [a, b, c, d]
    let ans ← hexGroups rest
    some (hexOf x ++ ans)
  | short => do
    let x ← stoi2 0 short
    some (hexOf x)

/-- Model of `StackPusherHelper::binaryStringToSlice`. -/
def binaryStringToSlice (_s : String) : Option String := do
  let haveCompletionTag : Bool := _s.length % 4 ≠ 0
  let s : String :=
    if haveCompletionTag then
      let s1 := _s ++ "1"
      s1 ++ stdString ((4 - (s1.length : Int) % 4) % 4) '0'
    else _s
  let ans ← hexGroups s.data
  some (if haveCompletionTag then ans ++ "_" else ans)

/-! ## What the pusher takes from the rest of the compiler -/

/-- The collaborators of TVMPusher.cpp that are declared outside the sources:
helpers of TVMCommons.hpp, constants of TVMConstants.hpp and the operations of
`StructCompiler`. They are parameters of the model.

* `lengthOfDictKey` aborts on a key type it does not support (`none`).
* `typeToDictChar` is the letter between `DICT` and the operation name.
* `isCompatibleWithSDK keyLength structType` is the static
  `StructCompiler::isCompatibleWithSDK`.
* `storeIntegralOrAddress type reverse` is the store opcode of a type.
* `maxBitLength` is `AddressInfo::maxBitLength()`, `DefaultFlag` is
  `TvmConst::SENDRAWMSG::DefaultFlag` and `ArrayIndexOutOfRange` is
  `TvmConst::RuntimeException::ArrayIndexOutOfRange`.
* `tupleToBuilder`, `convertSliceToTuple` and `createDefaultStruct` are the
  methods of a `StructCompiler` built on a pusher and a struct type; they emit
  through that pusher. -/
structure Collaborators where
  lengthOfDictKey : SolType → Option Int
  typeToDictChar : SolType → String
  isCompatibleWithSDK : Int → SolType → Bool
  storeIntegralOrAddress : SolType → Bool → String
  maxBitLength : Int
  DefaultFlag : Int
  ArrayIndexOutOfRange : Int
  tupleToBuilder : SolType → StackPusherHelper → Option StackPusherHelper
  convertSliceToTuple : SolType → StackPusherHelper → Option StackPusherHelper
  createDefaultStruct : SolType → Bool → StackPusherHelper → Option StackPusherHelper

/-- Modelled from the spec: the field ids of `TvmConst::int_msg_info`
(TVMConstants.hpp is not part of the sources): "ihr_disabled=0, bounce=1,
bounced=2, src=3, dest=4, grams=5, currency=6, ihr_fee=7, fwd_fee=8,
created_lt=9, created_at=10". -/
def TvmConst.int_msg_info.bounce : Int := 1

/-- Modelled from the spec: see `TvmConst.int_msg_info.bounce`. -/
def TvmConst.int_msg_info.dest : Int := 4

/-- Modelled from the spec: see `TvmConst.int_msg_info.bounce`. -/
def TvmConst.int_msg_info.grams : Int := 5

/-- Modelled from the spec: see `TvmConst.int_msg_info.bounce`. -/
def TvmConst.int_msg_info.currency : Int := 6

/-- Modelled from the spec: the field ids of `TvmConst::ext_msg_info`:
"external uses src=0, dest=1, created_lt=2, created_at=3". -/
def TvmConst.ext_msg_info.dest : Int := 1

/-- Modelled from the spec: `lengthOfDictKey` of TVMCommons.hpp on the key
types the spec describes: "32 for integer-like keys <= 32 bits, num_bits for
larger integrals, 256 for address (hashed), 256 for string/bytes after
preprocessing". -/
def specLengthOfDictKey (key : SolType) : Option Int :=
  if key.category = .Address ∨ key.category = .Contract then some 256
  else if (TypeInfo.of key).isNumeric then
    some (if (TypeInfo.of key).numBits ≤ 32 then 32 else (TypeInfo.of key).numBits)
  else if isStringOrStringLiteralOrBytes key then some 256
  else none

/-- Modelled from the spec: `typeToDictChar` of TVMCommons.hpp: "returns I for
signed, U for unsigned, K (slice) for address-like". The spec names no letter
for another key type; the model gives the empty string there. -/
def specTypeToDictChar (key : SolType) : String :=
  if (TypeInfo.of key).isNumeric then (if (TypeInfo.of key).isSigned then "I" else "U")
  else if key.category = .Address ∨ key.category = .Contract then "K"
  else ""

/-- Modelled from the spec: `storeIntegralOrAddress` of TVMCommons.hpp: "yields
STI n / STU n / STSLICE / STGRAMS / STVARUINT32 / STDICT by type category and
width". -/
def specStoreIntegralOrAddress (type : SolType) (_reverse : Bool) : String :=
  if (TypeInfo.of type).isNumeric then
    (if (TypeInfo.of type).isSigned then "STI " else "STU ") ++ toString (TypeInfo.of type).numBits
  else if type.category = .Address ∨ type.category = .Contract then "STSLICE"
  else if type.category = .VarInteger then "STVARUINT32"
  else "STDICT"

/-- Collaborators as the spec describes them, for the concrete scenarios:
the helpers above, 267 bits for an address ("dest=2 (tag) + up to 267 slice"),
no SDK-compatible struct, and struct operations that emit nothing. The values
of `DefaultFlag` and `ArrayIndexOutOfRange` are placeholders: the spec names
the constants without their numbers. -/
def specCollaborators : Collaborators where
  lengthOfDictKey := specLengthOfDictKey
  typeToDictChar := specTypeToDictChar
  isCompatibleWithSDK := fun _ _ => false
  storeIntegralOrAddress := specStoreIntegralOrAddress
  maxBitLength := 267
  DefaultFlag := 0
  ArrayIndexOutOfRange := 0
  tupleToBuilder := fun _ p => some p
  convertSliceToTuple := fun _ p => some p
  createDefaultStruct := fun _ _ p => some p

/-! ## Dictionary operations: preparation of the value and `setDict` -/

namespace StackPusherHelper

/-- Model of `StackPusherHelper::prepareValueForDictOperations`; the result is
the returned flag ("true if result is a builder") and the pusher. -/
def prepareValueForDictOperations (env : Collaborators) (keyType dictValueType : SolType)
    (isValueBuilder : Bool) (p : StackPusherHelper) : Option (Bool × StackPusherHelper) :=
  if isIntegralType dictValueType then
    if !isValueBuilder then do
      let p ← push 0 "NEWC" p
      let p ← push 0 (env.storeIntegralOrAddress dictValueType false) p
      some (true, p)
    else some (isValueBuilder, p)
  else if dictValueType.category = .Struct then do
    let keyLength ← env.lengthOfDictKey keyType
    if env.isCompatibleWithSDK keyLength dictValueType then
      if isValueBuilder then some (true, p)
      else do
        let p ← env.tupleToBuilder dictValueType p
        some (true, p)
    else do
      let p ← if !isValueBuilder then env.tupleToBuilder dictValueType p else some p
      let p ← push 0 "ENDC" p
      some (true, p)
  else if isUsualArray dictValueType then
    if !isValueBuilder then do
      let p ← push (-1 + 2) "UNPAIR" p
      let p ← push 0 "SWAP" p
      let p ← push 1 "NEWC" p
      let p ← push (-1) "STU 32" p
      let p ← push (-1) "STDICT" p
      some (true, p)
    else some (isValueBuilder, p)
  else if dictValueType.category = .TvmCell ∨ isByteArrayOrString dictValueType then
    if isValueBuilder then do
      let p ← push 0 "ENDC" p
      some (false, p)
    else some (isValueBuilder, p)
  else if dictValueType.category = .Mapping ∨
      dictValueType.category = .ExtraCurrencyCollection then
    if !isValueBuilder then do
      let p ← push 1 "NEWC" p
      let p ← push (-1) "STDICT" p
      some (true, p)
    else some (isValueBuilder, p)
  else if dictValueType.category = .VarInteger then
    if !isValueBuilder then do
      let p ← push 1 "NEWC" p
      let p ← push 0 "SWAP" p
      let p ← push (-1) "STVARUINT32" p
      some (true, p)
    else some (isValueBuilder, p)
  else some (isValueBuilder, p)

end StackPusherHelper

/-- Model of `DictOperation::doDictOperation`: the dispatch on the category of
the value to the seven hooks of the subclass, acting on the subclass object. -/
def DictOperation.doDictOperation {σ : Type} (env : Collaborators) (keyLength : Int)
    (valueType : SolType)
    (onCell onSmallStruct onLargeStruct onAddress onByteArrayOrString
      onIntegralOrArrayOrVarInt onMapOrECC : σ → Option σ) (d : σ) : Option σ :=
  if valueType.category = .TvmCell then onCell d
  else if valueType.category = .Struct then
    if env.isCompatibleWithSDK keyLength valueType then onSmallStruct d
    else onLargeStruct d
  else if valueType.category = .Address ∨ valueType.category = .Contract then onAddress d
  else if isByteArrayOrString valueType then onByteArrayOrString d
  else if isIntegralType valueType ∨ isUsualArray valueType ∨
      valueType.category = .VarInteger then onIntegralOrArrayOrVarInt d
  else if valueType.category = .Mapping ∨
      valueType.category = .ExtraCurrencyCollection then onMapOrECC d
  else none

/-- Model of `enum class SetDictOperation`. -/
inductive SetDictOperation where
  | Set | Replace | Add
  deriving DecidableEq, Repr

/-- Model of `class DictSet`. -/
structure DictSet where
  pusher : StackPusherHelper
  keyType : SolType
  keyLength : Int
  valueType : SolType
  isValueBuilder : Bool
  operation : SetDictOperation
  opcode : String

namespace DictSet

/-- Model of the constructor of `DictSet` (and of `DictOperation`, which
evaluates `lengthOfDictKey(&keyType)`). -/
def create (env : Collaborators) (pusher : StackPusherHelper) (keyType valueType : SolType)
    (isValueBuilder : Bool) (operation : SetDictOperation) : Option DictSet := do
  let keyLength ← env.lengthOfDictKey keyType
  some ⟨pusher, keyType, keyLength, valueType, isValueBuilder, operation, ""⟩

/-- Model of `DictSet::onCell`. -/
def onCell (d : DictSet) : Option DictSet :=
  if d.isValueBuilder then none else some { d with opcode := d.opcode ++ "REF" }

/-- Model of `DictSet::onSmallStruct`. -/
def onSmallStruct (d : DictSet) : Option DictSet :=
  if d.isValueBuilder then some { d with opcode := d.opcode ++ "B" } else none

/-- Model of `DictSet::onLargeStruct`. -/
def onLargeStruct (d : DictSet) : Option DictSet :=
  if d.isValueBuilder then some { d with opcode := d.opcode ++ "REF" } else none

/-- Model of `DictSet::onByteArrayOrString`. -/
def onByteArrayOrString (d : DictSet) : Option DictSet :=
  if d.isValueBuilder then none else some { d with opcode := d.opcode ++ "REF" }

/-- Model of `DictSet::onAddress`. -/
def onAddress (d : DictSet) : Option DictSet :=
  if d.isValueBuilder then some { d with opcode := d.opcode ++ "B" } else some d

/-- Model of `DictSet::onIntegralOrArrayOrVarInt`. -/
def onIntegralOrArrayOrVarInt (d : DictSet) : Option DictSet :=
  if d.isValueBuilder then some { d with opcode := d.opcode ++ "B" } else none

/-- Model of `DictSet::onMapOrECC`. -/
def onMapOrECC (d : DictSet) : Option DictSet :=
  if d.isValueBuilder then some { d with opcode := d.opcode ++ "B" } else none

/-- Model of `DictSet::dictSet`. -/
def dictSet (env : Collaborators) (d : DictSet) : Option DictSet := do
  let keyLength ← env.lengthOfDictKey d.keyType
  let pusher ← d.pusher.pushInt keyLength
  let d := { d with pusher := pusher }
  let d := { d with opcode := "DICT" ++ env.typeToDictChar d.keyType }
  let d := match d.operation with
    | .Set => { d with opcode := d.opcode ++ "SET" }
    | .Replace => { d with opcode := d.opcode ++ "REPLACE" }
    | .Add => { d with opcode := d.opcode ++ "ADD" }
  let d ← DictOperation.doDictOperation env d.keyLength d.valueType
    onCell onSmallStruct onLargeStruct onAddress onByteArrayOrString
    onIntegralOrArrayOrVarInt onMapOrECC d
  let pusher ← match d.operation with
    | .Set => d.pusher.push (-4 + 1) d.opcode
    | .Replace => d.pusher.push (-4 + 2) d.opcode
    | .Add => d.pusher.push (-4 + 2) d.opcode
  some { d with pusher := pusher }

end DictSet

/-- Model of `StackPusherHelper::setDict`. -/
def StackPusherHelper.setDict (env : Collaborators) (keyType valueType : SolType)
    (isValueBuilder : Bool) (operation : SetDictOperation) (p : StackPusherHelper) :
    Option StackPusherHelper := do
  let d ← DictSet.create env p keyType valueType isValueBuilder operation
  let d ← d.dictSet env
  some d.pusher

/-! ## Default values -/

namespace StackPusherHelper

mutual
/-- Model of `StackPusherHelper::pushDefaultValue`. -/
def pushDefaultValue (env : Collaborators) (type : SolType) (isResultBuilder : Bool)
    (p : StackPusherHelper) : Option StackPusherHelper :=
  match type with
  | .address | .contract => do
    let p ← pushZeroAddress p
    if isResultBuilder then do
      let p ← push 1 "NEWC" p
      push (-1) "STSLICE" p
    else some p
  | .bool | .fixedBytes _ | .integer _ _ | .enum _ | .varInteger => do
    let p ← push 1 "PUSHINT 0" p
    if isResultBuilder then do
      let p ← push 1 "NEWC" p
      push (-1) (env.storeIntegralOrAddress type false) p
    else some p
  | .array isByteArray =>
    if isByteArray then do
      let p ← push 1 "NEWC" p
      if !isResultBuilder then push 0 "ENDC" p else some p
    else if !isResultBuilder then do
      let p ← pushInt 0 p
      let p ← push 1 "NEWDICT" p
      push (-2 + 1) "PAIR" p
    else do
      let p ← push 1 "NEWC" p
      let p ← pushInt 33 p
      push (-1) "STZEROES" p
  | .mapping | .extraCurrencyCollection =>
    if isResultBuilder then do
      let p ← push 1 "NEWC" p
      stzeroes 1 p
    else push 1 "NEWDICT" p
  | .struct _ => env.createDefaultStruct type isResultBuilder p
  | .tvmSlice => do
    let p ← push 1 "PUSHSLICE x8_" p
    if isResultBuilder then do
      let p ← push 1 "NEWC" p
      push (-1) "STSLICE" p
    else some p
  | .tvmBuilder => push 1 "NEWC" p
  | .tvmCell => do
    let p ← push 1 "NEWC" p
    if !isResultBuilder then push 0 "ENDC" p else some p
  | .function parameterTypes returnParameterTypes =>
    if isResultBuilder then none
    else do
      let pusherHelper ← StackPusherHelper.create parameterTypes.size
      let pusherHelper ← pusherHelper.drop parameterTypes.size
      let pusherHelper ← pushDefaultValues env returnParameterTypes pusherHelper
      pushCont pusherHelper.code "" p
  | .stringLiteral _ | .other => none
/-- The loop `for (param : returnParameterTypes()) pusherHelper.pushDefaultValue(param)`
of the `Function` case. -/
def pushDefaultValues (env : Collaborators) (types : SolTypes) (p : StackPusherHelper) :
    Option StackPusherHelper :=
  match types with
  | .nil => some p
  | .cons t ts => do
    let p ← pushDefaultValue env t false p
    pushDefaultValues env ts p
end

end StackPusherHelper

/-! ## Dictionary operations: `getDict` -/

/-- Model of `enum class GetDictOperation`. -/
inductive GetDictOperation where
  | GetFromMapping | GetSetFromMapping | GetAddFromMapping | GetReplaceFromMapping
  | GetFromArray | Fetch | Exist
  deriving DecidableEq, Repr

/-- Model of `enum class StatusFlag` of `GetFromDict`. -/
inductive StatusFlag where
  | True | False | Non
  deriving DecidableEq, Repr

/-- Model of `class GetFromDict`: the pusher it emits to, the pusher
`haveValue` that collects the continuation of the `Fetch` hit branch, and the
constants of the operation. -/
structure GetFromDict where
  pusher : StackPusherHelper
  keyType : SolType
  keyLength : Int
  valueType : SolType
  haveValue : StackPusherHelper
  op : GetDictOperation
  resultAsSliceForStruct : Bool

namespace GetFromDict

/-- Model of the constructor of `GetFromDict`. -/
def create (env : Collaborators) (pusher : StackPusherHelper) (keyType valueType : SolType)
    (op : GetDictOperation) (resultAsSliceForStruct : Bool) : Option GetFromDict := do
  let keyLength ← env.lengthOfDictKey keyType
  some ⟨pusher, keyType, keyLength, valueType, StackPusherHelper.fresh, op,
    resultAsSliceForStruct⟩

/-- Model of `GetFromDict::pushContinuationWithDefaultValue`. -/
def pushContinuationWithDefaultValue (env : Collaborators) (flag : StatusFlag) (doSwap : Bool)
    (d : GetFromDict) : Option GetFromDict := do
  let pusherHelper := StackPusherHelper.fresh
  let pusherHelper ←
    if d.valueType.category = .Struct then
      if d.resultAsSliceForStruct then do
        let q ← pusherHelper.pushDefaultValue env d.valueType true
        let q ← q.push 0 "ENDC"
        q.push 0 "CTOS"
      else pusherHelper.pushDefaultValue env d.valueType false
    else pusherHelper.pushDefaultValue env d.valueType false
  let pusherHelper ← match flag with
    | .True => pusherHelper.push 1 "TRUE"
    | .False => pusherHelper.push 1 "FALSE"
    | .Non => some pusherHelper
  let pusherHelper ← if doSwap then pusherHelper.exchange 0 1 else some pusherHelper
  let pusher ← d.pusher.pushCont pusherHelper.code ""
  some { d with pusher := pusher }

/-- Model of `GetFromDict::fetchValue`. -/
def fetchValue (env : Collaborators) (d : GetFromDict) : Option GetFromDict := do
  let noValue := StackPusherHelper.fresh
  let noValue ←
    if d.valueType.category = .Struct then noValue.push 0 "NULL"
    else noValue.pushDefaultValue env d.valueType false
  let pusher ← d.pusher.push 0 "DUP"
  let pusher ← pusher.pushCont d.haveValue.code ""
  let pusher ← pusher.pushCont noValue.code ""
  let pusher ← pusher.push (-2) "IFELSE"
  some { d with pusher := pusher }

/-- Model of `GetFromDict::checkExist`. -/
def checkExist (d : GetFromDict) : Option GetFromDict := do
  let nip := StackPusherHelper.fresh
  let nip ← nip.push 1 ""
  let nip ← nip.push (-1) "NIP"
  let pusher ← d.pusher.push 0 "DUP"
  let pusher ← pusher.pushCont nip.code ""
  let pusher ← pusher.push (-2) "IF"
  some { d with pusher := pusher }

/-- An emission on the pusher of the operation. -/
def onPusher (f : StackPusherHelper → Option StackPusherHelper) (d : GetFromDict) :
    Option GetFromDict := do
  let pusher ← f d.pusher
  some { d with pusher := pusher }

/-- An emission on the pusher `haveValue`. -/
def onHaveValue (f : StackPusherHelper → Option StackPusherHelper) (d : GetFromDict) :
    Option GetFromDict := do
  let haveValue ← f d.haveValue
  some { d with haveValue := haveValue }

/-- Model of `GetFromDict::onCell`. -/
def onCell (env : Collaborators) (d : GetFromDict) : Option GetFromDict :=
  match d.op with
  | .GetFromMapping => do
    let d ← pushContinuationWithDefaultValue env .Non false d
    onPusher (StackPusherHelper.push (-2) "IFNOT") d
  | .GetSetFromMapping | .GetReplaceFromMapping => do
    let d ← onPusher (StackPusherHelper.pushS 0) d
    let d ← pushContinuationWithDefaultValue env .Non true d
    onPusher (StackPusherHelper.push (-2) "IFNOT") d
  | .GetAddFromMapping => do
    let d ← onPusher (StackPusherHelper.pushS 0) d
    let d ← pushContinuationWithDefaultValue env .Non true d
    onPusher (StackPusherHelper.push (-2) "IF") d
  | .GetFromArray =>
    onPusher (StackPusherHelper.push (-1)
      ("THROWIFNOT " ++ toString env.ArrayIndexOutOfRange)) d
  | .Fetch => fetchValue env d
  | .Exist => checkExist d

/-- Model of `GetFromDict::onSmallStruct`. -/
def onSmallStruct (env : Collaborators) (d : GetFromDict) : Option GetFromDict :=
  match d.op with
  | .GetFromMapping =>
    if d.resultAsSliceForStruct then do
      let d ← pushContinuationWithDefaultValue env .Non false d
      onPusher (StackPusherHelper.push (-2) "IFNOT") d
    else do
      let d ← onPusher StackPusherHelper.startContinuation d
      let d ← onPusher (env.convertSliceToTuple d.valueType) d
      let d ← onPusher StackPusherHelper.endContinuation d
      let d ← onPusher StackPusherHelper.startContinuation d
      let d ← onPusher (env.createDefaultStruct d.valueType false) d
      let d ← onPusher StackPusherHelper.endContinuation d
      onPusher (StackPusherHelper.push (-2) "IFELSE") d
  | .GetSetFromMapping | .GetReplaceFromMapping =>
    if d.resultAsSliceForStruct then none
    else do
      let d ← onPusher StackPusherHelper.startContinuation d
      let d ← onPusher (env.convertSliceToTuple d.valueType) d
      let d ← onPusher (StackPusherHelper.push 0 "TRUE") d
      let d ← onPusher StackPusherHelper.endContinuation d
      let d ← pushContinuationWithDefaultValue env .False false d
      onPusher (StackPusherHelper.push (-1) "IFELSE") d
  | .GetAddFromMapping =>
    if d.resultAsSliceForStruct then none
    else do
      let d ← pushContinuationWithDefaultValue env .True false d
      let d ← onPusher StackPusherHelper.startContinuation d
      let d ← onPusher (env.convertSliceToTuple d.valueType) d
      let d ← onPusher (StackPusherHelper.push 0 "FALSE") d
      let d ← onPusher StackPusherHelper.endContinuation d
      onPusher (StackPusherHelper.push (-1) "IFELSE") d
  | .GetFromArray => do
    let d ← onPusher (StackPusherHelper.push (-1)
      ("THROWIFNOT " ++ toString env.ArrayIndexOutOfRange)) d
    if !d.resultAsSliceForStruct then onPusher (env.convertSliceToTuple d.valueType) d
    else some d
  | .Fetch => do
    let d ← onHaveValue (env.convertSliceToTuple d.valueType) d
    fetchValue env d
  | .Exist => checkExist d

/-- Model of `GetFromDict::onLargeStruct`. -/
def onLargeStruct (env : Collaborators) (d : GetFromDict) : Option GetFromDict :=
  match d.op with
  | .GetFromMapping => do
    let pusherHelper := StackPusherHelper.fresh
    let pusherHelper ← pusherHelper.push (-1 + 1) "CTOS"
    let pusherHelper ←
      if !d.resultAsSliceForStruct then env.convertSliceToTuple d.valueType pusherHelper
      else some pusherHelper
    let d ← onPusher (StackPusherHelper.pushCont pusherHelper.code "") d
    let d ← pushContinuationWithDefaultValue env .Non false d
    onPusher (StackPusherHelper.push (-3) "IFELSE") d
  | .GetSetFromMapping | .GetReplaceFromMapping =>
    if d.resultAsSliceForStruct then none
    else do
      let d ← onPusher StackPusherHelper.startContinuation d
      let d ← onPusher (StackPusherHelper.push 0 "CTOS") d
      let d ← onPusher (env.convertSliceToTuple d.valueType) d
      let d ← onPusher (StackPusherHelper.push 0 "TRUE") d
      let d ← onPusher StackPusherHelper.endContinuation d
      let d ← pushContinuationWithDefaultValue env .False false d
      let d ← onPusher (StackPusherHelper.push (-1) "") d
      onPusher (StackPusherHelper.push 0 "IFELSE") d
  | .GetAddFromMapping =>
    if d.resultAsSliceForStruct then none
    else do
      let d ← pushContinuationWithDefaultValue env .True false d
      let d ← onPusher StackPusherHelper.startContinuation d
      let d ← onPusher (StackPusherHelper.push 0 "CTOS") d
      let d ← onPusher (env.convertSliceToTuple d.valueType) d
      let d ← onPusher (StackPusherHelper.push 0 "FALSE") d
      let d ← onPusher StackPusherHelper.endContinuation d
      onPusher (StackPusherHelper.push (-1) "IFELSE") d
  | .GetFromArray => do
    let d ← onPusher (StackPusherHelper.push (-1)
      ("THROWIFNOT " ++ toString env.ArrayIndexOutOfRange)) d
    let d ← onPusher (StackPusherHelper.push (-1 + 1) "CTOS") d
    if !d.resultAsSliceForStruct then onPusher (env.convertSliceToTuple d.valueType) d
    else some d
  | .Fetch => do
    let d ← onHaveValue (StackPusherHelper.push 0 "CTOS") d
    let d ← onHaveValue (env.convertSliceToTuple d.valueType) d
    fetchValue env d
  | .Exist => checkExist d

/-- Model of `GetFromDict::onByteArrayOrString`. -/
def onByteArrayOrString (env : Collaborators) (d : GetFromDict) : Option GetFromDict :=
  match d.op with
  | .GetFromMapping => do
    let d ← pushContinuationWithDefaultValue env .Non false d
    onPusher (StackPusherHelper.push (-2) "IFNOT") d
  | .GetSetFromMapping | .GetReplaceFromMapping => do
    let d ← onPusher (StackPusherHelper.pushS 0) d
    let d ← pushContinuationWithDefaultValue env .Non true d
    onPusher (StackPusherHelper.push (-2) "IFNOT") d
  | .GetAddFromMapping => do
    let d ← onPusher (StackPusherHelper.pushS 0) d
    let d ← pushContinuationWithDefaultValue env .Non true d
    onPusher (StackPusherHelper.push (-2) "IF") d
  | .GetFromArray =>
    onPusher (StackPusherHelper.push (-1)
      ("THROWIFNOT " ++ toString env.ArrayIndexOutOfRange)) d
  | .Fetch => fetchValue env d
  | .Exist => checkExist d

/-- Model of `GetFromDict::onAddress`. -/
def onAddress (env : Collaborators) (d : GetFromDict) : Option GetFromDict :=
  onByteArrayOrString env d

/-- Model of `GetFromDict::onIntegralOrArrayOrVarInt`. -/
def onIntegralOrArrayOrVarInt (env : Collaborators) (d : GetFromDict) : Option GetFromDict :=
  match d.op with
  | .GetFromMapping => do
    let pusherHelper := StackPusherHelper.fresh
    let pusherHelper ← pusherHelper.preload d.valueType
    let d ← onPusher (StackPusherHelper.pushCont pusherHelper.code "") d
    let d ← pushContinuationWithDefaultValue env .Non false d
    onPusher (StackPusherHelper.push (-3) "IFELSE") d
  | .GetSetFromMapping | .GetReplaceFromMapping => do
    let d ← onPusher StackPusherHelper.startContinuation d
    let d ← onPusher (StackPusherHelper.preload d.valueType) d
    let d ← onPusher (StackPusherHelper.push 0 "TRUE") d
    let d ← onPusher StackPusherHelper.endContinuation d
    let d ← pushContinuationWithDefaultValue env .False false d
    let d ← onPusher (StackPusherHelper.push (-1) "") d
    onPusher (StackPusherHelper.push 0 "IFELSE") d
  | .GetAddFromMapping => do
    let d ← pushContinuationWithDefaultValue env .True false d
    let d ← onPusher StackPusherHelper.startContinuation d
    let d ← onPusher (StackPusherHelper.preload d.valueType) d
    let d ← onPusher (StackPusherHelper.push 0 "FALSE") d
    let d ← onPusher StackPusherHelper.endContinuation d
    onPusher (StackPusherHelper.push (-1) "IFELSE") d
  | .GetFromArray => do
    let d ← onPusher (StackPusherHelper.push (-1)
      ("THROWIFNOT " ++ toString env.ArrayIndexOutOfRange)) d
    onPusher (StackPusherHelper.preload d.valueType) d
  | .Fetch => do
    let d ← onHaveValue (StackPusherHelper.preload d.valueType) d
    fetchValue env d
  | .Exist => checkExist d

/-- Model of `GetFromDict::onMapOrECC`. -/
def onMapOrECC (env : Collaborators) (d : GetFromDict) : Option GetFromDict :=
  onIntegralOrArrayOrVarInt env d

/-- The opcode that `GetFromDict::getDict` assembles in its local `opcode`. -/
def opcode (env : Collaborators) (d : GetFromDict) : String :=
  let opcode := "DICT" ++ env.typeToDictChar d.keyType
  match d.op with
  | .GetSetFromMapping | .GetAddFromMapping | .GetReplaceFromMapping =>
    let opcode :=
      if d.op = .GetSetFromMapping then opcode ++ "SETGET"
      else if d.op = .GetAddFromMapping then opcode ++ "ADDGET"
      else opcode ++ "REPLACEGET"
    if d.valueType.category = .Address ∨ d.valueType.category = .Contract ∨
        isByteArrayOrString d.valueType then opcode
    else if d.valueType.category = .TvmCell ∨
        (d.valueType.category = .Struct ∧
          ¬ env.isCompatibleWithSDK d.keyLength d.valueType) then opcode ++ "REF"
    else opcode ++ "B"
  | .Exist | .Fetch | .GetFromArray | .GetFromMapping =>
    let opcode := opcode ++ "GET"
    if d.valueType.category = .TvmCell ∨
        (d.valueType.category = .Struct ∧
          ¬ env.isCompatibleWithSDK d.keyLength d.valueType) ∨
        isByteArrayOrString d.valueType then opcode ++ "REF"
    else opcode

/-- The statements of `GetFromDict::getDict` up to and including
`pusher.push(stackDelta, opcode)`, that is, everything before the call of
`doDictOperation`. -/
def emitOpcode (env : Collaborators) (d : GetFromDict) : Option GetFromDict := do
  let d ← onPusher (StackPusherHelper.prepareKeyForDictOperations d.keyType) d
  let d ← onPusher (StackPusherHelper.pushInt d.keyLength) d
  let stackDelta : Int :=
    if d.op = .GetSetFromMapping ∨ d.op = .GetAddFromMapping ∨
      d.op = .GetReplaceFromMapping then -4 + 3 else -3 + 2
  let d ← onHaveValue (StackPusherHelper.push 0 "SWAP") d
  onPusher (StackPusherHelper.push stackDelta (opcode env d)) d

/-- Model of `GetFromDict::getDict`. -/
def getDict (env : Collaborators) (d : GetFromDict) : Option GetFromDict := do
  let d ← emitOpcode env d
  DictOperation.doDictOperation env d.keyLength d.valueType
    (onCell env) (onSmallStruct env) (onLargeStruct env) (onAddress env)
    (onByteArrayOrString env) (onIntegralOrArrayOrVarInt env) (onMapOrECC env) d

end GetFromDict

/-- Model of `StackPusherHelper::getDict`. -/
def StackPusherHelper.getDict (env : Collaborators) (keyType valueType : SolType)
    (op : GetDictOperation) (resultAsSliceForStruct : Bool) (p : StackPusherHelper) :
    Option StackPusherHelper := do
  let d ← GetFromDict.create env p keyType valueType op resultAsSliceForStruct
  let d ← d.getDict env
  some d.pusher

/-! ## Message headers -/

namespace StackPusherHelper

/-- Model of `StackPusherHelper::appendToBuilder`. -/
def appendToBuilder (bitString : String) (p : StackPusherHelper) : Option StackPusherHelper :=
  if bitString = "" then some p
  else
    let count := bitString.data.count '0'
    if count = bitString.length then stzeroes count p
    else do
      let hex ← binaryStringToSlice bitString
      if hex.length * 4 ≤ 8 * 7 + 1 then push 0 ("STSLICECONST x" ++ hex) p
      else do
        let slice ← binaryStringToSlice bitString
        let p ← push 1 ("PUSHSLICE x" ++ slice) p
        push (-1) "STSLICER" p

end StackPusherHelper

/-- The locals of the loops of `int_msg_info` and `ext_msg_info` together with
the pusher. -/
structure MsgInfoState where
  bitString : String
  maxBitStringSize : Int
  pusher : StackPusherHelper

namespace StackPusherHelper

/-- The vector `zeroes` of `int_msg_info`: the widths of the eleven fields. -/
def int_msg_info.zeroes : List Int := [1, 1, 1, 2, 2, 4, 1, 4, 4, 64, 32]

/-- The body of the loop of `int_msg_info` for the field `param` of width
`width = zeroes[param]`. `isParamOnStack` is the `std::set<int>` and
`constParams` the `std::map<int, std::string>` of the source. -/
def int_msg_info.body (env : Collaborators) (isParamOnStack : Finset Int)
    (constParams : Int → Option String) (param width : Int) (st : MsgInfoState) :
    Option MsgInfoState :=
  if ¬ (constParams param = none ∨ param ∉ isParamOnStack) then none
  else
    match constParams param with
    | some c => some { st with bitString := st.bitString ++ c }
    | none =>
      if param ∉ isParamOnStack then
        if param = TvmConst.int_msg_info.dest then none
        else some { st with bitString := st.bitString ++ stdString width '0' }
      else do
        let p ← appendToBuilder st.bitString st.pusher
        if param = TvmConst.int_msg_info.bounce then do
          let p ← push (-1) "STI 1" p
          some ⟨"", st.maxBitStringSize + 1, p⟩
        else if param = TvmConst.int_msg_info.dest then do
          let p ← push (-1) "STSLICE" p
          some ⟨"", st.maxBitStringSize + env.maxBitLength, p⟩
        else if param = TvmConst.int_msg_info.grams then do
          let p ← exchange 0 1 p
          let p ← push (-1) "STGRAMS" p
          some ⟨"", st.maxBitStringSize + (4 + 16 * 8), p⟩
        else if param = TvmConst.int_msg_info.currency then do
          let p ← push (-1) "STDICT" p
          some ⟨"", st.maxBitStringSize, p⟩
        else none

/-- The loop `for (param = ...; param < zeroes.size(); ++param)` of
`int_msg_info` and `ext_msg_info`, from field `param` on; `widths` are the
entries of `zeroes` that remain. -/
def msgInfoLoop (body : Int → Int → MsgInfoState → Option MsgInfoState) :
    Int → List Int → MsgInfoState → Option MsgInfoState
  | _, [], st => some st
  | param, width :: widths, st => do
    let st ← body param width st
    msgInfoLoop body (param + 1) widths st

/-- Model of `StackPusherHelper::int_msg_info`; the result is the returned pair
`(bitString, maxBitStringSize)` and the pusher. -/
def int_msg_info (env : Collaborators) (isParamOnStack : Finset Int)
    (constParams : Int → Option String) (p : StackPusherHelper) :
    Option ((String × Int) × StackPusherHelper) := do
  let p ← push 1 "NEWC" p
  let st ← msgInfoLoop (int_msg_info.body env isParamOnStack constParams) 0
    int_msg_info.zeroes ⟨"0", 0, p⟩
  some ((st.bitString, st.maxBitStringSize + st.bitString.length), st.pusher)

/-- The vector `zeroes` of `ext_msg_info`. -/
def ext_msg_info.zeroes : List Int := [2, 2, 64, 32]

/-- The body of the loop of `ext_msg_info`. -/
def ext_msg_info.body (env : Collaborators) (isParamOnStack : Finset Int)
    (param width : Int) (st : MsgInfoState) : Option MsgInfoState :=
  if param ∉ isParamOnStack then
    some { st with bitString := st.bitString ++ stdString width '0' }
  else do
    let p ← appendToBuilder st.bitString st.pusher
    if param = TvmConst.ext_msg_info.dest then do
      let p ← push (-1) "STSLICE" p
      some ⟨"", st.maxBitStringSize + env.maxBitLength, p⟩
    else none

/-- Model of `StackPusherHelper::ext_msg_info`. -/
def ext_msg_info (env : Collaborators) (isParamOnStack : Finset Int)
    (p : StackPusherHelper) : Option ((String × Int) × StackPusherHelper) := do
  let p ← push 1 "NEWC" p
  let st ← msgInfoLoop (ext_msg_info.body env isParamOnStack) 0
    ext_msg_info.zeroes ⟨"11", 0, p⟩
  some ((st.bitString, st.maxBitStringSize + st.bitString.length), st.pusher)

/-- Model of `StackPusherHelper::sendMsg`. A callback is a `std::function` that
emits through the pusher; `none` is the empty (null) function. -/
def sendMsg (env : Collaborators) (isParamOnStack : Finset Int)
    (constParams : Int → Option String)
    (appendBody : Option (Int → StackPusherHelper → Option StackPusherHelper))
    (appendStateInit : Option (StackPusherHelper → Option StackPusherHelper))
    (pushSendrawmsgFlag : Option (StackPusherHelper → Option StackPusherHelper))
    (isInternalMessage : Bool) (p : StackPusherHelper) : Option StackPusherHelper := do
  let ((bitString, msgInfoSize), p) ←
    if isInternalMessage then int_msg_info env isParamOnStack constParams p
    else ext_msg_info env isParamOnStack p
  let p ← appendToBuilder bitString p
  let (msgInfoSize, p) ← match appendStateInit with
    | some f => do
      let p ← appendToBuilder "1" p
      let p ← f p
      some (msgInfoSize + 1, p)
    | none => do
      let p ← appendToBuilder "0" p
      some (msgInfoSize, p)
  let msgInfoSize := msgInfoSize + 1
  let p ← match appendBody with
    | some f => f msgInfoSize p
    | none => appendToBuilder "0" p
  let p ← push 0 "ENDC" p
  let p ← match pushSendrawmsgFlag with
    | some f => f p
    | none => pushInt env.DefaultFlag p
  sendrawmsg p

end StackPusherHelper

/-! ## Vocabulary of the statements -/

/-- The emitter `f` has stack effect `delta` and indent effect `tabDelta`, with
`need` entries required: on every pusher with a non-negative indent (before and
after) and a stack of at least `need` (and at least 0) entries it succeeds,
changes the modelled size by exactly `delta` and the indent by `tabDelta`,
leaves a non-negative size and only adds to the history of `push` calls. -/
def StackEffect (f : StackPusherHelper → Option StackPusherHelper)
    (need delta tabDelta : Int) : Prop :=
  ∀ p : StackPusherHelper, 0 ≤ p.m_code.tabQty → 0 ≤ p.m_code.tabQty + tabDelta →
    0 ≤ p.m_stack.m_size → need ≤ p.m_stack.m_size →
    ∃ q, f p = some q ∧ q.m_stack.m_size = p.m_stack.m_size + delta ∧
      q.m_code.tabQty = p.m_code.tabQty + tabDelta ∧ 0 ≤ q.m_stack.m_size ∧
      ∃ new, q.history = p.history ++ new

/-- The step `F` of a `GetFromDict` with value type `vt` and operation `op` has
stack effect `delta` and indent effect `tabDelta` on the pusher of the
operation, with `need` entries required; it keeps the constants of the
operation and a well-formed `haveValue`. -/
def GetFromDict.Effect (vt : SolType) (op : GetDictOperation)
    (F : GetFromDict → Option GetFromDict) (need delta tabDelta : Int) : Prop :=
  ∀ d : GetFromDict, d.valueType = vt → d.op = op →
    0 ≤ d.pusher.m_code.tabQty → 0 ≤ d.pusher.m_code.tabQty + tabDelta →
    0 ≤ d.pusher.m_stack.m_size → need ≤ d.pusher.m_stack.m_size →
    0 ≤ d.haveValue.m_code.tabQty → 0 ≤ d.haveValue.m_stack.m_size →
    ∃ e, F d = some e ∧ e.valueType = vt ∧ e.op = op ∧
      e.pusher.m_stack.m_size = d.pusher.m_stack.m_size + delta ∧
      e.pusher.m_code.tabQty = d.pusher.m_code.tabQty + tabDelta ∧
      0 ≤ e.pusher.m_stack.m_size ∧
      0 ≤ e.haveValue.m_code.tabQty ∧ 0 ≤ e.haveValue.m_stack.m_size ∧
      ∃ new, e.pusher.history = d.pusher.history ++ new

/-- The value types of a dictionary that are supported and are not structs:
TvmCell, address and contract, byte array and string, the integral types, usual
array, VarInteger, mapping and ExtraCurrencyCollection. -/
def IsPlainDictValue : SolType → Prop
  | .tvmCell | .address | .contract | .array _ | .integer _ _ | .bool | .fixedBytes _
  | .enum _ | .varInteger | .mapping | .extraCurrencyCollection => True
  | _ => False

/-- What `CodeLines::push` records when its assertion holds. -/
def CodeLines.pushed (c : CodeLines) (cmd : String) : CodeLines :=
  if cmd = "" ∨ cmd = "\n" then c
  else if cmd = " " then { c with lines := c.lines ++ [""] }
  else { c with lines := c.lines ++ [stdString c.tabQty '\t' ++ cmd] }

/-- The pusher after the calls `push(d, cmd)` for the pairs `(d, cmd)` of the
list, in order, when no assertion fires: the size moved by every `d`, every
`cmd` recorded in the code buffer. -/
def StackPusherHelper.emitted : List (Int × String) → StackPusherHelper → StackPusherHelper
  | [], p => p
  | (d, cmd) :: rest, p =>
    emitted rest ⟨⟨p.m_stack.m_size + d, p.m_stack.m_params⟩, p.m_code.pushed cmd,
      p.history ++ [(d, cmd)]⟩

/-- A string of binary digits. -/
def IsBitString (s : String) : Prop := ∀ c ∈ s.data, c = '0' ∨ c = '1'

/-- A bit string of 53 bits that is not all zeros: a one followed by 52 zeros. -/
def bits53 : String := "1" ++ stdString 52 '0'

/-- The set-family suffix of the table of the specification (section 4.5) for a
value type and a builder flag that fits it: `REF` for a TvmCell, a struct that
is not SDK-compatible and a byte array or string; `B` for an SDK-compatible
struct, an integral value, a usual array, a VarInteger, a mapping and an
ExtraCurrencyCollection; `B` or nothing for an address or contract. `none` when
the table has no row for the type or the flag does not fit. -/
def specSetSuffix (env : Collaborators) (keyLength : Int) (valueType : SolType)
    (isValueBuilder : Bool) : Option String :=
  match valueType with
  | .tvmCell => if isValueBuilder then none else some "REF"
  | .struct _ =>
    if isValueBuilder then
      (if env.isCompatibleWithSDK keyLength valueType then some "B" else some "REF")
    else none
  | .array true => if isValueBuilder then none else some "REF"
  | .address | .contract => if isValueBuilder then some "B" else some ""
  | .integer _ _ | .bool | .fixedBytes _ | .enum _ | .array false | .varInteger =>
    if isValueBuilder then some "B" else none
  | .mapping | .extraCurrencyCollection => if isValueBuilder then some "B" else none
  | _ => none

/-- The name of a `SetDictOperation` inside the opcode. -/
def SetDictOperation.opName : SetDictOperation → String
  | .Set => "SET"
  | .Replace => "REPLACE"
  | .Add => "ADD"

/-- The delta of the opcode line of a `SetDictOperation` in the calibration
table: `-4 + 1` for `Set`, `-4 + 2` for `Replace` and `Add`. -/
def SetDictOperation.opDelta : SetDictOperation → Int
  | .Set => -4 + 1
  | .Replace => -4 + 2
  | .Add => -4 + 2

/-- The line that `CodeLines::push` records for a command at indent `tabQty`. -/
def indented (tabQty : Int) (cmd : String) : String := stdString tabQty '\t' ++ cmd

/-- A pusher with an empty code buffer at indent 0 and `n` entries on the
modelled stack. -/
def StackPusherHelper.ofSize (n : Int) : StackPusherHelper := ⟨⟨n, fun _ => none⟩, ⟨[], 0⟩, []⟩

/-- The net change of the modelled stack size by `getDict` in the table of the
specification: -1 for `GetFromMapping`, `GetFromArray` and `Exist` (key, dict
to one result), 0 for `Fetch` (key, dict to value, flag) and for
`GetSetFromMapping`, `GetAddFromMapping` and `GetReplaceFromMapping` (value,
key, dict to dict, old value, flag). -/
def GetDictOperation.netDelta : GetDictOperation → Int
  | .GetFromMapping | .GetFromArray | .Exist => -1
  | .Fetch | .GetSetFromMapping | .GetAddFromMapping | .GetReplaceFromMapping => 0

/-- The number of operands of `getDict` on the stack: value, key and dictionary
for the SETGET family, key and dictionary otherwise. -/
def GetDictOperation.operands : GetDictOperation → Int
  | .GetSetFromMapping | .GetAddFromMapping | .GetReplaceFromMapping => 3
  | .GetFromMapping | .GetFromArray | .Exist | .Fetch => 2

/-! ## Vocabulary of the message-header statements -/

/-- What `int_msg_info` writes into the builder, one after the other: a literal
flushed through `appendToBuilder`, or the runtime store of a field. -/
inductive MsgItem where
  | literal (bits : String)
  | store (param : Int)

/-- A position of the header: one literal bit, or the runtime store of a field. -/
inductive HeaderSym where
  | bit (c : Char)
  | store (param : Int)
  deriving DecidableEq

/-- The bits of a literal as header positions. -/
def bitsOf (s : String) : List HeaderSym := s.data.map HeaderSym.bit

/-- The header positions that a list of items covers, in order. -/
def MsgItem.flatten : List MsgItem → List HeaderSym
  | [] => []
  | .literal s :: rest => bitsOf s ++ MsgItem.flatten rest
  | .store k :: rest => HeaderSym.store k :: MsgItem.flatten rest

/-- The runtime store of a field of the internal header, as the specification
lists them: `STI 1` for bounce, `STSLICE` for dest, `SWAP` then `STGRAMS` for
grams, `STDICT` for currency. -/
def MsgItem.storeField (param : Int) (p : StackPusherHelper) : Option StackPusherHelper :=
  if param = 1 then p.push (-1) "STI 1"
  else if param = 4 then p.push (-1) "STSLICE"
  else if param = 5 then (p.exchange 0 1).bind (StackPusherHelper.push (-1) "STGRAMS")
  else if param = 6 then p.push (-1) "STDICT"
  else none

/-- The emission of one item: a literal goes through `appendToBuilder`. -/
def MsgItem.emit : MsgItem → StackPusherHelper → Option StackPusherHelper
  | .literal s, p => p.appendToBuilder s
  | .store k, p => MsgItem.storeField k p

/-- The emission of a list of items, in order. -/
def MsgItem.emitAll : List MsgItem → StackPusherHelper → Option StackPusherHelper
  | [], p => some p
  | i :: rest, p => (i.emit p).bind (MsgItem.emitAll rest)

/-- Every literal is flushed immediately before a runtime store: the list is
literal, store, literal, store, and so on. -/
def MsgItem.Alternates : List MsgItem → Prop
  | [] => True
  | .literal _ :: .store _ :: rest => MsgItem.Alternates rest
  | _ => False

/-- The number of runtime stores in a list of items. -/
def MsgItem.stores : List MsgItem → Int
  | [] => 0
  | .literal _ :: rest => MsgItem.stores rest
  | .store _ :: rest => MsgItem.stores rest + 1

/-- The emission order of the specification for the fields from `param` on,
with widths `widths` and the literal `lit` accumulated so far: "if constant,
concatenate into a growing literal; if runtime, first flush the accumulated
literal, then emit the field-specific store; otherwise append the width of
zeros to the literal". The result is the list of flushes and stores and the
literal that remains at the end. -/
def headerItems (isParamOnStack : Finset Int) (constParams : Int → Option String) :
    Int → List Int → String → List MsgItem × String
  | _, [], lit => ([], lit)
  | param, width :: widths, lit =>
    match constParams param with
    | some c => headerItems isParamOnStack constParams (param + 1) widths (lit ++ c)
    | none =>
      if param ∈ isParamOnStack then
        (MsgItem.literal lit :: MsgItem.store param ::
            (headerItems isParamOnStack constParams (param + 1) widths "").1,
          (headerItems isParamOnStack constParams (param + 1) widths "").2)
      else headerItems isParamOnStack constParams (param + 1) widths (lit ++ stdString width '0')

/-- The TL-B layout of the fields from `param` on: for every field its constant
bits, or its runtime store, or zero bits of its width. -/
def headerLayout (isParamOnStack : Finset Int) (constParams : Int → Option String) :
    Int → List Int → List HeaderSym
  | _, [] => []
  | param, width :: widths =>
    (match constParams param with
      | some c => bitsOf c
      | none =>
        if param ∈ isParamOnStack then [HeaderSym.store param]
        else List.replicate width.toNat (HeaderSym.bit '0')) ++
      headerLayout isParamOnStack constParams (param + 1) widths

/-- The admissible inputs of `int_msg_info`: the constants are bit strings, the
runtime fields are among bounce (1), dest (4), grams (5) and currency (6), no
field is both constant and runtime, and dest is one of the two. -/
def int_msg_info.Admissible (isParamOnStack : Finset Int)
    (constParams : Int → Option String) : Prop :=
  (∀ k c, constParams k = some c → IsBitString c) ∧
  isParamOnStack ⊆ {1, 4, 5, 6} ∧
  (∀ k ∈ isParamOnStack, constParams k = none) ∧
  (4 ∈ isParamOnStack ∨ (constParams 4).isSome)

/-- The literals of the items are bit strings and the stores are runtime stores
of bounce, dest, grams or currency. -/
def MsgItem.Valid : List MsgItem → Prop
  | [] => True
  | .literal s :: rest => IsBitString s ∧ MsgItem.Valid rest
  | .store k :: rest => (k = 1 ∨ k = 4 ∨ k = 5 ∨ k = 6) ∧ MsgItem.Valid rest

/-- The number of fields from `param` on that are neither constant nor
zero-filled, that is, that are stored from the stack. -/
def runtimeCount (isParamOnStack : Finset Int) (constParams : Int → Option String) :
    Int → List Int → Int
  | _, [] => 0
  | param, _ :: widths =>
    (if constParams param = none ∧ param ∈ isParamOnStack then 1 else 0) +
      runtimeCount isParamOnStack constParams (param + 1) widths

/-- The number of bits that the `switch` of `int_msg_info` adds to
`maxBitStringSize` for the runtime store of the field `param`: 1 for bounce,
`AddressInfo::maxBitLength()` for dest, `4 + 16 * 8` for grams and nothing for
currency. -/
def int_msg_info.counted (env : Collaborators) (param : Int) : Int :=
  if param = TvmConst.int_msg_info.bounce then 1
  else if param = TvmConst.int_msg_info.dest then env.maxBitLength
  else if param = TvmConst.int_msg_info.grams then 4 + 16 * 8
  else 0

/-- The bits that `int_msg_info` adds to `maxBitStringSize` over a list of
items: the flushed literals add nothing. -/
def MsgItem.counted (env : Collaborators) : List MsgItem → Int
  | [] => 0
  | .literal _ :: rest => MsgItem.counted env rest
  | .store k :: rest => int_msg_info.counted env k + MsgItem.counted env rest

/-- The maximum width of a runtime field as the specification lists them:
bounce 1, dest `AddressInfo::maxBitLength()`, grams 4 + 128, currency 1. -/
def MsgItem.maxWidth (env : Collaborators) (param : Int) : Int :=
  if param = 1 then 1
  else if param = 4 then env.maxBitLength
  else if param = 5 then 4 + 128
  else if param = 6 then 1
  else 0

/-- The number of bits that a list of items occupies in the builder at most, as
the specification counts them: the length of every flushed literal plus the
maximum width of every runtime field stored. -/
def MsgItem.headerBits (env : Collaborators) : List MsgItem → Int
  | [] => 0
  | .literal s :: rest => (s.length : Int) + MsgItem.headerBits env rest
  | .store k :: rest => MsgItem.maxWidth env k + MsgItem.headerBits env rest

/-- The lines of the calibration table that the specification lists with delta
+1 and that are pushed by more than one operation: `NEWC`, `DUP`, `NEWDICT` and
`PUSHINT k` (any line that starts with `PUSHINT `). -/
def IsCalibratedLine (cmd : String) : Prop :=
  cmd = "NEWC" ∨ cmd = "DUP" ∨ cmd = "NEWDICT" ∨ cmd.data.take 8 = "PUSHINT ".data

instance (cmd : String) : Decidable (IsCalibratedLine cmd) := by
  unfold IsCalibratedLine; infer_instance

/-- Every recorded step that appends one of the calibrated lines changes the
modelled stack size by exactly +1 in that step. -/
def Calibrated (h : List (Int × String)) : Prop :=
  ∀ e ∈ h, IsCalibratedLine e.2 → e.1 = 1

/-- The emitter `f` is calibrated: whenever it succeeds it only adds steps to the
history of the pusher, and every added step that appends `NEWC`, `DUP`,
`NEWDICT` or `PUSHINT k` has delta +1. -/
def StackPusherHelper.CalibratedOp (f : StackPusherHelper → Option StackPusherHelper) : Prop :=
  ∀ p q : StackPusherHelper, f p = some q →
    ∃ new, q.history = p.history ++ new ∧ Calibrated new

/-- The steps that `pushCont` records for the lines of a continuation: the
opening line, every line behind a tab with delta 0, and the closing brace with
delta +1. -/
def contSteps (lines : List String) : List (Int × String) :=
  (0, "PUSHCONT \x7b") :: lines.map (fun l => ((0 : Int), "\t" ++ l)) ++ [(1, "\x7d")]

/-- As `Calibrated`, except that a step `DUP` with delta 0 is admitted when
`allowDup` holds. -/
def CalibratedButDup (allowDup : Prop) (h : List (Int × String)) : Prop :=
  ∀ e ∈ h, IsCalibratedLine e.2 → e.1 = 1 ∨ (allowDup ∧ e = (0, "DUP"))

/-- The step `F` of `GetFromDict` keeps the value type and the operation and is
calibrated on the pusher of the operation, but for `DUP` with delta 0 when
`allowDup` holds. -/
def GetFromDict.Steps (allowDup : Prop) (F : GetFromDict → Option GetFromDict) : Prop :=
  ∀ d d1 : GetFromDict, F d = some d1 →
    d1.valueType = d.valueType ∧ d1.op = d.op ∧
      ∃ new, d1.pusher.history = d.pusher.history ++ new ∧ CalibratedButDup allowDup new

/-- The hook `F` of `GetFromDict` is calibrated on the pusher of the operation,
but for `DUP` with delta 0 in the operations `Fetch` and `Exist`. -/
def GetFromDict.HookSteps (F : GetFromDict → Option GetFromDict) : Prop :=
  ∀ d d1 : GetFromDict, F d = some d1 →
    ∃ new, d1.pusher.history = d.pusher.history ++ new ∧
      CalibratedButDup (d.op = .Fetch ∨ d.op = .Exist) new

/-- The steps that the specification lists for `drop(n)`: nothing for 0,
`DROP` for 1, `DROP2` for 2, `BLKDROP n` up to 15, and `PUSHINT n`, `DROPX`
above 15. -/
def dropSteps (n : Int) : List (Int × String) :=
  if n = 0 then []
  else if n = 1 then [(-1, "DROP")]
  else if n = 2 then [(-2, "DROP2")]
  else if n ≤ 15 then [(-n, "BLKDROP " ++ toString n)]
  else [(1, "PUSHINT " ++ toString n), (-(n + 1), "DROPX")]

/-- The abort condition of `int_msg_info` as the specification states it: some
field id in 0..10 is both a constant and on the stack, or is dest (4) and is
neither, or is on the stack without being a constant and is not one of bounce
(1), dest (4), grams (5), currency (6). -/
def int_msg_info.Aborts (isParamOnStack : Finset Int) (constParams : Int → Option String) :
    Prop :=
  ∃ k : Int, 0 ≤ k ∧ k ≤ 10 ∧
    (((constParams k).isSome = true ∧ k ∈ isParamOnStack) ∨
      (k = 4 ∧ constParams k = none ∧ k ∉ isParamOnStack) ∨
      (k ∈ isParamOnStack ∧ constParams k = none ∧ k ≠ 1 ∧ k ≠ 4 ∧ k ≠ 5 ∧ k ≠ 6))

/-- The runtime fields of a set that `int_msg_info` visits: the ids 0..10. -/
def int_msg_info.fieldsOf (isParamOnStack : Finset Int) : Finset Int :=
  isParamOnStack.filter (fun k => 0 ≤ k ∧ k ≤ 10)

/-- The constants of a map that `int_msg_info` visits: the ids 0..10. -/
def int_msg_info.constsOf (constParams : Int → Option String) : Int → Option String :=
  fun k => if 0 ≤ k ∧ k ≤ 10 then constParams k else none

/-- The value of a list of binary digits, most significant digit first, as the
specification reads a group of bits. -/
def bitValue (l : List Char) : Nat :=
  l.foldl (fun acc c => 2 * acc + (if c = '1' then 1 else 0)) 0

/-- The lowercase hexadecimal digit of a value below 16. -/
def hexDigit (x : Nat) : Char := "0123456789abcdef".data.getD x '?'

/-- The hexadecimal digits of a list of bits read in groups of four, as the
specification describes the result of `binaryStringToSlice`. -/
def hexDigitsOf : List Char → List Char
  | a :: b :: c :: d :: rest => hexDigit (bitValue [a, b, c, d]) :: hexDigitsOf rest
  | _ => []

/-- The four bits of a lowercase hexadecimal digit. -/
def hexDigitBits (c : Char) : List Char :=
  if c = '0' then ['0', '0', '0', '0'] else if c = '1' then ['0', '0', '0', '1']
  else if c = '2' then ['0', '0', '1', '0'] else if c = '3' then ['0', '0', '1', '1']
  else if c = '4' then ['0', '1', '0', '0'] else if c = '5' then ['0', '1', '0', '1']
  else if c = '6' then ['0', '1', '1', '0'] else if c = '7' then ['0', '1', '1', '1']
  else if c = '8' then ['1', '0', '0', '0'] else if c = '9' then ['1', '0', '0', '1']
  else if c = 'a' then ['1', '0', '1', '0'] else if c = 'b' then ['1', '0', '1', '1']
  else if c = 'c' then ['1', '1', '0', '0'] else if c = 'd' then ['1', '1', '0', '1']
  else if c = 'e' then ['1', '1', '1', '0'] else if c = 'f' then ['1', '1', '1', '1']
  else []

/-- The slice-to-binary parser that the specification implies for a slice
literal without completion tag: four bits per hexadecimal digit. -/
def hexToBits : List Char → List Char
  | [] => []
  | c :: cs => hexDigitBits c ++ hexToBits cs

/-- A string of lowercase hexadecimal digits. -/
def IsLowerHex (h : String) : Prop := ∀ c ∈ h.data, c ∈ "0123456789abcdef".data

/-! ## Numbers as bit strings: grams and address literals -/

/-- The call `std::reverse(s.rbegin(), s.rbegin() + n)`: the last `n`
characters of `s` are reversed. -/
def reverseLast (s : List Char) (n : Nat) : List Char :=
  s.take (s.length - n) ++ (s.drop (s.length - n)).reverse

/-- The loop `for (i = 0; i < n; ++i) { s += value % 2 == 0 ? "0" : "1"; value /= 2; }`
of `addBinaryNumberToString` and of the length prefix of `gramsToBinaryString`. -/
def appendBitsLoop : Nat → Nat → List Char → List Char
  | 0, _, s => s
  | n + 1, value, s =>
    appendBitsLoop n (value / 2) (s ++ [if value % 2 = 0 then '0' else '1'])

/-- Model of `StackPusherHelper::addBinaryNumberToString`; `value` is the `u256`
and `bitlen` the (non-negative) number of bits, 256 by default. -/
def addBinaryNumberToString (s : String) (value : Nat) (bitlen : Nat) : String :=
  String.mk (reverseLast (appendBitsLoop bitlen value s.data) bitlen)

/-- The first loop of `gramsToBinaryString(u256)`: `fuel` iterations remain
before `i` reaches 256; the result is `len` and `s`. When the loop ends without
`break`, `len` keeps its initial value 256. -/
def gramsLoop : Nat → Nat → Nat → List Char → Nat × List Char
  | 0, _, _, s => (256, s)
  | fuel + 1, i, value, s =>
    if value = 0 then (i, s)
    else gramsLoop fuel (i + 1) (value / 2) (s ++ [if value % 2 = 0 then '0' else '1'])

/-- The loop `while (len % 8 != 0) { s += "0"; len++; }` of
`gramsToBinaryString`, which ends after at most seven iterations. -/
def padToByte : Nat → Nat → List Char → Nat × List Char
  | 0, len, s => (len, s)
  | fuel + 1, len, s =>
    if len % 8 ≠ 0 then padToByte fuel (len + 1) (s ++ ['0']) else (len, s)

/-- Model of `StackPusherHelper::gramsToBinaryString(u256 value)`;
`solAssert(len < 120, "Gram value should fit 120 bit")` is the abort. -/
def gramsToBinaryString (value : Nat) : Option String :=
  let r := gramsLoop 256 0 value []
  if ¬ r.1 < 120 then none
  else
    let r := padToByte 8 r.1 r.2
    let s := reverseLast r.2 r.1
    let len := r.1 / 8
    let res := reverseLast (appendBitsLoop 4 len []) 4
    some (String.mk (res ++ s))

namespace StackPusherHelper

/-- Model of `StackPusherHelper::literalToSliceAddress`; `value` is
`type->literalValue(literal)`, the result is the returned string and the
pusher. -/
def literalToSliceAddress (value : Nat) (pushSlice : Bool) (p : StackPusherHelper) :
    Option (String × StackPusherHelper) := do
  let s := "" ++ "10" ++ "0" ++ stdString 8 '0'
  let s := addBinaryNumberToString s value 256
  let p ← if pushSlice then do
      let hex ← binaryStringToSlice s
      push 1 ("PUSHSLICE x" ++ hex) p
    else some p
  some (s, p)

end StackPusherHelper

/-- The binary form of `v mod 2^w` in `w` digits, most significant digit first,
as the specification writes a number into a bit string. -/
def toBitsBE : Nat → Nat → List Char
  | 0, _ => []
  | w + 1, v => toBitsBE w (v / 2) ++ [if v % 2 = 0 then '0' else '1']

/-! ## Steps of the stack-manipulation emitters -/

/-- The step of `exchange(0, j)` as the code writes it: `SWAP` for `j = 1`,
`XCHG sj` for `2 <= j <= 15`, the full form `XCHG s0,sj` above. -/
def exchangeSteps0 (j : Int) : List (Int × String) :=
  if j = 1 then [(0, "SWAP")]
  else if j ≤ 15 then [(0, "XCHG s" ++ toString j)]
  else [(0, "XCHG s0,s" ++ toString j)]

/-- The steps of `exchange(i, j)` for `0 <= i <= j`, `1 <= j <= 255`: the step
of `exchange(0, j)` for `i = 0`, the single line `XCHG si,sj` for
`1 <= i < j <= 15`, and otherwise the steps of `exchange(0, i)`,
`exchange(0, j)`, `exchange(0, i)` in that order. -/
def exchangeSteps (i j : Int) : List (Int × String) :=
  if i = 0 then exchangeSteps0 j
  else if i < j ∧ j ≤ 15 then [(0, "XCHG s" ++ toString i ++ ",s" ++ toString j)]
  else exchangeSteps0 i ++ exchangeSteps0 j ++ exchangeSteps0 i

/-- The steps of `tuple(n)`: the small form `TUPLE n` up to 15, `PUSHINT n` and
`TUPLEVAR` above. -/
def tupleSteps (n : Int) : List (Int × String) :=
  if n ≤ 15 then [(-n + 1, "TUPLE " ++ toString n)]
  else [(1, "PUSHINT " ++ toString n), (-1 - n + 1, "TUPLEVAR")]

/-- The steps of `untuple(n)`: the small form `UNTUPLE n` up to 15, `PUSHINT n`
and `UNTUPLEVAR` above. -/
def untupleSteps (n : Int) : List (Int × String) :=
  if n ≤ 15 then [(-1 + n, "UNTUPLE " ++ toString n)]
  else [(1, "PUSHINT " ++ toString n), (-2 + n, "UNTUPLEVAR")]

/-- The steps of `index(k)`: the small form `INDEX k` up to 15, `PUSHINT k` and
`INDEXVAR` above. -/
def indexSteps (k : Int) : List (Int × String) :=
  if k ≤ 15 then [(-1 + 1, "INDEX " ++ toString k)]
  else [(1, "PUSHINT " ++ toString k), (-2 + 1, "INDEXVAR")]

/-- The steps of `set_index(k)`: the small form `SETINDEX k` up to 15,
`PUSHINT k` and `SETINDEXVAR` above. -/
def setIndexSteps (k : Int) : List (Int × String) :=
  if k ≤ 15 then [(-2 + 1, "SETINDEX " ++ toString k)]
  else [(1, "PUSHINT " ++ toString k), (-1 - 2 + 1, "SETINDEXVAR")]

/-- The steps of `getGlob(idx)`: the short form `GETGLOB idx` up to 31,
`PUSHINT idx` and `GETGLOBVAR` above. -/
def getGlobSteps (idx : Int) : List (Int × String) :=
  if idx ≤ 31 then [(1, "GETGLOB " ++ toString idx)]
  else [(1, "PUSHINT " ++ toString idx), (-1 + 1, "GETGLOBVAR")]

/-- The steps of `setGlob(idx)`: the short form `SETGLOB idx` up to 31,
`PUSHINT idx` and `SETGLOBVAR` above. -/
def setGlobSteps (idx : Int) : List (Int × String) :=
  if idx ≤ 31 then [(-1, "SETGLOB " ++ toString idx)]
  else [(1, "PUSHINT " ++ toString idx), (-1 - 1, "SETGLOBVAR")]


/-! ## Peephole on the last line and implicit conversion -/

/-- Model of `std::regex_match(line, std::regex("(\t*)RET"))`: the whole line
is matched, so it is zero or more tabs followed by `RET` and nothing else. -/
def matchesTabsRET (line : String) : Bool :=
  decide (line.data.dropWhile (fun c => c = '\t') = "RET".data)

/-- Model of `StackPusherHelper::tryPollLastRetOpcode`: nothing on an empty
buffer, otherwise `pop_back` when the last line matches. -/
def StackPusherHelper.tryPollLastRetOpcode (p : StackPusherHelper) : StackPusherHelper :=
  if p.m_code.lines = [] then p
  else
    match p.m_code.lines.getLast? with
    | some back =>
      if matchesTabsRET back then
        { p with m_code := { p.m_code with lines := p.m_code.lines.dropLast } }
      else p
    | none => p

/-- The value that a `char` of the literal adds in the loop of
`tryImplicitConvert`. A character of the literal stands for the byte of its
code; `char` is signed on the targets of the compiler, so a byte from 0x80 on
counts as `byte - 256`. Bytes below 0x80 do not depend on that. -/
def charValue (c : Char) : Int :=
  if c.toNat % 256 < 128 then ((c.toNat % 256 : Nat) : Int)
  else ((c.toNat % 256 : Nat) : Int) - 256

/-- The loop `for (char c : value()) value = value * 256 + c` on the `u256`
accumulator. -/
def literalValueLoop : List Char → Nat → Nat
  | [], value => value
  | c :: cs, value =>
    literalValueLoop cs (((value * 256 + charValue c) % (2 ^ 256 : Int)).toNat)

/-- Model of `StackPusherHelper::tryImplicitConvert`; the result is the
returned flag and the pusher. `to<StringLiteralType>` succeeds on every type of
category `StringLiteral`. -/
def StackPusherHelper.tryImplicitConvert (leftType rightType : SolType)
    (p : StackPusherHelper) : Option (Bool × StackPusherHelper) :=
  if leftType.category = .FixedBytes ∧ rightType.category = .StringLiteral then
    match rightType with
    | .stringLiteral value => do
      let p ← StackPusherHelper.push 1
        ("PUSHINT " ++ toString (literalValueLoop value.data 0)) p
      some (true, p)
    | _ => none
  else some (false, p)

/-- The big-endian base-256 number of the bytes `b_0 .. b_(n-1)`: the sum of
`b_k * 256^(n-1-k)`. -/
def bigEndianValue : List Nat → Nat
  | [] => 0
  | b :: bs => b * 256 ^ bs.length + bigEndianValue bs


/-! ## Sequences of calls on a code buffer -/

/-- A call of `push`, `startContinuation` or `endContinuation` on a
`CodeLines`. -/
inductive CodeCall where
  | push (cmd : String)
  | startContinuation
  | endContinuation

/-- The effect of one call. -/
def CodeCall.run : CodeCall → CodeLines → Option CodeLines
  | .push cmd, c => c.push cmd
  | .startContinuation, c => c.startContinuation
  | .endContinuation, c => c.endContinuation

/-- The effect of a sequence of calls, first call first; an assertion that
fires aborts the sequence. -/
def CodeLines.runCalls : List CodeCall → CodeLines → Option CodeLines
  | [], c => some c
  | call :: rest, c => (call.run c).bind (CodeLines.runCalls rest)

/-- The change of the nesting depth by a call: +1 for a start, -1 for an end. -/
def CodeCall.depthChange : CodeCall → Int
  | .push _ => 0
  | .startContinuation => 1
  | .endContinuation => -1

/-- The number of starts minus the number of ends of a sequence of calls. -/
def CodeCall.depth (calls : List CodeCall) : Int := (calls.map CodeCall.depthChange).sum

/-- No prefix of the sequence has more ends than starts. -/
def CodeCall.NoExcessEnd (calls : List CodeCall) : Prop :=
  ∀ n : Nat, 0 ≤ CodeCall.depth (calls.take n)


/-! ## The compiler context -/

/-- What the context reads from a `FunctionDefinition` of the AST. -/
structure FunctionDefinition where
  name : String
  isFallback : Bool
  isOnBounce : Bool
  isReceive : Bool

/-- A `VariableDeclaration const*`: the identity of the node and what the
context reads from it. -/
structure VariableDeclaration where
  id : Declaration
  isConstant : Bool
  deriving DecidableEq

/-- What the context reads from a `ContractDefinition` itself. -/
structure ContractDefinition where
  definedFunctions : List FunctionDefinition
  stateVariables : List VariableDeclaration

/-- What the context takes from the AST annotations and from the helpers of
TVMCommons.hpp, which are outside the sources; they are parameters of the
model.

* `linearizedBaseContracts c` is `c->annotation().linearizedBaseContracts`.
* `getContractsChain c` is the helper `getContractsChain(c)`.
* `functionsRegistered c` says that the statements of `initMembers` that fill
  `m_function2contract` and `m_functions` (through `getContractFunctionPairs`,
  `getContractFunctions`, `isPureFunction` and `functionName`) complete. The
  two maps are read by no function of the model and are left out. -/
structure AstView where
  linearizedBaseContracts : ContractDefinition → List ContractDefinition
  getContractsChain : ContractDefinition → List ContractDefinition
  functionsRegistered : ContractDefinition → Bool

/-- The answers of the `PragmaDirectiveHelper` (declared outside the sources)
that the context asks for. -/
structure PragmaDirectiveHelper where
  abiVersion : Int
  haveTime : Bool
  haveIgnoreIntOverflow : Bool

/-- Model of `std::map<VariableDeclaration const*, int>`: the entries, one per
key. -/
abbrev StateVarIndex := List (VariableDeclaration × Int)

/-- Model of `m[variable] = x`: the entry of an existing key is overwritten, a
new key gets an entry. -/
def StateVarIndex.assign (m : StateVarIndex) (var : VariableDeclaration) (x : Int) :
    StateVarIndex :=
  if m.any (fun e => e.1 = var) then
    m.map (fun e => if e.1 = var then (var, x) else e)
  else m ++ [(var, x)]

/-- Model of `m.at(variable)`, which throws on a missing key. -/
def StateVarIndex.atKey (m : StateVarIndex) (var : VariableDeclaration) : Option Int :=
  (m.find? (fun e => e.1 = var)).map Prod.snd

/-- Model of `class TVMCompilerContext`, without the maps `m_functions` and
`m_function2contract`. -/
structure TVMCompilerContext where
  m_contract : Option ContractDefinition
  haveFallback : Bool
  haveOnBounce : Bool
  haveReceive : Bool
  ignoreIntOverflow : Bool
  m_haveOffChainConstructor : Bool
  m_pragmaHelper : PragmaDirectiveHelper
  m_stateVarIndex : StateVarIndex

namespace TVMCompilerContext

/-- The inner loop of `notConstantStateVariables` over the state variables of
one contract. -/
def collectVariables : List VariableDeclaration → List VariableDeclaration →
    List VariableDeclaration
  | [], variableDeclarations => variableDeclarations
  | var :: rest, variableDeclarations =>
    collectVariables rest
      (if !var.isConstant then variableDeclarations ++ [var]
       else variableDeclarations)

/-- The outer loop of `notConstantStateVariables` over the contracts of the
chain. -/
def collectChain : List ContractDefinition → List VariableDeclaration →
    List VariableDeclaration
  | [], variableDeclarations => variableDeclarations
  | contract :: rest, variableDeclarations =>
    collectChain rest (collectVariables contract.stateVariables variableDeclarations)

/-- Model of `TVMCompilerContext::notConstantStateVariables`; it reads the
contract of the context. -/
def notConstantStateVariables (ast : AstView) (ctx : TVMCompilerContext) :
    Option (List VariableDeclaration) := do
  let contract ← ctx.m_contract
  some (collectChain (ast.getContractsChain contract) [])

/-- The body of the loop of `initMembers` over the functions of the base
contracts; `cast_error` on a second `offchainConstructor` aborts. -/
def scanFunction (f : FunctionDefinition) (ctx : TVMCompilerContext) :
    Option TVMCompilerContext := do
  let ctx := { ctx with
    ignoreIntOverflow := ctx.ignoreIntOverflow || f.name = "tvm_ignore_integer_overflow" }
  let ctx ←
    if f.name = "offchainConstructor" then
      if ctx.m_haveOffChainConstructor then none
      else some { ctx with m_haveOffChainConstructor := true }
    else some ctx
  some { ctx with
    haveFallback := ctx.haveFallback || f.isFallback
    haveOnBounce := ctx.haveOnBounce || f.isOnBounce
    haveReceive := ctx.haveReceive || f.isReceive }

/-- The loop over `base->definedFunctions()`. -/
def scanFunctions : List FunctionDefinition → TVMCompilerContext → Option TVMCompilerContext
  | [], ctx => some ctx
  | f :: rest, ctx => (scanFunction f ctx).bind (scanFunctions rest)

/-- The loop over `linearizedBaseContracts`. -/
def scanContracts : List ContractDefinition → TVMCompilerContext → Option TVMCompilerContext
  | [], ctx => some ctx
  | base :: rest, ctx => (scanFunctions base.definedFunctions ctx).bind (scanContracts rest)

/-- The loop `for (variable : notConstantStateVariables())
m_stateVarIndex[variable] = 10 + m_stateVarIndex.size()`. The right operand of
the assignment is evaluated first (C++17), so the size is the one before the
key is inserted. -/
def assignIndices : List VariableDeclaration → StateVarIndex → StateVarIndex
  | [], m => m
  | var :: rest, m => assignIndices rest (m.assign var (10 + (m.length : Int)))

/-- Model of `TVMCompilerContext::initMembers`. -/
def initMembers (ast : AstView) (contract : ContractDefinition) (ctx : TVMCompilerContext) :
    Option TVMCompilerContext := do
  if ctx.m_contract.isSome then none
  else
    let ctx := { ctx with m_contract := some contract }
    let ctx ← scanContracts (ast.linearizedBaseContracts contract) ctx
    let ctx := { ctx with
      ignoreIntOverflow := ctx.ignoreIntOverflow || ctx.m_pragmaHelper.haveIgnoreIntOverflow }
    if ast.functionsRegistered contract then do
      let vars ← notConstantStateVariables ast ctx
      some { ctx with m_stateVarIndex := assignIndices vars ctx.m_stateVarIndex }
    else none

/-- Model of the constructor `TVMCompilerContext(contract, pragmaHelper)`: the
member initialisers and `initMembers(contract)`. -/
def create (ast : AstView) (contract : ContractDefinition)
    (pragmaHelper : PragmaDirectiveHelper) : Option TVMCompilerContext :=
  initMembers ast contract ⟨none, false, false, false, false, false, pragmaHelper, []⟩

/-- Model of `TVMCompilerContext::getStateVarIndex`. -/
def getStateVarIndex (ctx : TVMCompilerContext) (var : VariableDeclaration) :
    Option Int :=
  ctx.m_stateVarIndex.atKey var

/-- Model of `TVMCompilerContext::afterSignatureCheck`: the first function of
the contract with that name, or `nullptr` (`none` inside). -/
def afterSignatureCheck (ctx : TVMCompilerContext) : Option (Option FunctionDefinition) := do
  let contract ← ctx.m_contract
  some (contract.definedFunctions.find? (fun f => f.name = "afterSignatureCheck"))

/-- Model of `TVMCompilerContext::haveTimeInAbiHeader`. -/
def haveTimeInAbiHeader (ctx : TVMCompilerContext) : Option Bool :=
  if ctx.m_pragmaHelper.abiVersion = 1 then some true
  else if ctx.m_pragmaHelper.abiVersion = 2 then
    if ctx.m_pragmaHelper.haveTime then some true
    else do
      let f ← afterSignatureCheck ctx
      some f.isNone
  else none

/-- Model of `TVMCompilerContext::storeTimestampInC4`:
`haveTimeInAbiHeader() && afterSignatureCheck() == nullptr`. -/
def storeTimestampInC4 (ctx : TVMCompilerContext) : Option Bool := do
  let haveTime ← haveTimeInAbiHeader ctx
  if haveTime then do
    let f ← afterSignatureCheck ctx
    some f.isNone
  else some false

end TVMCompilerContext

/-- The non-constant state variables of the contracts of a chain, in order. -/
def nonConstantOfChain (chain : List ContractDefinition) : List VariableDeclaration :=
  (chain.map (fun c => c.stateVariables)).flatten.filter (fun v => !v.isConstant)

/-- The entries that give the variables of a list the indices `10 + start`,
`10 + start + 1`, ... in order. -/
def indexedFrom : Nat → List VariableDeclaration → StateVarIndex
  | _, [] => []
  | start, v :: vs => (v, 10 + (start : Int)) :: indexedFrom (start + 1) vs


/-! ## Vocabulary of the dictionary refinement statements -/

/-- The flag that `prepareValueForDictOperations` returns on a supported value
type, read off its `return` statements: `false` for a TvmCell and a byte array
or string, the flag it was given for an address or contract, `true` otherwise. -/
def preparedFlag (valueType : SolType) (isValueBuilder : Bool) : Bool :=
  if valueType.category = .TvmCell ∨ isByteArrayOrString valueType then false
  else if valueType.category = .Address ∨ valueType.category = .Contract then isValueBuilder
  else true

/-- The name of an operation of the SETGET family inside the opcode. -/
def GetDictOperation.setGetName : GetDictOperation → String
  | .GetSetFromMapping => "SETGET"
  | .GetAddFromMapping => "ADDGET"
  | .GetReplaceFromMapping => "REPLACEGET"
  | _ => ""

/-- The value types that `doDictOperation` supports: the plain ones and the
structs. -/
def IsDictValue (valueType : SolType) : Prop :=
  IsPlainDictValue valueType ∨ valueType.category = .Struct

/-- Whenever the computation `F` returns, the flag it returns is `c`. -/
def ReturnsFlag (c : Bool) (F : Option (Bool × StackPusherHelper)) : Prop :=
  ∀ r, F = some r → r.1 = c


/-! ## Reading of the lines of `exchange` as stack operations -/

/-- The number written by a string of decimal digits; `acc` is the value of the
digits read so far. -/
def readDigits : Nat → List Char → Option Nat
  | acc, [] => some acc
  | acc, c :: cs => if c.isDigit then readDigits (10 * acc + (c.toNat - 48)) cs else none

/-- The number written by a non-empty string of decimal digits. -/
def readDecimal (cs : List Char) : Option Nat :=
  if cs = [] then none else readDigits 0 cs

/-- The reading of a line of `exchange`: the two stack depths whose entries the
instruction swaps, depth 0 being the top. `SWAP` swaps depths 0 and 1,
`XCHG sj` and `XCHG s0,sj` swap depths 0 and `j`, `XCHG si,sj` swaps depths
`i` and `j`. Any other line has no reading. -/
def readExchange (line : String) : Option (Nat × Nat) :=
  if line = "SWAP" then some (0, 1)
  else
    match line.data with
    | 'X' :: 'C' :: 'H' :: 'G' :: ' ' :: 's' :: rest =>
      match rest.span (fun c => c ≠ ',') with
      | (a, []) => (readDecimal a).map (fun j => (0, j))
      | (a, ',' :: 's' :: b) => do
        let i ← readDecimal a
        let j ← readDecimal b
        some (i, j)
      | _ => none
    | _ => none

/-- The stack (top first) with the entries at depths `i` and `j` swapped; a
depth outside the stack is a stack underflow. -/
def swapDepths {α : Type} (i j : Nat) (stack : List α) : Option (List α) :=
  match stack[i]?, stack[j]? with
  | some a, some b => some ((stack.set i b).set j a)
  | _, _ => none

/-- The execution of the lines of `exchange` under that reading, first line
first. -/
def execExchangeLines {α : Type} : List String → List α → Option (List α)
  | [], stack => some stack
  | line :: rest, stack => do
    let (i, j) ← readExchange line
    let stack ← swapDepths i j stack
    execExchangeLines rest stack

/-- The depth from which the entry at depth `k` comes when the entries at
depths `i` and `j` are swapped. -/
def swappedDepth (i j k : Nat) : Nat := if k = i then j else if k = j then i else k


/-! ## Reading of a slice literal -/

/-- The bits without the completion tag: the trailing `0` bits and the last
`1` bit are removed. -/
def stripCompletionTag (bits : List Char) : List Char :=
  ((bits.reverse.dropWhile (fun c => c = '0')).drop 1).reverse

/-- The bits of a slice literal: four bits per hexadecimal digit and, when the
literal ends in `_`, without the completion tag. -/
def sliceToBits (hex : String) : List Char :=
  if hex.data.getLast? = some '_' then stripCompletionTag (hexToBits hex.data.dropLast)
  else hexToBits hex.data

/-! ## The remaining operations of StackPusherHelper -/

/-- An `Expression const*`: the identity of the node. -/
abbrev Expression := Nat

/-- What the operations below take from outside the sources; they are
parameters of the model.

* `g_without_logstr` is the static flag `TVMContractCompiler::g_without_logstr`.
* `stateVarsToBuilder` is `StructCompiler::stateVarsToBuilder` of the member
  `m_structCompiler`; it emits through the pusher.
* `compileNewExpr expr` is `TVMExpressionCompiler{*this}.compileNewExpr(expr)`;
  it emits through the pusher.
* `type variable` is `variable->type()`. -/
structure Surroundings where
  g_without_logstr : Bool
  stateVarsToBuilder : StackPusherHelper → Option StackPusherHelper
  compileNewExpr : Expression → StackPusherHelper → Option StackPusherHelper
  type : VariableDeclaration → SolType

/-- The tokens that `ensureValueFitsType` tells apart; `other` is any other
token (the `default` of the switch). -/
inductive Token where
  | IntM | UIntM | BytesM | Int | Address | UInt | Bool | other
  deriving DecidableEq

/-- What `ensureValueFitsType` reads from an `ElementaryTypeNameToken`
(declared outside the sources): `token()`, `firstNumber()` and the text of
`toString()`. -/
structure ElementaryTypeNameToken where
  token : Token
  firstNumber : Int
  toString : String

namespace StackPusherHelper

/-- Model of `StackPusherHelper::pushLog`. -/
def pushLog (sur : Surroundings) (str : String) (p : StackPusherHelper) :
    Option StackPusherHelper :=
  if !sur.g_without_logstr then push 0 ("PRINTSTR " ++ str) p else some p

/-- Model of `StackPusherHelper::generateC7ToT4Macro`; the raw string literals
are the texts between `R"(` and `)"`, each starting with a newline. -/
def generateC7ToT4Macro (sur : Surroundings) (ast : AstView) (ctx : TVMCompilerContext)
    (p : StackPusherHelper) : Option StackPusherHelper := do
  let p ← pushLines "\n.macro\tc7_to_c4\nGETGLOB 2\nNEWC\nSTU 256\n" p
  let storeTimestamp ← ctx.storeTimestampInC4
  let p ← if storeTimestamp then pushLines "\nGETGLOB 3\nSTUR 64\n" p else some p
  let p ← pushLines "\nGETGLOB 6\nSTUR 1\n" p
  let vars ← ctx.notConstantStateVariables ast
  let p ← if ¬ vars = [] then sur.stateVarsToBuilder p else some p
  let p ← pushLines "\nENDC\nPOP C4\n" p
  push 0 " " p

/-- Model of `StackPusherHelper::pollLastOpcode`: `m_code.lines.pop_back()`,
which is undefined on an empty vector (`none`). -/
def pollLastOpcode (p : StackPusherHelper) : Option StackPusherHelper :=
  if p.m_code.lines = [] then none
  else some { p with m_code := { p.m_code with lines := p.m_code.lines.dropLast } }

/-- Model of `StackPusherHelper::append`: `m_code.append(oth)`; the stack model
is not touched. -/
def append (oth : CodeLines) (p : StackPusherHelper) : Option StackPusherHelper := do
  let code ← p.m_code.append oth
  some { p with m_code := code }

/-- Model of `StackPusherHelper::generateGlobl`. -/
def generateGlobl (fname : String) (isPublic : Bool) (p : StackPusherHelper) :
    Option StackPusherHelper := do
  let p ← push 0 (".globl\t" ++ fname) p
  let p ← if isPublic then push 0 (".public\t" ++ fname) p else some p
  push 0 (".type\t" ++ fname ++ ", @function") p

/-- Model of `StackPusherHelper::generateInternal`. -/
def generateInternal (fname : String) (id : Int) (p : StackPusherHelper) :
    Option StackPusherHelper := do
  let p ← push 0 (".internal-alias :" ++ fname ++ ",        " ++ toString id) p
  push 0 (".internal\t:" ++ fname) p

/-- Model of `StackPusherHelper::generateMacro`. -/
def generateMacro (functionName : String) (p : StackPusherHelper) : Option StackPusherHelper :=
  push 0 (".macro " ++ functionName) p

/-- Model of `StackPusherHelper::getGlob(VariableDeclaration const*)`. -/
def getGlobOf (ctx : TVMCompilerContext) (vd : VariableDeclaration) (p : StackPusherHelper) :
    Option StackPusherHelper := do
  let index ← ctx.getStateVarIndex vd
  getGlob index p

/-- Model of `StackPusherHelper::setGlob(VariableDeclaration const*)`. -/
def setGlobOf (ctx : TVMCompilerContext) (vd : VariableDeclaration) (p : StackPusherHelper) :
    Option StackPusherHelper := do
  let index ← ctx.getStateVarIndex vd
  if index < 0 then none else setGlob index p

/-- The loop of `resetAllStateVars` over the non-constant state variables:
`pushDefaultValue(variable->type()); setGlob(variable)`. -/
def resetEach (env : Collaborators) (sur : Surroundings) (ctx : TVMCompilerContext) :
    List VariableDeclaration → StackPusherHelper → Option StackPusherHelper
  | [], p => some p
  | var :: rest, p => do
    let p ← pushDefaultValue env (sur.type var) false p
    let p ← setGlobOf ctx var p
    resetEach env sur ctx rest p

/-- Model of `StackPusherHelper::resetAllStateVars`. -/
def resetAllStateVars (env : Collaborators) (sur : Surroundings) (ast : AstView)
    (ctx : TVMCompilerContext) (p : StackPusherHelper) : Option StackPusherHelper := do
  let p ← push 0 ";; set default state vars" p
  let vars ← ctx.notConstantStateVariables ast
  let p ← resetEach env sur ctx vars p
  push 0 ";; end set default state vars" p

/-- Model of `StackPusherHelper::pushCall`; `parameterTypes` and
`returnParameterTypes` are those of the function type `ft`. -/
def pushCall (functionName : String) (parameterTypes returnParameterTypes : SolTypes)
    (p : StackPusherHelper) : Option StackPusherHelper :=
  let params := parameterTypes.size
  let retVals := returnParameterTypes.size
  push (-params + retVals) ("CALL $" ++ functionName ++ "$") p

/-- Model of `StackPusherHelper::tryAssignParam`; the result is the returned
flag and the pusher. -/
def tryAssignParam (name : Declaration) (p : StackPusherHelper) :
    Option (Bool × StackPusherHelper) :=
  if p.m_stack.isParam name then do
    let idx ← p.m_stack.getOffset name
    if idx < 0 then none
    else if idx = 0 then some (true, p)
    else if idx = 1 then do
      let p ← push (-1) "NIP" p
      some (true, p)
    else do
      let p ← push (-1) ("POP s" ++ toString idx) p
      some (true, p)
  else some (false, p)

/-- Model of `StackPusherHelper::ensureValueFitsType`; `cast_error` aborts. -/
def ensureValueFitsType (typeName : ElementaryTypeNameToken) (p : StackPusherHelper) :
    Option StackPusherHelper := do
  let p ← push 0 (";; " ++ typeName.toString) p
  match typeName.token with
  | .IntM => push 0 ("FITS " ++ toString typeName.firstNumber) p
  | .UIntM => push 0 ("UFITS " ++ toString typeName.firstNumber) p
  | .BytesM => push 0 ("UFITS " ++ toString (8 * typeName.firstNumber)) p
  | .Int => push 0 "FITS 256" p
  | .Address => some p
  | .UInt => push 0 "UFITS 256" p
  | .Bool => push 0 "FITS 1" p
  | .other => none

/-- The loop of `sendIntMsg` over the entries of `exprs`, in the order given:
`TVMExpressionCompiler{*this}.compileNewExpr(expr)`. -/
def compileEach (sur : Surroundings) :
    List (Int × Expression) → StackPusherHelper → Option StackPusherHelper
  | [], p => some p
  | (_, expr) :: rest, p => do
    let p ← sur.compileNewExpr expr p
    compileEach sur rest p

/-- Model of `StackPusherHelper::sendIntMsg`; `exprs` are the entries of the
`std::map<int, Expression const*>` in key order, which the loop visits
reversed, and `isParamOnStack` collects their keys. -/
def sendIntMsg (env : Collaborators) (sur : Surroundings) (exprs : List (Int × Expression))
    (constParams : Int → Option String)
    (appendBody : Option (Int → StackPusherHelper → Option StackPusherHelper))
    (pushSendrawmsgFlag : Option (StackPusherHelper → Option StackPusherHelper))
    (p : StackPusherHelper) : Option StackPusherHelper := do
  let isParamOnStack : Finset Int := (exprs.reverse.map Prod.fst).toFinset
  let p ← compileEach sur exprs.reverse p
  sendMsg env isParamOnStack constParams appendBody none pushSendrawmsgFlag true p

end StackPusherHelper

/-! ## Every operation of StackPusherHelper -/

/-- A call of a member function of `StackPusherHelper`, with its arguments:
one constructor for every member function defined in TVMPusher.cpp that can
write to the code buffer or move the stack model of the pusher, in the order of
the class declaration (`getGlobOf` and `setGlobOf` are the overloads on a
`VariableDeclaration`, `pushCode` is `push(const CodeLines&)`). Left out are
the constructor (it builds a pusher with an empty buffer), the accessors
`code`, `ctx`, `structCompiler` and `getStack`, and the static members
(`addBinaryNumberToString`, `binaryStringToSlice`, `gramsToBinaryString`,
`checkThatKeyCanBeRestored`, `parseIndexType`, `parseValueType`): none of them
pushes a command or writes a line. A callback is a `std::function` that emits
through the pusher; `none` is the empty function. -/
inductive Operation where
  | tryPollLastRetOpcode
  | pollLastOpcode
  | append (oth : CodeLines)
  | addTabs (qty : Int)
  | subTabs (qty : Int)
  | pushCont (cont : CodeLines) (comment : String)
  | generateGlobl (fname : String) (isPublic : Bool)
  | generateInternal (fname : String) (id : Int)
  | generateMacro (functionName : String)
  | push (stackDiff : Int) (cmd : String)
  | startContinuation
  | endContinuation
  | pushLog (str : String)
  | pushLines (lines : String)
  | untuple (n : Int)
  | index (index : Int)
  | set_index (index : Int)
  | tuple (qty : Int)
  | resetAllStateVars
  | getGlobOf (vd : VariableDeclaration)
  | getGlob (index : Int)
  | setGlob (index : Int)
  | setGlobOf (vd : VariableDeclaration)
  | pushS (i : Int)
  | pushInt (i : Int)
  | stzeroes (qty : Int)
  | stones (qty : Int)
  | sendrawmsg
  | loadArray (directOrder : Bool)
  | preLoadArray
  | load (type : SolType)
  | preload (type : SolType)
  | pushZeroAddress
  | generateC7ToT4Macro
  | literalToSliceAddress (value : Nat) (pushSlice : Bool)
  | tryImplicitConvert (leftType rightType : SolType)
  | pushCode (codeLines : CodeLines)
  | pushPrivateFunctionOrMacroCall (stackDelta : Int) (fname : String)
  | pushCall (functionName : String) (parameterTypes returnParameterTypes : SolTypes)
  | drop (cnt : Int)
  | blockSwap (m n : Int)
  | reverse (i j : Int)
  | dropUnder (leftCount droppedCount : Int)
  | exchange (i j : Int)
  | prepareKeyForDictOperations (key : SolType)
  | int_msg_info (isParamOnStack : Finset Int) (constParams : Int → Option String)
  | ext_msg_info (isParamOnStack : Finset Int)
  | appendToBuilder (bitString : String)
  | prepareValueForDictOperations (keyType dictValueType : SolType) (isValueBuilder : Bool)
  | setDict (keyType valueType : SolType) (isValueBuilder : Bool) (operation : SetDictOperation)
  | tryAssignParam (name : Declaration)
  | getDict (keyType valueType : SolType) (op : GetDictOperation)
      (resultAsSliceForStruct : Bool)
  | ensureValueFitsType (typeName : ElementaryTypeNameToken)
  | pushDefaultValue (type : SolType) (isResultBuilder : Bool)
  | sendIntMsg (exprs : List (Int × Expression)) (constParams : Int → Option String)
      (appendBody : Option (Int → StackPusherHelper → Option StackPusherHelper))
      (pushSendrawmsgFlag : Option (StackPusherHelper → Option StackPusherHelper))
  | sendMsg (isParamOnStack : Finset Int) (constParams : Int → Option String)
      (appendBody : Option (Int → StackPusherHelper → Option StackPusherHelper))
      (appendStateInit : Option (StackPusherHelper → Option StackPusherHelper))
      (pushSendrawmsgFlag : Option (StackPusherHelper → Option StackPusherHelper))
      (isInternalMessage : Bool)

/-- The effect of a call on the pusher: the model of the member function; a
returned value is dropped. -/
def Operation.run (env : Collaborators) (sur : Surroundings) (ast : AstView)
    (ctx : TVMCompilerContext) : Operation → StackPusherHelper → Option StackPusherHelper
  | .tryPollLastRetOpcode, p => some p.tryPollLastRetOpcode
  | .pollLastOpcode, p => p.pollLastOpcode
  | .append oth, p => p.append oth
  | .addTabs qty, p => some (p.addTabs qty)
  | .subTabs qty, p => some (p.subTabs qty)
  | .pushCont cont comment, p => p.pushCont cont comment
  | .generateGlobl fname isPublic, p => p.generateGlobl fname isPublic
  | .generateInternal fname id, p => p.generateInternal fname id
  | .generateMacro functionName, p => p.generateMacro functionName
  | .push stackDiff cmd, p => p.push stackDiff cmd
  | .startContinuation, p => p.startContinuation
  | .endContinuation, p => p.endContinuation
  | .pushLog str, p => p.pushLog sur str
  | .pushLines lines, p => p.pushLines lines
  | .untuple n, p => p.untuple n
  | .index idx, p => p.index idx
  | .set_index idx, p => p.set_index idx
  | .tuple qty, p => p.tuple qty
  | .resetAllStateVars, p => p.resetAllStateVars env sur ast ctx
  | .getGlobOf vd, p => p.getGlobOf ctx vd
  | .getGlob idx, p => p.getGlob idx
  | .setGlob idx, p => p.setGlob idx
  | .setGlobOf vd, p => p.setGlobOf ctx vd
  | .pushS i, p => p.pushS i
  | .pushInt i, p => p.pushInt i
  | .stzeroes qty, p => p.stzeroes qty
  | .stones qty, p => p.stones qty
  | .sendrawmsg, p => p.sendrawmsg
  | .loadArray directOrder, p => p.loadArray directOrder
  | .preLoadArray, p => p.preLoadArray
  | .load type, p => p.load type
  | .preload type, p => p.preload type
  | .pushZeroAddress, p => p.pushZeroAddress
  | .generateC7ToT4Macro, p => p.generateC7ToT4Macro sur ast ctx
  | .literalToSliceAddress value pushSlice, p =>
    (p.literalToSliceAddress value pushSlice).map Prod.snd
  | .tryImplicitConvert leftType rightType, p =>
    (p.tryImplicitConvert leftType rightType).map Prod.snd
  | .pushCode codeLines, p => p.pushCode codeLines
  | .pushPrivateFunctionOrMacroCall stackDelta fname, p =>
    p.pushPrivateFunctionOrMacroCall stackDelta fname
  | .pushCall functionName parameterTypes returnParameterTypes, p =>
    p.pushCall functionName parameterTypes returnParameterTypes
  | .drop cnt, p => p.drop cnt
  | .blockSwap m n, p => p.blockSwap m n
  | .reverse i j, p => p.reverse i j
  | .dropUnder leftCount droppedCount, p => p.dropUnder leftCount droppedCount
  | .exchange i j, p => p.exchange i j
  | .prepareKeyForDictOperations key, p => p.prepareKeyForDictOperations key
  | .int_msg_info isParamOnStack constParams, p =>
    (p.int_msg_info env isParamOnStack constParams).map Prod.snd
  | .ext_msg_info isParamOnStack, p => (p.ext_msg_info env isParamOnStack).map Prod.snd
  | .appendToBuilder bitString, p => p.appendToBuilder bitString
  | .prepareValueForDictOperations keyType dictValueType isValueBuilder, p =>
    (p.prepareValueForDictOperations env keyType dictValueType isValueBuilder).map Prod.snd
  | .setDict keyType valueType isValueBuilder operation, p =>
    p.setDict env keyType valueType isValueBuilder operation
  | .tryAssignParam name, p => (p.tryAssignParam name).map Prod.snd
  | .getDict keyType valueType op resultAsSliceForStruct, p =>
    p.getDict env keyType valueType op resultAsSliceForStruct
  | .ensureValueFitsType typeName, p => p.ensureValueFitsType typeName
  | .pushDefaultValue type isResultBuilder, p => p.pushDefaultValue env type isResultBuilder
  | .sendIntMsg exprs constParams appendBody pushSendrawmsgFlag, p =>
    p.sendIntMsg env sur exprs constParams appendBody pushSendrawmsgFlag
  | .sendMsg isParamOnStack constParams appendBody appendStateInit pushSendrawmsgFlag
      isInternalMessage, p =>
    p.sendMsg env isParamOnStack constParams appendBody appendStateInit pushSendrawmsgFlag
      isInternalMessage

/-- The calls at which a calibrated line is written with another delta than
+1, by the design of the operation:

* `push(stackDiff, cmd)` moves the size by the `stackDiff` of the caller;
* `pushLines`, `push(const CodeLines&)` and `append` copy the lines of the
  caller and leave the size alone;
* `generateC7ToT4Macro` writes its `NEWC` through `pushLines`;
* `prepareValueForDictOperations` pushes `NEWC` with delta 0 for an integral
  value that is not yet a builder;
* `getDict` pushes `DUP` with delta 0 in `fetchValue` (`Fetch`) and in
  `checkExist` (`Exist`). -/
def Operation.IsException : Operation → Prop
  | .push stackDiff cmd => IsCalibratedLine cmd ∧ stackDiff ≠ 1
  | .pushLines lines => ∃ l ∈ getlines [] lines.data, IsCalibratedLine l
  | .pushCode codeLines => ∃ l ∈ codeLines.lines, IsCalibratedLine l
  | .append oth => ∃ l ∈ oth.lines, IsCalibratedLine l
  | .generateC7ToT4Macro => True
  | .prepareValueForDictOperations _ dictValueType isValueBuilder =>
    isIntegralType dictValueType = true ∧ isValueBuilder = false
  | .getDict _ _ op _ => op = .Fetch ∨ op = .Exist
  | _ => False

/-- The callbacks that the caller hands to `sendMsg` and `sendIntMsg` are
calibrated. -/
def Operation.CallbacksCalibrated : Operation → Prop
  | .sendIntMsg _ _ appendBody pushSendrawmsgFlag =>
    (∀ f n, appendBody = some f → StackPusherHelper.CalibratedOp (f n)) ∧
    (∀ f, pushSendrawmsgFlag = some f → StackPusherHelper.CalibratedOp f)
  | .sendMsg _ _ appendBody appendStateInit pushSendrawmsgFlag _ =>
    (∀ f n, appendBody = some f → StackPusherHelper.CalibratedOp (f n)) ∧
    (∀ f, appendStateInit = some f → StackPusherHelper.CalibratedOp f) ∧
    (∀ f, pushSendrawmsgFlag = some f → StackPusherHelper.CalibratedOp f)
  | _ => True

/-- The code outside the sources that emits through the pusher is calibrated:
the operations of `StructCompiler` and the expression compiler; and no store
line of `storeIntegralOrAddress` is one of the calibrated lines. -/
structure OutsideCalibrated (env : Collaborators) (sur : Surroundings) : Prop where
  store : ∀ t b, ¬ IsCalibratedLine (env.storeIntegralOrAddress t b)
  tupleToBuilder : ∀ t, StackPusherHelper.CalibratedOp (env.tupleToBuilder t)
  convertSliceToTuple : ∀ t, StackPusherHelper.CalibratedOp (env.convertSliceToTuple t)
  createDefaultStruct : ∀ t b, StackPusherHelper.CalibratedOp (env.createDefaultStruct t b)
  stateVarsToBuilder : StackPusherHelper.CalibratedOp sur.stateVarsToBuilder
  compileNewExpr : ∀ e, StackPusherHelper.CalibratedOp (sur.compileNewExpr e)

/-- Surroundings for the concrete scenarios: logging on, a struct compiler and
an expression compiler that emit nothing, every state variable of type
`uint256`. -/
def specSurroundings : Surroundings where
  g_without_logstr := false
  stateVarsToBuilder := fun p => some p
  compileNewExpr := fun _ p => some p
  type := fun _ => .integer 256 false

/-- The context of a contract with one non-constant state variable and no
function, under ABI version 2 without the `time` pragma, for the concrete
scenarios: the variable has index 10. -/
def oneVarContext : TVMCompilerContext :=
  ⟨some ⟨[], [⟨0, false⟩]⟩, false, false, false, false, false, ⟨2, false, false⟩,
    [(⟨0, false⟩, 10)]⟩

/-- An AST view in which every contract is its own chain. -/
def plainAst : AstView := ⟨fun c => [c], fun c => [c], fun _ => true⟩

/-! ## Theorems -/

/-! ### TVMStack -/

/-- C1: for every stack model and every declaration `d` not yet bound,
`add(d, true)` succeeds, grows the size by exactly 1 and leaves `getOffset(d) = 0`;
`add(d, false)` succeeds, keeps the size and leaves `getOffset(d) = 0`; and
`getOffset` of a position `p` is `size - 1 - p`. -/
theorem TVMStack.add_getOffset (s : TVMStack) (d : Declaration)
    (hd : s.isParam d = false) :
    (∃ s₁, s.add d true = some s₁ ∧ s₁.size = s.size + 1 ∧ s₁.getOffset d = some 0) ∧
    (∃ s₂, s.add d false = some s₂ ∧ s₂.size = s.size ∧ s₂.getOffset d = some 0) ∧
    (∀ t : TVMStack, ∀ p : Int, t.getOffsetPos p = t.size - 1 - p) := by
  refine ⟨⟨⟨s.m_size + 1, fun e => if e = d then some s.m_size else s.m_params e⟩, ?_, ?_, ?_⟩,
    ⟨⟨s.m_size, fun e => if e = d then some (s.m_size - 1) else s.m_params e⟩, ?_, ?_, ?_⟩, ?_⟩
  · simp [TVMStack.add, hd]
  · simp [TVMStack.size]
  · simp [TVMStack.getOffset, TVMStack.getOffsetPos]
  · simp [TVMStack.add, hd]
  · simp [TVMStack.size]
  · simp [TVMStack.getOffset, TVMStack.getOffsetPos]
  · intro t p; rfl

/-- Witness of C1 on the empty stack and declaration 7. -/
theorem TVMStack.add_getOffset_witness :
    TVMStack.empty.isParam 7 = false ∧
    ((∃ s₁, TVMStack.empty.add 7 true = some s₁ ∧ s₁.size = TVMStack.empty.size + 1 ∧
        s₁.getOffset 7 = some 0) ∧
     (∃ s₂, TVMStack.empty.add 7 false = some s₂ ∧ s₂.size = TVMStack.empty.size ∧
        s₂.getOffset 7 = some 0) ∧
     (∀ t : TVMStack, ∀ p : Int, t.getOffsetPos p = t.size - 1 - p)) :=
  ⟨rfl, TVMStack.add_getOffset TVMStack.empty 7 rfl⟩

theorem TVMStack.inv_empty : TVMStack.empty.Inv := by
  refine ⟨le_refl _, ?_, ?_⟩
  · intro _ _ _ h; cases h
  · intro _ _ h; cases h

theorem TVMStack.inv_oneBound : TVMStack.oneBound.Inv := by
  refine ⟨by decide, ?_, ?_⟩
  · intro d₁ d₂ pos h₁ h₂
    simp only [TVMStack.oneBound] at h₁ h₂
    split at h₁ <;> split at h₂ <;> simp_all
  · intro d pos h
    simp only [TVMStack.oneBound] at h
    split at h
    · cases h; decide
    · cases h

/-- C2 (as stated, refuted): the invariant is not preserved by every
successful `change` nor by every successful `add`. On the one-slot stack that
binds declaration 0 at position 0, `change(-1)` succeeds and leaves position 0
bound in a stack of size 0; `add(1, false)` succeeds and binds declaration 1 to
position 0 as well; and on the empty stack `add(0, false)` succeeds and binds
position -1. -/
theorem TVMStack.inv_not_preserved :
    TVMStack.oneBound.Inv ∧
    (∃ s, TVMStack.oneBound.change (-1) = some s ∧ s.m_size = 0 ∧
        s.m_params 0 = some 0 ∧ ¬ s.Inv) ∧
    (∃ s, TVMStack.oneBound.add 1 false = some s ∧
        s.m_params 0 = some 0 ∧ s.m_params 1 = some 0 ∧ ¬ s.Inv) ∧
    TVMStack.empty.Inv ∧
    (∃ s, TVMStack.empty.add 0 false = some s ∧ s.m_params 0 = some (-1) ∧ ¬ s.Inv) := by
  refine ⟨TVMStack.inv_oneBound, ⟨⟨0, TVMStack.oneBound.m_params⟩, rfl, rfl, rfl, ?_⟩,
    ⟨⟨1, fun d => if d = 1 then some 0 else TVMStack.oneBound.m_params d⟩, rfl, rfl, rfl, ?_⟩,
    TVMStack.inv_empty,
    ⟨⟨0, fun d => if d = 0 then some (0 - 1) else none⟩, rfl, rfl, ?_⟩⟩
  · rintro ⟨_, _, h⟩
    have := (h 0 0 rfl).2
    exact absurd this (by decide)
  · rintro ⟨_, h, _⟩
    have := h 0 1 0 rfl rfl
    exact absurd this (by decide)
  · rintro ⟨_, _, h⟩
    have := (h 0 (0 - 1) rfl).1
    exact absurd this (by decide)

/-- C2 (amended): the size stays non-negative under every successful `change`
and `add`; the full invariant holds for the empty model, is preserved by every
successful `add(decl, true)`, by a successful `change(diff)` exactly when no
bound position is `>= size + diff` (in particular whenever `diff >= 0`), and by
a successful `add(decl, false)` exactly when the size is positive and the top
position `size - 1` is not yet bound. -/
theorem TVMStack.inv_preserved (s : TVMStack) (hs : s.Inv) :
    TVMStack.empty.Inv ∧
    (∀ diff s₁, s.change diff = some s₁ →
      0 ≤ s₁.m_size ∧
      (s₁.Inv ↔ ∀ d pos, s.m_params d = some pos → pos < s.m_size + diff) ∧
      (0 ≤ diff → s₁.Inv)) ∧
    (∀ d b s₁, s.add d b = some s₁ → 0 ≤ s₁.m_size) ∧
    (∀ d s₁, s.add d true = some s₁ → s₁.Inv) ∧
    (∀ d s₁, s.add d false = some s₁ →
      (s₁.Inv ↔ 0 < s.m_size ∧ ∀ e, s.m_params e ≠ some (s.m_size - 1))) := by
  obtain ⟨h0, hinj, hrange⟩ := hs
  refine ⟨TVMStack.inv_empty, ?_, ?_, ?_, ?_⟩
  · intro diff s₁ h
    simp only [TVMStack.change] at h
    split at h
    · rename_i hge
      cases h
      refine ⟨hge, ⟨fun hi d pos hd => (hi.2.2 d pos hd).2,
        fun hb => ⟨hge, hinj, fun d pos hd => ⟨(hrange d pos hd).1, hb d pos hd⟩⟩⟩, ?_⟩
      intro hdiff
      exact ⟨hge, hinj, fun d pos hd => ⟨(hrange d pos hd).1, by
        have := (hrange d pos hd).2
        simp only
        omega⟩⟩
    · cases h
  · intro d b s₁ h
    simp only [TVMStack.add] at h
    split at h
    · cases h
    · split at h <;> cases h <;> simp only <;> omega
  · intro d s₁ h
    simp only [TVMStack.add] at h
    split at h
    · cases h
    · rename_i hnot
      simp only [if_true, Option.some.injEq] at h
      subst h
      have hfree : s.m_params d = none := by
        simpa [TVMStack.isParam] using hnot
      refine ⟨by simp only; omega, ?_, ?_⟩
      · intro d₁ d₂ pos h₁ h₂
        simp only at h₁ h₂
        by_cases e₁ : d₁ = d <;> by_cases e₂ : d₂ = d
        · rw [e₁, e₂]
        · simp only [e₁, e₂, if_true, if_false, Option.some.injEq] at h₁ h₂
          have := (hrange d₂ pos h₂).2
          omega
        · simp only [e₁, e₂, if_true, if_false, Option.some.injEq] at h₁ h₂
          have := (hrange d₁ pos h₁).2
          omega
        · simp only [e₁, e₂, if_false] at h₁ h₂
          exact hinj d₁ d₂ pos h₁ h₂
      · intro e pos he
        simp only at he ⊢
        by_cases e₁ : e = d
        · simp only [e₁, if_true, Option.some.injEq] at he
          omega
        · simp only [e₁, if_false] at he
          have := hrange e pos he
          omega
  · intro d s₁ h
    simp only [TVMStack.add] at h
    split at h
    · cases h
    · rename_i hnot
      simp only [Bool.false_eq_true, if_false, Option.some.injEq] at h
      subst h
      have hfree : s.m_params d = none := by
        simpa [TVMStack.isParam] using hnot
      constructor
      · rintro ⟨_, hinj₁, hrange₁⟩
        have hd := hrange₁ d (s.m_size - 1) (by simp)
        simp only at hd
        refine ⟨by omega, fun e he => ?_⟩
        have hed : e ≠ d := by
          intro hed
          rw [hed, hfree] at he
          cases he
        have := hinj₁ e d (s.m_size - 1) (by simp [hed, he]) (by simp)
        exact hed this
      · rintro ⟨hpos, htop⟩
        refine ⟨h0, ?_, ?_⟩
        · intro d₁ d₂ pos h₁ h₂
          simp only at h₁ h₂
          by_cases e₁ : d₁ = d <;> by_cases e₂ : d₂ = d
          · rw [e₁, e₂]
          · simp only [e₁, e₂, if_true, if_false, Option.some.injEq] at h₁ h₂
            exact absurd (h₁ ▸ h₂) (htop d₂)
          · simp only [e₁, e₂, if_true, if_false, Option.some.injEq] at h₁ h₂
            exact absurd (h₂ ▸ h₁) (htop d₁)
          · simp only [e₁, e₂, if_false] at h₁ h₂
            exact hinj d₁ d₂ pos h₁ h₂
        · intro e pos he
          simp only at he ⊢
          by_cases e₁ : e = d
          · simp only [e₁, if_true, Option.some.injEq] at he
            omega
          · simp only [e₁, if_false] at he
            exact hrange e pos he

/-- Witness of the amended C2 on the one-slot stack. -/
theorem TVMStack.inv_preserved_witness :
    TVMStack.oneBound.Inv ∧
    (TVMStack.empty.Inv ∧
    (∀ diff s₁, TVMStack.oneBound.change diff = some s₁ →
      0 ≤ s₁.m_size ∧
      (s₁.Inv ↔ ∀ d pos, TVMStack.oneBound.m_params d = some pos →
        pos < TVMStack.oneBound.m_size + diff) ∧
      (0 ≤ diff → s₁.Inv)) ∧
    (∀ d b s₁, TVMStack.oneBound.add d b = some s₁ → 0 ≤ s₁.m_size) ∧
    (∀ d s₁, TVMStack.oneBound.add d true = some s₁ → s₁.Inv) ∧
    (∀ d s₁, TVMStack.oneBound.add d false = some s₁ →
      (s₁.Inv ↔ 0 < TVMStack.oneBound.m_size ∧
        ∀ e, TVMStack.oneBound.m_params e ≠ some (TVMStack.oneBound.m_size - 1)))) :=
  ⟨TVMStack.inv_oneBound, TVMStack.inv_preserved TVMStack.oneBound TVMStack.inv_oneBound⟩

/-! ### Lemmas on code buffers, stack effects and recorded runs -/
theorem CodeLines.push_tabQty (c c1 : CodeLines) (cmd : String) (h : c.push cmd = some c1) :
    c1.tabQty = c.tabQty := by
  unfold CodeLines.push at h
  split at h
  · cases h; rfl
  · split at h
    · cases h; rfl
    · split at h
      · cases h; rfl
      · cases h

theorem CodeLines.push_isSome (c : CodeLines) (cmd : String) (h : 0 ≤ c.tabQty) :
    ∃ c1, c.push cmd = some c1 ∧ c1.tabQty = c.tabQty := by
  unfold CodeLines.push
  split
  · exact ⟨_, rfl, rfl⟩
  · split
    · exact ⟨_, rfl, rfl⟩
    · exact ⟨_, rfl, rfl⟩

theorem StackEffect.push (d : Int) (cmd : String) :
    StackEffect (StackPusherHelper.push d cmd) (-d) d 0 := by
  intro p ht _ h0 hn
  obtain ⟨c1, hc, hct⟩ := CodeLines.push_isSome p.m_code cmd ht
  have hs : 0 ≤ p.m_stack.m_size + d := by omega
  refine ⟨⟨⟨p.m_stack.m_size + d, p.m_stack.m_params⟩, c1, p.history ++ [(d, cmd)]⟩, ?_, rfl,
    by simpa using hct, hs, ⟨_, rfl⟩⟩
  simp [StackPusherHelper.push, hc, TVMStack.change, hs]

theorem StackEffect.mono {f : StackPusherHelper → Option StackPusherHelper} {m d t : Int}
    (h : StackEffect f m d t) {m' d' t' : Int} (hm : m ≤ m') (hd : d = d') (ht : t = t') :
    StackEffect f m' d' t' := by
  subst hd ht
  exact fun p h1 h2 h3 h4 => h p h1 h2 h3 (le_trans hm h4)

theorem StackEffect.pure : StackEffect (fun p => some p) 0 0 0 :=
  fun p _ _ h0 _ => ⟨p, rfl, by omega, by omega, h0, ⟨[], by simp⟩⟩

theorem StackEffect.bind {f : StackPusherHelper → Option StackPusherHelper}
    {g : StackPusherHelper → Option StackPusherHelper} {m1 d1 t1 m2 d2 t2 : Int}
    (hf : StackEffect f m1 d1 t1) (hg : StackEffect g m2 d2 t2) (ht1 : 0 ≤ t1 ∨ t2 ≤ 0) :
    StackEffect (fun p => (f p).bind g) (max m1 (m2 - d1)) (d1 + d2) (t1 + t2) := by
  intro p ht htt h0 hn
  obtain ⟨q, hq, hqs, hqt, hq0, n1, hn1⟩ := hf p ht (by omega) h0 (le_trans (le_max_left _ _) hn)
  have h2 : m2 - d1 ≤ p.m_stack.m_size := le_trans (le_max_right _ _) hn
  obtain ⟨r, hr, hrs, hrt, hr0, n2, hn2⟩ := hg q (by omega) (by omega) hq0 (by omega)
  exact ⟨r, by simp [hq, hr], by omega, by omega, hr0, ⟨n1 ++ n2, by rw [hn2, hn1]; simp⟩⟩

namespace StackPusherHelper

theorem emitted_append (a b : List (Int × String)) : ∀ p : StackPusherHelper,
    emitted (a ++ b) p = emitted b (emitted a p) := by
  induction a with
  | nil => intro p; rfl
  | cons e a ih => intro p; obtain ⟨d, cmd⟩ := e; simp only [List.cons_append, emitted]; exact ih _

theorem emitted_size (a : List (Int × String)) : ∀ p : StackPusherHelper,
    (emitted a p).m_stack.m_size = p.m_stack.m_size + (a.map Prod.fst).sum := by
  induction a with
  | nil => intro p; simp [emitted]
  | cons e a ih =>
    intro p; obtain ⟨d, cmd⟩ := e
    simp only [emitted, ih, List.map_cons, List.sum_cons]; omega

theorem pushed_tabQty (c : CodeLines) (cmd : String) : (c.pushed cmd).tabQty = c.tabQty := by
  unfold CodeLines.pushed; split
  · rfl
  · split <;> rfl

theorem emitted_tabQty (a : List (Int × String)) : ∀ p : StackPusherHelper,
    (emitted a p).m_code.tabQty = p.m_code.tabQty := by
  induction a with
  | nil => intro p; rfl
  | cons e a ih =>
    intro p; obtain ⟨d, cmd⟩ := e
    simp only [emitted, ih, pushed_tabQty]

theorem emitted_params (a : List (Int × String)) : ∀ p : StackPusherHelper,
    (emitted a p).m_stack.m_params = p.m_stack.m_params := by
  induction a with
  | nil => intro p; rfl
  | cons e a ih => intro p; obtain ⟨d, cmd⟩ := e; simp only [emitted, ih]

theorem emitted_history (a : List (Int × String)) : ∀ p : StackPusherHelper,
    (emitted a p).history = p.history ++ a := by
  induction a with
  | nil => intro p; simp [emitted]
  | cons e a ih => intro p; obtain ⟨d, cmd⟩ := e; simp only [emitted, ih]; simp

theorem codePush_eq (c : CodeLines) (cmd : String) (ht : 0 ≤ c.tabQty) :
    c.push cmd = some (c.pushed cmd) := by
  unfold CodeLines.push CodeLines.pushed
  split
  · rfl
  · split
    · rfl
    · rfl

theorem push_eq (d : Int) (cmd : String) (p : StackPusherHelper)
    (ht : 0 ≤ p.m_code.tabQty) (hs : 0 ≤ p.m_stack.m_size + d) :
    push d cmd p = some (emitted [(d, cmd)] p) := by
  simp [push, codePush_eq _ _ ht, TVMStack.change, hs, emitted]

/-- One more `push` after a recorded run. -/
theorem push_emitted (a : List (Int × String)) (d : Int) (cmd : String) (p : StackPusherHelper)
    (ht : 0 ≤ p.m_code.tabQty) (hs : 0 ≤ p.m_stack.m_size + (a.map Prod.fst).sum + d) :
    push d cmd (emitted a p) = some (emitted (a ++ [(d, cmd)]) p) := by
  rw [emitted_append]
  exact push_eq d cmd _ (by rw [emitted_tabQty]; exact ht) (by rw [emitted_size]; exact hs)

end StackPusherHelper

/-! ### Bit strings -/

theorem stoi2_bits4 (a b c d : Char) (ha : a = '0' ∨ a = '1') (hb : b = '0' ∨ b = '1')
    (hc : c = '0' ∨ c = '1') (hd : d = '0' ∨ d = '1') :
    ∃ x, stoi2 0 [a, b, c, d] = some x ∧ (hexOf x).length = 1 := by
  rcases ha with rfl | rfl <;> rcases hb with rfl | rfl <;> rcases hc with rfl | rfl <;>
    rcases hd with rfl | rfl <;> exact ⟨_, rfl, by decide⟩

theorem hexGroups_bits (n : Nat) : ∀ l : List Char, l.length = 4 * n →
    (∀ c ∈ l, c = '0' ∨ c = '1') → ∃ h, hexGroups l = some h ∧ h.length = n := by
  induction n with
  | zero =>
    intro l hl _
    have : l = [] := List.length_eq_zero.mp (by omega)
    subst this
    exact ⟨"", rfl, rfl⟩
  | succ n ih =>
    intro l hl hb
    match l, hl, hb with
    | a :: b :: c :: d :: rest, hl, hb =>
      obtain ⟨x, hx, hxl⟩ := stoi2_bits4 a b c d (hb a (by simp)) (hb b (by simp))
        (hb c (by simp)) (hb d (by simp))
      obtain ⟨h, hh, hhl⟩ := ih rest (by simp at hl; omega)
        (fun e he => hb e (by simp [he]))
      refine ⟨hexOf x ++ h, ?_, ?_⟩
      · simp [hexGroups, hx, hh]
      · rw [String.length_append, hxl, hhl]; omega
    | [], hl, _ => simp at hl
    | [_], hl, _ => simp at hl; omega
    | [_, _], hl, _ => simp at hl; omega
    | [_, _, _], hl, _ => simp at hl; omega

theorem stdString_data (n : Int) (c : Char) : (stdString n c).data = List.replicate n.toNat c := rfl

theorem String.length_eq_data (s : String) : s.length = s.data.length := rfl

theorem binaryStringToSlice_eq (s : String) :
    binaryStringToSlice s =
      if s.length % 4 = 0 then hexGroups s.data
      else (hexGroups (s.data ++ '1' :: List.replicate (3 - s.length % 4) '0')).map
        (fun ans => ans ++ "_") := by
  by_cases h : s.length % 4 = 0
  · simp [binaryStringToSlice, h]
  · have hk : ((4 - ((s ++ "1").length : Int) % 4) % 4).toNat = 3 - s.length % 4 := by
      rw [String.length_append]
      have : "1".length = 1 := rfl
      rw [this]
      omega
    have hd : (s ++ "1" ++ stdString ((4 - ((s ++ "1").length : Int) % 4) % 4) '0').data =
        s.data ++ '1' :: List.replicate (3 - s.length % 4) '0' := by
      rw [String.data_append, String.data_append, stdString_data, hk, List.append_assoc]
      rfl
    simp only [binaryStringToSlice, h, ne_eq, not_false_eq_true, decide_True, if_true, hd]
    cases hexGroups (s.data ++ '1' :: List.replicate (3 - s.length % 4) '0') <;> rfl

theorem binaryStringToSlice_bits (s : String) (hb : ∀ c ∈ s.data, c = '0' ∨ c = '1') :
    ∃ hex, binaryStringToSlice s = some hex ∧
      hex.length = if s.length % 4 = 0 then s.length / 4 else s.length / 4 + 2 := by
  rw [binaryStringToSlice_eq]
  by_cases h : s.length % 4 = 0
  · obtain ⟨hex, h1, h2⟩ := hexGroups_bits (s.length / 4) s.data
      (by rw [← String.length_eq_data]; omega) hb
    exact ⟨hex, by simp [h, h1], by simp [h, h2]⟩
  · obtain ⟨hex, h1, h2⟩ := hexGroups_bits (s.length / 4 + 1)
      (s.data ++ '1' :: List.replicate (3 - s.length % 4) '0')
      (by
        simp only [List.length_append, List.length_replicate, List.length_cons]
        rw [← String.length_eq_data]
        omega)
      (by
        intro c hc
        simp only [List.mem_append, List.mem_cons, List.mem_replicate] at hc
        rcases hc with hc | hc | hc
        · exact hb c hc
        · exact Or.inr hc
        · exact Or.inl hc.2)
    refine ⟨hex ++ "_", by simp [h, h1], ?_⟩
    rw [String.length_append, h2, if_neg h]
    rfl

theorem binaryStringToSlice_short_iff (s hex : String)
    (hb : ∀ c ∈ s.data, c = '0' ∨ c = '1') (h : binaryStringToSlice s = some hex) :
    hex.length * 4 ≤ 8 * 7 + 1 ↔ (s.length ≤ 51 ∨ s.length = 52 ∨ s.length = 56) := by
  obtain ⟨hex', h1, h2⟩ := binaryStringToSlice_bits s hb
  rw [h] at h1
  cases h1
  rw [h2]
  split <;> omega

/-! ### appendToBuilder -/

namespace StackPusherHelper

theorem stzeroes_one (p : StackPusherHelper) (ht : 0 ≤ p.m_code.tabQty)
    (h0 : 0 ≤ p.m_stack.m_size) :
    stzeroes 1 p = some (emitted [(0, "STSLICECONST 0")] p) := by
  simp only [stzeroes]
  exact push_eq 0 _ p ht (by omega)

theorem stzeroes_many (n : Int) (hn : 2 ≤ n) (p : StackPusherHelper)
    (ht : 0 ≤ p.m_code.tabQty) (h0 : 0 ≤ p.m_stack.m_size) :
    stzeroes n p = some (emitted [(1, "PUSHINT " ++ toString n), (-1, "STZEROES")] p) := by
  have h1 : n > 0 := by omega
  have h2 : n ≠ 1 := by omega
  simp only [stzeroes, h1, h2, if_true, if_false, pushInt]
  rw [push_eq 1 _ p ht (by omega)]
  exact push_emitted [(1, "PUSHINT " ++ toString n)] (-1) "STZEROES" p ht (by simp; omega)

theorem count_zero_stdString (n : Nat) : (stdString n '0').data.count '0' = n := by
  simp [stdString_data]

theorem length_stdString (n : Nat) (c : Char) : (stdString n c).length = n := by
  simp [String.length_eq_data, stdString_data]

theorem appendToBuilder_nonzero (s hex : String) (p : StackPusherHelper)
    (hne : ∃ c ∈ s.data, c ≠ '0') (hhex : binaryStringToSlice s = some hex) :
    appendToBuilder s p =
      if hex.length * 4 ≤ 8 * 7 + 1 then push 0 ("STSLICECONST x" ++ hex) p
      else push 1 ("PUSHSLICE x" ++ hex) p >>= push (-1) "STSLICER" := by
  obtain ⟨c, hc, hc0⟩ := hne
  have h1 : s ≠ "" := by
    rintro rfl
    simp at hc
  have h2 : s.data.count '0' ≠ s.length := by
    rw [String.length_eq_data]
    intro h
    exact hc0 ((List.count_eq_length.mp h) c hc).symm
  simp only [appendToBuilder, h1, h2, if_false, hhex]
  rfl

end StackPusherHelper

/-- C10 (as stated, refuted): a bit string of at most 57 bits that is not all
zeros need not be stored by one `STSLICECONST`: for the 53-bit string `1`
followed by 52 zeros the slice literal has 15 characters, `15 * 4 > 57`, and
`appendToBuilder` emits `PUSHSLICE x80000000000004_` and `STSLICER`. -/
theorem StackPusherHelper.appendToBuilder_53_bits :
    bits53.length = 53 ∧ IsBitString bits53 ∧
    binaryStringToSlice bits53 = some "80000000000004_" ∧
    (StackPusherHelper.appendToBuilder bits53 StackPusherHelper.fresh).map
      (fun q => (q.m_code.lines, q.history)) =
      some (["PUSHSLICE x80000000000004_", "STSLICER"],
        [(1, "PUSHSLICE x80000000000004_"), (-1, "STSLICER")]) := by
  refine ⟨by decide, ?_, by decide, ?_⟩
  · intro c hc
    have : bits53.data = '1' :: List.replicate 52 '0' := rfl
    rw [this] at hc
    simp only [List.mem_cons, List.mem_replicate] at hc
    rcases hc with hc | hc
    · exact Or.inr hc
    · exact Or.inl hc.2
  · set_option maxRecDepth 100000 in decide

/-- C10 (amended): on a bit string `s`, `appendToBuilder(s)` succeeds and never
changes the modelled stack size; it emits nothing when `s` is empty,
`STSLICECONST 0` when `s` is `0`, `PUSHINT n` then `STZEROES` when `s` is
`n >= 2` zeros, and otherwise, with `hex = binaryStringToSlice(s)`, the single
line `STSLICECONST x<hex>` when `4 * |hex| <= 57`, that is when `s` has at most
51 bits or exactly 52 or 56 bits, and the two lines `PUSHSLICE x<hex>`,
`STSLICER` in every other case (53, 54, 55, 57 or more bits). -/
theorem StackPusherHelper.appendToBuilder_emits (s : String) (hb : IsBitString s)
    (p : StackPusherHelper) (ht : 0 ≤ p.m_code.tabQty) (h0 : 0 ≤ p.m_stack.m_size) :
    ∃ q, StackPusherHelper.appendToBuilder s p = some q ∧
      q.m_stack.m_size = p.m_stack.m_size ∧
      (s = "" → q = p) ∧
      (s = "0" → q = p.emitted [(0, "STSLICECONST 0")]) ∧
      (∀ n : Nat, 2 ≤ n → s = stdString n '0' →
        q = p.emitted [(1, "PUSHINT " ++ toString (n : Int)), (-1, "STZEROES")]) ∧
      ((∃ c ∈ s.data, c ≠ '0') → ∃ hex, binaryStringToSlice s = some hex ∧
        (hex.length * 4 ≤ 57 ↔ (s.length ≤ 51 ∨ s.length = 52 ∨ s.length = 56)) ∧
        (s.length ≤ 51 ∨ s.length = 52 ∨ s.length = 56 →
          q = p.emitted [(0, "STSLICECONST x" ++ hex)]) ∧
        (¬ (s.length ≤ 51 ∨ s.length = 52 ∨ s.length = 56) →
          q = p.emitted [(1, "PUSHSLICE x" ++ hex), (-1, "STSLICER")])) := by
  by_cases hz : ∀ c ∈ s.data, c = '0'
  · -- all zeros
    have hcount : s.data.count '0' = s.length := by
      rw [String.length_eq_data]
      exact List.count_eq_length.mpr (fun c hc => (hz c hc).symm)
    have hnot : ¬ ∃ c ∈ s.data, c ≠ '0' := by
      rintro ⟨c, hc, hc0⟩; exact hc0 (hz c hc)
    by_cases he : s = ""
    · subst he
      refine ⟨p, by simp [StackPusherHelper.appendToBuilder], rfl, fun _ => rfl, ?_, ?_, ?_⟩
      · intro h; exact absurd h (by decide)
      · intro n hn h
        have := congrArg String.length h
        rw [StackPusherHelper.length_stdString] at this
        have h' : "".length = 0 := rfl
        omega
      · intro h; exact absurd h hnot
    · have hpos : 0 < s.length := by
        rcases Nat.eq_zero_or_pos s.length with h | h
        · exact absurd (String.ext (List.length_eq_zero.mp h)) he
        · exact h
      have happ : StackPusherHelper.appendToBuilder s p =
          StackPusherHelper.stzeroes (s.length : Int) p := by
        simp only [StackPusherHelper.appendToBuilder, he, if_false, hcount, if_true]
      by_cases h1 : s.length = 1
      · have hs : s = "0" := by
          apply String.ext
          have hl : s.data.length = 1 := h1
          match hd : s.data, hl with
          | [c], _ =>
            have := hz c (by rw [hd]; simp)
            rw [this]
        refine ⟨p.emitted [(0, "STSLICECONST 0")], ?_, ?_, ?_, fun _ => rfl, ?_, ?_⟩
        · rw [happ, h1]; exact StackPusherHelper.stzeroes_one p ht h0
        · rw [StackPusherHelper.emitted_size]; simp
        · intro h; exact absurd h he
        · intro n hn h
          have := congrArg String.length h
          rw [StackPusherHelper.length_stdString] at this
          omega
        · intro h; exact absurd h hnot
      · refine ⟨p.emitted [(1, "PUSHINT " ++ toString (s.length : Int)), (-1, "STZEROES")],
          ?_, ?_, ?_, ?_, ?_, ?_⟩
        · rw [happ]; exact StackPusherHelper.stzeroes_many _ (by omega) p ht h0
        · rw [StackPusherHelper.emitted_size]; simp
        · intro h; exact absurd h he
        · intro h
          exact absurd (by rw [h]; rfl) h1
        · intro n hn h
          have := congrArg String.length h
          rw [StackPusherHelper.length_stdString] at this
          rw [this]
        · intro h; exact absurd h hnot
  · -- some digit is not zero
    have hne : ∃ c ∈ s.data, c ≠ '0' := by
      by_contra hcon
      exact hz (fun c hc => by_contra (fun h => hcon ⟨c, hc, h⟩))
    obtain ⟨hex, hhex, _⟩ := binaryStringToSlice_bits s hb
    have hiff := binaryStringToSlice_short_iff s hex hb hhex
    have hne0 : s ≠ "" := by
      rintro rfl
      obtain ⟨c, hc, _⟩ := hne
      simp at hc
    have hnz : ∀ n : Nat, s ≠ stdString n '0' := by
      rintro n rfl
      obtain ⟨c, hc, hc0⟩ := hne
      rw [stdString_data] at hc
      exact hc0 (List.eq_of_mem_replicate hc)
    rw [StackPusherHelper.appendToBuilder_nonzero s hex p hne hhex]
    by_cases hshort : hex.length * 4 ≤ 8 * 7 + 1
    · have hlen := hiff.mp hshort
      refine ⟨p.emitted [(0, "STSLICECONST x" ++ hex)], ?_, ?_, ?_, ?_, ?_, ?_⟩
      · rw [if_pos hshort]; exact StackPusherHelper.push_eq 0 _ p ht (by omega)
      · rw [StackPusherHelper.emitted_size]; simp
      · intro h; exact absurd h hne0
      · intro h
        exact absurd h (hnz 1)
      · intro n _ h; exact absurd h (hnz n)
      · intro _
        exact ⟨hex, hhex, hiff, fun _ => rfl, fun h => absurd hlen h⟩
    · have hlen : ¬ (s.length ≤ 51 ∨ s.length = 52 ∨ s.length = 56) :=
        fun h => hshort (hiff.mpr h)
      refine ⟨p.emitted [(1, "PUSHSLICE x" ++ hex), (-1, "STSLICER")], ?_, ?_, ?_, ?_, ?_, ?_⟩
      · rw [if_neg hshort, StackPusherHelper.push_eq 1 _ p ht (by omega)]
        exact StackPusherHelper.push_emitted [(1, "PUSHSLICE x" ++ hex)] (-1) "STSLICER" p ht
          (by simp; omega)
      · rw [StackPusherHelper.emitted_size]; simp
      · intro h; exact absurd h hne0
      · intro h
        exact absurd h (hnz 1)
      · intro n _ h; exact absurd h (hnz n)
      · intro _
        exact ⟨hex, hhex, hiff, fun h => absurd h hlen, fun _ => rfl⟩

/-- Witness of the amended C10 on the bit string `101` and the fresh pusher. -/
theorem StackPusherHelper.appendToBuilder_emits_witness :
    IsBitString "101" ∧ (0 : Int) ≤ StackPusherHelper.fresh.m_code.tabQty ∧
    (0 : Int) ≤ StackPusherHelper.fresh.m_stack.m_size ∧
    ∃ q, StackPusherHelper.appendToBuilder "101" StackPusherHelper.fresh = some q ∧
      q.m_stack.m_size = StackPusherHelper.fresh.m_stack.m_size ∧
      ("101" = "" → q = StackPusherHelper.fresh) ∧
      ("101" = "0" → q = StackPusherHelper.fresh.emitted [(0, "STSLICECONST 0")]) ∧
      (∀ n : Nat, 2 ≤ n → "101" = stdString n '0' →
        q = StackPusherHelper.fresh.emitted
          [(1, "PUSHINT " ++ toString (n : Int)), (-1, "STZEROES")]) ∧
      ((∃ c ∈ "101".data, c ≠ '0') → ∃ hex, binaryStringToSlice "101" = some hex ∧
        (hex.length * 4 ≤ 57 ↔ ("101".length ≤ 51 ∨ "101".length = 52 ∨ "101".length = 56)) ∧
        ("101".length ≤ 51 ∨ "101".length = 52 ∨ "101".length = 56 →
          q = StackPusherHelper.fresh.emitted [(0, "STSLICECONST x" ++ hex)]) ∧
        (¬ ("101".length ≤ 51 ∨ "101".length = 52 ∨ "101".length = 56) →
          q = StackPusherHelper.fresh.emitted
            [(1, "PUSHSLICE x" ++ hex), (-1, "STSLICER")])) :=
  have hb : IsBitString "101" := by unfold IsBitString; decide
  ⟨hb, le_refl _, le_refl _,
    StackPusherHelper.appendToBuilder_emits "101" hb StackPusherHelper.fresh (le_refl _) (le_refl _)⟩

/-! ### setDict -/

namespace StackPusherHelper

theorem pushed_of_length (c : CodeLines) (cmd : String) (h : 2 ≤ cmd.length) :
    c.pushed cmd = ⟨c.lines ++ [indented c.tabQty cmd], c.tabQty⟩ := by
  have h1 : cmd ≠ "" := by rintro rfl; exact absurd h (by decide)
  have h2 : cmd ≠ "\n" := by rintro rfl; exact absurd h (by decide)
  have h3 : cmd ≠ " " := by rintro rfl; exact absurd h (by decide)
  simp [CodeLines.pushed, h1, h2, h3, indented]

theorem emitted_lines (a : List (Int × String)) : ∀ p : StackPusherHelper,
    (∀ e ∈ a, 2 ≤ e.2.length) →
    (emitted a p).m_code.lines =
      p.m_code.lines ++ a.map (fun e => indented p.m_code.tabQty e.2) := by
  induction a with
  | nil => intro p _; simp [emitted]
  | cons e a ih =>
    intro p h
    obtain ⟨d, cmd⟩ := e
    simp only [emitted]
    rw [ih _ (fun e he => h e (List.mem_cons_of_mem _ he))]
    rw [pushed_of_length _ _ (h (d, cmd) (List.mem_cons_self _ _))]
    simp

theorem push_push (d1 d2 : Int) (cmd1 cmd2 : String) (p : StackPusherHelper)
    (ht : 0 ≤ p.m_code.tabQty) (h1 : 0 ≤ p.m_stack.m_size + d1)
    (h2 : 0 ≤ p.m_stack.m_size + d1 + d2) :
    (push d1 cmd1 p).bind (push d2 cmd2) = some (emitted [(d1, cmd1), (d2, cmd2)] p) := by
  rw [push_eq d1 cmd1 p ht h1]
  exact push_emitted [(d1, cmd1)] d2 cmd2 p ht (by simpa using h2)

theorem doDictOperation_set (env : Collaborators) (pusher : StackPusherHelper)
    (kt : SolType) (kl : Int) (vt : SolType) (b : Bool) (op : SetDictOperation)
    (opc suf : String) (h : specSetSuffix env kl vt b = some suf) :
    DictOperation.doDictOperation env kl vt
      DictSet.onCell DictSet.onSmallStruct DictSet.onLargeStruct DictSet.onAddress
      DictSet.onByteArrayOrString DictSet.onIntegralOrArrayOrVarInt DictSet.onMapOrECC
      ⟨pusher, kt, kl, vt, b, op, opc⟩ = some ⟨pusher, kt, kl, vt, b, op, opc ++ suf⟩ := by
  cases vt
  case array ba =>
    cases ba <;> cases b <;> simp [specSetSuffix] at h <;> subst h <;>
      simp [DictOperation.doDictOperation, SolType.category, isByteArrayOrString, isIntegralType,
        TypeInfo.of, isUsualArray, DictSet.onByteArrayOrString, DictSet.onIntegralOrArrayOrVarInt]
  case struct n =>
    cases b <;> simp [specSetSuffix] at h
    by_cases hc : env.isCompatibleWithSDK kl (SolType.struct n) = true
    · simp [hc] at h
      subst h
      simp [DictOperation.doDictOperation, SolType.category, hc, DictSet.onSmallStruct]
    · simp [hc] at h
      subst h
      simp [DictOperation.doDictOperation, SolType.category, hc, DictSet.onLargeStruct]
  all_goals
    cases b <;> simp [specSetSuffix] at h <;> subst h <;>
      simp [DictOperation.doDictOperation, SolType.category, isByteArrayOrString, isIntegralType,
        TypeInfo.of, isUsualArray, DictSet.onCell, DictSet.onAddress,
        DictSet.onIntegralOrArrayOrVarInt, DictSet.onMapOrECC]

theorem setDict_unfold (env : Collaborators) (keyType valueType : SolType) (b : Bool)
    (op : SetDictOperation) (L : Int) (suf : String) (p : StackPusherHelper)
    (hL : env.lengthOfDictKey keyType = some L)
    (hsuf : specSetSuffix env L valueType b = some suf) :
    setDict env keyType valueType b op p =
      (push 1 ("PUSHINT " ++ toString L) p).bind
        (push op.opDelta ("DICT" ++ env.typeToDictChar keyType ++ op.opName ++ suf)) := by
  simp only [setDict, DictSet.create, DictSet.dictSet, hL, pushInt, Option.bind_eq_bind,
    Option.some_bind]
  rcases push 1 ("PUSHINT " ++ toString L) p with _ | a
  · rfl
  · simp only [Option.some_bind]
    cases op
    all_goals
      rw [doDictOperation_set env _ _ _ _ _ _ _ suf hsuf]
      simp only [Option.some_bind, SetDictOperation.opDelta, SetDictOperation.opName]
      rcases push _ _ a with _ | c <;> rfl

end StackPusherHelper

theorem two_le_length_append (a b : String) (h : 2 ≤ a.length) : 2 ≤ (a ++ b).length := by
  rw [String.length_append]; omega

/-- C4: for a key type of length `L = lengthOfDictKey(key)` and letter
`c = typeToDictChar(key)`, every operation and every value type with a builder
flag that fits it (suffix `suf` of the table), `setDict` emits exactly the two
lines `PUSHINT L` and `DICT<c><SET|REPLACE|ADD><suf>`; the opcode line carries
delta -3 for Set and -2 for Replace and Add, so the modelled size changes by -2
(Set) or -1 (Replace, Add) whatever the value category. With the collaborators
of the specification, key uint32, value uint64 and Set give `PUSHINT 32` and
`DICTUSETB`. -/
theorem StackPusherHelper.setDict_emits (env : Collaborators) (keyType valueType : SolType)
    (b : Bool) (op : SetDictOperation) (L : Int) (suf : String) (p : StackPusherHelper)
    (hL : env.lengthOfDictKey keyType = some L)
    (hsuf : specSetSuffix env L valueType b = some suf)
    (ht : 0 ≤ p.m_code.tabQty) (hs : 2 ≤ p.m_stack.m_size) :
    (∃ q, StackPusherHelper.setDict env keyType valueType b op p = some q ∧
      q = p.emitted [(1, "PUSHINT " ++ toString L),
        (op.opDelta, "DICT" ++ env.typeToDictChar keyType ++ op.opName ++ suf)] ∧
      q.m_code.lines = p.m_code.lines ++
        [indented p.m_code.tabQty ("PUSHINT " ++ toString L),
         indented p.m_code.tabQty ("DICT" ++ env.typeToDictChar keyType ++ op.opName ++ suf)] ∧
      q.history = p.history ++ [(1, "PUSHINT " ++ toString L),
        (match op with
          | .Set => -3
          | .Replace => -2
          | .Add => -2,
         "DICT" ++ env.typeToDictChar keyType ++ op.opName ++ suf)] ∧
      q.m_stack.m_size = p.m_stack.m_size +
        (match op with
          | .Set => -2
          | .Replace => -1
          | .Add => -1)) ∧
    StackPusherHelper.setDict specCollaborators (.integer 32 false) (.integer 64 false) true .Set p
      = some (p.emitted [(1, "PUSHINT 32"), (-3, "DICTUSETB")]) := by
  have hd : 0 ≤ p.m_stack.m_size + 1 + op.opDelta := by
    cases op <;> simp [SetDictOperation.opDelta] <;> omega
  constructor
  · refine ⟨_, ?_, rfl, ?_, ?_, ?_⟩
    · rw [StackPusherHelper.setDict_unfold env keyType valueType b op L suf p hL hsuf]
      exact StackPusherHelper.push_push 1 op.opDelta _ _ p ht (by omega) hd
    · rw [StackPusherHelper.emitted_lines]
      · rfl
      · intro e he
        simp only [List.mem_cons, List.mem_singleton, List.not_mem_nil, or_false] at he
        rcases he with rfl | rfl
        · exact two_le_length_append _ _ (by decide)
        · exact two_le_length_append _ _ (two_le_length_append _ _
            (two_le_length_append _ _ (by decide)))
    · rw [StackPusherHelper.emitted_history]
      cases op <;> rfl
    · rw [StackPusherHelper.emitted_size]
      cases op <;> simp [SetDictOperation.opDelta]
  · have e1 : "PUSHINT " ++ toString (32 : Int) = "PUSHINT 32" := by decide
    have e2 : "DICT" ++ specCollaborators.typeToDictChar (.integer 32 false) ++
        SetDictOperation.Set.opName ++ "B" = "DICTUSETB" := by decide
    have e3 : SetDictOperation.Set.opDelta = -3 := by decide
    rw [StackPusherHelper.setDict_unfold specCollaborators (.integer 32 false)
      (.integer 64 false) true .Set 32 "B" p (by decide) (by decide), e1, e2, e3]
    exact StackPusherHelper.push_push 1 (-3) "PUSHINT 32" "DICTUSETB" p ht (by omega) (by omega)

/-- Witness of C4: collaborators of the specification, key uint32, value
uint64 as a builder, `Add`, on a pusher that holds the three operands. -/
theorem StackPusherHelper.setDict_emits_witness :
    specCollaborators.lengthOfDictKey (.integer 32 false) = some 32 ∧
    specSetSuffix specCollaborators 32 (.integer 64 false) true = some "B" ∧
    (0 : Int) ≤ (StackPusherHelper.ofSize 3).m_code.tabQty ∧
    (2 : Int) ≤ (StackPusherHelper.ofSize 3).m_stack.m_size ∧
    ((∃ q, StackPusherHelper.setDict specCollaborators (.integer 32 false) (.integer 64 false)
        true .Add (StackPusherHelper.ofSize 3) = some q ∧
      q = (StackPusherHelper.ofSize 3).emitted [(1, "PUSHINT " ++ toString (32 : Int)),
        (SetDictOperation.Add.opDelta,
          "DICT" ++ specCollaborators.typeToDictChar (.integer 32 false) ++
            SetDictOperation.Add.opName ++ "B")] ∧
      q.m_code.lines = (StackPusherHelper.ofSize 3).m_code.lines ++
        [indented (StackPusherHelper.ofSize 3).m_code.tabQty ("PUSHINT " ++ toString (32 : Int)),
         indented (StackPusherHelper.ofSize 3).m_code.tabQty
          ("DICT" ++ specCollaborators.typeToDictChar (.integer 32 false) ++
            SetDictOperation.Add.opName ++ "B")] ∧
      q.history = (StackPusherHelper.ofSize 3).history ++ [(1, "PUSHINT " ++ toString (32 : Int)),
        (match SetDictOperation.Add with
          | .Set => -3
          | .Replace => -2
          | .Add => -2,
         "DICT" ++ specCollaborators.typeToDictChar (.integer 32 false) ++
            SetDictOperation.Add.opName ++ "B")] ∧
      q.m_stack.m_size = (StackPusherHelper.ofSize 3).m_stack.m_size +
        (match SetDictOperation.Add with
          | .Set => -2
          | .Replace => -1
          | .Add => -1)) ∧
    StackPusherHelper.setDict specCollaborators (.integer 32 false) (.integer 64 false) true .Set
      (StackPusherHelper.ofSize 3)
      = some ((StackPusherHelper.ofSize 3).emitted [(1, "PUSHINT 32"), (-3, "DICTUSETB")])) :=
  ⟨by decide, by decide, by decide, by decide,
    StackPusherHelper.setDict_emits specCollaborators (.integer 32 false) (.integer 64 false)
      true .Add 32 "B" (StackPusherHelper.ofSize 3) (by decide) (by decide) (by decide)
      (by decide)⟩

/-! ### getDict: the opcode line -/

namespace StackPusherHelper

theorem bind_push_emitted {α : Type} (a : List (Int × String)) (d : Int) (cmd : String)
    (p : StackPusherHelper) (g : StackPusherHelper → Option α)
    (ht : 0 ≤ p.m_code.tabQty) (hs : 0 ≤ p.m_stack.m_size + (a.map Prod.fst).sum + d) :
    (push d cmd (emitted a p)).bind g = g (emitted (a ++ [(d, cmd)]) p) := by
  rw [push_emitted a d cmd p ht hs]; rfl

theorem bind_push {α : Type} (d : Int) (cmd : String)
    (p : StackPusherHelper) (g : StackPusherHelper → Option α)
    (ht : 0 ≤ p.m_code.tabQty) (hs : 0 ≤ p.m_stack.m_size + d) :
    (push d cmd p).bind g = g (emitted [(d, cmd)] p) := by
  rw [push_eq d cmd p ht hs]; rfl

theorem prepareKey_eq (key : SolType) (p : StackPusherHelper)
    (ht : 0 ≤ p.m_code.tabQty) (hs : 0 ≤ p.m_stack.m_size) :
    prepareKeyForDictOperations key p = some (emitted
      (if isStringOrStringLiteralOrBytes key then
        [(1, "PUSH s1"), (0, "HASHCU"), (-1, "POP s2")] else []) p) := by
  unfold prepareKeyForDictOperations
  split
  · simp only [Option.bind_eq_bind, show (-1 + 1 : Int) = 0 from rfl]
    rw [bind_push _ _ _ _ ht (by omega), bind_push_emitted _ _ _ _ _ ht (by simp; omega)]
    exact push_emitted _ _ _ _ ht (by simp; omega)
  · rfl

theorem opcode_get (env : Collaborators) (d : GetFromDict)
    (hop : d.op = .GetFromMapping ∨ d.op = .Fetch ∨ d.op = .Exist ∨ d.op = .GetFromArray) :
    GetFromDict.opcode env d = "DICT" ++ env.typeToDictChar d.keyType ++ "GET" ++
      (if d.valueType.category = .TvmCell ∨
          (d.valueType.category = .Struct ∧
            env.isCompatibleWithSDK d.keyLength d.valueType = false) ∨
          isByteArrayOrString d.valueType = true then "REF" else "") := by
  have happ : ∀ s : String, s ++ "" = s := fun s => String.ext (by simp)
  rcases hop with h | h | h | h <;> simp only [GetFromDict.opcode, h] <;>
    by_cases hc : d.valueType.category = .TvmCell ∨
          (d.valueType.category = .Struct ∧
            env.isCompatibleWithSDK d.keyLength d.valueType = false) ∨
          isByteArrayOrString d.valueType = true <;>
    simp [hc, happ]

theorem emitOpcode_eq (env : Collaborators) (d : GetFromDict)
    (ht : 0 ≤ d.pusher.m_code.tabQty) (hs : 0 ≤ d.pusher.m_stack.m_size)
    (hvt : 0 ≤ d.haveValue.m_code.tabQty) (hvs : 0 ≤ d.haveValue.m_stack.m_size) :
    GetFromDict.emitOpcode env d = some
      { d with
        pusher := d.pusher.emitted
          ((if isStringOrStringLiteralOrBytes d.keyType then
              [(1, "PUSH s1"), (0, "HASHCU"), (-1, "POP s2")] else []) ++
            [(1, "PUSHINT " ++ toString d.keyLength)] ++
            [(-1, GetFromDict.opcode env d)])
        haveValue := d.haveValue.emitted [(0, "SWAP")] } := by
  have hsum : ((if isStringOrStringLiteralOrBytes d.keyType then
      [((1 : Int), "PUSH s1"), (0, "HASHCU"), (-1, "POP s2")] else []).map Prod.fst).sum
      = 0 := by
    split <;> simp
  have hdelta : (if d.op = .GetSetFromMapping ∨ d.op = .GetAddFromMapping ∨
      d.op = .GetReplaceFromMapping then (-4 + 3 : Int) else -3 + 2) = -1 := by
    split <;> rfl
  obtain ⟨pusher, kt, kl, vt, hv, op, rs⟩ := d
  simp only at ht hs hvt hvs hsum hdelta ⊢
  simp only [GetFromDict.emitOpcode, GetFromDict.onPusher, GetFromDict.onHaveValue,
    Option.bind_eq_bind, prepareKey_eq kt pusher ht hs, Option.some_bind, pushInt]
  rw [bind_push_emitted _ _ _ _ _ ht (by rw [hsum]; omega)]
  simp only [Option.some_bind]
  rw [bind_push _ _ _ _ hvt (by omega)]
  simp only [Option.some_bind, hdelta]
  rw [bind_push_emitted _ _ _ _ _ ht (by simp [hsum]; omega)]
  rfl

end StackPusherHelper

/-- C5: for every operation of the GET family (GetFromMapping, Fetch, Exist,
GetFromArray), every key type of length `L` and letter `c`, and every value
type, `getDict` emits (after the lines that hash a string key) `PUSHINT L`
followed by the opcode line `DICT<c>GET<suffix>` with delta -3 + 2 = -1, where
the suffix is `REF` exactly when the value is a TvmCell, a struct that is not
SDK-compatible for this key length, or a byte array or string, and is empty
otherwise; `SWAP` goes to the separate pusher `haveValue`, and `getDict`
continues with the hooks of `doDictOperation` on that state. -/
theorem StackPusherHelper.getDict_opcode_line (env : Collaborators) (keyType valueType : SolType)
    (op : GetDictOperation) (resultAsSliceForStruct : Bool) (L : Int) (p : StackPusherHelper)
    (hL : env.lengthOfDictKey keyType = some L)
    (hop : op = .GetFromMapping ∨ op = .Fetch ∨ op = .Exist ∨ op = .GetFromArray)
    (ht : 0 ≤ p.m_code.tabQty) (hs : 2 ≤ p.m_stack.m_size) :
    ∃ d : GetFromDict,
      (GetFromDict.create env p keyType valueType op resultAsSliceForStruct).bind
        (GetFromDict.emitOpcode env) = some d ∧
      d.pusher = p.emitted
        ((if isStringOrStringLiteralOrBytes keyType then
            [(1, "PUSH s1"), (0, "HASHCU"), (-1, "POP s2")] else []) ++
          [(1, "PUSHINT " ++ toString L),
           (-1, "DICT" ++ env.typeToDictChar keyType ++ "GET" ++
              (if valueType.category = .TvmCell ∨
                  (valueType.category = .Struct ∧
                    env.isCompatibleWithSDK L valueType = false) ∨
                  isByteArrayOrString valueType = true then "REF" else ""))]) ∧
      d.pusher.history = p.history ++
        ((if isStringOrStringLiteralOrBytes keyType then
            [(1, "PUSH s1"), (0, "HASHCU"), (-1, "POP s2")] else []) ++
          [(1, "PUSHINT " ++ toString L),
           (-1, "DICT" ++ env.typeToDictChar keyType ++ "GET" ++
              (if valueType.category = .TvmCell ∨
                  (valueType.category = .Struct ∧
                    env.isCompatibleWithSDK L valueType = false) ∨
                  isByteArrayOrString valueType = true then "REF" else ""))]) ∧
      d.pusher.m_stack.m_size = p.m_stack.m_size ∧
      d.haveValue = StackPusherHelper.fresh.emitted [(0, "SWAP")] ∧
      StackPusherHelper.getDict env keyType valueType op resultAsSliceForStruct p =
        (DictOperation.doDictOperation env L valueType
          (GetFromDict.onCell env) (GetFromDict.onSmallStruct env)
          (GetFromDict.onLargeStruct env) (GetFromDict.onAddress env)
          (GetFromDict.onByteArrayOrString env) (GetFromDict.onIntegralOrArrayOrVarInt env)
          (GetFromDict.onMapOrECC env) d).bind (fun d => some d.pusher) := by
  have hcreate : GetFromDict.create env p keyType valueType op resultAsSliceForStruct =
      some ⟨p, keyType, L, valueType, StackPusherHelper.fresh, op, resultAsSliceForStruct⟩ := by
    simp [GetFromDict.create, hL]
  have hemit := StackPusherHelper.emitOpcode_eq env
    ⟨p, keyType, L, valueType, StackPusherHelper.fresh, op, resultAsSliceForStruct⟩ ht
    (by simp only; omega) (le_refl _) (le_refl _)
  have hopc := StackPusherHelper.opcode_get env
    ⟨p, keyType, L, valueType, StackPusherHelper.fresh, op, resultAsSliceForStruct⟩ hop
  simp only at hemit hopc
  rw [hopc] at hemit
  have h1 := hcreate ▸ (Option.some_bind _ _).trans hemit
  refine ⟨_, h1, ?_, ?_, ?_, rfl, ?_⟩
  · simp only [List.append_assoc]
    rfl
  · simp only [StackPusherHelper.emitted_history, List.append_assoc]
    rfl
  · simp only [StackPusherHelper.emitted_size]
    split <;> simp
  · simp only [StackPusherHelper.getDict, GetFromDict.getDict, hcreate, Option.bind_eq_bind,
      Option.some_bind, hemit]

/-- Witness of C5: collaborators of the specification, key uint32, value
TvmCell, `Fetch`, on a pusher that holds the key and the dictionary. -/
theorem StackPusherHelper.getDict_opcode_line_witness :
    specCollaborators.lengthOfDictKey (.integer 32 false) = some 32 ∧
    (GetDictOperation.Fetch = .GetFromMapping ∨ GetDictOperation.Fetch = .Fetch ∨
      GetDictOperation.Fetch = .Exist ∨ GetDictOperation.Fetch = .GetFromArray) ∧
    (0 : Int) ≤ (StackPusherHelper.ofSize 2).m_code.tabQty ∧
    (2 : Int) ≤ (StackPusherHelper.ofSize 2).m_stack.m_size ∧
    ∃ d : GetFromDict,
      (GetFromDict.create specCollaborators (StackPusherHelper.ofSize 2) (.integer 32 false)
        .tvmCell .Fetch false).bind (GetFromDict.emitOpcode specCollaborators) = some d ∧
      d.pusher = (StackPusherHelper.ofSize 2).emitted
        ((if isStringOrStringLiteralOrBytes (.integer 32 false) then
            [(1, "PUSH s1"), (0, "HASHCU"), (-1, "POP s2")] else []) ++
          [(1, "PUSHINT " ++ toString (32 : Int)),
           (-1, "DICT" ++ specCollaborators.typeToDictChar (.integer 32 false) ++ "GET" ++
              (if SolType.tvmCell.category = .TvmCell ∨
                  (SolType.tvmCell.category = .Struct ∧
                    specCollaborators.isCompatibleWithSDK 32 .tvmCell = false) ∨
                  isByteArrayOrString .tvmCell = true then "REF" else ""))]) ∧
      d.pusher.history = (StackPusherHelper.ofSize 2).history ++
        ((if isStringOrStringLiteralOrBytes (.integer 32 false) then
            [(1, "PUSH s1"), (0, "HASHCU"), (-1, "POP s2")] else []) ++
          [(1, "PUSHINT " ++ toString (32 : Int)),
           (-1, "DICT" ++ specCollaborators.typeToDictChar (.integer 32 false) ++ "GET" ++
              (if SolType.tvmCell.category = .TvmCell ∨
                  (SolType.tvmCell.category = .Struct ∧
                    specCollaborators.isCompatibleWithSDK 32 .tvmCell = false) ∨
                  isByteArrayOrString .tvmCell = true then "REF" else ""))]) ∧
      d.pusher.m_stack.m_size = (StackPusherHelper.ofSize 2).m_stack.m_size ∧
      d.haveValue = StackPusherHelper.fresh.emitted [(0, "SWAP")] ∧
      StackPusherHelper.getDict specCollaborators (.integer 32 false) .tvmCell .Fetch false
          (StackPusherHelper.ofSize 2) =
        (DictOperation.doDictOperation specCollaborators 32 .tvmCell
          (GetFromDict.onCell specCollaborators) (GetFromDict.onSmallStruct specCollaborators)
          (GetFromDict.onLargeStruct specCollaborators) (GetFromDict.onAddress specCollaborators)
          (GetFromDict.onByteArrayOrString specCollaborators)
          (GetFromDict.onIntegralOrArrayOrVarInt specCollaborators)
          (GetFromDict.onMapOrECC specCollaborators) d).bind (fun d => some d.pusher) :=
  ⟨by decide, by decide, by decide, by decide,
    StackPusherHelper.getDict_opcode_line specCollaborators (.integer 32 false) .tvmCell .Fetch
      false 32 (StackPusherHelper.ofSize 2) (by decide) (by decide) (by decide) (by decide)⟩

/-! ### Stack effects of the emitters used by getDict -/

theorem StackEffect.congr {f g : StackPusherHelper → Option StackPusherHelper} {m d t : Int}
    (h : StackEffect f m d t) (e : ∀ p, g p = f p) : StackEffect g m d t := by
  intro p h1 h2 h3 h4
  rw [e p]
  exact h p h1 h2 h3 h4

namespace StackPusherHelper

theorem effect_push0 (cmd : String) : StackEffect (push 0 cmd) 0 0 0 :=
  (StackEffect.push 0 cmd).mono (by decide) rfl rfl

theorem effect_push1 (cmd : String) : StackEffect (push 1 cmd) 0 1 0 :=
  (StackEffect.push 1 cmd).mono (by decide) rfl rfl

theorem effect_pushEach (ls : List String) : StackEffect (pushEach ls) 0 0 0 := by
  induction ls with
  | nil => exact StackEffect.pure
  | cons l ls ih =>
    exact (StackEffect.bind (effect_push0 l) ih (Or.inl (le_refl _))).mono (by decide)
      (by decide) (by decide)

theorem effect_two {f g : StackPusherHelper → Option StackPusherHelper}
    {d1 d2 : Int} (hf : StackEffect f 0 d1 0) (hg : StackEffect g 0 d2 0) (h1 : 0 ≤ d1) :
    StackEffect (fun p => (f p).bind g) 0 (d1 + d2) 0 :=
  (StackEffect.bind hf hg (Or.inl (le_refl _))).mono (by omega) rfl (by decide)

theorem effect_pushCont (cont : CodeLines) (comment : String) :
    StackEffect (pushCont cont comment) 0 1 0 := by
  have h1 : StackEffect (fun p => if comment = "" then push 0 "PUSHCONT \x7b" p
      else push 0 ("PUSHCONT \x7b ; " ++ comment) p) 0 0 0 := by
    by_cases h : comment = ""
    · simp only [h, if_true]; exact effect_push0 _
    · simp only [h, if_false]; exact effect_push0 _
  have h2 : StackEffect (fun p => (pushEach (cont.lines.map (fun l => "\t" ++ l)) p).bind
      (push 1 "\x7d")) 0 (0 + 1) 0 := effect_two (effect_pushEach _) (effect_push1 _) (le_refl _)
  have h3 := effect_two h1 h2 (le_refl _)
  exact (h3.mono (le_refl _) (show (0 : Int) + (0 + 1) = 1 by decide) rfl).congr
    (fun p => by by_cases h : comment = "" <;> simp [pushCont, h])

theorem effect_pushInt (i : Int) : StackEffect (pushInt i) 0 1 0 := effect_push1 _

theorem effect_pushS0 : StackEffect (pushS 0) 0 1 0 :=
  (effect_push1 "DUP").congr (fun p => by simp [pushS])

theorem effect_exchange01 : StackEffect (exchange 0 1) 0 0 0 :=
  (effect_push0 "SWAP").congr (fun p => by rw [exchange]; simp)

theorem effect_startContinuation : StackEffect startContinuation 0 0 1 := by
  intro p h1 _ h3 _
  obtain ⟨c1, hc, hct⟩ := CodeLines.push_isSome p.m_code "PUSHCONT \x7b" h1
  refine ⟨⟨p.m_stack, c1.addTabs 1, p.history⟩, ?_, by simp, ?_, h3, ⟨[], by simp⟩⟩
  · simp [startContinuation, CodeLines.startContinuation, hc]
  · simp [CodeLines.addTabs, hct]

theorem effect_endContinuation : StackEffect endContinuation 0 0 (-1) := by
  intro p _ h2 h3 _
  obtain ⟨c1, hc, hct⟩ := CodeLines.push_isSome (p.m_code.subTabs 1) "\x7d"
    (by simp only [CodeLines.subTabs]; omega)
  have hc1 : c1.tabQty = p.m_code.tabQty + -1 := by
    rw [hct]; simp only [CodeLines.subTabs]; omega
  refine ⟨⟨p.m_stack, c1, p.history⟩, ?_, by simp, hc1, h3, ⟨[], by simp⟩⟩
  have : 0 ≤ c1.tabQty := by omega
  simp [endContinuation, CodeLines.endContinuation, hc, this]

theorem effect_preLoadArray : StackEffect preLoadArray 0 0 0 := by
  have h : StackEffect (pushEach (getlines [] "LDU 32\nPLDDICT\nPAIR\n".data)) 0 0 0 :=
    effect_pushEach _
  have h2 : StackEffect (push (-1 + 1) "") 0 0 0 :=
    (StackEffect.push (-1 + 1) "").mono (by decide) (by decide) rfl
  exact (effect_two h h2 (le_refl _)).mono (le_refl _) (show (0 : Int) + 0 = 0 by decide) rfl

theorem effect_preload_numeric (vt : SolType) (h : (TypeInfo.of vt).isNumeric = true) :
    StackEffect (preload vt) 0 0 0 := by
  have h2 : ∀ cmd, StackEffect (push (-1 + 1) cmd) 0 0 0 := fun cmd =>
    (StackEffect.push (-1 + 1) cmd).mono (by decide) (by decide) rfl
  refine (h2 ((if (TypeInfo.of vt).isSigned then "PLDI " else "PLDU ") ++
    toString (TypeInfo.of vt).numBits)).congr (fun p => ?_)
  cases vt <;> simp [TypeInfo.of] at h <;> rfl

theorem effect_preload_array : StackEffect (preload (.array false)) 0 0 0 :=
  effect_preLoadArray.congr (fun p => by simp [preload, isUsualArray])

theorem effect_preload_varInteger : StackEffect (preload .varInteger) 0 0 0 :=
  ((effect_two (effect_push0 "LDVARUINT32") (effect_push0 "DROP") (le_refl _)).mono
    (le_refl _) (show (0 : Int) + 0 = 0 by decide) rfl).congr
    (fun p => by simp [preload, isUsualArray, SolType.category])

theorem effect_preload_mapping : StackEffect (preload .mapping) 0 0 0 :=
  (effect_push0 "PLDDICT").congr (fun p => by simp [preload, isUsualArray, SolType.category])

theorem effect_preload_ecc : StackEffect (preload .extraCurrencyCollection) 0 0 0 :=
  (effect_push0 "PLDDICT").congr (fun p => by simp [preload, isUsualArray, SolType.category])

end StackPusherHelper

namespace StackPusherHelper

theorem effect_pushDefaultValue (env : Collaborators) (vt : SolType) (hvt : IsPlainDictValue vt) :
    StackEffect (pushDefaultValue env vt false) 0 1 0 := by
  have hNE : StackEffect (fun p => (push 1 "NEWC" p).bind (push 0 "ENDC")) 0 1 0 :=
    (effect_two (effect_push1 _) (effect_push0 _) (by decide)).mono (le_refl _)
      (show (1 : Int) + 0 = 1 by decide) rfl
  have hArr : StackEffect (fun p => (push 1 ("PUSHINT " ++ toString (0 : Int)) p).bind
      (fun p => (push 1 "NEWDICT" p).bind (push (-2 + 1) "PAIR"))) 0 1 0 := by
    have h3 : StackEffect (push (-2 + 1) "PAIR") 1 (-1) 0 :=
      (StackEffect.push (-2 + 1) "PAIR").mono (by decide) (by decide) rfl
    have h23 := StackEffect.bind (effect_push1 "NEWDICT") h3 (Or.inl (le_refl _))
    have h123 := StackEffect.bind (effect_push1 ("PUSHINT " ++ toString (0 : Int))) h23
      (Or.inl (le_refl _))
    exact h123.mono (by decide) (by decide) (by decide)
  cases vt <;> simp only [IsPlainDictValue] at hvt
  case array ba =>
    cases ba
    · exact hArr.congr (fun p => by simp [pushDefaultValue, pushInt])
    · exact hNE.congr (fun p => by simp [pushDefaultValue])
  case tvmCell => exact hNE.congr (fun p => by simp [pushDefaultValue])
  case address =>
    exact (effect_push1 _).congr (fun p => by simp [pushDefaultValue, pushZeroAddress]; rfl)
  case contract =>
    exact (effect_push1 _).congr (fun p => by simp [pushDefaultValue, pushZeroAddress]; rfl)
  case mapping => exact (effect_push1 "NEWDICT").congr (fun p => by simp [pushDefaultValue])
  case extraCurrencyCollection =>
    exact (effect_push1 "NEWDICT").congr (fun p => by simp [pushDefaultValue])
  all_goals exact (effect_push1 "PUSHINT 0").congr (fun p => by simp [pushDefaultValue])

end StackPusherHelper

theorem GetFromDict.Effect.relax {vt : SolType} {op : GetDictOperation}
    {F : GetFromDict → Option GetFromDict} {m d t : Int}
    (h : GetFromDict.Effect vt op F m d t) (m' d' t' : Int) (hm : m ≤ m') (hd : d = d')
    (ht : t = t') : GetFromDict.Effect vt op F m' d' t' := by
  subst hd ht
  exact fun x h1 h2 h3 h4 h5 h6 h7 h8 => h x h1 h2 h3 h4 h5 (le_trans hm h6) h7 h8

theorem GetFromDict.Effect.rewrite {vt : SolType} {op : GetDictOperation}
    {F G : GetFromDict → Option GetFromDict} {m d t : Int}
    (h : GetFromDict.Effect vt op F m d t)
    (e : ∀ x : GetFromDict, x.valueType = vt → x.op = op → G x = F x) :
    GetFromDict.Effect vt op G m d t := by
  intro x h1 h2 h3 h4 h5 h6 h7 h8
  rw [e x h1 h2]
  exact h x h1 h2 h3 h4 h5 h6 h7 h8

theorem GetFromDict.Effect.andThen {vt : SolType} {op : GetDictOperation}
    {F G : GetFromDict → Option GetFromDict} {m1 d1 t1 m2 d2 t2 : Int}
    (hF : GetFromDict.Effect vt op F m1 d1 t1) (hG : GetFromDict.Effect vt op G m2 d2 t2)
    (ht1 : 0 ≤ t1 ∨ t2 ≤ 0) :
    GetFromDict.Effect vt op (fun x => (F x).bind G) (max m1 (m2 - d1)) (d1 + d2) (t1 + t2) := by
  intro x h1 h2 h3 h4 h5 h6 h7 h8
  obtain ⟨y, hy, a1, a2, a3, a4, a5, a6, a7, n1, a8⟩ :=
    hF x h1 h2 h3 (by omega) h5 (le_trans (le_max_left _ _) h6) h7 h8
  have hm2 : m2 - d1 ≤ x.pusher.m_stack.m_size := le_trans (le_max_right _ _) h6
  obtain ⟨z, hz, b1, b2, b3, b4, b5, b6, b7, n2, b8⟩ :=
    hG y a1 a2 (by omega) (by omega) a5 (by omega) a6 a7
  exact ⟨z, by simp [hy, hz], b1, b2, by omega, by omega, b5, b6, b7,
    ⟨n1 ++ n2, by rw [b8, a8]; simp⟩⟩

theorem GetFromDict.Effect.onPusher {vt : SolType} {op : GetDictOperation}
    {f : GetFromDict → StackPusherHelper → Option StackPusherHelper} {m d t : Int}
    (h : ∀ x : GetFromDict, x.valueType = vt → x.op = op → StackEffect (f x) m d t) :
    GetFromDict.Effect vt op (fun x => GetFromDict.onPusher (f x) x) m d t := by
  intro x h1 h2 h3 h4 h5 h6 h7 h8
  obtain ⟨q, hq, a1, a2, a3, a4⟩ := h x h1 h2 x.pusher h3 h4 h5 h6
  exact ⟨{ x with pusher := q }, by simp [GetFromDict.onPusher, hq], h1, h2, a1, a2, a3, h7, h8,
    a4⟩

theorem GetFromDict.Effect.onHaveValue {vt : SolType} {op : GetDictOperation}
    {f : GetFromDict → StackPusherHelper → Option StackPusherHelper} {d : Int}
    (h : ∀ x : GetFromDict, x.valueType = vt → x.op = op → StackEffect (f x) 0 d 0) :
    GetFromDict.Effect vt op (fun x => GetFromDict.onHaveValue (f x) x) 0 0 0 := by
  intro x h1 h2 h3 _ h5 _ h7 h8
  obtain ⟨q, hq, _, a2, a3, _⟩ := h x h1 h2 x.haveValue h7 (by omega) h8 h8
  exact ⟨{ x with haveValue := q }, by simp [GetFromDict.onHaveValue, hq], h1, h2,
    by simp, by simp, h5, by simp only; omega, a3, ⟨[], by simp⟩⟩

namespace GetFromDict

theorem plain_not_struct (vt : SolType) (h : IsPlainDictValue vt) : vt.category ≠ .Struct := by
  cases vt <;> simp [IsPlainDictValue] at h <;> simp [SolType.category]

theorem fresh_run {f : StackPusherHelper → Option StackPusherHelper} {d : Int}
    (h : StackEffect f 0 d 0) :
    ∃ q, f StackPusherHelper.fresh = some q := by
  obtain ⟨q, hq, _⟩ := h StackPusherHelper.fresh (le_refl _) (le_refl _) (le_refl _) (le_refl _)
  exact ⟨q, hq⟩

/-- A step that first builds a sub-pusher and then emits on the pusher of the
operation. -/
theorem effect_sub (vt : SolType) (op : GetDictOperation)
    (sub : GetFromDict → Option StackPusherHelper)
    (f : StackPusherHelper → GetFromDict → StackPusherHelper → Option StackPusherHelper)
    (m d t : Int)
    (hsub : ∀ x : GetFromDict, x.valueType = vt → x.op = op → ∃ q, sub x = some q)
    (hf : ∀ q x, StackEffect (f q x) m d t) :
    Effect vt op (fun x => (sub x).bind fun q => onPusher (f q x) x) m d t := by
  intro x h1 h2 h3 h4 h5 h6 h7 h8
  obtain ⟨q, hq⟩ := hsub x h1 h2
  obtain ⟨r, hr, a1, a2, a3, a4⟩ := hf q x x.pusher h3 h4 h5 h6
  exact ⟨{ x with pusher := r }, by simp [hq, onPusher, hr], h1, h2, a1, a2, a3, h7, h8, a4⟩

theorem effect_pcwd (env : Collaborators) (vt : SolType) (op : GetDictOperation)
    (hvt : IsPlainDictValue vt) (flag : StatusFlag) (doSwap : Bool) :
    Effect vt op (pushContinuationWithDefaultValue env flag doSwap) 0 1 0 := by
  have hd := StackPusherHelper.effect_pushDefaultValue env vt hvt
  have hns := plain_not_struct vt hvt
  have hflag : ∃ dl : Int, 0 ≤ dl ∧ StackEffect (fun q => match flag with
      | .True => StackPusherHelper.push 1 "TRUE" q
      | .False => StackPusherHelper.push 1 "FALSE" q
      | .Non => some q) 0 dl 0 := by
    cases flag
    · exact ⟨1, by decide, StackPusherHelper.effect_push1 _⟩
    · exact ⟨1, by decide, StackPusherHelper.effect_push1 _⟩
    · exact ⟨0, le_refl _, StackEffect.pure⟩
  have hswap : StackEffect (fun q => if doSwap then StackPusherHelper.exchange 0 1 q
      else some q) 0 0 0 := by
    cases doSwap
    · exact StackEffect.pure
    · exact StackPusherHelper.effect_exchange01
  obtain ⟨dl, hdl, hflag⟩ := hflag
  have hchain := StackPusherHelper.effect_two hd
    (StackPusherHelper.effect_two hflag hswap hdl) (by decide)
  refine (effect_sub vt op
    (fun _ => ((StackPusherHelper.pushDefaultValue env vt false StackPusherHelper.fresh).bind
      fun q => (match flag with
        | .True => StackPusherHelper.push 1 "TRUE" q
        | .False => StackPusherHelper.push 1 "FALSE" q
        | .Non => some q).bind fun q =>
          if doSwap then StackPusherHelper.exchange 0 1 q else some q))
    (fun q _ => StackPusherHelper.pushCont q.code "") 0 1 0
    (fun _ _ _ => fresh_run hchain)
    (fun q _ => StackPusherHelper.effect_pushCont q.code "")).rewrite ?_
  intro x h1 _
  have hc : x.valueType.category ≠ .Struct := h1 ▸ hns
  cases flag <;> cases doSwap <;>
    simp [pushContinuationWithDefaultValue, onPusher, hc, hns, h1, Option.bind_assoc]

theorem effect_fetchValue (env : Collaborators) (vt : SolType) (op : GetDictOperation)
    (hvt : IsPlainDictValue vt) :
    Effect vt op (fetchValue env) 0 0 0 := by
  have hd := StackPusherHelper.effect_pushDefaultValue env vt hvt
  have hns := plain_not_struct vt hvt
  have hchain : ∀ (nv : StackPusherHelper) (x : GetFromDict),
      StackEffect (fun p => (StackPusherHelper.push 0 "DUP" p).bind fun p =>
        (StackPusherHelper.pushCont x.haveValue.code "" p).bind fun p =>
          (StackPusherHelper.pushCont nv.code "" p).bind
            (StackPusherHelper.push (-2) "IFELSE")) 0 0 0 := by
    intro nv x
    have h34 : StackEffect (fun p => (StackPusherHelper.pushCont nv.code "" p).bind
        (StackPusherHelper.push (-2) "IFELSE")) 1 (-1) 0 :=
      (StackEffect.bind (StackPusherHelper.effect_pushCont nv.code "")
        (StackEffect.push (-2) "IFELSE") (Or.inl (le_refl _))).mono (by decide) (by decide)
        (by decide)
    have h234 : StackEffect (fun p => (StackPusherHelper.pushCont x.haveValue.code "" p).bind
        fun p => (StackPusherHelper.pushCont nv.code "" p).bind
          (StackPusherHelper.push (-2) "IFELSE")) 0 0 0 :=
      (StackEffect.bind (StackPusherHelper.effect_pushCont x.haveValue.code "") h34
        (Or.inl (le_refl _))).mono (by decide) (by decide) (by decide)
    exact (StackPusherHelper.effect_two (StackPusherHelper.effect_push0 "DUP") h234
      (le_refl _)).mono (le_refl _) (by decide) rfl
  refine (effect_sub vt op
    (fun _ => StackPusherHelper.pushDefaultValue env vt false StackPusherHelper.fresh)
    _ 0 0 0 (fun _ _ _ => fresh_run hd) hchain).rewrite ?_
  intro x h1 _
  have hc : x.valueType.category ≠ .Struct := h1 ▸ hns
  simp [fetchValue, onPusher, hc, hns, h1, Option.bind_assoc]

theorem effect_checkExist (vt : SolType) (op : GetDictOperation) :
    Effect vt op checkExist 1 (-1) 0 := by
  have hnip : StackEffect (fun p => (StackPusherHelper.push 1 "" p).bind
      (StackPusherHelper.push (-1) "NIP")) 0 0 0 :=
    (StackEffect.bind (StackPusherHelper.effect_push1 "") (StackEffect.push (-1) "NIP")
      (Or.inl (le_refl _))).mono (by decide) (by decide) (by decide)
  have hchain : ∀ (nip : StackPusherHelper) (_ : GetFromDict),
      StackEffect (fun p => (StackPusherHelper.push 0 "DUP" p).bind fun p =>
        (StackPusherHelper.pushCont nip.code "" p).bind (StackPusherHelper.push (-2) "IF"))
      1 (-1) 0 := by
    intro nip _
    have h23 : StackEffect (fun p => (StackPusherHelper.pushCont nip.code "" p).bind
        (StackPusherHelper.push (-2) "IF")) 1 (-1) 0 :=
      (StackEffect.bind (StackPusherHelper.effect_pushCont nip.code "")
        (StackEffect.push (-2) "IF") (Or.inl (le_refl _))).mono (by decide) (by decide)
        (by decide)
    exact (StackEffect.bind (StackPusherHelper.effect_push0 "DUP") h23
      (Or.inl (le_refl _))).mono (by decide) (by decide) (by decide)
  refine (effect_sub vt op
    (fun _ => (StackPusherHelper.push 1 "" StackPusherHelper.fresh).bind
      (StackPusherHelper.push (-1) "NIP"))
    _ 1 (-1) 0 (fun _ _ _ => fresh_run hnip) hchain).rewrite ?_
  intro x _ _
  simp [checkExist, onPusher, Option.bind_assoc]

end GetFromDict

namespace GetFromDict

theorem effect_seq (vt : SolType) (op : GetDictOperation)
    (sub : GetFromDict → Option StackPusherHelper)
    (F : StackPusherHelper → GetFromDict → Option GetFromDict) (m d t : Int)
    (hsub : ∀ x : GetFromDict, x.valueType = vt → x.op = op → ∃ q, sub x = some q)
    (hF : ∀ q, Effect vt op (F q) m d t) :
    Effect vt op (fun x => (sub x).bind fun q => F q x) m d t := by
  intro x h1 h2 h3 h4 h5 h6 h7 h8
  obtain ⟨q, hq⟩ := hsub x h1 h2
  simp only [hq, Option.some_bind]
  exact hF q x h1 h2 h3 h4 h5 h6 h7 h8

theorem effect_P (vt : SolType) (op : GetDictOperation) (d : Int) (cmd : String) :
    Effect vt op (fun x => onPusher (StackPusherHelper.push d cmd) x) (-d) d 0 :=
  Effect.onPusher (fun _ _ _ => StackEffect.push d cmd)

theorem effect_cellLike (env : Collaborators) (vt : SolType) (hvt : IsPlainDictValue vt)
    (op : GetDictOperation) :
    Effect vt op (onByteArrayOrString env) 1 op.netDelta 0 := by
  have hS : Effect vt op (fun x => onPusher (StackPusherHelper.pushS 0) x) 0 1 0 :=
    Effect.onPusher (fun _ _ _ => StackPusherHelper.effect_pushS0)
  cases op
  case GetFromMapping =>
    exact ((Effect.andThen (effect_pcwd env vt _ hvt .Non false) (effect_P vt _ (-2) "IFNOT")
      (Or.inl (le_refl _))).relax 1 (-1) 0 (by decide) (by decide) (by decide)).rewrite
      (fun x _ hop => by simp only [onByteArrayOrString, hop]; rfl)
  case GetSetFromMapping =>
    exact ((Effect.andThen hS (Effect.andThen (effect_pcwd env vt _ hvt .Non true)
      (effect_P vt _ (-2) "IFNOT") (Or.inl (le_refl _))) (Or.inl (le_refl _))).relax 1 0 0
      (by decide) (by decide) (by decide)).rewrite
      (fun x _ hop => by simp only [onByteArrayOrString, hop]; rfl)
  case GetReplaceFromMapping =>
    exact ((Effect.andThen hS (Effect.andThen (effect_pcwd env vt _ hvt .Non true)
      (effect_P vt _ (-2) "IFNOT") (Or.inl (le_refl _))) (Or.inl (le_refl _))).relax 1 0 0
      (by decide) (by decide) (by decide)).rewrite
      (fun x _ hop => by simp only [onByteArrayOrString, hop]; rfl)
  case GetAddFromMapping =>
    exact ((Effect.andThen hS (Effect.andThen (effect_pcwd env vt _ hvt .Non true)
      (effect_P vt _ (-2) "IF") (Or.inl (le_refl _))) (Or.inl (le_refl _))).relax 1 0 0
      (by decide) (by decide) (by decide)).rewrite
      (fun x _ hop => by simp only [onByteArrayOrString, hop]; rfl)
  case GetFromArray =>
    exact ((effect_P vt _ (-1) ("THROWIFNOT " ++ toString env.ArrayIndexOutOfRange)).relax
      1 (-1) 0 (by decide) (by decide) (by decide)).rewrite
      (fun x _ hop => by simp only [onByteArrayOrString, hop])
  case Fetch =>
    exact ((effect_fetchValue env vt _ hvt).relax 1 0 0 (by decide) (by decide)
      (by decide)).rewrite (fun x _ hop => by simp only [onByteArrayOrString, hop])
  case Exist =>
    exact (effect_checkExist vt _).rewrite
      (fun x _ hop => by simp only [onByteArrayOrString, hop])

theorem onCell_eq (env : Collaborators) (x : GetFromDict) :
    onCell env x = onByteArrayOrString env x := by
  unfold onCell onByteArrayOrString
  cases x.op <;> rfl

end GetFromDict

namespace GetFromDict

theorem effect_intLike (env : Collaborators) (vt : SolType) (hvt : IsPlainDictValue vt)
    (hpre : StackEffect (StackPusherHelper.preload vt) 0 0 0) (op : GetDictOperation) :
    Effect vt op (onIntegralOrArrayOrVarInt env) 1 op.netDelta 0 := by
  have hPre : Effect vt op (fun x => onPusher (StackPusherHelper.preload x.valueType) x) 0 0 0 :=
    Effect.onPusher (fun x h _ => h ▸ hpre)
  have hStart : Effect vt op (fun x => onPusher StackPusherHelper.startContinuation x) 0 0 1 :=
    Effect.onPusher (fun _ _ _ => StackPusherHelper.effect_startContinuation)
  have hEnd : Effect vt op (fun x => onPusher StackPusherHelper.endContinuation x) 0 0 (-1) :=
    Effect.onPusher (fun _ _ _ => StackPusherHelper.effect_endContinuation)
  cases op
  case GetFromMapping =>
    have hrest : ∀ q : StackPusherHelper, Effect vt .GetFromMapping
        (fun x => (onPusher (StackPusherHelper.pushCont q.code "") x).bind fun x =>
          (pushContinuationWithDefaultValue env .Non false x).bind fun x =>
            onPusher (StackPusherHelper.push (-3) "IFELSE") x) 1 (-1) 0 := fun q =>
      (Effect.andThen (Effect.onPusher (fun _ _ _ => StackPusherHelper.effect_pushCont q.code ""))
        (Effect.andThen (effect_pcwd env vt _ hvt .Non false) (effect_P vt _ (-3) "IFELSE")
          (Or.inl (le_refl _))) (Or.inl (le_refl _))).relax 1 (-1) 0
        (by decide) (by decide) (by decide)
    exact (effect_seq vt _ (fun x => StackPusherHelper.preload x.valueType StackPusherHelper.fresh)
      _ 1 (-1) 0 (fun x h _ => fresh_run (h ▸ hpre)) hrest).rewrite
      (fun x _ hop => by simp only [onIntegralOrArrayOrVarInt, hop]; rfl)
  case GetSetFromMapping =>
    exact ((Effect.andThen hStart (Effect.andThen hPre (Effect.andThen (effect_P vt _ 0 "TRUE")
      (Effect.andThen hEnd (Effect.andThen (effect_pcwd env vt _ hvt .False false)
        (Effect.andThen (effect_P vt _ (-1) "") (effect_P vt _ 0 "IFELSE") (Or.inl (le_refl _)))
        (Or.inl (le_refl _))) (Or.inr (by decide))) (Or.inl (le_refl _)))
      (Or.inl (le_refl _))) (Or.inl (by decide))).relax 1 0 0
      (by decide) (by decide) (by decide)).rewrite
      (fun x _ hop => by simp only [onIntegralOrArrayOrVarInt, hop]; rfl)
  case GetReplaceFromMapping =>
    exact ((Effect.andThen hStart (Effect.andThen hPre (Effect.andThen (effect_P vt _ 0 "TRUE")
      (Effect.andThen hEnd (Effect.andThen (effect_pcwd env vt _ hvt .False false)
        (Effect.andThen (effect_P vt _ (-1) "") (effect_P vt _ 0 "IFELSE") (Or.inl (le_refl _)))
        (Or.inl (le_refl _))) (Or.inr (by decide))) (Or.inl (le_refl _)))
      (Or.inl (le_refl _))) (Or.inl (by decide))).relax 1 0 0
      (by decide) (by decide) (by decide)).rewrite
      (fun x _ hop => by simp only [onIntegralOrArrayOrVarInt, hop]; rfl)
  case GetAddFromMapping =>
    exact ((Effect.andThen (effect_pcwd env vt _ hvt .True false) (Effect.andThen hStart
      (Effect.andThen hPre (Effect.andThen (effect_P vt _ 0 "FALSE")
        (Effect.andThen hEnd (effect_P vt _ (-1) "IFELSE") (Or.inr (by decide)))
        (Or.inl (le_refl _))) (Or.inl (le_refl _))) (Or.inl (by decide)))
      (Or.inl (le_refl _))).relax 1 0 0 (by decide) (by decide) (by decide)).rewrite
      (fun x _ hop => by simp only [onIntegralOrArrayOrVarInt, hop]; rfl)
  case GetFromArray =>
    exact ((Effect.andThen (effect_P vt _ (-1) ("THROWIFNOT " ++ toString env.ArrayIndexOutOfRange))
      hPre (Or.inl (le_refl _))).relax 1 (-1) 0 (by decide) (by decide) (by decide)).rewrite
      (fun x _ hop => by simp only [onIntegralOrArrayOrVarInt, hop]; rfl)
  case Fetch =>
    have hHV : Effect vt .Fetch
        (fun x => onHaveValue (StackPusherHelper.preload x.valueType) x) 0 0 0 :=
      Effect.onHaveValue (fun x h _ => h ▸ hpre)
    exact ((Effect.andThen hHV (effect_fetchValue env vt _ hvt) (Or.inl (le_refl _))).relax 1 0 0
      (by decide) (by decide) (by decide)).rewrite
      (fun x _ hop => by simp only [onIntegralOrArrayOrVarInt, hop]; rfl)
  case Exist =>
    exact (effect_checkExist vt _).rewrite
      (fun x _ hop => by simp only [onIntegralOrArrayOrVarInt, hop])

end GetFromDict

/-! ### getDict: net stack delta -/

namespace GetFromDict

theorem doDictOperation_plain (env : Collaborators) (kl : Int) (vt : SolType)
    (hvt : IsPlainDictValue vt) (x : GetFromDict) :
    DictOperation.doDictOperation env kl vt (onCell env) (onSmallStruct env)
      (onLargeStruct env) (onAddress env) (onByteArrayOrString env)
      (onIntegralOrArrayOrVarInt env) (onMapOrECC env) x =
      if vt.category = .TvmCell ∨ vt.category = .Address ∨ vt.category = .Contract ∨
        isByteArrayOrString vt = true then
        onByteArrayOrString env x
      else onIntegralOrArrayOrVarInt env x := by
  cases vt <;> simp only [IsPlainDictValue] at hvt
  case array ba =>
    cases ba <;>
      simp [DictOperation.doDictOperation, SolType.category, isByteArrayOrString,
        isIntegralType, TypeInfo.of, isUsualArray]
  all_goals
    simp [DictOperation.doDictOperation, SolType.category, isByteArrayOrString,
      isIntegralType, TypeInfo.of, isUsualArray, onCell_eq, onAddress, onMapOrECC]

theorem effect_preload_plain (vt : SolType) (hvt : IsPlainDictValue vt)
    (h : ¬ (vt.category = .TvmCell ∨ vt.category = .Address ∨ vt.category = .Contract ∨
        isByteArrayOrString vt = true)) :
    StackEffect (StackPusherHelper.preload vt) 0 0 0 := by
  cases vt <;> simp only [IsPlainDictValue] at hvt
  case array ba =>
    cases ba
    · exact StackPusherHelper.effect_preload_array
    · exact absurd (Or.inr (Or.inr (Or.inr rfl))) h
  case tvmCell => exact absurd (Or.inl rfl) h
  case address => exact absurd (Or.inr (Or.inl rfl)) h
  case contract => exact absurd (Or.inr (Or.inr (Or.inl rfl))) h
  case varInteger => exact StackPusherHelper.effect_preload_varInteger
  case mapping => exact StackPusherHelper.effect_preload_mapping
  case extraCurrencyCollection => exact StackPusherHelper.effect_preload_ecc
  all_goals exact StackPusherHelper.effect_preload_numeric _ rfl

theorem effect_plain (env : Collaborators) (kl : Int) (vt : SolType)
    (hvt : IsPlainDictValue vt) (op : GetDictOperation) :
    Effect vt op (DictOperation.doDictOperation env kl vt (onCell env) (onSmallStruct env)
      (onLargeStruct env) (onAddress env) (onByteArrayOrString env)
      (onIntegralOrArrayOrVarInt env) (onMapOrECC env)) 1 op.netDelta 0 := by
  by_cases h : vt.category = .TvmCell ∨ vt.category = .Address ∨ vt.category = .Contract ∨
        isByteArrayOrString vt = true
  · exact (effect_cellLike env vt hvt op).rewrite
      (fun x _ _ => by rw [doDictOperation_plain env kl vt hvt x, if_pos h])
  · exact (effect_intLike env vt hvt (effect_preload_plain vt hvt h) op).rewrite
      (fun x _ _ => by rw [doDictOperation_plain env kl vt hvt x, if_neg h])

end GetFromDict

/-- C6: for every supported value type that is not a struct, every key type
(of length `L`) and every operation, on a pusher that holds the operands of the
operation `getDict` succeeds (no assertion of the stack model fires) and
changes the modelled stack size by an amount that depends on the operation
only: -1 for GetFromMapping, GetFromArray and Exist, 0 for Fetch and for
GetSetFromMapping, GetAddFromMapping and GetReplaceFromMapping. The opcode line
is recorded, right after `PUSHINT L`, with `-3 + 2` for the GET family and
`-4 + 3` for the SETGET family. -/
theorem StackPusherHelper.getDict_net_delta (env : Collaborators) (keyType valueType : SolType)
    (op : GetDictOperation) (resultAsSliceForStruct : Bool) (L : Int) (p : StackPusherHelper)
    (hL : env.lengthOfDictKey keyType = some L) (hvt : IsPlainDictValue valueType)
    (ht : 0 ≤ p.m_code.tabQty) (hs : op.operands ≤ p.m_stack.m_size) :
    ∃ q, StackPusherHelper.getDict env keyType valueType op resultAsSliceForStruct p = some q ∧
      q.m_stack.m_size = p.m_stack.m_size + op.netDelta ∧
      q.m_code.tabQty = p.m_code.tabQty ∧
      ∃ rest, q.history = p.history ++
        ((if isStringOrStringLiteralOrBytes keyType then
            [(1, "PUSH s1"), (0, "HASHCU"), (-1, "POP s2")] else []) ++
          [(1, "PUSHINT " ++ toString L),
           (match op with
            | .GetSetFromMapping | .GetAddFromMapping | .GetReplaceFromMapping => -4 + 3
            | .GetFromMapping | .GetFromArray | .Exist | .Fetch => -3 + 2,
            GetFromDict.opcode env ⟨p, keyType, L, valueType, StackPusherHelper.fresh, op,
              resultAsSliceForStruct⟩)]) ++ rest := by
  have hs2 : 2 ≤ p.m_stack.m_size := by
    cases op <;> simp only [GetDictOperation.operands] at hs <;> omega
  have hcreate : GetFromDict.create env p keyType valueType op resultAsSliceForStruct =
      some ⟨p, keyType, L, valueType, StackPusherHelper.fresh, op, resultAsSliceForStruct⟩ := by
    simp [GetFromDict.create, hL]
  have hemit := StackPusherHelper.emitOpcode_eq env
    ⟨p, keyType, L, valueType, StackPusherHelper.fresh, op, resultAsSliceForStruct⟩ ht
    (by simp only; omega) (le_refl _) (le_refl _)
  simp only at hemit
  have hsum : ((if isStringOrStringLiteralOrBytes keyType then
      [((1 : Int), "PUSH s1"), (0, "HASHCU"), (-1, "POP s2")] else []).map Prod.fst).sum
      = 0 := by
    split <;> simp
  have key : ∀ script : List (Int × String), (script.map Prod.fst).sum = 0 →
      GetFromDict.emitOpcode env
        ⟨p, keyType, L, valueType, StackPusherHelper.fresh, op, resultAsSliceForStruct⟩ =
        some ⟨p.emitted script, keyType, L, valueType,
          StackPusherHelper.fresh.emitted [(0, "SWAP")], op, resultAsSliceForStruct⟩ →
      ∃ q, StackPusherHelper.getDict env keyType valueType op resultAsSliceForStruct p = some q ∧
        q.m_stack.m_size = p.m_stack.m_size + op.netDelta ∧
        q.m_code.tabQty = p.m_code.tabQty ∧
        ∃ rest, q.history = p.history ++ script ++ rest := by
    intro script hsc hem
    obtain ⟨e, he, _, _, e3, e4, _, _, _, new, e8⟩ :=
      GetFromDict.effect_plain env L valueType hvt op
        ⟨p.emitted script, keyType, L, valueType,
          StackPusherHelper.fresh.emitted [(0, "SWAP")], op, resultAsSliceForStruct⟩ rfl rfl
        (by simp only [StackPusherHelper.emitted_tabQty]; exact ht)
        (by simp only [StackPusherHelper.emitted_tabQty]; omega)
        (by simp only [StackPusherHelper.emitted_size, hsc]; omega)
        (by simp only [StackPusherHelper.emitted_size, hsc]; omega)
        (by simp only [StackPusherHelper.emitted_tabQty]; exact le_refl _)
        (by simp only [StackPusherHelper.emitted_size]; decide)
    refine ⟨e.pusher, ?_, ?_, ?_, new, ?_⟩
    · simp only [StackPusherHelper.getDict, GetFromDict.getDict, hcreate, Option.bind_eq_bind,
        Option.some_bind, hem]
      rw [he]
      rfl
    · rw [e3]; simp only [StackPusherHelper.emitted_size, hsc]; omega
    · rw [e4]; simp only [StackPusherHelper.emitted_tabQty]; omega
    · rw [e8]; simp only [StackPusherHelper.emitted_history]
  obtain ⟨q, h1, h2, h3, rest, h4⟩ := key _ (by simp [hsum]) hemit
  refine ⟨q, h1, h2, h3, rest, ?_⟩
  rw [h4]
  cases op <;> simp

/-- Witness of C6: collaborators of the specification, key uint32, value
uint64, `GetAddFromMapping`, on a pusher that holds value, key and dictionary. -/
theorem StackPusherHelper.getDict_net_delta_witness :
    specCollaborators.lengthOfDictKey (.integer 32 false) = some 32 ∧
    IsPlainDictValue (.integer 64 false) ∧
    (0 : Int) ≤ (StackPusherHelper.ofSize 3).m_code.tabQty ∧
    GetDictOperation.GetAddFromMapping.operands ≤ (StackPusherHelper.ofSize 3).m_stack.m_size ∧
    ∃ q, StackPusherHelper.getDict specCollaborators (.integer 32 false) (.integer 64 false)
        .GetAddFromMapping false (StackPusherHelper.ofSize 3) = some q ∧
      q.m_stack.m_size = (StackPusherHelper.ofSize 3).m_stack.m_size +
        GetDictOperation.GetAddFromMapping.netDelta ∧
      q.m_code.tabQty = (StackPusherHelper.ofSize 3).m_code.tabQty ∧
      ∃ rest, q.history = (StackPusherHelper.ofSize 3).history ++
        ((if isStringOrStringLiteralOrBytes (.integer 32 false) then
            [(1, "PUSH s1"), (0, "HASHCU"), (-1, "POP s2")] else []) ++
          [(1, "PUSHINT " ++ toString (32 : Int)),
           (match GetDictOperation.GetAddFromMapping with
            | .GetSetFromMapping | .GetAddFromMapping | .GetReplaceFromMapping => -4 + 3
            | .GetFromMapping | .GetFromArray | .Exist | .Fetch => -3 + 2,
            GetFromDict.opcode specCollaborators ⟨StackPusherHelper.ofSize 3, .integer 32 false,
              32, .integer 64 false, StackPusherHelper.fresh, .GetAddFromMapping, false⟩)]) ++
          rest :=
  ⟨by decide, trivial, by decide, by decide,
    StackPusherHelper.getDict_net_delta specCollaborators (.integer 32 false)
      (.integer 64 false) .GetAddFromMapping false 32 (StackPusherHelper.ofSize 3)
      (by decide) trivial (by decide) (by decide)⟩

/-! ### Message headers -/

theorem bitsOf_append (a b : String) : bitsOf (a ++ b) = bitsOf a ++ bitsOf b := by
  simp [bitsOf, String.data_append]

theorem bitsOf_stdString (w : Int) :
    bitsOf (stdString w '0') = List.replicate w.toNat (HeaderSym.bit '0') := by
  simp [bitsOf, stdString_data]

theorem headerItems_flatten (R : Finset Int) (C : Int → Option String) :
    ∀ (ws : List Int) (k : Int) (lit : String),
      MsgItem.flatten (headerItems R C k ws lit).1 ++ bitsOf (headerItems R C k ws lit).2 =
        bitsOf lit ++ headerLayout R C k ws := by
  intro ws
  induction ws with
  | nil => intro k lit; simp [headerItems, headerLayout, MsgItem.flatten]
  | cons w ws ih =>
    intro k lit
    simp only [headerItems, headerLayout]
    cases hC : C k with
    | some c =>
      simp only []
      rw [ih (k + 1) (lit ++ c), bitsOf_append, List.append_assoc]
    | none =>
      simp only []
      by_cases hk : k ∈ R
      · simp only [hk, if_true, MsgItem.flatten]
        have := ih (k + 1) ""
        simp only [bitsOf, String.data, List.map_nil, List.nil_append] at this ⊢
        simp [this]
      · simp only [hk, if_false]
        rw [ih (k + 1) (lit ++ stdString w '0'), bitsOf_append, bitsOf_stdString,
          List.append_assoc]

theorem headerItems_alternates (R : Finset Int) (C : Int → Option String) :
    ∀ (ws : List Int) (k : Int) (lit : String),
      MsgItem.Alternates (headerItems R C k ws lit).1 := by
  intro ws
  induction ws with
  | nil => intro k lit; simp [headerItems, MsgItem.Alternates]
  | cons w ws ih =>
    intro k lit
    simp only [headerItems]
    cases hC : C k with
    | some c => exact ih _ _
    | none =>
      simp only []
      by_cases hk : k ∈ R
      · simp only [hk, if_true, MsgItem.Alternates]
        exact ih _ _
      · simp only [hk, if_false]
        exact ih _ _

namespace StackPusherHelper

theorem body_runtime (env : Collaborators) (R : Finset Int) (C : Int → Option String)
    (k w : Int) (st : MsgInfoState) (hC : C k = none) (hk : k ∈ R)
    (hk4 : k = 1 ∨ k = 4 ∨ k = 5 ∨ k = 6) :
    int_msg_info.body env R C k w st =
      ((appendToBuilder st.bitString st.pusher).bind (MsgItem.storeField k)).map
        (fun q => ⟨"", st.maxBitStringSize + int_msg_info.counted env k, q⟩) := by
  rcases hk4 with rfl | rfl | rfl | rfl
  · simp only [int_msg_info.body, hC, hk, MsgItem.storeField, int_msg_info.counted]
    simp [TvmConst.int_msg_info.bounce]
    rcases appendToBuilder st.bitString st.pusher with _ | p1
    · rfl
    · simp only [Option.some_bind]
      rcases push (-1) "STI 1" p1 with _ | p2 <;> rfl
  · simp only [int_msg_info.body, hC, hk, MsgItem.storeField, int_msg_info.counted]
    simp [TvmConst.int_msg_info.bounce, TvmConst.int_msg_info.dest]
    rcases appendToBuilder st.bitString st.pusher with _ | p1
    · rfl
    · simp only [Option.some_bind]
      rcases push (-1) "STSLICE" p1 with _ | p2 <;> rfl
  · simp only [int_msg_info.body, hC, hk, MsgItem.storeField, int_msg_info.counted]
    simp [TvmConst.int_msg_info.bounce, TvmConst.int_msg_info.dest,
      TvmConst.int_msg_info.grams]
    rcases appendToBuilder st.bitString st.pusher with _ | p1
    · rfl
    · simp only [Option.some_bind]
      rcases exchange 0 1 p1 with _ | p2
      · rfl
      · simp only [Option.some_bind]
        rcases push (-1) "STGRAMS" p2 with _ | p3 <;> rfl
  · simp only [int_msg_info.body, hC, hk, MsgItem.storeField, int_msg_info.counted]
    simp [TvmConst.int_msg_info.bounce, TvmConst.int_msg_info.dest,
      TvmConst.int_msg_info.grams, TvmConst.int_msg_info.currency]
    rcases appendToBuilder st.bitString st.pusher with _ | p1
    · rfl
    · simp only [Option.some_bind]
      rcases push (-1) "STDICT" p1 with _ | p2 <;> rfl

theorem loop_items (env : Collaborators) (R : Finset Int) (C : Int → Option String)
    (hR : R ⊆ {1, 4, 5, 6}) (hdisj : ∀ k ∈ R, C k = none)
    (hdest : 4 ∈ R ∨ (C 4).isSome = true) :
    ∀ (ws : List Int) (k : Int) (st : MsgInfoState),
      (msgInfoLoop (int_msg_info.body env R C) k ws st).map (fun r => (r.bitString, r.pusher)) =
        (MsgItem.emitAll (headerItems R C k ws st.bitString).1 st.pusher).map
          (fun q => ((headerItems R C k ws st.bitString).2, q)) := by
  intro ws
  induction ws with
  | nil => intro k st; simp [msgInfoLoop, headerItems, MsgItem.emitAll]
  | cons w ws ih =>
    intro k st
    simp only [msgInfoLoop, Option.bind_eq_bind]
    cases hC : C k with
    | some c =>
      have hk : k ∉ R := fun h => by rw [hdisj k h] at hC; cases hC
      have hb : int_msg_info.body env R C k w st =
          some { st with bitString := st.bitString ++ c } := by
        simp [int_msg_info.body, hC, hk]
      rw [hb, Option.some_bind, ih]
      simp only [headerItems, hC]
    | none =>
      by_cases hk : k ∈ R
      · have hk4 : k = 1 ∨ k = 4 ∨ k = 5 ∨ k = 6 := by
          have := hR hk
          simpa using this
        rw [body_runtime env R C k w st hC hk hk4]
        simp only [headerItems, hC, hk, if_true, MsgItem.emitAll, MsgItem.emit]
        rcases appendToBuilder st.bitString st.pusher with _ | p1
        · rfl
        · simp only [Option.some_bind]
          rcases MsgItem.storeField k p1 with _ | p2
          · rfl
          · simp only [Option.some_bind, Option.map_some']
            exact ih (k + 1) ⟨"", _, p2⟩
      · have hk4 : k ≠ 4 := by
          rintro rfl
          rcases hdest with h | h
          · exact hk h
          · rw [hC] at h; cases h
        have hb : int_msg_info.body env R C k w st =
            some { st with bitString := st.bitString ++ stdString w '0' } := by
          simp [int_msg_info.body, hC, hk, TvmConst.int_msg_info.dest, hk4]
        rw [hb, Option.some_bind, ih]
        simp only [headerItems, hC, hk, if_false]

end StackPusherHelper

theorem isBitString_empty : IsBitString "" := by
  intro c hc; simp at hc

theorem isBitString_append {a b : String} (ha : IsBitString a) (hb : IsBitString b) :
    IsBitString (a ++ b) := by
  intro c hc
  rw [String.data_append, List.mem_append] at hc
  rcases hc with h | h
  · exact ha c h
  · exact hb c h

theorem isBitString_zeros (w : Int) : IsBitString (stdString w '0') := by
  intro c hc
  rw [stdString_data] at hc
  exact Or.inl (List.eq_of_mem_replicate hc)

theorem stores_nonneg : ∀ items : List MsgItem, 0 ≤ MsgItem.stores items
  | [] => le_refl _
  | .literal _ :: rest => by simp only [MsgItem.stores]; exact stores_nonneg rest
  | .store _ :: rest => by
    have := stores_nonneg rest
    simp only [MsgItem.stores]; omega

theorem headerItems_valid (R : Finset Int) (C : Int → Option String)
    (hC : ∀ k c, C k = some c → IsBitString c) (hR : R ⊆ {1, 4, 5, 6}) :
    ∀ (ws : List Int) (k : Int) (lit : String), IsBitString lit →
      MsgItem.Valid (headerItems R C k ws lit).1 ∧ IsBitString (headerItems R C k ws lit).2 := by
  intro ws
  induction ws with
  | nil => intro k lit hl; exact ⟨trivial, hl⟩
  | cons w ws ih =>
    intro k lit hl
    simp only [headerItems]
    cases hCk : C k with
    | some c => exact ih _ _ (isBitString_append hl (hC k c hCk))
    | none =>
      simp only []
      by_cases hk : k ∈ R
      · simp only [hk, if_true, MsgItem.Valid]
        have hk4 : k = 1 ∨ k = 4 ∨ k = 5 ∨ k = 6 := by simpa using hR hk
        exact ⟨⟨hl, hk4, (ih (k + 1) "" isBitString_empty).1⟩,
          (ih (k + 1) "" isBitString_empty).2⟩
      · simp only [hk, if_false]
        exact ih _ _ (isBitString_append hl (isBitString_zeros w))

theorem headerItems_stores (R : Finset Int) (C : Int → Option String) :
    ∀ (ws : List Int) (k : Int) (lit : String),
      MsgItem.stores (headerItems R C k ws lit).1 = runtimeCount R C k ws := by
  intro ws
  induction ws with
  | nil => intro k lit; rfl
  | cons w ws ih =>
    intro k lit
    simp only [headerItems, runtimeCount]
    cases hCk : C k with
    | some c => simp [ih]
    | none =>
      by_cases hk : k ∈ R
      · simp [hk, MsgItem.stores, ih]; omega
      · simp [hk, ih]

theorem card_runtime (R : Finset Int) (hR : R ⊆ {1, 4, 5, 6}) :
    (R.card : Int) = (if (1 : Int) ∈ R then 1 else 0) + (if (4 : Int) ∈ R then 1 else 0) +
      (if (5 : Int) ∈ R then 1 else 0) + (if (6 : Int) ∈ R then 1 else 0) := by
  have h : R = Finset.filter (fun j => j ∈ R) ({1, 4, 5, 6} : Finset Int) := by
    ext j
    simp only [Finset.mem_filter, Finset.mem_insert, Finset.mem_singleton]
    constructor
    · intro hj; exact ⟨by simpa using hR hj, hj⟩
    · intro hj; exact hj.2
  have hc : R.card = (Finset.filter (fun j => j ∈ R) ({1, 4, 5, 6} : Finset Int)).card :=
    congrArg Finset.card h
  rw [hc, Finset.card_filter, Finset.sum_insert (by decide), Finset.sum_insert (by decide),
    Finset.sum_insert (by decide), Finset.sum_singleton]
  push_cast
  ring

theorem runtimeCount_zeroes (R : Finset Int) (C : Int → Option String)
    (hR : R ⊆ {1, 4, 5, 6}) (hdisj : ∀ k ∈ R, C k = none) :
    runtimeCount R C 0 StackPusherHelper.int_msg_info.zeroes = R.card := by
  have hn : ∀ k : Int, k ≠ 1 → k ≠ 4 → k ≠ 5 → k ≠ 6 → k ∉ R := by
    intro k h1 h4 h5 h6 hk
    have := hR hk
    simp only [Finset.mem_insert, Finset.mem_singleton] at this
    omega
  have hy : ∀ k : Int, (C k = none ∧ k ∈ R) ↔ k ∈ R :=
    fun k => ⟨fun h => h.2, fun h => ⟨hdisj k h, h⟩⟩
  rw [card_runtime R hR]
  simp only [runtimeCount, StackPusherHelper.int_msg_info.zeroes, hy]
  have h0 := hn 0 (by decide) (by decide) (by decide) (by decide)
  have h2 := hn 2 (by decide) (by decide) (by decide) (by decide)
  have h3 := hn 3 (by decide) (by decide) (by decide) (by decide)
  have h7 := hn 7 (by decide) (by decide) (by decide) (by decide)
  have h8 := hn 8 (by decide) (by decide) (by decide) (by decide)
  have h9 := hn 9 (by decide) (by decide) (by decide) (by decide)
  have h10 := hn 10 (by decide) (by decide) (by decide) (by decide)
  norm_num [h0, h2, h3, h7, h8, h9, h10]
  omega

namespace StackPusherHelper

theorem effect_stzeroes (n : Int) : StackEffect (stzeroes n) 0 0 0 := by
  by_cases h : n > 0
  · by_cases h1 : n = 1
    · exact (effect_push0 "STSLICECONST 0").congr (fun p => by simp [stzeroes, h1])
    · have h2 : StackEffect (fun p => (pushInt n p).bind (push (-1) "STZEROES")) 0 0 0 :=
        (StackEffect.bind (effect_pushInt n) (StackEffect.push (-1) "STZEROES")
          (Or.inl (le_refl _))).mono (by decide) (by decide) (by decide)
      exact h2.congr (fun p => by simp [stzeroes, h, h1])
  · exact StackEffect.pure.congr (fun p => by simp [stzeroes, h])

theorem effect_appendToBuilder (s : String) (hb : IsBitString s) :
    StackEffect (appendToBuilder s) 0 0 0 := by
  by_cases he : s = ""
  · exact StackEffect.pure.congr (fun p => by simp [appendToBuilder, he])
  · by_cases hz : s.data.count '0' = s.length
    · exact (effect_stzeroes (s.length : Int)).congr
        (fun p => by simp [appendToBuilder, he, hz])
    · have hne : ∃ c ∈ s.data, c ≠ '0' := by
        by_contra hcon
        apply hz
        rw [String.length_eq_data]
        exact List.count_eq_length.mpr
          (fun c hc => (by_contra (fun h => hcon ⟨c, hc, fun e => h e.symm⟩)))
      obtain ⟨hex, hhex, _⟩ := binaryStringToSlice_bits s hb
      by_cases hs : hex.length * 4 ≤ 8 * 7 + 1
      · exact (effect_push0 _).congr
          (fun p => by rw [appendToBuilder_nonzero s hex p hne hhex, if_pos hs])
      · have h2 : StackEffect (fun p => (push 1 ("PUSHSLICE x" ++ hex) p).bind
            (push (-1) "STSLICER")) 0 0 0 :=
          (StackEffect.bind (effect_push1 _) (StackEffect.push (-1) "STSLICER")
            (Or.inl (le_refl _))).mono (by decide) (by decide) (by decide)
        exact h2.congr
          (fun p => by rw [appendToBuilder_nonzero s hex p hne hhex, if_neg hs]; rfl)

theorem effect_storeField (k : Int) (hk : k = 1 ∨ k = 4 ∨ k = 5 ∨ k = 6) :
    StackEffect (MsgItem.storeField k) 1 (-1) 0 := by
  have hp : ∀ cmd, StackEffect (push (-1) cmd) 1 (-1) 0 := fun cmd =>
    (StackEffect.push (-1) cmd).mono (by decide) rfl rfl
  rcases hk with rfl | rfl | rfl | rfl
  · exact (hp "STI 1").congr (fun p => by simp [MsgItem.storeField])
  · exact (hp "STSLICE").congr (fun p => by simp [MsgItem.storeField])
  · have h2 : StackEffect (fun p => (exchange 0 1 p).bind (push (-1) "STGRAMS")) 1 (-1) 0 :=
      (StackEffect.bind effect_exchange01 (hp "STGRAMS") (Or.inl (le_refl _))).mono
        (by decide) (by decide) (by decide)
    exact h2.congr (fun p => by simp [MsgItem.storeField])
  · exact (hp "STDICT").congr (fun p => by simp [MsgItem.storeField])

theorem effect_emitAll : ∀ items : List MsgItem, MsgItem.Valid items →
    StackEffect (MsgItem.emitAll items) (MsgItem.stores items) (-(MsgItem.stores items)) 0
  | [], _ => StackEffect.pure.mono (le_refl _) (by simp [MsgItem.stores]) rfl
  | .literal s :: rest, hv => by
    have ih := effect_emitAll rest hv.2
    have h0 := stores_nonneg rest
    have := StackEffect.bind (effect_appendToBuilder s hv.1) ih (Or.inl (le_refl _))
    exact this.mono (by simp only [MsgItem.stores]; omega)
      (by simp only [MsgItem.stores]; omega) (by decide)
  | .store k :: rest, hv => by
    have ih := effect_emitAll rest hv.2
    have h0 := stores_nonneg rest
    have := StackEffect.bind (effect_storeField k hv.1) ih (Or.inl (le_refl _))
    exact this.mono (by simp only [MsgItem.stores]; omega)
      (by simp only [MsgItem.stores]; omega) (by decide)

/-- The result of `int_msg_info` on an admissible input: the loop emits the
items of the specification and returns their tail literal. -/
theorem int_msg_info_items (env : Collaborators) (R : Finset Int) (C : Int → Option String)
    (hadm : int_msg_info.Admissible R C) (p : StackPusherHelper)
    (ht : 0 ≤ p.m_code.tabQty) (hs : (R.card : Int) ≤ p.m_stack.m_size) :
    ∃ n q, int_msg_info env R C p =
        some (((headerItems R C 0 int_msg_info.zeroes "0").2, n), q) ∧
      (push 1 "NEWC" p).bind
        (MsgItem.emitAll (headerItems R C 0 int_msg_info.zeroes "0").1) = some q ∧
      q.m_stack.m_size = p.m_stack.m_size + 1 - R.card ∧
      q.m_code.tabQty = p.m_code.tabQty ∧
      ∃ new, q.history = p.history ++ (1, "NEWC") :: new := by
  obtain ⟨hC, hR, hdisj, hdest⟩ := hadm
  have h0 : 0 ≤ p.m_stack.m_size := le_trans (Int.natCast_nonneg _) hs
  have hNEWC := push_eq 1 "NEWC" p ht (by omega)
  have hbit0 : IsBitString "0" := by unfold IsBitString; decide
  obtain ⟨hvalid, _⟩ := headerItems_valid R C hC hR int_msg_info.zeroes 0 "0" hbit0
  have hstores : MsgItem.stores (headerItems R C 0 int_msg_info.zeroes "0").1 = R.card := by
    rw [headerItems_stores, runtimeCount_zeroes R C hR hdisj]
  obtain ⟨q, hq, hq1, hq2, _, new, hq4⟩ := effect_emitAll _ hvalid (emitted [(1, "NEWC")] p)
    (by rw [emitted_tabQty]; exact ht) (by rw [emitted_tabQty]; omega)
    (by rw [emitted_size]; simp; omega) (by rw [emitted_size, hstores]; simp; omega)
  have hloop := loop_items env R C hR hdisj hdest int_msg_info.zeroes 0
    ⟨"0", 0, emitted [(1, "NEWC")] p⟩
  simp only [hq, Option.map_some'] at hloop
  rcases hl : msgInfoLoop (int_msg_info.body env R C) 0 int_msg_info.zeroes
    ⟨"0", 0, emitted [(1, "NEWC")] p⟩ with _ | r
  · rw [hl] at hloop; cases hloop
  · rw [hl] at hloop
    simp only [Option.map_some', Option.some.injEq, Prod.mk.injEq] at hloop
    refine ⟨r.maxBitStringSize + r.bitString.length, q, ?_, ?_, ?_, ?_, ?_⟩
    · simp only [int_msg_info, hNEWC, Option.bind_eq_bind, Option.some_bind, hl]
      rw [hloop.1, hloop.2]
    · rw [hNEWC, Option.some_bind, hq]
    · rw [hq1, emitted_size, hstores]; simp; omega
    · rw [hq2, emitted_tabQty]; omega
    · refine ⟨new, ?_⟩
      rw [hq4, emitted_history]; simp

end StackPusherHelper

/-- C7: on every admissible input (constants are bit strings, runtime fields
among bounce, dest, grams, currency, no field both constant and runtime, dest
constant or runtime) and a pusher that holds the runtime values,
`int_msg_info` succeeds and writes the header in TL-B field order: it emits
`NEWC` and then the items `headerItems`, each literal through `appendToBuilder`
and each runtime field through its store (`STI 1`, `STSLICE`, `SWAP` and
`STGRAMS`, `STDICT`), and returns the tail literal; the flushed literals and
stores in emission order followed by the tail are the tag bit `0` followed, for
the fields 0..10 of widths 1,1,1,2,2,4,1,4,4,64,32, by the constant bits, the
runtime store or the zero bits of each field; and every literal is flushed
immediately before a runtime store. -/
theorem StackPusherHelper.int_msg_info_field_order (env : Collaborators) (R : Finset Int)
    (C : Int → Option String) (hadm : int_msg_info.Admissible R C)
    (p : StackPusherHelper) (ht : 0 ≤ p.m_code.tabQty)
    (hs : (R.card : Int) ≤ p.m_stack.m_size) :
    StackPusherHelper.int_msg_info.zeroes = [1, 1, 1, 2, 2, 4, 1, 4, 4, 64, 32] ∧
    ∃ n q, StackPusherHelper.int_msg_info env R C p =
        some (((headerItems R C 0 [1, 1, 1, 2, 2, 4, 1, 4, 4, 64, 32] "0").2, n), q) ∧
      (StackPusherHelper.push 1 "NEWC" p).bind
        (MsgItem.emitAll (headerItems R C 0 [1, 1, 1, 2, 2, 4, 1, 4, 4, 64, 32] "0").1) =
        some q ∧
      MsgItem.flatten (headerItems R C 0 [1, 1, 1, 2, 2, 4, 1, 4, 4, 64, 32] "0").1 ++
          bitsOf (headerItems R C 0 [1, 1, 1, 2, 2, 4, 1, 4, 4, 64, 32] "0").2 =
        HeaderSym.bit '0' :: headerLayout R C 0 [1, 1, 1, 2, 2, 4, 1, 4, 4, 64, 32] ∧
      MsgItem.Alternates (headerItems R C 0 [1, 1, 1, 2, 2, 4, 1, 4, 4, 64, 32] "0").1 := by
  refine ⟨rfl, ?_⟩
  obtain ⟨n, q, h1, h2, _, _, _⟩ := StackPusherHelper.int_msg_info_items env R C hadm p ht hs
  exact ⟨n, q, h1, h2, headerItems_flatten R C _ 0 "0", headerItems_alternates R C _ 0 "0"⟩

theorem admissible_dest : int_msg_info.Admissible {4} (fun _ => none) := by
  unfold int_msg_info.Admissible
  refine ⟨?_, ?_, ?_, ?_⟩
  · intro _ _ h; cases h
  · decide
  · intro _ _; rfl
  · exact Or.inl (by decide)

/-- Witness of C7: only dest on the stack, no constants. -/
theorem StackPusherHelper.int_msg_info_field_order_witness :
    int_msg_info.Admissible {4} (fun _ => none) ∧
    (0 : Int) ≤ (StackPusherHelper.ofSize 1).m_code.tabQty ∧
    ((({4} : Finset Int).card : Nat) : Int) ≤ (StackPusherHelper.ofSize 1).m_stack.m_size ∧
    (StackPusherHelper.int_msg_info.zeroes = [1, 1, 1, 2, 2, 4, 1, 4, 4, 64, 32] ∧
    ∃ n q, StackPusherHelper.int_msg_info specCollaborators {4} (fun _ => none)
        (StackPusherHelper.ofSize 1) =
        some (((headerItems {4} (fun _ => none) 0 [1, 1, 1, 2, 2, 4, 1, 4, 4, 64, 32] "0").2,
          n), q) ∧
      (StackPusherHelper.push 1 "NEWC" (StackPusherHelper.ofSize 1)).bind
        (MsgItem.emitAll
          (headerItems {4} (fun _ => none) 0 [1, 1, 1, 2, 2, 4, 1, 4, 4, 64, 32] "0").1) =
        some q ∧
      MsgItem.flatten
            (headerItems {4} (fun _ => none) 0 [1, 1, 1, 2, 2, 4, 1, 4, 4, 64, 32] "0").1 ++
          bitsOf (headerItems {4} (fun _ => none) 0 [1, 1, 1, 2, 2, 4, 1, 4, 4, 64, 32] "0").2 =
        HeaderSym.bit '0' ::
          headerLayout {4} (fun _ => none) 0 [1, 1, 1, 2, 2, 4, 1, 4, 4, 64, 32] ∧
      MsgItem.Alternates
        (headerItems {4} (fun _ => none) 0 [1, 1, 1, 2, 2, 4, 1, 4, 4, 64, 32] "0").1) :=
  ⟨admissible_dest, by decide, by decide,
    StackPusherHelper.int_msg_info_field_order specCollaborators {4} (fun _ => none)
      admissible_dest (StackPusherHelper.ofSize 1) (by decide) (by decide)⟩

/-! ## sendMsg (C9) -/

namespace StackPusherHelper

theorem sendMsg_unfold (env : Collaborators) (R : Finset Int) (C : Int → Option String)
    (p : StackPusherHelper) (bs : String) (n : Int) (p1 : StackPusherHelper)
    (h : int_msg_info env R C p = some ((bs, n), p1)) :
    sendMsg env R C none none none true p =
      (appendToBuilder bs p1).bind fun p2 => (appendToBuilder "0" p2).bind fun p3 =>
        (appendToBuilder "0" p3).bind fun p4 => (push 0 "ENDC" p4).bind fun p5 =>
          (push 1 ("PUSHINT " ++ toString env.DefaultFlag) p5).bind (push (-2) "SENDRAWMSG") := by
  simp only [sendMsg, h, if_true, Option.bind_eq_bind, Option.some_bind, pushInt, sendrawmsg]

theorem three_push (d1 d2 d3 : Int) (c1 c2 c3 : String) (p : StackPusherHelper)
    (ht : 0 ≤ p.m_code.tabQty) (h1 : 0 ≤ p.m_stack.m_size + d1)
    (h2 : 0 ≤ p.m_stack.m_size + d1 + d2) (h3 : 0 ≤ p.m_stack.m_size + d1 + d2 + d3) :
    ((push d1 c1 p).bind fun p => (push d2 c2 p).bind (push d3 c3)) =
      some (emitted [(d1, c1), (d2, c2), (d3, c3)] p) := by
  rw [bind_push _ _ _ _ ht h1, bind_push_emitted _ _ _ _ _ ht (by simpa using h2)]
  exact push_emitted _ _ _ _ ht (by simp; omega)

end StackPusherHelper

theorem two_le_pushInt (n : Int) : 2 ≤ ("PUSHINT " ++ toString n).length := by
  rw [String.length_append]
  have : ("PUSHINT ").length = 8 := by decide
  omega

/-- The end of `sendMsg` without callbacks: after the header the tail literal
and the two absence bits are stored, then the three closing lines follow. -/
theorem StackPusherHelper.sendMsg_tail (env : Collaborators) (bs : String) (hb : IsBitString bs)
    (p1 : StackPusherHelper) (ht : 0 ≤ p1.m_code.tabQty) (hs : 1 ≤ p1.m_stack.m_size) :
    ∃ q4, ((StackPusherHelper.appendToBuilder bs p1).bind fun p2 =>
        (StackPusherHelper.appendToBuilder "0" p2).bind fun p3 =>
        (StackPusherHelper.appendToBuilder "0" p3).bind fun p4 =>
        (StackPusherHelper.push 0 "ENDC" p4).bind fun p5 =>
          (StackPusherHelper.push 1 ("PUSHINT " ++ toString env.DefaultFlag) p5).bind
            (StackPusherHelper.push (-2) "SENDRAWMSG")) =
        some (StackPusherHelper.emitted [(0, "ENDC"),
          (1, "PUSHINT " ++ toString env.DefaultFlag), (-2, "SENDRAWMSG")] q4) ∧
      q4.m_stack.m_size = p1.m_stack.m_size ∧ q4.m_code.tabQty = p1.m_code.tabQty ∧
      ∃ new, q4.history = p1.history ++ new := by
  have hbit0 : IsBitString "0" := by unfold IsBitString; decide
  obtain ⟨p2, h2, s2, t2, _, n2, e2⟩ := StackPusherHelper.effect_appendToBuilder bs hb p1 ht
    (by omega) (by omega) (by omega)
  obtain ⟨p3, h3, s3, t3, _, n3, e3⟩ := StackPusherHelper.effect_appendToBuilder "0" hbit0 p2
    (by omega) (by omega) (by omega) (by omega)
  obtain ⟨p4, h4, s4, t4, _, n4, e4⟩ := StackPusherHelper.effect_appendToBuilder "0" hbit0 p3
    (by omega) (by omega) (by omega) (by omega)
  refine ⟨p4, ?_, by omega, by omega, n2 ++ n3 ++ n4, ?_⟩
  · rw [h2, Option.some_bind, h3, Option.some_bind, h4, Option.some_bind]
    exact StackPusherHelper.three_push _ _ _ _ _ _ p4 (by omega) (by omega) (by omega) (by omega)
  · rw [e4, e3, e2]; simp

/-- The lines and the size after the three closing lines of `sendMsg`. -/
theorem StackPusherHelper.closing_lines (flag : Int) (q4 : StackPusherHelper) :
    (StackPusherHelper.emitted [(0, "ENDC"), (1, "PUSHINT " ++ toString flag),
        (-2, "SENDRAWMSG")] q4).m_code.lines =
      q4.m_code.lines ++ [indented q4.m_code.tabQty "ENDC",
        indented q4.m_code.tabQty ("PUSHINT " ++ toString flag),
        indented q4.m_code.tabQty "SENDRAWMSG"] := by
  rw [StackPusherHelper.emitted_lines]
  · rfl
  · intro e he
    simp only [List.mem_cons, List.mem_singleton, List.not_mem_nil, or_false] at he
    rcases he with rfl | rfl | rfl
    · decide
    · exact two_le_pushInt flag
    · decide

theorem headerItems_dest :
    headerItems {4} (fun _ => none) 0 StackPusherHelper.int_msg_info.zeroes "0" =
      ([MsgItem.literal (stdString 6 '0'), MsgItem.store 4], stdString 109 '0') := by
  have h0 : (0 : Int) ∉ ({4} : Finset Int) := by decide
  have h1 : (0 + 1 : Int) ∉ ({4} : Finset Int) := by decide
  have h2 : (0 + 1 + 1 : Int) ∉ ({4} : Finset Int) := by decide
  have h3 : (0 + 1 + 1 + 1 : Int) ∉ ({4} : Finset Int) := by decide
  have h4 : (0 + 1 + 1 + 1 + 1 : Int) ∈ ({4} : Finset Int) := by decide
  have h5 : (0 + 1 + 1 + 1 + 1 + 1 : Int) ∉ ({4} : Finset Int) := by decide
  have h6 : (0 + 1 + 1 + 1 + 1 + 1 + 1 : Int) ∉ ({4} : Finset Int) := by decide
  have h7 : (0 + 1 + 1 + 1 + 1 + 1 + 1 + 1 : Int) ∉ ({4} : Finset Int) := by decide
  have h8 : (0 + 1 + 1 + 1 + 1 + 1 + 1 + 1 + 1 : Int) ∉ ({4} : Finset Int) := by decide
  have h9 : (0 + 1 + 1 + 1 + 1 + 1 + 1 + 1 + 1 + 1 : Int) ∉ ({4} : Finset Int) := by decide
  have h10 : (0 + 1 + 1 + 1 + 1 + 1 + 1 + 1 + 1 + 1 + 1 : Int) ∉ ({4} : Finset Int) := by decide
  have e1 : "0" ++ stdString 1 '0' ++ stdString 1 '0' ++ stdString 1 '0' ++ stdString 2 '0' =
      stdString 6 '0' := by decide
  have e2 : "" ++ stdString 4 '0' ++ stdString 1 '0' ++ stdString 4 '0' ++ stdString 4 '0' ++
      stdString 64 '0' ++ stdString 32 '0' = stdString 109 '0' := by
    set_option maxRecDepth 100000 in decide
  simp only [StackPusherHelper.int_msg_info.zeroes, headerItems, h0, h1, h2, h3, h4, h5, h6, h7,
    h8, h9, h10, if_true, if_false, e1, e2]
  rfl

theorem appendToBuilder_zeros (n : Nat) (hn : 1 ≤ n) (p : StackPusherHelper) :
    StackPusherHelper.appendToBuilder (stdString n '0') p = StackPusherHelper.stzeroes n p := by
  have hne : stdString n '0' ≠ "" := by
    intro h
    have := StackPusherHelper.length_stdString n '0'
    rw [h] at this
    have h0 : ("" : String).length = 0 := rfl
    omega
  simp only [StackPusherHelper.appendToBuilder, hne, if_false,
    StackPusherHelper.count_zero_stdString, StackPusherHelper.length_stdString, if_true]

/-- The header of scenario S5 as a run: the six leading zero bits, then the
store of dest. -/
theorem StackPusherHelper.emitAll_dest (p : StackPusherHelper)
    (ht : 0 ≤ p.m_code.tabQty) (hs : 1 ≤ p.m_stack.m_size) :
    (StackPusherHelper.push 1 "NEWC" p).bind
        (MsgItem.emitAll [MsgItem.literal (stdString 6 '0'), MsgItem.store 4]) =
      some (StackPusherHelper.emitted [(1, "NEWC"), (1, "PUSHINT 6"), (-1, "STZEROES"),
        (-1, "STSLICE")] p) := by
  have e6 : "PUSHINT " ++ toString (6 : Int) = "PUSHINT 6" := by decide
  rw [StackPusherHelper.push_eq 1 "NEWC" p ht (by omega)]
  simp only [Option.some_bind, MsgItem.emitAll, MsgItem.emit, MsgItem.storeField]
  have := appendToBuilder_zeros 6 (by decide) (StackPusherHelper.emitted [(1, "NEWC")] p)
  simp only [Nat.cast_ofNat] at this
  rw [this, StackPusherHelper.stzeroes_many 6 (by decide) _
    (by rw [StackPusherHelper.emitted_tabQty]; exact ht)
    (by rw [StackPusherHelper.emitted_size]; simp; omega), e6]
  simp only [Option.some_bind, ← StackPusherHelper.emitted_append, List.cons_append,
    List.nil_append]
  simp only [show ¬ ((4 : Int) = 1) by decide, if_false, if_true]
  rw [StackPusherHelper.push_emitted _ _ _ p ht (by simp; omega)]
  simp only [Option.some_bind, List.cons_append, List.nil_append]

/-- Scenario S5 as a run: `sendMsg` for an internal message with only dest on
the stack is the recorded sequence of eleven pushes. -/
theorem StackPusherHelper.sendMsg_dest (env : Collaborators) (p : StackPusherHelper)
    (ht : 0 ≤ p.m_code.tabQty) (hs : 1 ≤ p.m_stack.m_size) :
    StackPusherHelper.sendMsg env {4} (fun _ => none) none none none true p =
      some (StackPusherHelper.emitted [(1, "NEWC"), (1, "PUSHINT 6"), (-1, "STZEROES"),
        (-1, "STSLICE"), (1, "PUSHINT 109"), (-1, "STZEROES"), (0, "STSLICECONST 0"),
        (0, "STSLICECONST 0"), (0, "ENDC"), (1, "PUSHINT " ++ toString env.DefaultFlag),
        (-2, "SENDRAWMSG")] p) := by
  obtain ⟨n, q, h1, h2, _, _, _⟩ := StackPusherHelper.int_msg_info_items env {4} (fun _ => none)
    admissible_dest p ht (by simpa using hs)
  rw [headerItems_dest] at h1 h2
  have e109 : "PUSHINT " ++ toString (109 : Int) = "PUSHINT 109" := by decide
  have e0 : "0" = stdString 1 '0' := by decide
  have hq : q = StackPusherHelper.emitted [(1, "NEWC"), (1, "PUSHINT 6"), (-1, "STZEROES"),
      (-1, "STSLICE")] p := by
    rw [StackPusherHelper.emitAll_dest p ht hs] at h2
    exact (Option.some.inj h2).symm
  rw [StackPusherHelper.sendMsg_unfold env _ _ p _ n q h1, hq]
  have := appendToBuilder_zeros 109 (by decide) (StackPusherHelper.emitted [(1, "NEWC"),
    (1, "PUSHINT 6"), (-1, "STZEROES"), (-1, "STSLICE")] p)
  simp only [Nat.cast_ofNat] at this
  rw [this, StackPusherHelper.stzeroes_many 109 (by decide) _
      (by rw [StackPusherHelper.emitted_tabQty]; exact ht)
      (by rw [StackPusherHelper.emitted_size]; simp; omega), e109]
  simp only [Option.some_bind, ← StackPusherHelper.emitted_append, List.cons_append,
      List.nil_append]
  have h1z := fun r => appendToBuilder_zeros 1 (le_refl _) r
  simp only [Nat.cast_one] at h1z
  rw [e0, h1z, StackPusherHelper.stzeroes_one _
      (by rw [StackPusherHelper.emitted_tabQty]; exact ht)
      (by rw [StackPusherHelper.emitted_size]; simp; omega)]
  simp only [Option.some_bind, ← StackPusherHelper.emitted_append, List.cons_append,
      List.nil_append]
  rw [h1z, StackPusherHelper.stzeroes_one _
      (by rw [StackPusherHelper.emitted_tabQty]; exact ht)
      (by rw [StackPusherHelper.emitted_size]; simp; omega)]
  simp only [Option.some_bind, ← StackPusherHelper.emitted_append, List.cons_append,
      List.nil_append]
  rw [StackPusherHelper.three_push _ _ _ _ _ _ _
      (by rw [StackPusherHelper.emitted_tabQty]; exact ht)
      (by rw [StackPusherHelper.emitted_size]; simp; omega)
      (by rw [StackPusherHelper.emitted_size]; simp; omega)
      (by rw [StackPusherHelper.emitted_size]; simp; omega)]
  simp only [← StackPusherHelper.emitted_append, List.cons_append, List.nil_append]

/-- C9: for an internal message with an admissible set `R` of runtime fields and
admissible constants and without state-init, body and flag callbacks, `sendMsg`
succeeds on every pusher that holds the `|R|` fields, starts with `NEWC`, ends
with the three pushes `ENDC` (delta 0), `PUSHINT <DefaultFlag>` (delta +1) and
`SENDRAWMSG` (delta -2), whose lines are the last three of the code buffer, and
changes the modelled stack size by exactly `-|R|`. For `R = {dest}` and no
constants (scenario S5) the emitted lines are exactly `NEWC`, `PUSHINT 6`,
`STZEROES`, `STSLICE`, `PUSHINT 109`, `STZEROES`, `STSLICECONST 0`,
`STSLICECONST 0`, `ENDC`, `PUSHINT <DefaultFlag>`, `SENDRAWMSG`, at the indent
of the pusher. -/
theorem StackPusherHelper.sendMsg_internal (env : Collaborators) (R : Finset Int)
    (C : Int → Option String) (hadm : int_msg_info.Admissible R C)
    (p : StackPusherHelper) (ht : 0 ≤ p.m_code.tabQty)
    (hs : (R.card : Int) ≤ p.m_stack.m_size) :
    (∃ q mid pre, StackPusherHelper.sendMsg env R C none none none true p = some q ∧
      q.m_stack.m_size = p.m_stack.m_size - R.card ∧
      q.history = p.history ++ ((1, "NEWC") :: mid ++ [(0, "ENDC"),
        (1, "PUSHINT " ++ toString env.DefaultFlag), (-2, "SENDRAWMSG")]) ∧
      q.m_code.lines = pre ++ [indented p.m_code.tabQty "ENDC",
        indented p.m_code.tabQty ("PUSHINT " ++ toString env.DefaultFlag),
        indented p.m_code.tabQty "SENDRAWMSG"]) ∧
    (R = {4} → (∀ k, C k = none) →
      ∃ q, StackPusherHelper.sendMsg env R C none none none true p = some q ∧
        q.m_code.lines = p.m_code.lines ++ ["NEWC", "PUSHINT 6", "STZEROES", "STSLICE",
          "PUSHINT 109", "STZEROES", "STSLICECONST 0", "STSLICECONST 0", "ENDC",
          "PUSHINT " ++ toString env.DefaultFlag, "SENDRAWMSG"].map
            (indented p.m_code.tabQty)) := by
  constructor
  · obtain ⟨n, p1, h1, _, hs1, ht1, new1, e1⟩ :=
      StackPusherHelper.int_msg_info_items env R C hadm p ht hs
    have hbit0 : IsBitString "0" := by unfold IsBitString; decide
    obtain ⟨_, htail⟩ := headerItems_valid R C hadm.1 hadm.2.1
      StackPusherHelper.int_msg_info.zeroes 0 "0" hbit0
    obtain ⟨q4, h4, s4, t4, new4, e4⟩ := StackPusherHelper.sendMsg_tail env _ htail p1
      (by omega) (by omega)
    refine ⟨StackPusherHelper.emitted [(0, "ENDC"),
      (1, "PUSHINT " ++ toString env.DefaultFlag), (-2, "SENDRAWMSG")] q4,
      new1 ++ new4, q4.m_code.lines, ?_, ?_, ?_, ?_⟩
    · rw [StackPusherHelper.sendMsg_unfold env R C p _ n p1 h1]; exact h4
    · rw [StackPusherHelper.emitted_size, s4, hs1]; simp; omega
    · rw [StackPusherHelper.emitted_history, e4, e1]; simp
    · rw [StackPusherHelper.closing_lines, t4, ht1]
  · intro hR hC
    have hCf : C = fun _ => none := funext hC
    subst hR
    subst hCf
    have hs1 : 1 ≤ p.m_stack.m_size := by simpa using hs
    refine ⟨_, StackPusherHelper.sendMsg_dest env p ht hs1, ?_⟩
    rw [StackPusherHelper.emitted_lines]
    · rfl
    · intro e he
      simp only [List.mem_cons, List.mem_singleton, List.not_mem_nil, or_false] at he
      rcases he with rfl | rfl | rfl | rfl | rfl | rfl | rfl | rfl | rfl | rfl | rfl
      all_goals first
        | exact two_le_pushInt _
        | decide

/-- Witness of C9: scenario S5 on a pusher at indent 0 that holds dest. -/
theorem StackPusherHelper.sendMsg_internal_witness :
    int_msg_info.Admissible {4} (fun _ => none) ∧
    (0 : Int) ≤ (StackPusherHelper.ofSize 1).m_code.tabQty ∧
    ((({4} : Finset Int).card : Nat) : Int) ≤ (StackPusherHelper.ofSize 1).m_stack.m_size ∧
    ((∃ q mid pre, StackPusherHelper.sendMsg specCollaborators {4} (fun _ => none)
        none none none true (StackPusherHelper.ofSize 1) = some q ∧
      q.m_stack.m_size = (StackPusherHelper.ofSize 1).m_stack.m_size -
        (({4} : Finset Int).card : Nat) ∧
      q.history = (StackPusherHelper.ofSize 1).history ++ ((1, "NEWC") :: mid ++ [(0, "ENDC"),
        (1, "PUSHINT " ++ toString specCollaborators.DefaultFlag), (-2, "SENDRAWMSG")]) ∧
      q.m_code.lines = pre ++ [indented (StackPusherHelper.ofSize 1).m_code.tabQty "ENDC",
        indented (StackPusherHelper.ofSize 1).m_code.tabQty
          ("PUSHINT " ++ toString specCollaborators.DefaultFlag),
        indented (StackPusherHelper.ofSize 1).m_code.tabQty "SENDRAWMSG"]) ∧
    (({4} : Finset Int) = {4} → (∀ k : Int, (fun _ => none : Int → Option String) k = none) →
      ∃ q, StackPusherHelper.sendMsg specCollaborators {4} (fun _ => none)
          none none none true (StackPusherHelper.ofSize 1) = some q ∧
        q.m_code.lines = (StackPusherHelper.ofSize 1).m_code.lines ++ ["NEWC", "PUSHINT 6",
          "STZEROES", "STSLICE", "PUSHINT 109", "STZEROES", "STSLICECONST 0",
          "STSLICECONST 0", "ENDC", "PUSHINT " ++ toString specCollaborators.DefaultFlag,
          "SENDRAWMSG"].map (indented (StackPusherHelper.ofSize 1).m_code.tabQty))) :=
  ⟨admissible_dest, by decide, by decide,
    StackPusherHelper.sendMsg_internal specCollaborators {4} (fun _ => none)
      admissible_dest (StackPusherHelper.ofSize 1) (by decide) (by decide)⟩

/-! ## The size returned by int_msg_info (C8) -/

namespace StackPusherHelper

/-- The loop of `int_msg_info` adds to `maxBitStringSize` exactly the counted
widths of the runtime stores. -/
theorem loop_size (env : Collaborators) (R : Finset Int) (C : Int → Option String)
    (hR : R ⊆ {1, 4, 5, 6}) (hdisj : ∀ k ∈ R, C k = none)
    (hdest : 4 ∈ R ∨ (C 4).isSome = true) :
    ∀ (ws : List Int) (k : Int) (st : MsgInfoState),
      (msgInfoLoop (int_msg_info.body env R C) k ws st).map (fun r => r.maxBitStringSize) =
        (MsgItem.emitAll (headerItems R C k ws st.bitString).1 st.pusher).map
          (fun _ => st.maxBitStringSize +
            MsgItem.counted env (headerItems R C k ws st.bitString).1) := by
  intro ws
  induction ws with
  | nil => intro k st; simp [msgInfoLoop, headerItems, MsgItem.emitAll, MsgItem.counted]
  | cons w ws ih =>
    intro k st
    simp only [msgInfoLoop, Option.bind_eq_bind]
    cases hC : C k with
    | some c =>
      have hk : k ∉ R := fun h => by rw [hdisj k h] at hC; cases hC
      have hb : int_msg_info.body env R C k w st =
          some { st with bitString := st.bitString ++ c } := by
        simp [int_msg_info.body, hC, hk]
      rw [hb, Option.some_bind, ih]
      simp only [headerItems, hC]
    | none =>
      by_cases hk : k ∈ R
      · have hk4 : k = 1 ∨ k = 4 ∨ k = 5 ∨ k = 6 := by
          have := hR hk
          simpa using this
        rw [body_runtime env R C k w st hC hk hk4]
        simp only [headerItems, hC, hk, if_true, MsgItem.emitAll, MsgItem.emit,
          MsgItem.counted]
        rcases appendToBuilder st.bitString st.pusher with _ | p1
        · rfl
        · simp only [Option.some_bind]
          rcases MsgItem.storeField k p1 with _ | p2
          · rfl
          · simp only [Option.some_bind, Option.map_some']
            rw [ih (k + 1) ⟨"", _, p2⟩]
            simp only [add_assoc]
      · have hk4 : k ≠ 4 := by
          rintro rfl
          rcases hdest with h | h
          · exact hk h
          · rw [hC] at h; cases h
        have hb : int_msg_info.body env R C k w st =
            some { st with bitString := st.bitString ++ stdString w '0' } := by
          simp [int_msg_info.body, hC, hk, TvmConst.int_msg_info.dest, hk4]
        rw [hb, Option.some_bind, ih]
        simp only [headerItems, hC, hk, if_false]

end StackPusherHelper

theorem counted_le_maxWidth (env : Collaborators) (k : Int) :
    int_msg_info.counted env k ≤ MsgItem.maxWidth env k := by
  unfold int_msg_info.counted MsgItem.maxWidth TvmConst.int_msg_info.bounce
    TvmConst.int_msg_info.dest TvmConst.int_msg_info.grams
  split_ifs <;> omega

theorem counted_le_headerBits (env : Collaborators) :
    ∀ items : List MsgItem, MsgItem.counted env items ≤ MsgItem.headerBits env items
  | [] => le_refl _
  | .literal s :: rest => by
    have := counted_le_headerBits env rest
    simp only [MsgItem.counted, MsgItem.headerBits]; omega
  | .store k :: rest => by
    have := counted_le_headerBits env rest
    have := counted_le_maxWidth env k
    simp only [MsgItem.counted, MsgItem.headerBits]; omega

/-- As soon as one literal of at least one bit is flushed, the counted bits are
fewer than the bits of the header. -/
theorem headerItems_counted_lt (env : Collaborators) (R : Finset Int)
    (C : Int → Option String) :
    ∀ (ws : List Int) (k : Int) (lit : String), 1 ≤ lit.length →
      (headerItems R C k ws lit).1 ≠ [] →
      MsgItem.counted env (headerItems R C k ws lit).1 <
        MsgItem.headerBits env (headerItems R C k ws lit).1 := by
  intro ws
  induction ws with
  | nil => intro k lit _ h; exact absurd rfl h
  | cons w ws ih =>
    intro k lit hl hne
    cases hC : C k with
    | some c =>
      simp only [headerItems, hC] at hne ⊢
      exact ih (k + 1) (lit ++ c) (by rw [String.length_append]; omega) hne
    | none =>
      by_cases hk : k ∈ R
      · simp only [headerItems, hC, hk, if_true, MsgItem.counted, MsgItem.headerBits]
        have h1 := counted_le_headerBits env (headerItems R C (k + 1) ws "").1
        have h2 := counted_le_maxWidth env k
        omega
      · simp only [headerItems, hC, hk, if_false] at hne ⊢
        exact ih (k + 1) (lit ++ stdString w '0') (by rw [String.length_append]; omega) hne

/-- The pair that `int_msg_info` returns on an admissible input: the tail
literal and the counted widths of the runtime stores plus the length of the
tail. -/
theorem StackPusherHelper.int_msg_info_size (env : Collaborators) (R : Finset Int)
    (C : Int → Option String) (hadm : int_msg_info.Admissible R C) (p : StackPusherHelper)
    (ht : 0 ≤ p.m_code.tabQty) (hs : (R.card : Int) ≤ p.m_stack.m_size) :
    ∃ q, StackPusherHelper.int_msg_info env R C p =
        some (((headerItems R C 0 StackPusherHelper.int_msg_info.zeroes "0").2,
          MsgItem.counted env (headerItems R C 0 StackPusherHelper.int_msg_info.zeroes "0").1 +
            ((headerItems R C 0 StackPusherHelper.int_msg_info.zeroes "0").2.length : Int)), q) ∧
      (StackPusherHelper.push 1 "NEWC" p).bind
        (MsgItem.emitAll (headerItems R C 0 StackPusherHelper.int_msg_info.zeroes "0").1) =
        some q := by
  obtain ⟨n, q, h1, h2, _, _, _⟩ := StackPusherHelper.int_msg_info_items env R C hadm p ht hs
  obtain ⟨hC, hR, hdisj, hdest⟩ := hadm
  have h0 : 0 ≤ p.m_stack.m_size := le_trans (Int.natCast_nonneg _) hs
  have hNEWC := StackPusherHelper.push_eq 1 "NEWC" p ht (by omega)
  refine ⟨q, ?_, h2⟩
  rw [hNEWC, Option.some_bind] at h2
  have hsize := StackPusherHelper.loop_size env R C hR hdisj hdest
    StackPusherHelper.int_msg_info.zeroes 0 ⟨"0", 0, StackPusherHelper.emitted [(1, "NEWC")] p⟩
  simp only [h2, Option.map_some'] at hsize
  rw [h1]
  simp only [StackPusherHelper.int_msg_info, hNEWC, Option.bind_eq_bind, Option.some_bind] at h1
  rcases hl : StackPusherHelper.msgInfoLoop (StackPusherHelper.int_msg_info.body env R C) 0
    StackPusherHelper.int_msg_info.zeroes
    ⟨"0", 0, StackPusherHelper.emitted [(1, "NEWC")] p⟩ with _ | r
  · rw [hl] at h1; cases h1
  · rw [hl] at h1 hsize
    simp only [Option.some_bind, Option.some.injEq, Prod.mk.injEq, Option.map_some'] at h1 hsize
    obtain ⟨⟨hb, hn⟩, _⟩ := h1
    rw [← hn, hsize, hb]
    simp

/-- The run of `ext_msg_info` with only dest on the stack: the literal `1100`
is flushed, dest is stored, and the returned size counts dest and the tail. -/
theorem StackPusherHelper.ext_msg_info_dest (env : Collaborators) (p : StackPusherHelper)
    (ht : 0 ≤ p.m_code.tabQty) (hs : 1 ≤ p.m_stack.m_size) :
    StackPusherHelper.ext_msg_info env {1} p =
      some ((stdString 96 '0', env.maxBitLength + 96),
        StackPusherHelper.emitted [(1, "NEWC"), (0, "STSLICECONST xc"), (-1, "STSLICE")] p) := by
  have h0 : (0 : Int) ∉ ({1} : Finset Int) := by decide
  have h1 : (1 : Int) ∈ ({1} : Finset Int) := by decide
  have h2 : (1 + 1 : Int) ∉ ({1} : Finset Int) := by decide
  have h3 : (1 + 1 + 1 : Int) ∉ ({1} : Finset Int) := by decide
  have e1 : "11" ++ stdString 2 '0' = "1100" := by decide
  have e2 : "" ++ stdString 64 '0' ++ stdString 32 '0' = stdString 96 '0' := by
    set_option maxRecDepth 100000 in decide
  have e3 : ((stdString 96 '0').length : Int) = 96 := by
    rw [show (96 : Int) = ((96 : Nat) : Int) from rfl, StackPusherHelper.length_stdString]
  have happ := StackPusherHelper.appendToBuilder_nonzero "1100" "c"
    (StackPusherHelper.emitted [(1, "NEWC")] p) ⟨'1', by decide, by decide⟩ (by decide)
  rw [if_pos (by decide), show "STSLICECONST x" ++ "c" = "STSLICECONST xc" by decide,
    StackPusherHelper.push_emitted _ _ _ p ht (by simp; omega)] at happ
  simp only [StackPusherHelper.ext_msg_info, StackPusherHelper.push_eq 1 "NEWC" p ht (by omega),
    Option.bind_eq_bind, Option.some_bind, StackPusherHelper.ext_msg_info.zeroes,
    StackPusherHelper.msgInfoLoop, StackPusherHelper.ext_msg_info.body, h0, h1, h2, h3,
    not_true_eq_false, not_false_eq_true, if_true, if_false, e1, happ,
    TvmConst.ext_msg_info.dest, zero_add, List.cons_append, List.nil_append]
  rw [StackPusherHelper.push_emitted _ _ _ p ht (by simp; omega)]
  simp only [Option.some_bind, e2, e3, List.cons_append, List.nil_append, zero_add]

/-- C8 (the code at the failing inputs): on every admissible input with at least
one runtime field, `int_msg_info` returns the tail literal and the integer
`counted + |tail|`, where `counted` adds 1 for bounce, `maxBitLength` for dest,
`4 + 16 * 8` for grams and nothing for currency or for the literals flushed
through `appendToBuilder`; this integer is strictly smaller than the number of
bits of the claim (flushed literals, maximum widths of the stored fields and
tail). With only dest on the stack and no constants it returns
`maxBitLength + 109` after six literal bits were flushed, and
`ext_msg_info` with only dest returns `maxBitLength + 96` after the four bits
`1100` were flushed. -/
theorem StackPusherHelper.msg_info_size_below_bound (env : Collaborators) (R : Finset Int)
    (C : Int → Option String) (hadm : int_msg_info.Admissible R C) (hne : R.Nonempty)
    (p : StackPusherHelper) (ht : 0 ≤ p.m_code.tabQty)
    (hs : (R.card : Int) ≤ p.m_stack.m_size) :
    (∃ q, StackPusherHelper.int_msg_info env R C p =
        some (((headerItems R C 0 StackPusherHelper.int_msg_info.zeroes "0").2,
          MsgItem.counted env (headerItems R C 0 StackPusherHelper.int_msg_info.zeroes "0").1 +
            ((headerItems R C 0 StackPusherHelper.int_msg_info.zeroes "0").2.length : Int)), q) ∧
      (StackPusherHelper.push 1 "NEWC" p).bind
        (MsgItem.emitAll (headerItems R C 0 StackPusherHelper.int_msg_info.zeroes "0").1) =
        some q ∧
      MsgItem.counted env (headerItems R C 0 StackPusherHelper.int_msg_info.zeroes "0").1 +
          ((headerItems R C 0 StackPusherHelper.int_msg_info.zeroes "0").2.length : Int) <
        MsgItem.headerBits env (headerItems R C 0 StackPusherHelper.int_msg_info.zeroes "0").1 +
          ((headerItems R C 0 StackPusherHelper.int_msg_info.zeroes "0").2.length : Int)) ∧
    (R = {4} → (∀ k, C k = none) →
      StackPusherHelper.int_msg_info env R C p =
          some ((stdString 109 '0', env.maxBitLength + 109),
            StackPusherHelper.emitted [(1, "NEWC"), (1, "PUSHINT 6"), (-1, "STZEROES"),
              (-1, "STSLICE")] p) ∧
        MsgItem.headerBits env [MsgItem.literal (stdString 6 '0'), MsgItem.store 4] + 109 =
          6 + env.maxBitLength + 109) ∧
    StackPusherHelper.ext_msg_info env {1} p =
      some ((stdString 96 '0', env.maxBitLength + 96),
        StackPusherHelper.emitted [(1, "NEWC"), (0, "STSLICECONST xc"), (-1, "STSLICE")] p) := by
  have hcard : 1 ≤ R.card := Finset.card_pos.mpr hne
  have hs1 : 1 ≤ p.m_stack.m_size := by
    have : ((1 : Nat) : Int) ≤ (R.card : Int) := Int.ofNat_le.mpr hcard
    simp only [Nat.cast_one] at this
    omega
  have e6 : ((stdString 6 '0').length : Int) = 6 := by
    rw [show (6 : Int) = ((6 : Nat) : Int) from rfl, StackPusherHelper.length_stdString]
  have e109 : ((stdString 109 '0').length : Int) = 109 := by
    rw [show (109 : Int) = ((109 : Nat) : Int) from rfl, StackPusherHelper.length_stdString]
  obtain ⟨q, hq, hrun⟩ := StackPusherHelper.int_msg_info_size env R C hadm p ht hs
  refine ⟨⟨q, hq, hrun, ?_⟩, ?_, StackPusherHelper.ext_msg_info_dest env p ht hs1⟩
  · have hstores : MsgItem.stores
        (headerItems R C 0 StackPusherHelper.int_msg_info.zeroes "0").1 = R.card := by
      rw [headerItems_stores, runtimeCount_zeroes R C hadm.2.1 hadm.2.2.1]
    have hnil : (headerItems R C 0 StackPusherHelper.int_msg_info.zeroes "0").1 ≠ [] := by
      intro h
      rw [h] at hstores
      simp only [MsgItem.stores] at hstores
      have : ((1 : Nat) : Int) ≤ (R.card : Int) := Int.ofNat_le.mpr hcard
      simp only [Nat.cast_one] at this
      omega
    have := headerItems_counted_lt env R C StackPusherHelper.int_msg_info.zeroes 0 "0"
      (by decide) hnil
    omega
  · intro hR hC
    have hCf : C = fun _ => none := funext hC
    subst hR
    subst hCf
    rw [headerItems_dest] at hq hrun
    rw [StackPusherHelper.emitAll_dest p ht hs1] at hrun
    rw [← Option.some.inj hrun] at hq
    constructor
    · rw [hq]
      simp only [MsgItem.counted, int_msg_info.counted, TvmConst.int_msg_info.bounce,
        TvmConst.int_msg_info.dest, e109]
      simp
    · simp only [MsgItem.headerBits, MsgItem.maxWidth, e6]
      simp

/-- Witness of C8: only dest on the stack, no constants. -/
theorem StackPusherHelper.msg_info_size_below_bound_witness :
    int_msg_info.Admissible {4} (fun _ => none) ∧ ({4} : Finset Int).Nonempty ∧
    (0 : Int) ≤ (StackPusherHelper.ofSize 1).m_code.tabQty ∧
    ((({4} : Finset Int).card : Nat) : Int) ≤ (StackPusherHelper.ofSize 1).m_stack.m_size ∧
    (∃ q, StackPusherHelper.int_msg_info specCollaborators {4} (fun _ => none)
        (StackPusherHelper.ofSize 1) =
        some ((stdString 109 '0', specCollaborators.maxBitLength + 109), q)) ∧
    specCollaborators.maxBitLength + 109 < 6 + specCollaborators.maxBitLength + 109 :=
  ⟨admissible_dest, Finset.singleton_nonempty 4, by decide, by decide,
    ⟨_, ((StackPusherHelper.msg_info_size_below_bound specCollaborators {4} (fun _ => none)
      admissible_dest (Finset.singleton_nonempty 4) (StackPusherHelper.ofSize 1)
      (by decide) (by decide)).2.1 rfl (fun _ => rfl)).1⟩, by omega⟩

/-! ## Calibration of the steps (C3) -/

theorem calibrated_nil : Calibrated [] := fun _ h => absurd h (List.not_mem_nil _)

theorem calibrated_append {a b : List (Int × String)} (ha : Calibrated a) (hb : Calibrated b) :
    Calibrated (a ++ b) := by
  intro e he
  rcases List.mem_append.mp he with h | h
  · exact ha e h
  · exact hb e h

theorem calibrated_single (d : Int) (cmd : String) (h : IsCalibratedLine cmd → d = 1) :
    Calibrated [(d, cmd)] := by
  intro e he
  rw [List.mem_singleton] at he
  subst he
  exact h

/-- A calibrated line starts with `N`, `D` or `P`. -/
theorem IsCalibratedLine.head {cmd : String} (h : IsCalibratedLine cmd) :
    ∃ c rest, cmd.data = c :: rest ∧ (c = 'N' ∨ c = 'D' ∨ c = 'P') := by
  rcases h with rfl | rfl | rfl | h
  · exact ⟨'N', _, rfl, Or.inl rfl⟩
  · exact ⟨'D', _, rfl, Or.inr (Or.inl rfl)⟩
  · exact ⟨'N', _, rfl, Or.inl rfl⟩
  · rcases hd : cmd.data with _ | ⟨c, rest⟩
    · rw [hd] at h; exact absurd h (by decide)
    · rw [hd] at h
      refine ⟨c, rest, rfl, Or.inr (Or.inr ?_)⟩
      have := congrArg List.head? h
      simpa using this

/-- A line behind a first character other than `N`, `D` and `P` is not
calibrated. -/
theorem not_calibrated_of_head (c : Char) (a b : String) (rest : List Char)
    (ha : a.data = c :: rest) (hc : c ≠ 'N' ∧ c ≠ 'D' ∧ c ≠ 'P') :
    ¬ IsCalibratedLine (a ++ b) := by
  intro h
  obtain ⟨c', rest', hd, hc'⟩ := h.head
  rw [String.data_append, ha, List.cons_append] at hd
  have : c = c' := (List.cons.inj hd).1
  subst this
  rcases hc' with h | h | h
  · exact hc.1 h
  · exact hc.2.1 h
  · exact hc.2.2 h

/-- A line behind a prefix of at least five characters other than `NEWDI` and
`PUSHI` is not calibrated. -/
theorem not_calibrated_of_start (a b : String) (h5 : 5 ≤ a.data.length)
    (hne : a.data.take 5 ≠ "NEWDI".data ∧ a.data.take 5 ≠ "PUSHI".data) :
    ¬ IsCalibratedLine (a ++ b) := by
  have hlen : 5 ≤ (a ++ b).data.length := by
    rw [String.data_append, List.length_append]; omega
  have htake : (a ++ b).data.take 5 = a.data.take 5 := by
    rw [String.data_append, List.take_append_of_le_length h5]
  intro h
  rcases h with h | h | h | h
  · rw [h] at hlen; exact absurd hlen (by decide)
  · rw [h] at hlen; exact absurd hlen (by decide)
  · rw [h] at htake; exact hne.1 htake.symm
  · have h' := congrArg (List.take 5) h
    rw [List.take_take] at h'
    simp only [Nat.min_def] at h'
    rw [if_pos (by decide), htake] at h'
    exact hne.2 h'

namespace StackPusherHelper

/-- One successful `push` records exactly its own step. -/
theorem push_history (d : Int) (cmd : String) (p q : StackPusherHelper)
    (h : push d cmd p = some q) :
    q.history = p.history ++ [(d, cmd)] ∧ q.m_stack.m_size = p.m_stack.m_size + d := by
  simp only [push, Option.bind_eq_bind, Option.bind_eq_some, TVMStack.change] at h
  obtain ⟨c, _, s, hs, hq⟩ := h
  split_ifs at hs
  simp only [Option.some.injEq] at hs hq
  subst hs
  subst hq
  exact ⟨rfl, rfl⟩

end StackPusherHelper

theorem StackPusherHelper.CalibratedOp.step (d : Int) (cmd : String)
    (h : IsCalibratedLine cmd → d = 1) : StackPusherHelper.CalibratedOp (StackPusherHelper.push d cmd) :=
  fun p q hq => ⟨[(d, cmd)], (StackPusherHelper.push_history d cmd p q hq).1,
    calibrated_single d cmd h⟩

theorem StackPusherHelper.CalibratedOp.skip : StackPusherHelper.CalibratedOp some := by
  intro p q h
  cases h
  exact ⟨[], by simp, calibrated_nil⟩

theorem StackPusherHelper.CalibratedOp.fail : StackPusherHelper.CalibratedOp (fun _ => none) := by
  intro p q h
  cases h

theorem StackPusherHelper.CalibratedOp.chain {f g : StackPusherHelper → Option StackPusherHelper}
    (hf : StackPusherHelper.CalibratedOp f) (hg : StackPusherHelper.CalibratedOp g) :
    StackPusherHelper.CalibratedOp (fun p => (f p).bind g) := by
  intro p q h
  simp only [] at h
  rcases hfp : f p with _ | r
  · rw [hfp] at h; cases h
  · rw [hfp, Option.some_bind] at h
    obtain ⟨n1, e1, c1⟩ := hf p r hfp
    obtain ⟨n2, e2, c2⟩ := hg r q h
    exact ⟨n1 ++ n2, by rw [e2, e1, List.append_assoc], calibrated_append c1 c2⟩

theorem StackPusherHelper.CalibratedOp.transport {f g : StackPusherHelper → Option StackPusherHelper}
    (hf : StackPusherHelper.CalibratedOp f) (e : ∀ p, g p = f p) :
    StackPusherHelper.CalibratedOp g := by
  intro p q h
  rw [e p] at h
  exact hf p q h

theorem StackPusherHelper.CalibratedOp.ite (c : Prop) [Decidable c]
    {f g : StackPusherHelper → Option StackPusherHelper}
    (hf : StackPusherHelper.CalibratedOp f) (hg : StackPusherHelper.CalibratedOp g) :
    StackPusherHelper.CalibratedOp (fun p => if c then f p else g p) := by
  by_cases h : c
  · exact hf.transport (fun p => by simp [h])
  · exact hg.transport (fun p => by simp [h])

/-- A value computed apart from the pusher and then used by an emitter. -/
theorem StackPusherHelper.CalibratedOp.const_bind {α : Type} (x : Option α)
    {g : α → StackPusherHelper → Option StackPusherHelper}
    (hg : ∀ a, StackPusherHelper.CalibratedOp (g a)) :
    StackPusherHelper.CalibratedOp (fun p => x.bind (fun a => g a p)) := by
  intro p q h
  simp only [] at h
  rcases x with _ | a
  · cases h
  · exact hg a p q h

namespace StackPusherHelper

theorem calibrated_push0 (cmd : String) (h : ¬ IsCalibratedLine cmd) (d : Int) :
    CalibratedOp (push d cmd) :=
  CalibratedOp.step d cmd (fun hc => absurd hc h)

theorem calibrated_push1 (cmd : String) : CalibratedOp (push 1 cmd) :=
  CalibratedOp.step 1 cmd (fun _ => rfl)

theorem calibrated_pushInt (i : Int) : CalibratedOp (pushInt i) := calibrated_push1 _

theorem calibrated_pushS (i : Int) : CalibratedOp (pushS i) := by
  unfold pushS
  exact CalibratedOp.ite _ CalibratedOp.fail
    (CalibratedOp.ite _ (calibrated_push1 _) (calibrated_push1 _))

theorem calibrated_stzeroes (n : Int) : CalibratedOp (stzeroes n) := by
  unfold stzeroes
  exact CalibratedOp.ite _
    (CalibratedOp.ite _ (calibrated_push0 _ (by decide) _)
      (CalibratedOp.chain (calibrated_pushInt n) (calibrated_push0 _ (by decide) _)))
    CalibratedOp.skip

theorem calibrated_stones (n : Int) : CalibratedOp (stones n) := by
  unfold stones
  exact CalibratedOp.ite _
    (CalibratedOp.ite _ (calibrated_push0 _ (by decide) _)
      (CalibratedOp.chain (calibrated_pushInt n) (calibrated_push0 _ (by decide) _)))
    CalibratedOp.skip

end StackPusherHelper

namespace StackPusherHelper

/-- The loop `for (s : lines) push(0, s)` records one step of delta 0 per
line. -/
theorem pushEach_history : ∀ (ls : List String) (p q : StackPusherHelper),
    pushEach ls p = some q →
      q.history = p.history ++ ls.map (fun l => ((0 : Int), l)) ∧
        q.m_stack.m_size = p.m_stack.m_size
  | [], p, q, h => by
    simp only [pushEach, Option.some.injEq] at h
    subst h
    simp
  | l :: ls, p, q, h => by
    simp only [pushEach, Option.bind_eq_bind, Option.bind_eq_some] at h
    obtain ⟨r, hr, hq⟩ := h
    obtain ⟨e1, s1⟩ := push_history 0 l p r hr
    obtain ⟨e2, s2⟩ := pushEach_history ls r q hq
    constructor
    · rw [e2, e1]; simp
    · rw [s2, s1]; simp

/-- The steps of `pushCont`: the opening line, the lines of the continuation
behind a tab with delta 0, the closing brace with delta +1. -/
theorem pushCont_history (cont : CodeLines) (p q : StackPusherHelper)
    (h : pushCont cont "" p = some q) :
    q.history = p.history ++ contSteps cont.lines ∧
      q.m_stack.m_size = p.m_stack.m_size + 1 := by
  simp only [pushCont, if_true, Option.bind_eq_bind, Option.bind_eq_some] at h
  obtain ⟨r1, h1, r2, h2, h3⟩ := h
  obtain ⟨e1, s1⟩ := push_history _ _ p r1 h1
  obtain ⟨e2, s2⟩ := pushEach_history _ r1 r2 h2
  obtain ⟨e3, s3⟩ := push_history _ _ r2 q h3
  constructor
  · rw [e3, e2, e1]; simp [contSteps, List.map_map, Function.comp_def]
  · rw [s3, s2, s1]; simp

end StackPusherHelper

theorem calibrated_contSteps (lines : List String) : Calibrated (contSteps lines) := by
  intro e he
  simp only [contSteps, List.cons_append, List.mem_cons, List.mem_append, List.mem_map,
    List.mem_singleton, List.not_mem_nil, or_false] at he
  rcases he with rfl | ⟨l, _, rfl⟩ | rfl
  · intro h; exact absurd h (by decide)
  · intro h; exact absurd h (not_calibrated_of_head '\t' "\t" l [] rfl (by decide))
  · intro _; rfl

namespace StackPusherHelper

theorem calibrated_pushCont (cont : CodeLines) : CalibratedOp (pushCont cont "") :=
  fun p q h => ⟨_, (pushCont_history cont p q h).1, calibrated_contSteps _⟩

theorem calibrated_exchange01 : CalibratedOp (exchange 0 1) :=
  (calibrated_push0 "SWAP" (by decide) 0).transport (fun p => by rw [exchange]; simp)

theorem calibrated_appendToBuilder (s : String) : CalibratedOp (appendToBuilder s) := by
  unfold appendToBuilder
  refine CalibratedOp.ite _ CalibratedOp.skip (CalibratedOp.ite _ (calibrated_stzeroes _) ?_)
  refine CalibratedOp.const_bind (binaryStringToSlice s) (fun hex => ?_)
  refine CalibratedOp.ite _
    (calibrated_push0 _ (not_calibrated_of_head 'S' "STSLICECONST x" hex _ rfl (by decide)) 0) ?_
  exact CalibratedOp.const_bind (binaryStringToSlice s) (fun slice =>
    CalibratedOp.chain (calibrated_push1 _) (calibrated_push0 _ (by decide) _))

theorem calibrated_storeField (k : Int) : CalibratedOp (MsgItem.storeField k) := by
  unfold MsgItem.storeField
  exact CalibratedOp.ite _ (calibrated_push0 _ (by decide) _)
    (CalibratedOp.ite _ (calibrated_push0 _ (by decide) _)
      (CalibratedOp.ite _
        (CalibratedOp.chain calibrated_exchange01 (calibrated_push0 _ (by decide) _))
        (CalibratedOp.ite _ (calibrated_push0 _ (by decide) _) CalibratedOp.fail)))

end StackPusherHelper

namespace StackPusherHelper

/-- An emitter followed by the update of the loop state. -/
theorem calibrated_into_state {f : StackPusherHelper → Option StackPusherHelper}
    (hf : CalibratedOp f) (p : StackPusherHelper) (mk : StackPusherHelper → MsgInfoState)
    (hmk : ∀ q, (mk q).pusher = q) (st : MsgInfoState)
    (h : (f p).bind (fun q => some (mk q)) = some st) :
    ∃ new, st.pusher.history = p.history ++ new ∧ Calibrated new := by
  rcases hfp : f p with _ | q
  · rw [hfp] at h; cases h
  · rw [hfp, Option.some_bind, Option.some.injEq] at h
    subst h
    rw [hmk]
    exact hf p q hfp

theorem int_body_calibrated (env : Collaborators) (R : Finset Int) (C : Int → Option String)
    (k w : Int) (st st1 : MsgInfoState) (h : int_msg_info.body env R C k w st = some st1) :
    ∃ new, st1.pusher.history = st.pusher.history ++ new ∧ Calibrated new := by
  have hsame : ∀ s : String, ∃ new, ({ st with bitString := s } : MsgInfoState).pusher.history =
      st.pusher.history ++ new ∧ Calibrated new := fun s => ⟨[], by simp, calibrated_nil⟩
  cases hC : C k with
  | some c =>
    simp only [int_msg_info.body, hC] at h
    split_ifs at h
    all_goals
      simp only [Option.some.injEq] at h
      subst h
      exact hsame _
  | none =>
    by_cases hk : k ∈ R
    · simp only [int_msg_info.body, hC, hk, not_true_eq_false, or_false, if_false,
        Option.bind_eq_bind] at h
      rcases hap : appendToBuilder st.bitString st.pusher with _ | p1
      · rw [hap] at h; cases h
      · rw [hap, Option.some_bind] at h
        obtain ⟨n1, e1, c1⟩ := calibrated_appendToBuilder st.bitString st.pusher p1 hap
        have key : ∃ new, st1.pusher.history = p1.history ++ new ∧ Calibrated new := by
          split_ifs at h
          · exact calibrated_into_state (calibrated_push0 "STI 1" (by decide) (-1)) p1
              (fun q => ⟨"", st.maxBitStringSize + 1, q⟩) (fun _ => rfl) st1 h
          · exact calibrated_into_state (calibrated_push0 "STSLICE" (by decide) (-1)) p1
              (fun q => ⟨"", st.maxBitStringSize + env.maxBitLength, q⟩) (fun _ => rfl) st1 h
          · exact calibrated_into_state
              (CalibratedOp.chain calibrated_exchange01 (calibrated_push0 "STGRAMS" (by decide) (-1)))
              p1 (fun q => ⟨"", st.maxBitStringSize + (4 + 16 * 8), q⟩) (fun _ => rfl) st1
              (by rw [← h]; simp [Option.bind_assoc])
          · exact calibrated_into_state (calibrated_push0 "STDICT" (by decide) (-1)) p1
              (fun q => ⟨"", st.maxBitStringSize, q⟩) (fun _ => rfl) st1 h
        obtain ⟨n2, e2, c2⟩ := key
        exact ⟨n1 ++ n2, by rw [e2, e1, List.append_assoc], calibrated_append c1 c2⟩
    · simp only [int_msg_info.body, hC, hk, not_false_eq_true, or_true, not_true_eq_false,
        if_false, if_true] at h
      split_ifs at h
      simp only [Option.some.injEq] at h
      subst h
      exact hsame _

theorem ext_body_calibrated (env : Collaborators) (R : Finset Int)
    (k w : Int) (st st1 : MsgInfoState) (h : ext_msg_info.body env R k w st = some st1) :
    ∃ new, st1.pusher.history = st.pusher.history ++ new ∧ Calibrated new := by
  by_cases hk : k ∈ R
  · simp only [ext_msg_info.body, hk, not_true_eq_false, if_false, Option.bind_eq_bind] at h
    rcases hap : appendToBuilder st.bitString st.pusher with _ | p1
    · rw [hap] at h; cases h
    · rw [hap, Option.some_bind] at h
      obtain ⟨n1, e1, c1⟩ := calibrated_appendToBuilder st.bitString st.pusher p1 hap
      split_ifs at h
      obtain ⟨n2, e2, c2⟩ := calibrated_into_state (calibrated_push0 "STSLICE" (by decide) (-1))
        p1 (fun q => ⟨"", st.maxBitStringSize + env.maxBitLength, q⟩) (fun _ => rfl) st1 h
      exact ⟨n1 ++ n2, by rw [e2, e1, List.append_assoc], calibrated_append c1 c2⟩
  · simp only [ext_msg_info.body, hk, not_false_eq_true, if_true, Option.some.injEq] at h
    subst h
    exact ⟨[], by simp, calibrated_nil⟩

theorem loop_calibrated (body : Int → Int → MsgInfoState → Option MsgInfoState)
    (hbody : ∀ k w st st1, body k w st = some st1 →
      ∃ new, st1.pusher.history = st.pusher.history ++ new ∧ Calibrated new) :
    ∀ (ws : List Int) (k : Int) (st st1 : MsgInfoState), msgInfoLoop body k ws st = some st1 →
      ∃ new, st1.pusher.history = st.pusher.history ++ new ∧ Calibrated new := by
  intro ws
  induction ws with
  | nil =>
    intro k st st1 h
    simp only [msgInfoLoop, Option.some.injEq] at h
    subst h
    exact ⟨[], by simp, calibrated_nil⟩
  | cons w ws ih =>
    intro k st st1 h
    simp only [msgInfoLoop, Option.bind_eq_bind, Option.bind_eq_some] at h
    obtain ⟨st2, h2, h3⟩ := h
    obtain ⟨n1, e1, c1⟩ := hbody k w st st2 h2
    obtain ⟨n2, e2, c2⟩ := ih (k + 1) st2 st1 h3
    exact ⟨n1 ++ n2, by rw [e2, e1, List.append_assoc], calibrated_append c1 c2⟩

/-- Every `NEWC` and `PUSHINT k` of `int_msg_info` is pushed with +1. -/
theorem calibrated_int_msg_info (env : Collaborators) (R : Finset Int) (C : Int → Option String)
    (p : StackPusherHelper) (r : (String × Int) × StackPusherHelper)
    (h : int_msg_info env R C p = some r) :
    ∃ new, r.2.history = p.history ++ new ∧ Calibrated new := by
  simp only [int_msg_info, Option.bind_eq_bind, Option.bind_eq_some] at h
  obtain ⟨p1, h1, st, h2, h3⟩ := h
  simp only [Option.some.injEq] at h3
  subst h3
  obtain ⟨e1, _⟩ := push_history 1 "NEWC" p p1 h1
  obtain ⟨n2, e2, c2⟩ := loop_calibrated _ (int_body_calibrated env R C) _ _ _ _ h2
  simp only at e2
  exact ⟨[(1, "NEWC")] ++ n2, by rw [e2, e1, List.append_assoc],
    calibrated_append (calibrated_single 1 "NEWC" (fun _ => rfl)) c2⟩

/-- Every `NEWC` and `PUSHINT k` of `ext_msg_info` is pushed with +1. -/
theorem calibrated_ext_msg_info (env : Collaborators) (R : Finset Int)
    (p : StackPusherHelper) (r : (String × Int) × StackPusherHelper)
    (h : ext_msg_info env R p = some r) :
    ∃ new, r.2.history = p.history ++ new ∧ Calibrated new := by
  simp only [ext_msg_info, Option.bind_eq_bind, Option.bind_eq_some] at h
  obtain ⟨p1, h1, st, h2, h3⟩ := h
  simp only [Option.some.injEq] at h3
  subst h3
  obtain ⟨e1, _⟩ := push_history 1 "NEWC" p p1 h1
  obtain ⟨n2, e2, c2⟩ := loop_calibrated _ (ext_body_calibrated env R) _ _ _ _ h2
  simp only at e2
  exact ⟨[(1, "NEWC")] ++ n2, by rw [e2, e1, List.append_assoc],
    calibrated_append (calibrated_single 1 "NEWC" (fun _ => rfl)) c2⟩

end StackPusherHelper

namespace StackPusherHelper

/-- Every `NEWC`, `NEWDICT` and `PUSHINT 0` of `pushDefaultValue` is pushed with
+1; the store line of the integral case comes from `storeIntegralOrAddress`. -/
theorem calibrated_pushDefaultValue (env : Collaborators)
    (hstore : ∀ t b, ¬ IsCalibratedLine (env.storeIntegralOrAddress t b))
    (type : SolType) (hns : type.category ≠ .Struct) (isResultBuilder : Bool) :
    CalibratedOp (pushDefaultValue env type isResultBuilder) := by
  have hAddr : CalibratedOp (fun p => (pushZeroAddress p).bind fun p =>
      if isResultBuilder = true then (push 1 "NEWC" p).bind (push (-1) "STSLICE")
      else some p) :=
    CalibratedOp.chain (calibrated_push1 _) (CalibratedOp.ite _
      (CalibratedOp.chain (calibrated_push1 _) (calibrated_push0 _ (by decide) _))
      CalibratedOp.skip)
  have hInt : ∀ t : SolType, CalibratedOp (fun p => (push 1 "PUSHINT 0" p).bind fun p =>
      if isResultBuilder = true then
        (push 1 "NEWC" p).bind (push (-1) (env.storeIntegralOrAddress t false))
      else some p) :=
    fun t => CalibratedOp.chain (calibrated_push1 _) (CalibratedOp.ite _
      (CalibratedOp.chain (calibrated_push1 _) (calibrated_push0 _ (hstore t false) _))
      CalibratedOp.skip)
  have hCell : CalibratedOp (fun p => (push 1 "NEWC" p).bind fun p =>
      if (!isResultBuilder) = true then push 0 "ENDC" p else some p) :=
    CalibratedOp.chain (calibrated_push1 _) (CalibratedOp.ite _
      (calibrated_push0 _ (by decide) _) CalibratedOp.skip)
  have hMap : CalibratedOp (fun p => if isResultBuilder = true then
      (push 1 "NEWC" p).bind (stzeroes 1) else push 1 "NEWDICT" p) :=
    CalibratedOp.ite _ (CalibratedOp.chain (calibrated_push1 _) (calibrated_stzeroes 1))
      (calibrated_push1 _)
  cases type
  case struct id => exact absurd rfl hns
  case address => exact hAddr.transport (fun p => by simp only [pushDefaultValue]; rfl)
  case contract => exact hAddr.transport (fun p => by simp only [pushDefaultValue]; rfl)
  case bool => exact (hInt _).transport (fun p => by simp only [pushDefaultValue]; rfl)
  case integer n s => exact (hInt _).transport (fun p => by simp only [pushDefaultValue]; rfl)
  case fixedBytes n => exact (hInt _).transport (fun p => by simp only [pushDefaultValue]; rfl)
  case enum n => exact (hInt _).transport (fun p => by simp only [pushDefaultValue]; rfl)
  case varInteger => exact (hInt _).transport (fun p => by simp only [pushDefaultValue]; rfl)
  case array ba =>
    cases ba
    · refine (CalibratedOp.ite ((!isResultBuilder) = true)
        (CalibratedOp.chain (calibrated_pushInt 0) (CalibratedOp.chain (calibrated_push1 "NEWDICT")
          (calibrated_push0 "PAIR" (by decide) (-2 + 1))))
        (CalibratedOp.chain (calibrated_push1 "NEWC") (CalibratedOp.chain (calibrated_pushInt 33)
          (calibrated_push0 "STZEROES" (by decide) (-1))))).transport (fun p => ?_)
      simp only [pushDefaultValue]; rfl
    · exact hCell.transport (fun p => by simp only [pushDefaultValue]; rfl)
  case mapping => exact hMap.transport (fun p => by simp only [pushDefaultValue]; rfl)
  case extraCurrencyCollection => exact hMap.transport (fun p => by simp only [pushDefaultValue]; rfl)
  case tvmCell => exact hCell.transport (fun p => by simp only [pushDefaultValue]; rfl)
  case tvmSlice =>
    exact (CalibratedOp.chain (calibrated_push1 "PUSHSLICE x8_") (CalibratedOp.ite _
      (CalibratedOp.chain (calibrated_push1 "NEWC") (calibrated_push0 "STSLICE" (by decide) (-1)))
      CalibratedOp.skip)).transport (fun p => by simp only [pushDefaultValue]; rfl)
  case tvmBuilder => exact (calibrated_push1 "NEWC").transport (fun p => by simp only [pushDefaultValue])
  case function ps rs =>
    refine (CalibratedOp.ite (isResultBuilder = true) CalibratedOp.fail
      (CalibratedOp.const_bind ((StackPusherHelper.create ps.size).bind fun ph =>
        (ph.drop ps.size).bind (pushDefaultValues env rs))
        (fun ph => calibrated_pushCont ph.code))).transport (fun p => ?_)
    simp only [pushDefaultValue, Option.bind_eq_bind, Option.bind_assoc]
  case stringLiteral v => exact CalibratedOp.fail.transport (fun p => by simp only [pushDefaultValue])
  case other => exact CalibratedOp.fail.transport (fun p => by simp only [pushDefaultValue])

end StackPusherHelper

namespace StackPusherHelper

/-- An emitter followed by the returned flag. -/
theorem calibrated_with_flag {f : StackPusherHelper → Option StackPusherHelper}
    (hf : CalibratedOp f) (p : StackPusherHelper) (flag : Bool) (r : Bool × StackPusherHelper)
    (h : (f p).bind (fun q => some (flag, q)) = some r) :
    ∃ new, r.2.history = p.history ++ new ∧ Calibrated new := by
  rcases hfp : f p with _ | q
  · rw [hfp] at h; cases h
  · rw [hfp, Option.some_bind, Option.some.injEq] at h
    subst h
    exact hf p q hfp

/-- Apart from struct values and from the integral value that is not yet a
builder, every `NEWC` of `prepareValueForDictOperations` is pushed with +1. -/
theorem calibrated_prepareValue (env : Collaborators) (keyType vt : SolType)
    (isValueBuilder : Bool) (hns : vt.category ≠ .Struct)
    (hex : isIntegralType vt = false ∨ isValueBuilder = true)
    (p : StackPusherHelper) (r : Bool × StackPusherHelper)
    (h : prepareValueForDictOperations env keyType vt isValueBuilder p = some r) :
    ∃ new, r.2.history = p.history ++ new ∧ Calibrated new := by
  have hsame : ∀ b : Bool, some (b, p) = some r →
      ∃ new, r.2.history = p.history ++ new ∧ Calibrated new := by
    intro b hb
    simp only [Option.some.injEq] at hb
    subst hb
    exact ⟨[], by simp, calibrated_nil⟩
  unfold prepareValueForDictOperations at h
  by_cases hint : isIntegralType vt = true
  · have hb : isValueBuilder = true := by
      rcases hex with h1 | h1
      · rw [h1] at hint; cases hint
      · exact h1
    subst hb
    simp only [hint, if_true, Bool.not_true, Bool.false_eq_true, if_false] at h
    exact hsame _ h
  · simp only [hint, if_false, hns] at h
    cases isValueBuilder
    · simp only [Bool.not_false, if_true, Bool.false_eq_true, if_false,
        Option.bind_eq_bind] at h
      split_ifs at h
      · exact calibrated_with_flag
          (CalibratedOp.chain (calibrated_push1 "UNPAIR") (CalibratedOp.chain
            (calibrated_push0 "SWAP" (by decide) 0) (CalibratedOp.chain (calibrated_push1 "NEWC")
              (CalibratedOp.chain (calibrated_push0 "STU 32" (by decide) (-1))
                (calibrated_push0 "STDICT" (by decide) (-1)))))) p true r
          (by rw [← h]; simp [Option.bind_assoc])
      · exact hsame _ h
      · exact calibrated_with_flag
          (CalibratedOp.chain (calibrated_push1 "NEWC") (calibrated_push0 "STDICT" (by decide) (-1)))
          p true r (by rw [← h]; simp [Option.bind_assoc])
      · exact calibrated_with_flag
          (CalibratedOp.chain (calibrated_push1 "NEWC") (CalibratedOp.chain
            (calibrated_push0 "SWAP" (by decide) 0)
            (calibrated_push0 "STVARUINT32" (by decide) (-1))))
          p true r (by rw [← h]; simp [Option.bind_assoc])
      · exact hsame _ h
    · simp only [Bool.not_true, Bool.false_eq_true, if_false, if_true,
        Option.bind_eq_bind] at h
      split_ifs at h
      · exact hsame _ h
      · exact calibrated_with_flag (calibrated_push0 "ENDC" (by decide) 0) p false r h
      · exact hsame _ h
      · exact hsame _ h
      · exact hsame _ h

/-- For an integral value that is not yet a builder
`prepareValueForDictOperations` pushes `NEWC` and the store line with delta 0
each. -/
theorem prepareValue_integral (env : Collaborators) (keyType vt : SolType)
    (hint : isIntegralType vt = true) (p : StackPusherHelper) (r : Bool × StackPusherHelper)
    (h : prepareValueForDictOperations env keyType vt false p = some r) :
    r.1 = true ∧
      r.2.history = p.history ++ [(0, "NEWC"), (0, env.storeIntegralOrAddress vt false)] ∧
      r.2.m_stack.m_size = p.m_stack.m_size := by
  simp only [prepareValueForDictOperations, hint, if_true, Bool.not_false,
    Option.bind_eq_bind, Option.bind_eq_some, Option.some.injEq] at h
  obtain ⟨p1, h1, p2, h2, h3⟩ := h
  subst h3
  obtain ⟨e1, s1⟩ := push_history _ _ p p1 h1
  obtain ⟨e2, s2⟩ := push_history _ _ p1 p2 h2
  refine ⟨rfl, ?_, ?_⟩
  · simp only [e2, e1, List.append_assoc, List.singleton_append]
  · simp only [s2, s1, add_zero]

end StackPusherHelper

namespace StackPusherHelper

theorem calibrated_headed (c : Char) (a b : String) (rest : List Char) (d : Int)
    (ha : a.data = c :: rest) (hc : c ≠ 'N' ∧ c ≠ 'D' ∧ c ≠ 'P') :
    CalibratedOp (push d (a ++ b)) :=
  calibrated_push0 _ (not_calibrated_of_head c a b rest ha hc) d

theorem calibrated_untuple (n : Int) : CalibratedOp (untuple n) := by
  unfold untuple
  exact CalibratedOp.ite _ CalibratedOp.fail (CalibratedOp.ite _
    (calibrated_headed 'U' "UNTUPLE " _ _ _ rfl (by decide))
    (CalibratedOp.ite _ (CalibratedOp.chain (calibrated_pushInt n)
      (calibrated_push0 "UNTUPLEVAR" (by decide) _)) CalibratedOp.fail))

theorem calibrated_index (n : Int) : CalibratedOp (index n) := by
  unfold index
  exact CalibratedOp.ite _ CalibratedOp.fail (CalibratedOp.ite _
    (calibrated_headed 'I' "INDEX " _ _ _ rfl (by decide))
    (CalibratedOp.ite _ (CalibratedOp.chain (calibrated_pushInt n)
      (calibrated_push0 "INDEXVAR" (by decide) _)) CalibratedOp.fail))

theorem calibrated_set_index (n : Int) : CalibratedOp (set_index n) := by
  unfold set_index
  exact CalibratedOp.ite _ CalibratedOp.fail (CalibratedOp.ite _
    (calibrated_headed 'S' "SETINDEX " _ _ _ rfl (by decide))
    (CalibratedOp.ite _ (CalibratedOp.chain (calibrated_pushInt n)
      (calibrated_push0 "SETINDEXVAR" (by decide) _)) CalibratedOp.fail))

theorem calibrated_tuple (n : Int) : CalibratedOp (tuple n) := by
  unfold tuple
  exact CalibratedOp.ite _ CalibratedOp.fail (CalibratedOp.ite _
    (calibrated_headed 'T' "TUPLE " _ _ _ rfl (by decide))
    (CalibratedOp.ite _ (CalibratedOp.chain (calibrated_pushInt n)
      (calibrated_push0 "TUPLEVAR" (by decide) _)) CalibratedOp.fail))

theorem calibrated_getGlob (n : Int) : CalibratedOp (getGlob n) := by
  unfold getGlob
  exact CalibratedOp.ite _ CalibratedOp.fail (CalibratedOp.ite _
    (calibrated_push1 _)
    (CalibratedOp.ite _ (CalibratedOp.chain (calibrated_pushInt n)
      (calibrated_push0 "GETGLOBVAR" (by decide) _)) CalibratedOp.fail))

theorem calibrated_setGlob (n : Int) : CalibratedOp (setGlob n) := by
  unfold setGlob
  exact CalibratedOp.ite _
    (calibrated_headed 'S' "SETGLOB " _ _ _ rfl (by decide))
    (CalibratedOp.ite _ (CalibratedOp.chain (calibrated_pushInt n)
      (calibrated_push0 "SETGLOBVAR" (by decide) _)) CalibratedOp.fail)

theorem calibrated_drop (n : Int) : CalibratedOp (drop n) := by
  unfold drop
  exact CalibratedOp.ite _ CalibratedOp.fail (CalibratedOp.ite _ CalibratedOp.skip
    (CalibratedOp.ite _ (calibrated_push0 "DROP" (by decide) _)
      (CalibratedOp.ite _ (calibrated_push0 "DROP2" (by decide) _)
        (CalibratedOp.ite _ (CalibratedOp.chain (calibrated_pushInt n)
          (calibrated_push0 "DROPX" (by decide) _))
          (calibrated_headed 'B' "BLKDROP " _ _ _ rfl (by decide))))))

theorem calibrated_exchange0 (j : Int) : CalibratedOp (exchange 0 j) := by
  by_cases h : j ≤ 255
  · refine (CalibratedOp.ite (¬ (0 : Int) ≤ j) CalibratedOp.fail
      (CalibratedOp.ite (¬ j ≥ 1) CalibratedOp.fail
        (CalibratedOp.ite (j = 1) (calibrated_push0 "SWAP" (by decide) 0)
          (CalibratedOp.ite (j ≤ 15)
            (calibrated_headed 'X' "XCHG s" (toString j) _ 0 rfl (by decide))
            (calibrated_headed 'X' "XCHG s0,s" (toString j) _ 0 rfl (by decide)))))).transport
      (fun p => ?_)
    rw [exchange]
    simp only [h, and_true, true_and, dite_true, dite_eq_ite, if_true, ge_iff_le, le_refl,
      not_true_eq_false, if_false]
  · refine CalibratedOp.fail.transport (fun p => ?_)
    rw [exchange]
    simp [h]

theorem calibrated_exchange (i j : Int) : CalibratedOp (exchange i j) := by
  by_cases hi : i = 0
  · subst hi; exact calibrated_exchange0 j
  · have e : ∀ a b : String, "XCHG s" ++ a ++ ",s" ++ b = "XCHG s" ++ (a ++ (",s" ++ b)) := by
      intro a b; simp only [String.append_assoc]
    refine (CalibratedOp.ite (¬ i ≤ j) CalibratedOp.fail
      (CalibratedOp.ite (¬ i ≥ 0) CalibratedOp.fail
        (CalibratedOp.ite (¬ j ≥ 1) CalibratedOp.fail
          (CalibratedOp.ite (i = 1 ∧ 2 ≤ j ∧ j ≤ 15)
            (calibrated_headed 'X' "XCHG s1,s" (toString j) _ 0 rfl (by decide))
            (CalibratedOp.ite (1 ≤ i ∧ i < j ∧ j ≤ 15)
              (calibrated_headed 'X' "XCHG s" (toString i ++ (",s" ++ toString j)) _ 0 rfl
                (by decide))
              (CalibratedOp.ite (j ≤ 255)
                (CalibratedOp.chain (calibrated_exchange0 i)
                  (CalibratedOp.chain (calibrated_exchange0 j) (calibrated_exchange0 i)))
                CalibratedOp.fail)))))).transport (fun p => ?_)
    rw [exchange]
    simp only [hi, false_and, dite_false, dite_eq_ite, e, Option.bind_eq_bind, if_false]

theorem calibrated_blockSwap (m n : Int) : CalibratedOp (blockSwap m n) := by
  have e : ∀ a b : String, "BLKSWAP " ++ a ++ ", " ++ b = "BLKSWAP " ++ (a ++ (", " ++ b)) := by
    intro a b; simp only [String.append_assoc]
  unfold blockSwap
  simp only [e]
  exact CalibratedOp.ite _ CalibratedOp.fail (CalibratedOp.ite _ CalibratedOp.fail
    (CalibratedOp.ite _ CalibratedOp.skip (CalibratedOp.ite _ (calibrated_exchange 0 1)
      (CalibratedOp.ite _ (calibrated_push0 "ROT" (by decide) 0)
        (CalibratedOp.ite _ (calibrated_push0 "ROTREV" (by decide) 0)
          (CalibratedOp.ite _ (calibrated_push0 "SWAP2" (by decide) 0)
            (CalibratedOp.ite _ (calibrated_headed 'B' "BLKSWAP " _ _ 0 rfl (by decide))
              (CalibratedOp.chain (calibrated_pushInt m) (CalibratedOp.chain (calibrated_pushInt n)
                (calibrated_push0 "BLKSWX" (by decide) (-2)))))))))))

theorem calibrated_reverse (i j : Int) : CalibratedOp (reverse i j) := by
  have e : ∀ a b : String, "REVERSE " ++ a ++ ", " ++ b = "REVERSE " ++ (a ++ (", " ++ b)) := by
    intro a b; simp only [String.append_assoc]
  unfold reverse
  simp only [e]
  exact CalibratedOp.ite _ CalibratedOp.fail (CalibratedOp.ite _ CalibratedOp.fail
    (CalibratedOp.ite _ (calibrated_push0 "SWAP" (by decide) 0)
      (CalibratedOp.ite _ (calibrated_push0 "XCHG s2" (by decide) 0)
        (CalibratedOp.ite _ (calibrated_headed 'R' "REVERSE " _ _ 0 rfl (by decide))
          (CalibratedOp.chain (calibrated_pushInt i) (CalibratedOp.chain (calibrated_pushInt j)
            (calibrated_push0 "REVX" (by decide) (-2))))))))

theorem calibrated_dropUnder_f (l d : Int) : CalibratedOp (dropUnder.f l d) := by
  have e : ∀ a b : String, "BLKDROP2 " ++ a ++ ", " ++ b = "BLKDROP2 " ++ (a ++ (", " ++ b)) := by
    intro a b; simp only [String.append_assoc]
  unfold dropUnder.f
  simp only [e]
  exact CalibratedOp.ite _
    (CalibratedOp.chain (calibrated_pushInt d) (CalibratedOp.chain (calibrated_pushInt l)
      (CalibratedOp.chain (calibrated_push0 "BLKSWX" (by decide) (-2)) (calibrated_drop d))))
    (calibrated_headed 'B' "BLKDROP2 " _ _ _ rfl (by decide))

theorem calibrated_dropUnder (l d : Int) : CalibratedOp (dropUnder l d) := by
  unfold dropUnder
  exact CalibratedOp.ite _ CalibratedOp.fail (CalibratedOp.ite _ CalibratedOp.fail
    (CalibratedOp.ite _ CalibratedOp.skip (CalibratedOp.ite _ (calibrated_drop d)
      (CalibratedOp.ite _
        (CalibratedOp.ite _ (calibrated_push0 "NIP" (by decide) (-1)) (calibrated_dropUnder_f l d))
        (CalibratedOp.ite _
          (CalibratedOp.ite _ (CalibratedOp.chain (calibrated_push0 "NIP" (by decide) (-1))
            (calibrated_push0 "NIP" (by decide) (-1))) (calibrated_dropUnder_f l d))
          (CalibratedOp.ite _ (CalibratedOp.chain (calibrated_exchange 0 d) (calibrated_drop d))
            (calibrated_dropUnder_f l d)))))))

theorem calibrated_prepareKey (key : SolType) : CalibratedOp (prepareKeyForDictOperations key) := by
  unfold prepareKeyForDictOperations
  exact CalibratedOp.ite _
    (CalibratedOp.chain (calibrated_push1 "PUSH s1") (CalibratedOp.chain
      (calibrated_push0 "HASHCU" (by decide) _) (calibrated_push0 "POP s2" (by decide) _)))
    CalibratedOp.skip

end StackPusherHelper

namespace StackPusherHelper

theorem calibrated_pushEach (ls : List String) (h : ∀ l ∈ ls, ¬ IsCalibratedLine l) :
    CalibratedOp (pushEach ls) := by
  intro p q hq
  refine ⟨_, (pushEach_history ls p q hq).1, ?_⟩
  intro e he
  simp only [List.mem_map] at he
  obtain ⟨l, hl, rfl⟩ := he
  intro hc
  exact absurd hc (h l hl)

theorem calibrated_loadArray (directOrder : Bool) : CalibratedOp (loadArray directOrder) := by
  unfold loadArray pushLines
  exact CalibratedOp.chain (calibrated_pushEach _ (by decide))
    (CalibratedOp.ite _
      (CalibratedOp.chain (calibrated_exchange 0 1) (calibrated_push0 "" (by decide) _))
      (CalibratedOp.chain CalibratedOp.skip (calibrated_push0 "" (by decide) _)))

theorem calibrated_preLoadArray : CalibratedOp preLoadArray := by
  unfold preLoadArray pushLines
  exact CalibratedOp.chain (calibrated_pushEach _ (by decide)) (calibrated_push0 "" (by decide) _)

theorem calibrated_load (type : SolType) : CalibratedOp (load type) := by
  unfold load
  refine CalibratedOp.ite _ (calibrated_loadArray true) (CalibratedOp.ite _ CalibratedOp.fail ?_)
  cases (TypeInfo.of type).isSigned
  · exact calibrated_headed 'L' "LDU " _ _ _ rfl (by decide)
  · exact calibrated_headed 'L' "LDI " _ _ _ rfl (by decide)

theorem calibrated_preload (type : SolType) : CalibratedOp (preload type) := by
  unfold preload
  refine CalibratedOp.ite _ calibrated_preLoadArray (CalibratedOp.ite _
    (calibrated_push0 "PLDDICT" (by decide) 0) (CalibratedOp.ite _
      (CalibratedOp.chain (calibrated_push0 "LDVARUINT32" (by decide) 0)
        (calibrated_push0 "DROP" (by decide) 0))
      (CalibratedOp.ite _ CalibratedOp.fail ?_)))
  cases (TypeInfo.of type).isSigned
  · exact calibrated_push0 _
      (not_calibrated_of_start "PLDU " _ (by decide) (by decide)) _
  · exact calibrated_push0 _
      (not_calibrated_of_start "PLDI " _ (by decide) (by decide)) _

end StackPusherHelper

theorem Calibrated.butDup {h : List (Int × String)} (hc : Calibrated h) (a : Prop) :
    CalibratedButDup a h := fun e he hl => Or.inl (hc e he hl)

theorem CalibratedButDup.allow {a b : Prop} {h : List (Int × String)}
    (hc : CalibratedButDup a h) (hab : a → b) : CalibratedButDup b h := by
  intro e he hl
  rcases hc e he hl with h1 | ⟨h1, h2⟩
  · exact Or.inl h1
  · exact Or.inr ⟨hab h1, h2⟩

theorem CalibratedButDup.append {a : Prop} {x y : List (Int × String)}
    (hx : CalibratedButDup a x) (hy : CalibratedButDup a y) : CalibratedButDup a (x ++ y) := by
  intro e he
  rcases List.mem_append.mp he with h | h
  · exact hx e h
  · exact hy e h

namespace StackPusherHelper

theorem startContinuation_history (p q : StackPusherHelper) (h : startContinuation p = some q) :
    q.history = p.history := by
  simp only [startContinuation, Option.bind_eq_bind, Option.bind_eq_some,
    Option.some.injEq] at h
  obtain ⟨c, _, rfl⟩ := h
  rfl

theorem endContinuation_history (p q : StackPusherHelper) (h : endContinuation p = some q) :
    q.history = p.history := by
  simp only [endContinuation, Option.bind_eq_bind, Option.bind_eq_some,
    Option.some.injEq] at h
  obtain ⟨c, _, rfl⟩ := h
  rfl

theorem calibrated_startContinuation : CalibratedOp startContinuation :=
  fun p q h => ⟨[], by rw [startContinuation_history p q h]; simp, calibrated_nil⟩

theorem calibrated_endContinuation : CalibratedOp endContinuation :=
  fun p q h => ⟨[], by rw [endContinuation_history p q h]; simp, calibrated_nil⟩

end StackPusherHelper

namespace GetFromDict

theorem Steps.widen {a b : Prop} {F : GetFromDict → Option GetFromDict} (h : Steps a F)
    (hab : a → b) : Steps b F := by
  intro d d1 hd
  obtain ⟨h1, h2, new, e, c⟩ := h d d1 hd
  exact ⟨h1, h2, new, e, c.allow hab⟩

theorem Steps.next {a : Prop} {F G : GetFromDict → Option GetFromDict}
    (hF : Steps a F) (hG : Steps a G) : Steps a (fun d => (F d).bind G) := by
  intro d d2 h
  simp only [] at h
  rcases hFd : F d with _ | d1
  · rw [hFd] at h; cases h
  · rw [hFd, Option.some_bind] at h
    obtain ⟨a1, a2, n1, e1, c1⟩ := hF d d1 hFd
    obtain ⟨b1, b2, n2, e2, c2⟩ := hG d1 d2 h
    exact ⟨by rw [b1, a1], by rw [b2, a2], n1 ++ n2, by rw [e2, e1, List.append_assoc],
      c1.append c2⟩

theorem Steps.same {a : Prop} {F G : GetFromDict → Option GetFromDict}
    (hF : Steps a F) (e : ∀ d, G d = F d) : Steps a G := by
  intro d d1 h
  rw [e d] at h
  exact hF d d1 h

theorem Steps.cond {a : Prop} (c : GetFromDict → Prop) [DecidablePred c]
    {F G : GetFromDict → Option GetFromDict}
    (hF : Steps a F) (hG : Steps a G) : Steps a (fun d => if c d then F d else G d) := by
  intro d d1 h
  by_cases hc : c d
  · simp only [hc, if_true] at h; exact hF d d1 h
  · simp only [hc, if_false] at h; exact hG d d1 h

theorem Steps.unit {a : Prop} : Steps a some := by
  intro d d1 h
  cases h
  exact ⟨rfl, rfl, [], by simp, fun _ he => absurd he (List.not_mem_nil _)⟩

theorem Steps.never {a : Prop} : Steps a (fun _ => none) := by
  intro d d1 h
  cases h

/-- An emission on the pusher of the operation, which may depend on the fields
of the operation. -/
theorem Steps.emit {f : GetFromDict → StackPusherHelper → Option StackPusherHelper}
    (hf : ∀ d, StackPusherHelper.CalibratedOp (f d)) :
    Steps False (fun d => GetFromDict.onPusher (f d) d) := by
  intro d d1 h
  simp only [GetFromDict.onPusher, Option.bind_eq_bind, Option.bind_eq_some,
    Option.some.injEq] at h
  obtain ⟨q, hq, rfl⟩ := h
  obtain ⟨new, e, c⟩ := hf d d.pusher q hq
  exact ⟨rfl, rfl, new, e, c.butDup False⟩

/-- An emission on `haveValue` leaves the pusher of the operation alone. -/
theorem Steps.aside (f : GetFromDict → StackPusherHelper → Option StackPusherHelper) :
    Steps False (fun d => GetFromDict.onHaveValue (f d) d) := by
  intro d d1 h
  simp only [GetFromDict.onHaveValue, Option.bind_eq_bind, Option.bind_eq_some,
    Option.some.injEq] at h
  obtain ⟨q, _, rfl⟩ := h
  exact ⟨rfl, rfl, [], by simp, fun _ he => absurd he (List.not_mem_nil _)⟩

/-- A value computed apart from the operation and then used by a step. -/
theorem Steps.sub {a : Prop} {α : Type} (x : GetFromDict → Option α)
    {G : α → GetFromDict → Option GetFromDict} (hG : ∀ v, Steps a (G v)) :
    Steps a (fun d => (x d).bind (fun v => G v d)) := by
  intro d d1 h
  simp only [] at h
  rcases hx : x d with _ | v
  · rw [hx] at h; cases h
  · rw [hx, Option.some_bind] at h
    exact hG v d d1 h

end GetFromDict

namespace GetFromDict

theorem steps_pcwd (env : Collaborators) (flag : StatusFlag) (doSwap : Bool) :
    Steps False (pushContinuationWithDefaultValue env flag doSwap) := by
  refine (Steps.sub (fun d : GetFromDict =>
    ((if d.valueType.category = .Struct then
        if d.resultAsSliceForStruct then
          (StackPusherHelper.fresh.pushDefaultValue env d.valueType true).bind fun q =>
            (q.push 0 "ENDC").bind fun q => q.push 0 "CTOS"
        else StackPusherHelper.fresh.pushDefaultValue env d.valueType false
      else StackPusherHelper.fresh.pushDefaultValue env d.valueType false).bind fun q =>
      (match flag with
        | .True => q.push 1 "TRUE"
        | .False => q.push 1 "FALSE"
        | .Non => some q).bind fun q => if doSwap then q.exchange 0 1 else some q))
    (fun ph => Steps.emit
      (fun _ => StackPusherHelper.calibrated_pushCont ph.code))).same ?_
  intro d
  cases flag <;> cases doSwap <;> by_cases hs : d.valueType.category = .Struct <;>
    by_cases hr : d.resultAsSliceForStruct = true <;>
    simp [pushContinuationWithDefaultValue, GetFromDict.onPusher, hs, hr, Option.bind_assoc]

/-- The steps of `fetchValue` on the pusher of the operation: `DUP` with delta
0, the two continuations, `IFELSE` with delta -2; the size is unchanged. -/
theorem fetchValue_history (env : Collaborators) (d d1 : GetFromDict)
    (h : fetchValue env d = some d1) :
    d1.valueType = d.valueType ∧ d1.op = d.op ∧
    ∃ noValue : StackPusherHelper, d1.pusher.history = d.pusher.history ++
        ((0, "DUP") :: (contSteps d.haveValue.code.lines ++ contSteps noValue.code.lines ++
          [(-2, "IFELSE")])) ∧
      d1.pusher.m_stack.m_size = d.pusher.m_stack.m_size := by
  by_cases hs : d.valueType.category = .Struct
  all_goals
    simp only [fetchValue, hs, if_true, if_false, Option.bind_eq_bind, Option.bind_eq_some,
      Option.some.injEq] at h
    obtain ⟨nv, _, p1, h1, p2, h2, p3, h3, p4, h4, rfl⟩ := h
    obtain ⟨e1, s1⟩ := StackPusherHelper.push_history _ _ _ _ h1
    obtain ⟨e2, s2⟩ := StackPusherHelper.pushCont_history _ _ _ h2
    obtain ⟨e3, s3⟩ := StackPusherHelper.pushCont_history _ _ _ h3
    obtain ⟨e4, s4⟩ := StackPusherHelper.push_history _ _ _ _ h4
    refine ⟨rfl, rfl, nv, ?_, ?_⟩
    · simp only [e4, e3, e2, e1, StackPusherHelper.code, List.append_assoc,
        List.singleton_append, List.cons_append, List.nil_append]
    · simp only [s4, s3, s2, s1]; omega

/-- The steps of `checkExist` on the pusher of the operation. -/
theorem checkExist_history (d d1 : GetFromDict) (h : checkExist d = some d1) :
    d1.valueType = d.valueType ∧ d1.op = d.op ∧
    d1.pusher.history = d.pusher.history ++
        ((0, "DUP") :: (contSteps ["NIP"] ++ [(-2, "IF")])) ∧
      d1.pusher.m_stack.m_size = d.pusher.m_stack.m_size - 1 := by
  simp only [checkExist, Option.bind_eq_bind, Option.bind_eq_some, Option.some.injEq] at h
  obtain ⟨n1, hn1, n2, hn2, p1, h1, p2, h2, p3, h3, rfl⟩ := h
  have hlines : n2.code.lines = ["NIP"] := by
    simp only [StackPusherHelper.push, StackPusherHelper.fresh, CodeLines.push,
      TVMStack.change, TVMStack.empty, Option.bind_eq_bind] at hn1
    simp at hn1
    subst hn1
    simp only [StackPusherHelper.push, CodeLines.push, TVMStack.change,
      Option.bind_eq_bind] at hn2
    simp at hn2
    subst hn2
    decide
  obtain ⟨e1, s1⟩ := StackPusherHelper.push_history _ _ _ _ h1
  obtain ⟨e2, s2⟩ := StackPusherHelper.pushCont_history _ _ _ h2
  obtain ⟨e3, s3⟩ := StackPusherHelper.push_history _ _ _ _ h3
  refine ⟨rfl, rfl, ?_, ?_⟩
  · simp only [e3, e2, e1, hlines, List.append_assoc, List.singleton_append,
      List.cons_append, List.nil_append]
  · simp only [s3, s2, s1]; omega

theorem butDup_dup_cont (tail : List (Int × String)) (ht : Calibrated tail) :
    CalibratedButDup True ((0, "DUP") :: tail) := by
  intro e he hl
  rcases List.mem_cons.mp he with rfl | h
  · exact Or.inr ⟨trivial, rfl⟩
  · exact Or.inl (ht e h hl)

theorem steps_fetchValue (env : Collaborators) : Steps True (fetchValue env) := by
  intro d d1 h
  obtain ⟨a1, a2, nv, e, _⟩ := fetchValue_history env d d1 h
  refine ⟨a1, a2, _, e, butDup_dup_cont _ ?_⟩
  exact calibrated_append (calibrated_append (calibrated_contSteps _) (calibrated_contSteps _))
    (calibrated_single _ _ (fun hc => absurd hc (by decide)))

theorem steps_checkExist : Steps True checkExist := by
  intro d d1 h
  obtain ⟨a1, a2, e, _⟩ := checkExist_history d d1 h
  refine ⟨a1, a2, _, e, butDup_dup_cont _ ?_⟩
  exact calibrated_append (calibrated_contSteps _)
    (calibrated_single _ _ (fun hc => absurd hc (by decide)))

end GetFromDict

namespace GetFromDict

theorem Steps.hook {a b : Prop} {F : GetFromDict → Option GetFromDict} (hF : Steps a F)
    (d d1 : GetFromDict) (h : F d = some d1) (ha : a → b) :
    ∃ new, d1.pusher.history = d.pusher.history ++ new ∧ CalibratedButDup b new := by
  obtain ⟨_, _, new, e, c⟩ := hF d d1 h
  exact ⟨new, e, c.allow ha⟩

theorem steps_push (dl : Int) (cmd : String) (hc : ¬ IsCalibratedLine cmd) :
    Steps False (fun d => GetFromDict.onPusher (StackPusherHelper.push dl cmd) d) :=
  Steps.emit (fun _ => StackPusherHelper.calibrated_push0 cmd hc dl)

theorem steps_throw (env : Collaborators) :
    Steps False (fun d => GetFromDict.onPusher (StackPusherHelper.push (-1)
      ("THROWIFNOT " ++ toString env.ArrayIndexOutOfRange)) d) :=
  Steps.emit (fun _ => StackPusherHelper.calibrated_headed 'T' "THROWIFNOT " _ _ _ rfl
    (by decide))

theorem steps_pushS0 : Steps False (fun d => GetFromDict.onPusher (StackPusherHelper.pushS 0) d) :=
  Steps.emit (fun _ => StackPusherHelper.calibrated_pushS 0)

theorem hook_onByteArrayOrString (env : Collaborators) : HookSteps (onByteArrayOrString env) := by
  intro d d1 h
  cases hop : d.op <;> simp only [onByteArrayOrString, hop] at h
  · exact (Steps.next (steps_pcwd env .Non false) (steps_push (-2) "IFNOT" (by decide))).hook
      d d1 h False.elim
  · exact (Steps.next steps_pushS0 (Steps.next (steps_pcwd env .Non true)
      (steps_push (-2) "IFNOT" (by decide)))).hook d d1 h False.elim
  · exact (Steps.next steps_pushS0 (Steps.next (steps_pcwd env .Non true)
      (steps_push (-2) "IF" (by decide)))).hook d d1 h False.elim
  · exact (Steps.next steps_pushS0 (Steps.next (steps_pcwd env .Non true)
      (steps_push (-2) "IFNOT" (by decide)))).hook d d1 h False.elim
  · exact (steps_throw env).hook d d1 h False.elim
  · exact (steps_fetchValue env).hook d d1 h (fun _ => Or.inl rfl)
  · exact steps_checkExist.hook d d1 h (fun _ => Or.inr rfl)

end GetFromDict

theorem not_calibrated_DICT (b : String) : ¬ IsCalibratedLine ("DICT" ++ b) := by
  have hd : ("DICT" ++ b).data = 'D' :: 'I' :: 'C' :: 'T' :: b.data := by
    rw [String.data_append]; rfl
  intro h
  rcases h with h | h | h | h
  · have := congrArg String.data h
    rw [hd] at this
    exact absurd (List.cons.inj this).1 (by decide)
  · have := congrArg String.data h
    rw [hd] at this
    exact absurd (List.cons.inj (List.cons.inj this).2).1 (by decide)
  · have := congrArg String.data h
    rw [hd] at this
    exact absurd (List.cons.inj this).1 (by decide)
  · rw [hd] at h
    have := congrArg List.head? h
    simp at this

namespace GetFromDict

theorem opcode_not_calibrated (env : Collaborators) (d : GetFromDict) :
    ¬ IsCalibratedLine (opcode env d) := by
  have h : ∃ b, opcode env d = "DICT" ++ b := by
    simp only [opcode]
    split <;> split_ifs <;> simp only [String.append_assoc] <;> exact ⟨_, rfl⟩
  obtain ⟨b, hb⟩ := h
  rw [hb]
  exact not_calibrated_DICT b

theorem steps_emitOpcode (env : Collaborators) : Steps False (emitOpcode env) := by
  have h4 : Steps False (fun d => GetFromDict.onPusher (StackPusherHelper.push
      (if d.op = .GetSetFromMapping ∨ d.op = .GetAddFromMapping ∨
        d.op = .GetReplaceFromMapping then -4 + 3 else -3 + 2) (opcode env d)) d) :=
    @Steps.emit (fun d => StackPusherHelper.push
      (if d.op = .GetSetFromMapping ∨ d.op = .GetAddFromMapping ∨
        d.op = .GetReplaceFromMapping then -4 + 3 else -3 + 2) (opcode env d))
      (fun d => StackPusherHelper.calibrated_push0 _ (opcode_not_calibrated env d) _)
  have h3 : Steps False (fun d => GetFromDict.onHaveValue (StackPusherHelper.push 0 "SWAP") d) :=
    Steps.aside (fun _ => StackPusherHelper.push 0 "SWAP")
  have h2 : Steps False (fun d => GetFromDict.onPusher
      (StackPusherHelper.pushInt d.keyLength) d) :=
    @Steps.emit (fun d => StackPusherHelper.pushInt d.keyLength)
      (fun d => StackPusherHelper.calibrated_pushInt d.keyLength)
  have h1 : Steps False (fun d => GetFromDict.onPusher
      (StackPusherHelper.prepareKeyForDictOperations d.keyType) d) :=
    @Steps.emit (fun d => StackPusherHelper.prepareKeyForDictOperations d.keyType)
      (fun d => StackPusherHelper.calibrated_prepareKey d.keyType)
  refine (Steps.next h1 (Steps.next h2 (Steps.next h3 h4))).same (fun d => ?_)
  simp only [emitOpcode, Option.bind_eq_bind]
  rcases GetFromDict.onPusher (StackPusherHelper.prepareKeyForDictOperations d.keyType) d
    with _ | d1
  · rfl
  · simp only [Option.some_bind]
    rcases GetFromDict.onPusher (StackPusherHelper.pushInt d1.keyLength) d1 with _ | d2
    · rfl
    · simp only [Option.some_bind]
      rcases hd3 : GetFromDict.onHaveValue (StackPusherHelper.push 0 "SWAP") d2 with _ | d3
      · rfl
      · simp only [Option.some_bind]
        rw [(h3 d2 d3 hd3).2.1]

theorem hook_onCell (env : Collaborators) : HookSteps (onCell env) := by
  intro d d1 h
  cases hop : d.op <;> simp only [onCell, hop] at h
  · exact (Steps.next (steps_pcwd env .Non false) (steps_push (-2) "IFNOT" (by decide))).hook
      d d1 h False.elim
  · exact (Steps.next steps_pushS0 (Steps.next (steps_pcwd env .Non true)
      (steps_push (-2) "IFNOT" (by decide)))).hook d d1 h False.elim
  · exact (Steps.next steps_pushS0 (Steps.next (steps_pcwd env .Non true)
      (steps_push (-2) "IF" (by decide)))).hook d d1 h False.elim
  · exact (Steps.next steps_pushS0 (Steps.next (steps_pcwd env .Non true)
      (steps_push (-2) "IFNOT" (by decide)))).hook d d1 h False.elim
  · exact (steps_throw env).hook d d1 h False.elim
  · exact (steps_fetchValue env).hook d d1 h (fun _ => Or.inl rfl)
  · exact steps_checkExist.hook d d1 h (fun _ => Or.inr rfl)

theorem steps_start : Steps False (fun d => GetFromDict.onPusher
    StackPusherHelper.startContinuation d) :=
  Steps.emit (fun _ => StackPusherHelper.calibrated_startContinuation)

theorem steps_end : Steps False (fun d => GetFromDict.onPusher
    StackPusherHelper.endContinuation d) :=
  Steps.emit (fun _ => StackPusherHelper.calibrated_endContinuation)

theorem steps_preload : Steps False (fun d => GetFromDict.onPusher
    (StackPusherHelper.preload d.valueType) d) :=
  Steps.emit (fun d => StackPusherHelper.calibrated_preload d.valueType)

theorem hook_onIntegralOrArrayOrVarInt (env : Collaborators) :
    HookSteps (onIntegralOrArrayOrVarInt env) := by
  have hSet : Steps False (fun d => (GetFromDict.onPusher StackPusherHelper.startContinuation d).bind
      fun d => (GetFromDict.onPusher (StackPusherHelper.preload d.valueType) d).bind
      fun d => (GetFromDict.onPusher (StackPusherHelper.push 0 "TRUE") d).bind
      fun d => (GetFromDict.onPusher StackPusherHelper.endContinuation d).bind
      fun d => (pushContinuationWithDefaultValue env .False false d).bind
      fun d => (GetFromDict.onPusher (StackPusherHelper.push (-1) "") d).bind
      fun d => GetFromDict.onPusher (StackPusherHelper.push 0 "IFELSE") d) :=
    Steps.next steps_start (Steps.next steps_preload (Steps.next
      (steps_push 0 "TRUE" (by decide)) (Steps.next steps_end (Steps.next
        (steps_pcwd env .False false) (Steps.next (steps_push (-1) "" (by decide))
          (steps_push 0 "IFELSE" (by decide)))))))
  intro d d1 h
  cases hop : d.op <;> simp only [onIntegralOrArrayOrVarInt, hop] at h
  · exact (Steps.sub (fun d : GetFromDict => StackPusherHelper.fresh.preload d.valueType)
      (fun ph => Steps.next
        (Steps.emit (fun _ => StackPusherHelper.calibrated_pushCont ph.code))
        (Steps.next (steps_pcwd env .Non false)
          (steps_push (-3) "IFELSE" (by decide))))).hook d d1 h False.elim
  · exact hSet.hook d d1 h False.elim
  · exact (Steps.next (steps_pcwd env .True false) (Steps.next steps_start
      (Steps.next steps_preload (Steps.next (steps_push 0 "FALSE" (by decide))
        (Steps.next steps_end (steps_push (-1) "IFELSE" (by decide))))))).hook
      d d1 h False.elim
  · exact hSet.hook d d1 h False.elim
  · exact (Steps.next (steps_throw env) steps_preload).hook d d1 h False.elim
  · exact (Steps.next
      ((Steps.aside (fun d => StackPusherHelper.preload d.valueType)).widen False.elim)
      (steps_fetchValue env)).hook d d1 h (fun _ => Or.inl rfl)
  · exact steps_checkExist.hook d d1 h (fun _ => Or.inr rfl)

end GetFromDict

namespace GetFromDict

theorem hook_dispatch (env : Collaborators) (d d1 : GetFromDict)
    (hns : d.valueType.category ≠ .Struct)
    (h : DictOperation.doDictOperation env d.keyLength d.valueType
      (onCell env) (onSmallStruct env) (onLargeStruct env) (onAddress env)
      (onByteArrayOrString env) (onIntegralOrArrayOrVarInt env) (onMapOrECC env) d = some d1) :
    ∃ new, d1.pusher.history = d.pusher.history ++ new ∧
      CalibratedButDup (d.op = .Fetch ∨ d.op = .Exist) new := by
  unfold DictOperation.doDictOperation at h
  simp only [hns, if_false] at h
  split_ifs at h
  · exact hook_onCell env d d1 h
  · exact hook_onByteArrayOrString env d d1 h
  · exact hook_onByteArrayOrString env d d1 h
  · exact hook_onIntegralOrArrayOrVarInt env d d1 h
  · exact hook_onIntegralOrArrayOrVarInt env d d1 h

end GetFromDict

namespace StackPusherHelper

theorem dictSet_hook_inv (env : Collaborators) (d d1 : DictSet)
    (h : DictOperation.doDictOperation env d.keyLength d.valueType
      DictSet.onCell DictSet.onSmallStruct DictSet.onLargeStruct DictSet.onAddress
      DictSet.onByteArrayOrString DictSet.onIntegralOrArrayOrVarInt DictSet.onMapOrECC d =
        some d1) :
    d1.pusher = d.pusher ∧ d1.operation = d.operation ∧ ∃ suf, d1.opcode = d.opcode ++ suf := by
  have key : ∀ suf : String, some ({ d with opcode := d.opcode ++ suf } : DictSet) = some d1 →
      d1.pusher = d.pusher ∧ d1.operation = d.operation ∧
        ∃ suf, d1.opcode = d.opcode ++ suf := by
    intro suf hs
    simp only [Option.some.injEq] at hs
    subst hs
    exact ⟨rfl, rfl, suf, rfl⟩
  have key0 : some d = some d1 →
      d1.pusher = d.pusher ∧ d1.operation = d.operation ∧
        ∃ suf, d1.opcode = d.opcode ++ suf := by
    intro hs
    simp only [Option.some.injEq] at hs
    subst hs
    exact ⟨rfl, rfl, "", by simp⟩
  unfold DictOperation.doDictOperation at h
  simp only [DictSet.onCell, DictSet.onSmallStruct, DictSet.onLargeStruct, DictSet.onAddress,
    DictSet.onByteArrayOrString, DictSet.onIntegralOrArrayOrVarInt, DictSet.onMapOrECC] at h
  split_ifs at h
  all_goals first
    | exact key _ h
    | exact key0 h

/-- Every `PUSHINT k` of `setDict` is pushed with +1. -/
theorem calibrated_setDict (env : Collaborators) (keyType valueType : SolType)
    (isValueBuilder : Bool) (operation : SetDictOperation) :
    CalibratedOp (setDict env keyType valueType isValueBuilder operation) := by
  intro p q h
  cases operation
  all_goals
    simp only [setDict, DictSet.create, DictSet.dictSet, Option.bind_eq_bind,
      Option.bind_eq_some, Option.some.injEq] at h
    obtain ⟨d, ⟨L, _, rfl⟩, d2, ⟨L2, _, p1, hp1, d1, hd1, hrest⟩, rfl⟩ := h
    obtain ⟨hpu, hop, suf, hsuf⟩ := dictSet_hook_inv env _ d1 hd1
    simp only at hpu hop hsuf
    obtain ⟨n1, e1, c1⟩ := calibrated_pushInt L2 p p1 hp1
    have hnc : ¬ IsCalibratedLine d1.opcode := by
      rw [hsuf]
      simp only [String.append_assoc]
      exact not_calibrated_DICT _
    simp only [hop, Option.bind_eq_some, Option.some.injEq] at hrest
    obtain ⟨p2, hp2, rfl⟩ := hrest
    obtain ⟨n2, e2, c2⟩ := calibrated_push0 d1.opcode hnc _ d1.pusher p2 hp2
    rw [hpu] at e2
    exact ⟨n1 ++ n2, by rw [e2, e1, List.append_assoc], calibrated_append c1 c2⟩

end StackPusherHelper

theorem spec_store_not_calibrated (t : SolType) (b : Bool) :
    ¬ IsCalibratedLine (specCollaborators.storeIntegralOrAddress t b) := by
  show ¬ IsCalibratedLine (specStoreIntegralOrAddress t b)
  unfold specStoreIntegralOrAddress
  split_ifs
  · exact not_calibrated_of_head 'S' "STI " _ _ rfl (by decide)
  · exact not_calibrated_of_head 'S' "STU " _ _ rfl (by decide)
  · decide
  · decide
  · decide

/-! ## drop (C20) -/

theorem dropSteps_sum (n : Int) : ((dropSteps n).map Prod.fst).sum = -n := by
  unfold dropSteps
  split_ifs <;> simp <;> omega

theorem dropSteps_two_le (n : Int) : ∀ e ∈ dropSteps n, 2 ≤ e.2.length := by
  intro e he
  unfold dropSteps at he
  split_ifs at he
  · simp at he
  · simp only [List.mem_singleton] at he; subst he; decide
  · simp only [List.mem_singleton] at he; subst he; decide
  · simp only [List.mem_singleton] at he; subst he
    exact two_le_length_append "BLKDROP " _ (by decide)
  · simp only [List.mem_cons, List.mem_singleton, List.not_mem_nil, or_false] at he
    rcases he with rfl | rfl
    · exact two_le_pushInt n
    · show 2 ≤ "DROPX".length
      decide

/-- C20: for every `n >= 0` and every pusher whose modelled size is at least
`n`, `drop(n)` succeeds, records exactly the steps of the specification
(nothing for 0, `DROP` for 1, `DROP2` for 2, `BLKDROP n` for 3..15, `PUSHINT n`
and `DROPX` above 15), appends exactly their lines and changes the modelled
size by `-n`; for a negative `n` it aborts. -/
theorem StackPusherHelper.drop_steps (n : Int) (p : StackPusherHelper)
    (ht : 0 ≤ p.m_code.tabQty) (hn : 0 ≤ n) (hs : n ≤ p.m_stack.m_size) :
    StackPusherHelper.drop n p = some (StackPusherHelper.emitted (dropSteps n) p) ∧
    (StackPusherHelper.emitted (dropSteps n) p).m_stack.m_size = p.m_stack.m_size - n ∧
    (StackPusherHelper.emitted (dropSteps n) p).m_code.lines =
      p.m_code.lines ++ (dropSteps n).map (fun e => indented p.m_code.tabQty e.2) ∧
    (n = 0 → dropSteps n = []) ∧
    (n = 1 → dropSteps n = [(-1, "DROP")]) ∧
    (n = 2 → dropSteps n = [(-2, "DROP2")]) ∧
    (3 ≤ n → n ≤ 15 → dropSteps n = [(-n, "BLKDROP " ++ toString n)]) ∧
    (15 < n → dropSteps n = [(1, "PUSHINT " ++ toString n), (-(n + 1), "DROPX")]) ∧
    (∀ m : Int, m < 0 → StackPusherHelper.drop m p = none) := by
  refine ⟨?_, ?_, StackPusherHelper.emitted_lines _ p (dropSteps_two_le n), ?_, ?_, ?_, ?_, ?_, ?_⟩
  · have h0 : ¬ n < 0 := by omega
    by_cases h1 : n = 0
    · subst h1; rfl
    by_cases h2 : n = 1
    · subst h2
      simp only [StackPusherHelper.drop, dropSteps]
      exact StackPusherHelper.push_eq _ _ p ht (by omega)
    by_cases h3 : n = 2
    · subst h3
      simp only [StackPusherHelper.drop, dropSteps]
      exact StackPusherHelper.push_eq _ _ p ht (by omega)
    by_cases h4 : n ≤ 15
    · have h5 : ¬ n > 15 := by omega
      simp only [StackPusherHelper.drop, dropSteps, h0, h1, h2, h3, h4, h5, if_false, if_true]
      exact StackPusherHelper.push_eq _ _ p ht (by omega)
    · have h5 : n > 15 := by omega
      simp only [StackPusherHelper.drop, dropSteps, h0, h1, h2, h3, h4, h5, if_false, if_true,
        StackPusherHelper.pushInt, Option.bind_eq_bind]
      rw [StackPusherHelper.push_eq 1 _ p ht (by omega), Option.some_bind]
      exact StackPusherHelper.push_emitted _ _ _ p ht (by simp; omega)
  · rw [StackPusherHelper.emitted_size, dropSteps_sum]; omega
  · intro h; simp [dropSteps, h]
  · intro h; simp [dropSteps, h]
  · intro h; simp [dropSteps, h]
  · intro h1 h2
    have a : n ≠ 0 := by omega
    have b : n ≠ 1 := by omega
    have c : n ≠ 2 := by omega
    simp [dropSteps, a, b, c, h2]
  · intro h1
    have a : n ≠ 0 := by omega
    have b : n ≠ 1 := by omega
    have c : n ≠ 2 := by omega
    have d : ¬ n ≤ 15 := by omega
    simp [dropSteps, a, b, c, d]
  · intro m hm
    simp [StackPusherHelper.drop, hm]

/-- Witness of C20: `drop(16)` on a pusher of size 16. -/
theorem StackPusherHelper.drop_steps_witness :
    (0 : Int) ≤ (StackPusherHelper.ofSize 16).m_code.tabQty ∧ (0 : Int) ≤ 16 ∧
    (16 : Int) ≤ (StackPusherHelper.ofSize 16).m_stack.m_size ∧
    StackPusherHelper.drop 16 (StackPusherHelper.ofSize 16) =
      some (StackPusherHelper.emitted (dropSteps 16) (StackPusherHelper.ofSize 16)) ∧
    dropSteps 16 = [(1, "PUSHINT 16"), (-17, "DROPX")] :=
  ⟨by decide, by decide, by decide,
    (StackPusherHelper.drop_steps 16 (StackPusherHelper.ofSize 16) (by decide) (by decide)
      (by decide)).1, by decide⟩

/-! ## The aborts of int_msg_info (C11) -/

namespace StackPusherHelper

theorem int_body_congr (env : Collaborators) (R R1 : Finset Int) (C C1 : Int → Option String)
    (k w : Int) (st : MsgInfoState) (hR : k ∈ R ↔ k ∈ R1) (hC : C k = C1 k) :
    int_msg_info.body env R C k w st = int_msg_info.body env R1 C1 k w st := by
  have h : (k ∈ R) = (k ∈ R1) := propext hR
  simp only [int_msg_info.body, h, hC]

theorem loop_congr_range (env : Collaborators) (R R1 : Finset Int) (C C1 : Int → Option String) :
    ∀ (ws : List Int) (k : Int) (st : MsgInfoState),
      (∀ j : Int, k ≤ j → j < k + ws.length → (j ∈ R ↔ j ∈ R1) ∧ C j = C1 j) →
      msgInfoLoop (int_msg_info.body env R C) k ws st =
        msgInfoLoop (int_msg_info.body env R1 C1) k ws st := by
  intro ws
  induction ws with
  | nil => intro k st _; rfl
  | cons w ws ih =>
    intro k st h
    have hk := h k (le_refl _) (by simp only [List.length_cons]; push_cast; omega)
    simp only [msgInfoLoop, Option.bind_eq_bind,
      int_body_congr env R R1 C C1 k w st hk.1 hk.2]
    rcases int_msg_info.body env R1 C1 k w st with _ | st1
    · rfl
    · simp only [Option.some_bind]
      exact ih (k + 1) st1 (fun j h1 h2 => h j (by omega)
        (by simp only [List.length_cons]; push_cast; omega))

/-- The loop body of `int_msg_info` aborts at a field that meets one of the
three conditions. -/
theorem int_body_aborts (env : Collaborators) (R : Finset Int) (C : Int → Option String)
    (k w : Int) (st : MsgInfoState)
    (h : ((C k).isSome = true ∧ k ∈ R) ∨ (k = 4 ∧ C k = none ∧ k ∉ R) ∨
      (k ∈ R ∧ C k = none ∧ k ≠ 1 ∧ k ≠ 4 ∧ k ≠ 5 ∧ k ≠ 6)) :
    int_msg_info.body env R C k w st = none := by
  rcases h with ⟨h1, h2⟩ | ⟨h1, h2, h3⟩ | ⟨h1, h2, h3, h4, h5, h6⟩
  · rcases hC : C k with _ | c
    · rw [hC] at h1; cases h1
    · simp [int_msg_info.body, hC, h2]
  · subst h1
    simp [int_msg_info.body, h2, h3, TvmConst.int_msg_info.dest]
  · simp only [int_msg_info.body, h2, h1, not_true_eq_false, or_false, if_false,
      TvmConst.int_msg_info.bounce, TvmConst.int_msg_info.dest, TvmConst.int_msg_info.grams,
      TvmConst.int_msg_info.currency, h3, h4, h5, h6, Option.bind_eq_bind]
    rcases appendToBuilder st.bitString st.pusher with _ | p1 <;> rfl

theorem loop_aborts (env : Collaborators) (R : Finset Int) (C : Int → Option String) :
    ∀ (ws : List Int) (k : Int) (st : MsgInfoState),
      (∃ j : Int, k ≤ j ∧ j < k + ws.length ∧
        (((C j).isSome = true ∧ j ∈ R) ∨ (j = 4 ∧ C j = none ∧ j ∉ R) ∨
          (j ∈ R ∧ C j = none ∧ j ≠ 1 ∧ j ≠ 4 ∧ j ≠ 5 ∧ j ≠ 6))) →
      msgInfoLoop (int_msg_info.body env R C) k ws st = none := by
  intro ws
  induction ws with
  | nil =>
    intro k st h
    obtain ⟨j, h1, h2, _⟩ := h
    simp only [List.length_nil] at h2
    push_cast at h2
    omega
  | cons w ws ih =>
    intro k st h
    obtain ⟨j, h1, h2, h3⟩ := h
    simp only [List.length_cons] at h2
    push_cast at h2
    simp only [msgInfoLoop, Option.bind_eq_bind]
    by_cases hj : j = k
    · subst hj
      rw [int_body_aborts env R C j w st h3]
      rfl
    · rcases int_msg_info.body env R C k w st with _ | st1
      · rfl
      · simp only [Option.some_bind]
        exact ih (k + 1) st1 ⟨j, by omega, by omega, h3⟩

end StackPusherHelper

theorem admissible_of_not_aborts (R : Finset Int) (C : Int → Option String)
    (hC : ∀ k c, C k = some c → IsBitString c) (h : ¬ int_msg_info.Aborts R C) :
    int_msg_info.Admissible (int_msg_info.fieldsOf R) (int_msg_info.constsOf C) := by
  have hno : ∀ k : Int, 0 ≤ k → k ≤ 10 →
      ¬ (((C k).isSome = true ∧ k ∈ R) ∨ (k = 4 ∧ C k = none ∧ k ∉ R) ∨
        (k ∈ R ∧ C k = none ∧ k ≠ 1 ∧ k ≠ 4 ∧ k ≠ 5 ∧ k ≠ 6)) :=
    fun k h0 h1 hk => h ⟨k, h0, h1, hk⟩
  have hnone : ∀ k ∈ int_msg_info.fieldsOf R, C k = none := by
    intro k hk
    simp only [int_msg_info.fieldsOf, Finset.mem_filter] at hk
    rcases hCk : C k with _ | c
    · rfl
    · exact absurd (Or.inl ⟨by rw [hCk]; rfl, hk.1⟩) (hno k hk.2.1 hk.2.2)
  refine ⟨?_, ?_, ?_, ?_⟩
  · intro k c hk
    simp only [int_msg_info.constsOf] at hk
    split_ifs at hk
    exact hC k c hk
  · intro k hk
    have hk1 := hk
    simp only [int_msg_info.fieldsOf, Finset.mem_filter] at hk1
    have hn := hnone k hk
    have := hno k hk1.2.1 hk1.2.2
    simp only [Finset.mem_insert, Finset.mem_singleton]
    by_contra hc
    push_neg at hc
    exact this (Or.inr (Or.inr ⟨hk1.1, hn, hc.1, hc.2.1, hc.2.2.1, hc.2.2.2⟩))
  · intro k hk
    simp only [int_msg_info.constsOf]
    split_ifs
    · exact hnone k hk
    · rfl
  · have := hno 4 (by decide) (by decide)
    by_cases h4 : (4 : Int) ∈ R
    · exact Or.inl (by simp [int_msg_info.fieldsOf, h4])
    · right
      rcases hC4 : C 4 with _ | c
      · exact absurd (Or.inr (Or.inl ⟨rfl, hC4, h4⟩)) this
      · simp [int_msg_info.constsOf, hC4]

theorem StackPusherHelper.int_msg_info_restrict (env : Collaborators) (R : Finset Int)
    (C : Int → Option String) (p : StackPusherHelper) :
    StackPusherHelper.int_msg_info env R C p =
      StackPusherHelper.int_msg_info env (int_msg_info.fieldsOf R) (int_msg_info.constsOf C) p := by
  simp only [StackPusherHelper.int_msg_info, Option.bind_eq_bind]
  rcases StackPusherHelper.push 1 "NEWC" p with _ | p1
  · rfl
  · simp only [Option.some_bind]
    rw [StackPusherHelper.loop_congr_range env R (int_msg_info.fieldsOf R) C
      (int_msg_info.constsOf C)]
    intro j h0 h1
    have hlen : (StackPusherHelper.int_msg_info.zeroes.length : Int) = 11 := by decide
    rw [hlen] at h1
    have h10 : j ≤ 10 := by omega
    constructor
    · simp [int_msg_info.fieldsOf, h0, h10]
    · simp [int_msg_info.constsOf, h0, h10]

/-- C11: on a pusher with a non-negative indent that holds the runtime fields
(at least as many entries as the set has ids in 0..10), and with bit-string
constants, `int_msg_info` aborts if and only if some field id in 0..10 is both
a constant and on the stack, or is dest (4) and is neither, or is on the stack,
not a constant and not one of bounce (1), dest (4), grams (5), currency (6); in
every other case it returns a result. -/
theorem StackPusherHelper.int_msg_info_aborts_iff (env : Collaborators) (R : Finset Int)
    (C : Int → Option String) (p : StackPusherHelper)
    (hC : ∀ k c, C k = some c → IsBitString c) (ht : 0 ≤ p.m_code.tabQty)
    (hs : ((int_msg_info.fieldsOf R).card : Int) ≤ p.m_stack.m_size) :
    (StackPusherHelper.int_msg_info env R C p = none ↔ int_msg_info.Aborts R C) ∧
    (¬ int_msg_info.Aborts R C → ∃ r, StackPusherHelper.int_msg_info env R C p = some r) := by
  have hsome : ¬ int_msg_info.Aborts R C →
      ∃ r, StackPusherHelper.int_msg_info env R C p = some r := by
    intro h
    obtain ⟨n, q, hq, _⟩ := StackPusherHelper.int_msg_info_items env _ _
      (admissible_of_not_aborts R C hC h) p ht hs
    exact ⟨_, by rw [StackPusherHelper.int_msg_info_restrict, hq]⟩
  refine ⟨⟨?_, ?_⟩, hsome⟩
  · intro h
    by_contra hn
    obtain ⟨r, hr⟩ := hsome hn
    rw [hr] at h
    cases h
  · intro h
    obtain ⟨k, h0, h1, hk⟩ := h
    simp only [StackPusherHelper.int_msg_info, Option.bind_eq_bind]
    rcases StackPusherHelper.push 1 "NEWC" p with _ | p1
    · rfl
    · simp only [Option.some_bind]
      rw [StackPusherHelper.loop_aborts env R C _ 0 _ ⟨k, h0, by
        have hlen : (StackPusherHelper.int_msg_info.zeroes.length : Int) = 11 := by decide
        rw [hlen]; omega, hk⟩]
      rfl

/-- Witness of C11: only dest on the stack, no constants, a pusher of size 1. -/
theorem StackPusherHelper.int_msg_info_aborts_iff_witness :
    (∀ (k : Int) (c : String), (fun _ => none : Int → Option String) k = some c →
      IsBitString c) ∧
    (0 : Int) ≤ (StackPusherHelper.ofSize 1).m_code.tabQty ∧
    ((int_msg_info.fieldsOf {4}).card : Int) ≤ (StackPusherHelper.ofSize 1).m_stack.m_size ∧
    ((StackPusherHelper.int_msg_info specCollaborators {4} (fun _ => none)
        (StackPusherHelper.ofSize 1) = none ↔ int_msg_info.Aborts {4} (fun _ => none)) ∧
      (¬ int_msg_info.Aborts {4} (fun _ => none) →
        ∃ r, StackPusherHelper.int_msg_info specCollaborators {4} (fun _ => none)
          (StackPusherHelper.ofSize 1) = some r)) :=
  ⟨(fun _ _ h => nomatch h), by decide, by decide,
    StackPusherHelper.int_msg_info_aborts_iff specCollaborators {4} (fun _ => none)
      (StackPusherHelper.ofSize 1) (fun _ _ h => nomatch h) (by decide) (by decide)⟩

/-! ## int_msg_info without runtime fields (C12) -/

/-- C12 (as stated, refuted): with no runtime fields and no constants
`int_msg_info` aborts at dest, which has to be on the stack or a constant; and
the declared widths and the tag bit sum to 117, not 216. -/
theorem StackPusherHelper.int_msg_info_empty_aborts :
    StackPusherHelper.int_msg_info specCollaborators ∅ (fun _ => none)
        (StackPusherHelper.ofSize 0) = none ∧
    StackPusherHelper.int_msg_info.zeroes.sum + 1 = 117 := by
  refine ⟨?_, by decide⟩
  simp only [StackPusherHelper.int_msg_info, Option.bind_eq_bind]
  rcases StackPusherHelper.push 1 "NEWC" (StackPusherHelper.ofSize 0) with _ | p1
  · rfl
  · simp only [Option.some_bind]
    rw [StackPusherHelper.loop_aborts specCollaborators ∅ (fun _ => none) _ 0 _
      ⟨4, by decide, by decide, Or.inr (Or.inl ⟨rfl, rfl, by simp⟩)⟩]
    rfl

/-- C12 (amended): with no runtime fields and dest as the only constant `c`,
`int_msg_info` emits only `NEWC` and returns the bit string of six zeros (tag,
ihr_disabled, bounce, bounced, src), `c` and 109 zeros, whose length is the sum
of the declared widths plus the tag bit (117) less the two bits of dest plus
the length of `c`, that is `115 + |c|`; the returned size is this length. -/
theorem StackPusherHelper.int_msg_info_const_dest (env : Collaborators) (c : String)
    (p : StackPusherHelper) (ht : 0 ≤ p.m_code.tabQty) (hs : 0 ≤ p.m_stack.m_size + 1) :
    StackPusherHelper.int_msg_info env ∅ (fun k => if k = 4 then some c else none) p =
      some ((stdString 6 '0' ++ c ++ stdString 109 '0', 115 + (c.length : Int)),
        StackPusherHelper.emitted [(1, "NEWC")] p) ∧
    ((stdString 6 '0' ++ c ++ stdString 109 '0').length : Int) =
      StackPusherHelper.int_msg_info.zeroes.sum + 1 - 2 + c.length ∧
    StackPusherHelper.int_msg_info.zeroes.sum + 1 - 2 = 115 := by
  have e1 : "0" ++ stdString 1 '0' ++ stdString 1 '0' ++ stdString 1 '0' ++ stdString 2 '0' =
      stdString 6 '0' := by decide
  have e2 : stdString 4 '0' ++ (stdString 1 '0' ++ (stdString 4 '0' ++ (stdString 4 '0' ++
      (stdString 64 '0' ++ stdString 32 '0')))) = stdString 109 '0' := by
    set_option maxRecDepth 100000 in decide
  have hlen : ((stdString 6 '0' ++ c ++ stdString 109 '0').length : Int) = 115 + c.length := by
    rw [String.length_append, String.length_append,
      show (6 : Int) = ((6 : Nat) : Int) from rfl, show (109 : Int) = ((109 : Nat) : Int) from rfl,
      StackPusherHelper.length_stdString, StackPusherHelper.length_stdString]
    push_cast
    ring
  refine ⟨?_, by rw [hlen]; have : StackPusherHelper.int_msg_info.zeroes.sum = 116 := by decide
                 rw [this]; ring, by decide⟩
  simp only [StackPusherHelper.int_msg_info, StackPusherHelper.push_eq 1 "NEWC" p ht hs,
    Option.bind_eq_bind, Option.some_bind, StackPusherHelper.int_msg_info.zeroes,
    StackPusherHelper.msgInfoLoop, StackPusherHelper.int_msg_info.body,
    Finset.not_mem_empty, not_false_eq_true, or_true, not_true_eq_false, if_false, if_true,
    TvmConst.int_msg_info.dest, zero_add]
  simp only [show ((0 : Int) = 4) = False by decide, show ((1 : Int) = 4) = False by decide,
    show ((1 + 1 : Int) = 4) = False by decide, show ((1 + 1 + 1 : Int) = 4) = False by decide,
    show ((1 + 1 + 1 + 1 : Int) = 4) = True by decide,
    show ((1 + 1 + 1 + 1 + 1 : Int) = 4) = False by decide,
    show ((1 + 1 + 1 + 1 + 1 + 1 : Int) = 4) = False by decide,
    show ((1 + 1 + 1 + 1 + 1 + 1 + 1 : Int) = 4) = False by decide,
    show ((1 + 1 + 1 + 1 + 1 + 1 + 1 + 1 : Int) = 4) = False by decide,
    show ((1 + 1 + 1 + 1 + 1 + 1 + 1 + 1 + 1 : Int) = 4) = False by decide,
    show ((1 + 1 + 1 + 1 + 1 + 1 + 1 + 1 + 1 + 1 : Int) = 4) = False by decide,
    if_false, if_true, Option.some_bind, e1]
  simp only [String.append_assoc, e2]
  rw [← String.append_assoc, hlen]
  simp

/-- Witness of C12 (amended): the constant dest `10` on a pusher of size 0. -/
theorem StackPusherHelper.int_msg_info_const_dest_witness :
    (0 : Int) ≤ (StackPusherHelper.ofSize 0).m_code.tabQty ∧
    (0 : Int) ≤ (StackPusherHelper.ofSize 0).m_stack.m_size + 1 ∧
    (StackPusherHelper.int_msg_info specCollaborators ∅
        (fun k => if k = 4 then some "10" else none) (StackPusherHelper.ofSize 0) =
      some ((stdString 6 '0' ++ "10" ++ stdString 109 '0', 115 + (("10" : String).length : Int)),
        StackPusherHelper.emitted [(1, "NEWC")] (StackPusherHelper.ofSize 0)) ∧
    ((stdString 6 '0' ++ "10" ++ stdString 109 '0').length : Int) =
      StackPusherHelper.int_msg_info.zeroes.sum + 1 - 2 + ("10" : String).length ∧
    StackPusherHelper.int_msg_info.zeroes.sum + 1 - 2 = 115) :=
  ⟨by decide, by decide,
    StackPusherHelper.int_msg_info_const_dest specCollaborators "10"
      (StackPusherHelper.ofSize 0) (by decide) (by decide)⟩

/-! ## ext_msg_info (C13) -/

namespace StackPusherHelper

theorem ext_body_aborts (env : Collaborators) (R : Finset Int) (k w : Int) (st : MsgInfoState)
    (hk : k ∈ R) (h1 : k ≠ 1) : ext_msg_info.body env R k w st = none := by
  simp only [ext_msg_info.body, hk, not_true_eq_false, if_false, TvmConst.ext_msg_info.dest, h1,
    Option.bind_eq_bind]
  rcases appendToBuilder st.bitString st.pusher with _ | p1 <;> rfl

theorem ext_loop_aborts (env : Collaborators) (R : Finset Int) :
    ∀ (ws : List Int) (k : Int) (st : MsgInfoState),
      (∃ j : Int, k ≤ j ∧ j < k + ws.length ∧ j ∈ R ∧ j ≠ 1) →
      msgInfoLoop (ext_msg_info.body env R) k ws st = none := by
  intro ws
  induction ws with
  | nil =>
    intro k st h
    obtain ⟨j, h1, h2, _⟩ := h
    simp only [List.length_nil] at h2
    push_cast at h2
    omega
  | cons w ws ih =>
    intro k st h
    obtain ⟨j, h1, h2, h3, h4⟩ := h
    simp only [List.length_cons] at h2
    push_cast at h2
    simp only [msgInfoLoop, Option.bind_eq_bind]
    by_cases hj : j = k
    · subst hj
      rw [ext_body_aborts env R j w st h3 h4]
      rfl
    · rcases ext_msg_info.body env R k w st with _ | st1
      · rfl
      · simp only [Option.some_bind]
        exact ih (k + 1) st1 ⟨j, by omega, by omega, h3, h4⟩

theorem ext_msg_info_aborts (env : Collaborators) (R : Finset Int) (p : StackPusherHelper)
    (h : (0 : Int) ∈ R ∨ (2 : Int) ∈ R ∨ (3 : Int) ∈ R) : ext_msg_info env R p = none := by
  have hj : ∃ j : Int, 0 ≤ j ∧ j < 0 + (ext_msg_info.zeroes.length : Int) ∧ j ∈ R ∧ j ≠ 1 := by
    have hlen : (ext_msg_info.zeroes.length : Int) = 4 := by decide
    rw [hlen]
    rcases h with h | h | h
    · exact ⟨0, by decide, by decide, h, by decide⟩
    · exact ⟨2, by decide, by decide, h, by decide⟩
    · exact ⟨3, by decide, by decide, h, by decide⟩
  simp only [ext_msg_info, Option.bind_eq_bind]
  rcases push 1 "NEWC" p with _ | p1
  · rfl
  · simp only [Option.some_bind]
    rw [ext_loop_aborts env R _ 0 _ hj]
    rfl

theorem ext_msg_info_empty (env : Collaborators) (p : StackPusherHelper)
    (ht : 0 ≤ p.m_code.tabQty) (hs : 0 ≤ p.m_stack.m_size + 1) :
    ext_msg_info env ∅ p =
      some (("11" ++ stdString 100 '0', 102), emitted [(1, "NEWC")] p) := by
  have e : "11" ++ stdString 2 '0' ++ stdString 2 '0' ++ stdString 64 '0' ++ stdString 32 '0' =
      "11" ++ stdString 100 '0' := by
    set_option maxRecDepth 100000 in decide
  have hlen : ((("11" : String) ++ stdString 100 '0').length : Int) = 102 := by
    set_option maxRecDepth 100000 in decide
  simp only [ext_msg_info, push_eq 1 "NEWC" p ht hs, Option.bind_eq_bind, Option.some_bind,
    ext_msg_info.zeroes, msgInfoLoop, ext_msg_info.body, Finset.not_mem_empty,
    not_false_eq_true, if_true, e, hlen, zero_add]

end StackPusherHelper

/-- C13: on a pusher with a non-negative indent that holds one entry,
`ext_msg_info` with an empty runtime set records only `NEWC` and returns the
102-character literal `11` followed by 2+2+64+32 zeros with size 102; with the
runtime set `{dest}` it records `NEWC`, `STSLICECONST xc` (the flushed literal
`1100`) and `STSLICE` and returns a tail of 96 zeros; a runtime set that
contains src (0), created_lt (2) or created_at (3) aborts; and on success with
a runtime set of field ids the modelled size changes by `1 - |runtime set|`. -/
theorem StackPusherHelper.ext_msg_info_cases (env : Collaborators) (p : StackPusherHelper)
    (ht : 0 ≤ p.m_code.tabQty) (hs : 1 ≤ p.m_stack.m_size) :
    (StackPusherHelper.ext_msg_info env ∅ p =
        some (("11" ++ stdString 100 '0', 102), StackPusherHelper.emitted [(1, "NEWC")] p) ∧
      ("11" ++ stdString 100 '0').length = 102 ∧
      "11" ++ stdString 100 '0' =
        "11" ++ stdString 2 '0' ++ stdString 2 '0' ++ stdString 64 '0' ++ stdString 32 '0' ∧
      (StackPusherHelper.emitted [(1, "NEWC")] p).m_code.lines =
        p.m_code.lines ++ [indented p.m_code.tabQty "NEWC"]) ∧
    (StackPusherHelper.ext_msg_info env {1} p =
        some ((stdString 96 '0', env.maxBitLength + 96),
          StackPusherHelper.emitted [(1, "NEWC"), (0, "STSLICECONST xc"), (-1, "STSLICE")] p) ∧
      binaryStringToSlice ("11" ++ stdString 2 '0') = some "c" ∧
      (stdString 96 '0').length = 64 + 32 ∧
      (StackPusherHelper.emitted [(1, "NEWC"), (0, "STSLICECONST xc"), (-1, "STSLICE")]
          p).m_code.lines =
        p.m_code.lines ++ [indented p.m_code.tabQty "NEWC",
          indented p.m_code.tabQty "STSLICECONST xc", indented p.m_code.tabQty "STSLICE"]) ∧
    (∀ R : Finset Int, (0 : Int) ∈ R ∨ (2 : Int) ∈ R ∨ (3 : Int) ∈ R →
      StackPusherHelper.ext_msg_info env R p = none) ∧
    (∀ (R : Finset Int) (r : (String × Int) × StackPusherHelper), R ⊆ {0, 1, 2, 3} →
      StackPusherHelper.ext_msg_info env R p = some r →
      r.2.m_stack.m_size = p.m_stack.m_size + 1 - R.card) := by
  have hE := StackPusherHelper.ext_msg_info_empty env p ht (by omega)
  have hD := StackPusherHelper.ext_msg_info_dest env p ht hs
  refine ⟨⟨hE, by set_option maxRecDepth 100000 in decide,
      by set_option maxRecDepth 100000 in decide, ?_⟩,
    ⟨hD, by decide, by set_option maxRecDepth 100000 in decide, ?_⟩,
    fun R h => StackPusherHelper.ext_msg_info_aborts env R p h, ?_⟩
  · rw [StackPusherHelper.emitted_lines _ p (by decide)]; rfl
  · rw [StackPusherHelper.emitted_lines _ p (by decide)]; rfl
  · intro R r hR hr
    have h0 : (0 : Int) ∉ R := fun h => by
      rw [StackPusherHelper.ext_msg_info_aborts env R p (Or.inl h)] at hr; cases hr
    have h2 : (2 : Int) ∉ R := fun h => by
      rw [StackPusherHelper.ext_msg_info_aborts env R p (Or.inr (Or.inl h))] at hr; cases hr
    have h3 : (3 : Int) ∉ R := fun h => by
      rw [StackPusherHelper.ext_msg_info_aborts env R p (Or.inr (Or.inr h))] at hr; cases hr
    have hsub : R ⊆ {1} := by
      intro k hk
      have := hR hk
      simp only [Finset.mem_insert, Finset.mem_singleton] at this ⊢
      rcases this with rfl | rfl | rfl | rfl
      · exact absurd hk h0
      · rfl
      · exact absurd hk h2
      · exact absurd hk h3
    rcases Finset.subset_singleton_iff.mp hsub with rfl | rfl
    · rw [hE] at hr
      cases hr
      simp [StackPusherHelper.emitted_size]
    · rw [hD] at hr
      cases hr
      simp [StackPusherHelper.emitted_size]

/-- Witness of C13: a pusher at indent 0 that holds dest. -/
theorem StackPusherHelper.ext_msg_info_cases_witness :
    (0 : Int) ≤ (StackPusherHelper.ofSize 1).m_code.tabQty ∧
    (1 : Int) ≤ (StackPusherHelper.ofSize 1).m_stack.m_size ∧
    StackPusherHelper.ext_msg_info specCollaborators {1} (StackPusherHelper.ofSize 1) =
      some ((stdString 96 '0', specCollaborators.maxBitLength + 96),
        StackPusherHelper.emitted [(1, "NEWC"), (0, "STSLICECONST xc"), (-1, "STSLICE")]
          (StackPusherHelper.ofSize 1)) ∧
    StackPusherHelper.ext_msg_info specCollaborators {2} (StackPusherHelper.ofSize 1) = none :=
  ⟨by decide, by decide,
    (StackPusherHelper.ext_msg_info_cases specCollaborators (StackPusherHelper.ofSize 1)
      (by decide) (by decide)).2.1.1,
    (StackPusherHelper.ext_msg_info_cases specCollaborators (StackPusherHelper.ofSize 1)
      (by decide) (by decide)).2.2.1 {2} (Or.inr (Or.inl (by decide)))⟩

/-! ## binaryStringToSlice (C14, C15) -/

theorem stoi2_hexOf_bits (a b c d : Char) (ha : a = '0' ∨ a = '1') (hb : b = '0' ∨ b = '1')
    (hc : c = '0' ∨ c = '1') (hd : d = '0' ∨ d = '1') :
    stoi2 0 [a, b, c, d] = some (bitValue [a, b, c, d]) ∧
      hexOf (bitValue [a, b, c, d]) = String.mk [hexDigit (bitValue [a, b, c, d])] ∧
      hexDigit (bitValue [a, b, c, d]) ≠ '_' := by
  rcases ha with rfl | rfl <;> rcases hb with rfl | rfl <;> rcases hc with rfl | rfl <;>
    rcases hd with rfl | rfl <;> exact ⟨rfl, by decide, by decide⟩

theorem string_mk_cons (c : Char) (l : List Char) :
    String.mk [c] ++ String.mk l = String.mk (c :: l) := by
  apply String.ext
  simp [String.data_append]

theorem hexGroups_digits (n : Nat) : ∀ l : List Char, l.length = 4 * n →
    (∀ c ∈ l, c = '0' ∨ c = '1') →
    hexGroups l = some (String.mk (hexDigitsOf l)) ∧ (hexDigitsOf l).length = n ∧
      '_' ∉ hexDigitsOf l := by
  induction n with
  | zero =>
    intro l hl _
    have : l = [] := List.length_eq_zero.mp (by omega)
    subst this
    exact ⟨rfl, rfl, by simp [hexDigitsOf]⟩
  | succ n ih =>
    intro l hl hb
    match l, hl, hb with
    | a :: b :: c :: d :: rest, hl, hb =>
      obtain ⟨h1, h2, h3⟩ := stoi2_hexOf_bits a b c d (hb a (by simp)) (hb b (by simp))
        (hb c (by simp)) (hb d (by simp))
      obtain ⟨i1, i2, i3⟩ := ih rest (by simp at hl; omega)
        (fun x hx => hb x (by simp [hx]))
      refine ⟨?_, by simp [hexDigitsOf, i2], ?_⟩
      · simp only [hexGroups, h1, i1, Option.bind_eq_bind, Option.some_bind, h2, hexDigitsOf,
          string_mk_cons]
      · simp only [hexDigitsOf, List.mem_cons, not_or]
        exact ⟨fun h => h3 h.symm, i3⟩
    | [], hl, _ => simp at hl
    | [_], hl, _ => simp at hl; omega
    | [_, _], hl, _ => simp at hl; omega
    | [_, _, _], hl, _ => simp at hl; omega

/-- C14: for every string `s` over `0` and `1`: if `|s|` is a multiple of 4,
`binaryStringToSlice(s)` is exactly the `|s|/4` lowercase hex digits of `s`
read in groups of four bits, without suffix (the empty string maps to the empty
string); otherwise it is the hex digits of `s` followed by one `1` and the
fewest `0` (at most two) that reach a multiple of 4, followed by `_`. The
result contains `_` if and only if `|s| mod 4 != 0`. -/
theorem binaryStringToSlice_digits (s : String) (hb : IsBitString s) :
    (s.length % 4 = 0 →
      binaryStringToSlice s = some (String.mk (hexDigitsOf s.data)) ∧
        (hexDigitsOf s.data).length = s.length / 4) ∧
    (s.length % 4 ≠ 0 →
      binaryStringToSlice s = some (String.mk (hexDigitsOf
          (s.data ++ '1' :: List.replicate (3 - s.length % 4) '0')) ++ "_") ∧
        (hexDigitsOf (s.data ++ '1' :: List.replicate (3 - s.length % 4) '0')).length =
          s.length / 4 + 1 ∧
        3 - s.length % 4 ≤ 2 ∧ (s.length + 1 + (3 - s.length % 4)) % 4 = 0 ∧
        ∀ z : Nat, (s.length + 1 + z) % 4 = 0 → 3 - s.length % 4 ≤ z) ∧
    (∀ hex, binaryStringToSlice s = some hex → ('_' ∈ hex.data ↔ s.length % 4 ≠ 0)) ∧
    binaryStringToSlice "" = some "" := by
  have h0 : s.length % 4 = 0 →
      binaryStringToSlice s = some (String.mk (hexDigitsOf s.data)) ∧
        (hexDigitsOf s.data).length = s.length / 4 ∧ '_' ∉ hexDigitsOf s.data := by
    intro h
    obtain ⟨a, b, c⟩ := hexGroups_digits (s.length / 4) s.data
      (by rw [← String.length_eq_data]; omega) hb
    exact ⟨by rw [binaryStringToSlice_eq, if_pos h, a], b, c⟩
  have h1 : s.length % 4 ≠ 0 →
      binaryStringToSlice s = some (String.mk (hexDigitsOf
          (s.data ++ '1' :: List.replicate (3 - s.length % 4) '0')) ++ "_") ∧
        (hexDigitsOf (s.data ++ '1' :: List.replicate (3 - s.length % 4) '0')).length =
          s.length / 4 + 1 := by
    intro h
    obtain ⟨a, b, _⟩ := hexGroups_digits (s.length / 4 + 1)
      (s.data ++ '1' :: List.replicate (3 - s.length % 4) '0')
      (by
        simp only [List.length_append, List.length_replicate, List.length_cons]
        rw [← String.length_eq_data]
        omega)
      (by
        intro c hc
        rw [List.mem_append, List.mem_cons] at hc
        rcases hc with hc | rfl | hc
        · exact hb c hc
        · exact Or.inr rfl
        · exact Or.inl (List.eq_of_mem_replicate hc))
    exact ⟨by rw [binaryStringToSlice_eq, if_neg h, a]; rfl, b⟩
  refine ⟨fun h => ⟨(h0 h).1, (h0 h).2.1⟩, ?_, ?_, rfl⟩
  · intro h
    exact ⟨(h1 h).1, (h1 h).2, by omega, by omega, fun z hz => by omega⟩
  · intro hex hhex
    by_cases h : s.length % 4 = 0
    · rw [(h0 h).1] at hhex
      cases hhex
      simp only [h, ne_eq, not_true_eq_false, iff_false]
      exact (h0 h).2.2
    · rw [(h1 h).1] at hhex
      cases hhex
      simp only [h, ne_eq, not_false_eq_true, iff_true, String.data_append]
      exact List.mem_append_right _ (by decide)

/-- Witness of C14: the five bits `11001` give `cc_`. -/
theorem binaryStringToSlice_digits_witness :
    IsBitString "11001" ∧
    binaryStringToSlice "11001" = some "cc_" ∧
    String.mk (hexDigitsOf ("11001".data ++ '1' :: List.replicate 2 '0')) ++ "_" = "cc_" :=
  ⟨by unfold IsBitString; decide,
    ((binaryStringToSlice_digits "11001" (by unfold IsBitString; decide)).2.1
      (by decide)).1.trans (by decide), by decide⟩

theorem hexDigitBits_group (c : Char) (hc : c ∈ "0123456789abcdef".data) :
    ∃ x : Char × Char × Char × Char, hexDigitBits c = [x.1, x.2.1, x.2.2.1, x.2.2.2] ∧
      stoi2 0 [x.1, x.2.1, x.2.2.1, x.2.2.2] = some (bitValue [x.1, x.2.1, x.2.2.1, x.2.2.2]) ∧
      hexOf (bitValue [x.1, x.2.1, x.2.2.1, x.2.2.2]) = String.mk [c] := by
  have h : c = '0' ∨ c = '1' ∨ c = '2' ∨ c = '3' ∨ c = '4' ∨ c = '5' ∨ c = '6' ∨ c = '7' ∨
      c = '8' ∨ c = '9' ∨ c = 'a' ∨ c = 'b' ∨ c = 'c' ∨ c = 'd' ∨ c = 'e' ∨ c = 'f' := by
    simpa using hc
  rcases h with rfl | rfl | rfl | rfl | rfl | rfl | rfl | rfl | rfl | rfl | rfl | rfl | rfl |
    rfl | rfl | rfl
  · exact ⟨('0', '0', '0', '0'), rfl, rfl, by decide⟩
  · exact ⟨('0', '0', '0', '1'), rfl, rfl, by decide⟩
  · exact ⟨('0', '0', '1', '0'), rfl, rfl, by decide⟩
  · exact ⟨('0', '0', '1', '1'), rfl, rfl, by decide⟩
  · exact ⟨('0', '1', '0', '0'), rfl, rfl, by decide⟩
  · exact ⟨('0', '1', '0', '1'), rfl, rfl, by decide⟩
  · exact ⟨('0', '1', '1', '0'), rfl, rfl, by decide⟩
  · exact ⟨('0', '1', '1', '1'), rfl, rfl, by decide⟩
  · exact ⟨('1', '0', '0', '0'), rfl, rfl, by decide⟩
  · exact ⟨('1', '0', '0', '1'), rfl, rfl, by decide⟩
  · exact ⟨('1', '0', '1', '0'), rfl, rfl, by decide⟩
  · exact ⟨('1', '0', '1', '1'), rfl, rfl, by decide⟩
  · exact ⟨('1', '1', '0', '0'), rfl, rfl, by decide⟩
  · exact ⟨('1', '1', '0', '1'), rfl, rfl, by decide⟩
  · exact ⟨('1', '1', '1', '0'), rfl, rfl, by decide⟩
  · exact ⟨('1', '1', '1', '1'), rfl, rfl, by decide⟩

theorem hexGroups_hexToBits : ∀ l : List Char, (∀ c ∈ l, c ∈ "0123456789abcdef".data) →
    hexGroups (hexToBits l) = some (String.mk l) ∧ (hexToBits l).length = 4 * l.length
  | [], _ => ⟨rfl, rfl⟩
  | c :: cs, h => by
    obtain ⟨x, h1, h2, h3⟩ := hexDigitBits_group c (h c (by simp))
    obtain ⟨i1, i2⟩ := hexGroups_hexToBits cs (fun d hd => h d (by simp [hd]))
    constructor
    · simp only [hexToBits, h1, List.cons_append, List.nil_append, hexGroups, h2, i1,
        Option.bind_eq_bind, Option.some_bind, h3, string_mk_cons]
    · simp only [hexToBits, h1, List.cons_append, List.nil_append, List.length_cons, i2]
      omega

/-- C15: `binaryStringToSlice` is a left inverse of the slice-to-binary parser
on slices without completion tag: for every string `h` of lowercase hex digits,
`binaryStringToSlice` of the four-bits-per-digit expansion of `h` returns `h`. -/
theorem binaryStringToSlice_hexToBits (h : String) (hh : IsLowerHex h) :
    binaryStringToSlice (String.mk (hexToBits h.data)) = some h := by
  obtain ⟨h1, h2⟩ := hexGroups_hexToBits h.data hh
  rw [binaryStringToSlice_eq, if_pos (by rw [String.length_eq_data]; simp only [h2]; omega), h1]

/-- Witness of C15: the slice `8f0c`. -/
theorem binaryStringToSlice_hexToBits_witness :
    IsLowerHex "8f0c" ∧ String.mk (hexToBits "8f0c".data) = "1000111100001100" ∧
    binaryStringToSlice (String.mk (hexToBits "8f0c".data)) = some "8f0c" :=
  ⟨by unfold IsLowerHex; decide, by decide,
    binaryStringToSlice_hexToBits "8f0c" (by unfold IsLowerHex; decide)⟩

/-! ## Numbers as bit strings (C16 to C19) -/

theorem toBitsBE_length : ∀ (w v : Nat), (toBitsBE w v).length = w
  | 0, _ => rfl
  | w + 1, v => by simp [toBitsBE, toBitsBE_length w]

theorem toBitsBE_bits : ∀ (w v : Nat), ∀ c ∈ toBitsBE w v, c = '0' ∨ c = '1'
  | 0, _ => by simp [toBitsBE]
  | w + 1, v => by
    intro c hc
    simp only [toBitsBE, List.mem_append, List.mem_singleton] at hc
    rcases hc with hc | rfl
    · exact toBitsBE_bits w _ c hc
    · split_ifs
      · exact Or.inl rfl
      · exact Or.inr rfl

theorem bitValue_snoc (l : List Char) (c : Char) :
    bitValue (l ++ [c]) = 2 * bitValue l + (if c = '1' then 1 else 0) := by
  simp [bitValue, List.foldl_append]

theorem bitValue_toBitsBE : ∀ (w v : Nat), bitValue (toBitsBE w v) = v % 2 ^ w
  | 0, v => by simp [toBitsBE, bitValue, Nat.mod_one]
  | w + 1, v => by
    rw [toBitsBE, bitValue_snoc, bitValue_toBitsBE w, pow_succ, Nat.mul_comm (2 ^ w) 2,
      Nat.mod_mul]
    have h : (if (if v % 2 = 0 then '0' else '1') = '1' then 1 else 0) = v % 2 := by
      rcases Nat.mod_two_eq_zero_or_one v with h | h <;> simp [h]
    rw [h]
    omega

theorem appendBitsLoop_eq : ∀ (n v : Nat) (s : List Char),
    appendBitsLoop n v s = s ++ (toBitsBE n v).reverse
  | 0, _, s => by simp [appendBitsLoop, toBitsBE]
  | n + 1, v, s => by
    rw [appendBitsLoop, appendBitsLoop_eq n, toBitsBE]
    simp

theorem reverseLast_append (s r : List Char) (n : Nat) (h : r.length = n) :
    reverseLast (s ++ r) n = s ++ r.reverse := by
  simp [reverseLast, h]

theorem addBinaryNumberToString_eq (s : String) (v bitlen : Nat) :
    addBinaryNumberToString s v bitlen = s ++ String.mk (toBitsBE bitlen v) := by
  apply String.ext
  simp only [addBinaryNumberToString, appendBitsLoop_eq, String.data_append]
  rw [reverseLast_append _ _ _ (by simp [toBitsBE_length])]
  simp

theorem size_half (v : Nat) (hv : v ≠ 0) : Nat.size v = Nat.size (v / 2) + 1 := by
  apply le_antisymm
  · rw [Nat.size_le]
    have h := Nat.lt_size_self (v / 2)
    rw [pow_succ]
    omega
  · rw [Nat.succ_le_iff, Nat.lt_size]
    by_cases h2 : v / 2 = 0
    · rw [h2]
      simp only [Nat.size_zero, pow_zero]
      omega
    · have h := (Nat.size_le (m := v / 2) (n := Nat.size (v / 2) - 1)).not
      have hpos : 0 < Nat.size (v / 2) := Nat.size_pos.mpr (Nat.pos_of_ne_zero h2)
      have h3 : ¬ Nat.size (v / 2) ≤ Nat.size (v / 2) - 1 := by omega
      have h4 := h.mp h3
      have h5 : 2 ^ Nat.size (v / 2) = 2 * 2 ^ (Nat.size (v / 2) - 1) := by
        rw [← pow_succ']
        congr 1
        omega
      omega

theorem toBitsBE_zero : ∀ k : Nat, toBitsBE k 0 = List.replicate k '0'
  | 0 => rfl
  | k + 1 => by
    rw [toBitsBE, Nat.zero_div, toBitsBE_zero k]
    simp [List.replicate_succ']

/-- The upper digits of a number below `2^L` are zeros. -/
theorem toBitsBE_pad : ∀ (L k v : Nat), v < 2 ^ L →
    toBitsBE (L + k) v = List.replicate k '0' ++ toBitsBE L v
  | 0, k, v, h => by
    have : v = 0 := by simpa using h
    subst this
    simp [toBitsBE_zero, toBitsBE]
  | L + 1, k, v, h => by
    have h2 : v / 2 < 2 ^ L := by
      rw [pow_succ] at h
      omega
    rw [show L + 1 + k = (L + k) + 1 by omega, toBitsBE, toBitsBE_pad L k (v / 2) h2, toBitsBE]
    simp

/-- The first loop of `gramsToBinaryString` finds the bit length of the value
and writes its bits, least significant first. -/
theorem gramsLoop_eq : ∀ (fuel i v : Nat) (s : List Char), i + fuel = 256 → v < 2 ^ fuel →
    gramsLoop fuel i v s = (i + Nat.size v, s ++ (toBitsBE (Nat.size v) v).reverse)
  | 0, i, v, s, hi, hv => by
    have : v = 0 := by simpa using hv
    subst this
    simp only [gramsLoop, Nat.size_zero, toBitsBE, List.reverse_nil, List.append_nil]
    congr 1
    omega
  | fuel + 1, i, v, s, hi, hv => by
    by_cases h0 : v = 0
    · subst h0
      simp [gramsLoop, toBitsBE]
    · have h2 : v / 2 < 2 ^ fuel := by
        rw [pow_succ] at hv
        omega
      rw [gramsLoop, if_neg h0, gramsLoop_eq fuel (i + 1) (v / 2) _ (by omega) h2,
        size_half v h0, toBitsBE]
      simp only [List.reverse_append, List.reverse_cons, List.reverse_nil, List.nil_append,
        List.append_assoc, List.singleton_append, Prod.mk.injEq, and_true]
      omega

theorem padToByte_eq : ∀ (fuel len : Nat) (s : List Char), (8 - len % 8) % 8 ≤ fuel →
    padToByte fuel len s =
      (len + (8 - len % 8) % 8, s ++ List.replicate ((8 - len % 8) % 8) '0')
  | 0, len, s, h => by
    have : (8 - len % 8) % 8 = 0 := by omega
    simp [padToByte, this]
  | fuel + 1, len, s, h => by
    by_cases h8 : len % 8 = 0
    · simp [padToByte, h8]
    · rw [padToByte, if_pos h8, padToByte_eq fuel (len + 1) _ (by omega)]
      have e : (8 - len % 8) % 8 = (8 - (len + 1) % 8) % 8 + 1 := by omega
      rw [e]
      simp only [List.replicate_succ, List.append_assoc, List.singleton_append, Prod.mk.injEq,
        and_true]
      omega

/-- The result of `gramsToBinaryString` on a `u256`: it aborts unless the bit
length is below 120, and otherwise writes the number of bytes in four bits and
the value in that many bytes. -/
theorem gramsToBinaryString_eq (v : Nat) (hv : v < 2 ^ 256) :
    gramsToBinaryString v =
      if ¬ Nat.size v < 120 then none
      else some (String.mk (toBitsBE 4 ((Nat.size v + 7) / 8) ++
        toBitsBE (8 * ((Nat.size v + 7) / 8)) v)) := by
  have hloop := gramsLoop_eq 256 0 v [] rfl hv
  simp only [Nat.zero_add, List.nil_append] at hloop
  simp only [gramsToBinaryString, hloop]
  by_cases h : Nat.size v < 120
  · have hpad := padToByte_eq 8 (Nat.size v) (toBitsBE (Nat.size v) v).reverse (by omega)
    have hlen : Nat.size v + (8 - Nat.size v % 8) % 8 = 8 * ((Nat.size v + 7) / 8) := by omega
    have hdiv : (Nat.size v + (8 - Nat.size v % 8) % 8) / 8 = (Nat.size v + 7) / 8 := by omega
    have hs : reverseLast ((toBitsBE (Nat.size v) v).reverse ++
        List.replicate ((8 - Nat.size v % 8) % 8) '0')
        (Nat.size v + (8 - Nat.size v % 8) % 8) =
        toBitsBE (8 * ((Nat.size v + 7) / 8)) v := by
      have := reverseLast_append [] ((toBitsBE (Nat.size v) v).reverse ++
        List.replicate ((8 - Nat.size v % 8) % 8) '0')
        (Nat.size v + (8 - Nat.size v % 8) % 8) (by simp [toBitsBE_length])
      simp only [List.nil_append] at this
      rw [this, ← hlen, toBitsBE_pad _ _ v (Nat.lt_size_self v)]
      simp
    have hres : reverseLast (appendBitsLoop 4 ((Nat.size v + 7) / 8) []) 4 =
        toBitsBE 4 ((Nat.size v + 7) / 8) := by
      rw [appendBitsLoop_eq, reverseLast_append _ _ _ (by simp [toBitsBE_length])]
      simp
    simp only [h, not_true_eq_false, if_false, hpad, hdiv, hs, hres]
  · simp only [h, not_false_eq_true, if_true]

/-- C16: for every `u256` value `v` that `gramsToBinaryString` accepts, the
result is the number `n` in four binary digits, most significant first,
followed by exactly `8 n` digits that are the binary form of `v`, where
`n = ceil(bitlength(v) / 8)` is the least number of bytes that hold `v`; so
the result has `4 + 8 n` characters with `n <= 15`, the payload decodes to `v`
and `v = 0` gives `0000`. -/
theorem gramsToBinaryString_layout (v : Nat) (hv : v < 2 ^ 256)
    (hacc : (gramsToBinaryString v).isSome = true) :
    gramsToBinaryString v = some (String.mk (toBitsBE 4 ((Nat.size v + 7) / 8) ++
      toBitsBE (8 * ((Nat.size v + 7) / 8)) v)) ∧
    (Nat.size v + 7) / 8 ≤ 15 ∧
    (toBitsBE 4 ((Nat.size v + 7) / 8) ++
      toBitsBE (8 * ((Nat.size v + 7) / 8)) v).length = 4 + 8 * ((Nat.size v + 7) / 8) ∧
    bitValue (toBitsBE 4 ((Nat.size v + 7) / 8)) = (Nat.size v + 7) / 8 ∧
    bitValue (toBitsBE (8 * ((Nat.size v + 7) / 8)) v) = v ∧
    v < 2 ^ (8 * ((Nat.size v + 7) / 8)) ∧
    (∀ m : Nat, v < 2 ^ (8 * m) → (Nat.size v + 7) / 8 ≤ m) ∧
    (v = 0 → gramsToBinaryString v = some "0000") := by
  have heq := gramsToBinaryString_eq v hv
  have hsz : Nat.size v < 120 := by
    by_contra h
    rw [heq, if_pos h] at hacc
    cases hacc
  rw [if_neg (not_not.mpr hsz)] at heq
  have hn : (Nat.size v + 7) / 8 ≤ 15 := by omega
  have hlt : v < 2 ^ (8 * ((Nat.size v + 7) / 8)) :=
    lt_of_lt_of_le (Nat.lt_size_self v) (Nat.pow_le_pow_right (by decide) (by omega))
  refine ⟨heq, hn, by simp [toBitsBE_length], ?_, ?_, hlt, ?_, ?_⟩
  · rw [bitValue_toBitsBE]
    exact Nat.mod_eq_of_lt (by
      have : (2 : Nat) ^ 4 = 16 := by decide
      omega)
  · rw [bitValue_toBitsBE]
    exact Nat.mod_eq_of_lt hlt
  · intro m hm
    have := Nat.size_le.mpr hm
    omega
  · intro h0
    subst h0
    decide

/-- Witness of C16: the value 256 takes two bytes. -/
theorem gramsToBinaryString_layout_witness :
    (256 : Nat) < 2 ^ 256 ∧ (gramsToBinaryString 256).isSome = true ∧
    gramsToBinaryString 256 = some "00100000000100000000" ∧
    bitValue (toBitsBE (8 * ((Nat.size 256 + 7) / 8)) 256) = 256 :=
  ⟨by decide, by decide, by decide,
    (gramsToBinaryString_layout 256 (by decide) (by decide)).2.2.2.2.1⟩

/-- C17 (the code at the failing inputs): on a `u256` value
`gramsToBinaryString` succeeds exactly when the value is below `2^119`, that
is, when its bit length is below 120: the assertion is `len < 120`. A value of
exactly 120 bits, such as `2^119`, fits 120 bits and is rejected. -/
theorem gramsToBinaryString_accepts_iff (v : Nat) (hv : v < 2 ^ 256) :
    ((gramsToBinaryString v).isSome = true ↔ v < 2 ^ 119) ∧
    (2 ^ 119 ≤ v → gramsToBinaryString v = none) ∧
    (2 ^ 120 ≤ v → gramsToBinaryString v = none) := by
  have heq := gramsToBinaryString_eq v hv
  have hsz : Nat.size v < 120 ↔ v < 2 ^ 119 := by
    rw [← Nat.size_le]
    omega
  have hnone : 2 ^ 119 ≤ v → gramsToBinaryString v = none := by
    intro h
    rw [heq, if_pos (by rw [hsz]; omega)]
  refine ⟨?_, hnone, fun h => hnone (le_trans (Nat.pow_le_pow_right (by decide) (by decide)) h)⟩
  by_cases h : Nat.size v < 120
  · rw [heq, if_neg (not_not.mpr h)]
    simp only [Option.isSome_some, true_iff]
    exact hsz.mp h
  · rw [heq, if_pos h]
    simp only [Option.isSome_none, Bool.false_eq_true, false_iff]
    exact fun h2 => h (hsz.mpr h2)

/-- Witness of C17: the value `2^119` has 120 bits and is rejected. -/
theorem gramsToBinaryString_accepts_iff_witness :
    (2 ^ 119 : Nat) < 2 ^ 256 ∧ (2 ^ 119 : Nat) < 2 ^ 120 ∧
    gramsToBinaryString (2 ^ 119) = none :=
  ⟨by decide, by decide,
    (gramsToBinaryString_accepts_iff (2 ^ 119) (by decide)).2.1 (le_refl _)⟩

theorem address_bits (v : Nat) :
    IsBitString ("" ++ "10" ++ "0" ++ stdString 8 '0' ++ String.mk (toBitsBE 256 v)) := by
  intro c hc
  rw [String.data_append, List.mem_append] at hc
  rcases hc with hc | hc
  · have h : ∀ d ∈ ("" ++ "10" ++ "0" ++ stdString 8 '0').data, d = '0' ∨ d = '1' := by decide
    exact h c hc
  · exact toBitsBE_bits 256 v c hc

theorem address_length (v : Nat) :
    ("" ++ "10" ++ "0" ++ stdString 8 '0' ++ String.mk (toBitsBE 256 v)).length = 267 := by
  rw [String.length_append]
  have h : ("" ++ "10" ++ "0" ++ stdString 8 '0').length = 11 := by decide
  rw [h, String.length_eq_data]
  simp [toBitsBE_length]

theorem StackPusherHelper.literalToSliceAddress_run (v : Nat) (pushSlice : Bool)
    (p : StackPusherHelper) (ht : 0 ≤ p.m_code.tabQty) (hs : 0 ≤ p.m_stack.m_size + 1)
    (hex : String)
    (hhex : binaryStringToSlice ("10" ++ "0" ++ stdString 8 '0' ++
      String.mk (toBitsBE 256 v)) = some hex) :
    StackPusherHelper.literalToSliceAddress v pushSlice p =
      some ("10" ++ "0" ++ stdString 8 '0' ++ String.mk (toBitsBE 256 v),
        if pushSlice then StackPusherHelper.emitted [(1, "PUSHSLICE x" ++ hex)] p else p) := by
  have he : ("" : String) ++ "10" = "10" := by decide
  simp only [StackPusherHelper.literalToSliceAddress, addBinaryNumberToString_eq, he, hhex,
    Option.bind_eq_bind, Option.some_bind]
  cases pushSlice
  · simp
  · simp only [if_true, StackPusherHelper.push_eq 1 _ p ht hs, Option.some_bind]

/-- C18: for every 256-bit literal value `v`, `literalToSliceAddress` returns
the 267-character bit string `10`, `0`, eight `0` and the 256 binary digits of
`v`, most significant first (`addBinaryNumberToString` appends exactly `bitlen`
digits that encode `v mod 2^bitlen` and leaves the string before them as it
is); with `pushSlice` it records exactly one step, `PUSHSLICE x` followed by
`binaryStringToSlice` of that string, with delta +1, and without `pushSlice` it
records nothing. -/
theorem StackPusherHelper.literalToSliceAddress_result (v : Nat) (hv : v < 2 ^ 256)
    (pushSlice : Bool) (p : StackPusherHelper) (ht : 0 ≤ p.m_code.tabQty)
    (hs : 0 ≤ p.m_stack.m_size + 1) :
    (∃ hex, binaryStringToSlice ("10" ++ "0" ++ stdString 8 '0' ++
          String.mk (toBitsBE 256 v)) = some hex ∧
      StackPusherHelper.literalToSliceAddress v pushSlice p =
        some ("10" ++ "0" ++ stdString 8 '0' ++ String.mk (toBitsBE 256 v),
          if pushSlice then StackPusherHelper.emitted [(1, "PUSHSLICE x" ++ hex)] p else p) ∧
      (StackPusherHelper.emitted [(1, "PUSHSLICE x" ++ hex)] p).m_code.lines =
        p.m_code.lines ++ [indented p.m_code.tabQty ("PUSHSLICE x" ++ hex)]) ∧
    ("10" ++ "0" ++ stdString 8 '0' ++ String.mk (toBitsBE 256 v)).length = 267 ∧
    bitValue (toBitsBE 256 v) = v ∧
    (∀ (s : String) (w bitlen : Nat),
      addBinaryNumberToString s w bitlen = s ++ String.mk (toBitsBE bitlen w) ∧
        (toBitsBE bitlen w).length = bitlen ∧
        bitValue (toBitsBE bitlen w) = w % 2 ^ bitlen) := by
  have he : ("" : String) ++ "10" = "10" := by decide
  have hb := address_bits v
  have hl := address_length v
  rw [he] at hb hl
  obtain ⟨hex, hhex, _⟩ := binaryStringToSlice_bits _ hb
  refine ⟨⟨hex, hhex, ?_, ?_⟩, hl, ?_, ?_⟩
  · exact StackPusherHelper.literalToSliceAddress_run v pushSlice p ht hs hex hhex
  · rw [StackPusherHelper.emitted_lines _ p (by
      intro e he
      simp only [List.mem_singleton] at he
      subst he
      exact two_le_length_append "PUSHSLICE x" _ (by decide))]
    rfl
  · rw [bitValue_toBitsBE]
    exact Nat.mod_eq_of_lt hv
  · intro s w bitlen
    exact ⟨addBinaryNumberToString_eq s w bitlen, toBitsBE_length bitlen w,
      bitValue_toBitsBE bitlen w⟩

/-- Witness of C18: the literal 0 with `pushSlice` on a fresh pusher. -/
theorem StackPusherHelper.literalToSliceAddress_result_witness :
    (0 : Nat) < 2 ^ 256 ∧ (0 : Int) ≤ (StackPusherHelper.ofSize 0).m_code.tabQty ∧
    (0 : Int) ≤ (StackPusherHelper.ofSize 0).m_stack.m_size + 1 ∧
    (∃ hex, binaryStringToSlice ("10" ++ "0" ++ stdString 8 '0' ++
          String.mk (toBitsBE 256 0)) = some hex ∧
      StackPusherHelper.literalToSliceAddress 0 true (StackPusherHelper.ofSize 0) =
        some ("10" ++ "0" ++ stdString 8 '0' ++ String.mk (toBitsBE 256 0),
          if true then StackPusherHelper.emitted [(1, "PUSHSLICE x" ++ hex)]
            (StackPusherHelper.ofSize 0) else StackPusherHelper.ofSize 0) ∧
      (StackPusherHelper.emitted [(1, "PUSHSLICE x" ++ hex)]
          (StackPusherHelper.ofSize 0)).m_code.lines =
        (StackPusherHelper.ofSize 0).m_code.lines ++
          [indented (StackPusherHelper.ofSize 0).m_code.tabQty ("PUSHSLICE x" ++ hex)]) :=
  ⟨by decide, by decide, by decide,
    (StackPusherHelper.literalToSliceAddress_result 0 (by decide) true
      (StackPusherHelper.ofSize 0) (by decide) (by decide)).1⟩

theorem zero_address_slice :
    binaryStringToSlice ("10" ++ "0" ++ stdString 8 '0' ++ String.mk (toBitsBE 256 0)) =
      some "8000000000000000000000000000000000000000000000000000000000000000001_" := by
  set_option maxRecDepth 100000 in decide

/-- C19: `pushZeroAddress` records exactly one step, the line
`PUSHSLICE x8000000000000000000000000000000000000000000000000000000000000000001_`
(an `8`, 65 zeros, a `1`, then `_`) with delta +1, and the literal is `x`
followed by `binaryStringToSlice` of the 267-bit std-address string of the
value 0: it is the step that `literalToSliceAddress` records for the literal
0. -/
theorem StackPusherHelper.pushZeroAddress_line (p : StackPusherHelper)
    (ht : 0 ≤ p.m_code.tabQty) (hs : 0 ≤ p.m_stack.m_size + 1) :
    StackPusherHelper.pushZeroAddress p = some (StackPusherHelper.emitted [(1,
      "PUSHSLICE x8000000000000000000000000000000000000000000000000000000000000000001_")] p) ∧
    (StackPusherHelper.emitted [(1,
      "PUSHSLICE x8000000000000000000000000000000000000000000000000000000000000000001_")]
        p).m_code.lines = p.m_code.lines ++ [indented p.m_code.tabQty
      "PUSHSLICE x8000000000000000000000000000000000000000000000000000000000000000001_"] ∧
    "8000000000000000000000000000000000000000000000000000000000000000001_" =
      "8" ++ stdString 65 '0' ++ "1" ++ "_" ∧
    binaryStringToSlice ("10" ++ "0" ++ stdString 8 '0' ++ String.mk (toBitsBE 256 0)) =
      some "8000000000000000000000000000000000000000000000000000000000000000001_" ∧
    ("10" ++ "0" ++ stdString 8 '0' ++ String.mk (toBitsBE 256 0)).length = 267 ∧
    (StackPusherHelper.literalToSliceAddress 0 true p).map Prod.snd =
      StackPusherHelper.pushZeroAddress p := by
  have hpz : StackPusherHelper.pushZeroAddress p = some (StackPusherHelper.emitted [(1,
      "PUSHSLICE x8000000000000000000000000000000000000000000000000000000000000000001_")] p) :=
    StackPusherHelper.push_eq 1 _ p ht hs
  have hcat : "PUSHSLICE x" ++
      "8000000000000000000000000000000000000000000000000000000000000000001_" =
      "PUSHSLICE x8000000000000000000000000000000000000000000000000000000000000000001_" := by
    decide
  refine ⟨hpz, ?_, by decide, zero_address_slice, ?_, ?_⟩
  · rw [StackPusherHelper.emitted_lines _ p (by decide)]
    rfl
  · have he : ("" : String) ++ "10" = "10" := by decide
    have := address_length 0
    rw [he] at this
    exact this
  · rw [StackPusherHelper.literalToSliceAddress_run 0 true p ht hs _ zero_address_slice, hpz,
      hcat]
    rfl

/-- Witness of C19: a fresh pusher. -/
theorem StackPusherHelper.pushZeroAddress_line_witness :
    (0 : Int) ≤ (StackPusherHelper.ofSize 0).m_code.tabQty ∧
    (0 : Int) ≤ (StackPusherHelper.ofSize 0).m_stack.m_size + 1 ∧
    StackPusherHelper.pushZeroAddress (StackPusherHelper.ofSize 0) =
      some (StackPusherHelper.emitted [(1,
        "PUSHSLICE x8000000000000000000000000000000000000000000000000000000000000000001_")]
        (StackPusherHelper.ofSize 0)) :=
  ⟨by decide, by decide,
    (StackPusherHelper.pushZeroAddress_line (StackPusherHelper.ofSize 0) (by decide)
      (by decide)).1⟩
/-! ## exchange (C21) -/

theorem exchangeSteps0_sum (j : Int) : ((exchangeSteps0 j).map Prod.fst).sum = 0 := by
  unfold exchangeSteps0
  split_ifs <;> simp

theorem exchangeSteps0_two_le (j : Int) : ∀ e ∈ exchangeSteps0 j, 2 ≤ e.2.length := by
  intro e he
  unfold exchangeSteps0 at he
  split_ifs at he
  · simp only [List.mem_singleton] at he; subst he; decide
  · simp only [List.mem_singleton] at he; subst he
    exact two_le_length_append "XCHG s" _ (by decide)
  · simp only [List.mem_singleton] at he; subst he
    exact two_le_length_append "XCHG s0,s" _ (by decide)

theorem exchangeSteps_sum (i j : Int) : ((exchangeSteps i j).map Prod.fst).sum = 0 := by
  unfold exchangeSteps
  split_ifs
  · exact exchangeSteps0_sum j
  · simp
  · simp [exchangeSteps0_sum]

theorem exchangeSteps_two_le (i j : Int) : ∀ e ∈ exchangeSteps i j, 2 ≤ e.2.length := by
  intro e he
  unfold exchangeSteps at he
  split_ifs at he
  · exact exchangeSteps0_two_le j e he
  · simp only [List.mem_singleton] at he; subst he
    show 2 ≤ ("XCHG s" ++ toString i ++ ",s" ++ toString j).length
    rw [String.append_assoc, String.append_assoc]
    exact two_le_length_append "XCHG s" _ (by decide)
  · simp only [List.mem_append] at he
    rcases he with (he | he) | he
    · exact exchangeSteps0_two_le i e he
    · exact exchangeSteps0_two_le j e he
    · exact exchangeSteps0_two_le i e he

/-- The run of `exchange(0, j)` for `1 <= j <= 255`. -/
theorem StackPusherHelper.exchange0_run (j : Int) (p : StackPusherHelper)
    (ht : 0 ≤ p.m_code.tabQty) (hs : 0 ≤ p.m_stack.m_size) (h1 : 1 ≤ j) (h255 : j ≤ 255) :
    StackPusherHelper.exchange 0 j p = some (StackPusherHelper.emitted (exchangeSteps0 j) p) := by
  have h0 : (0 : Int) ≤ j := by omega
  rw [StackPusherHelper.exchange]
  simp only [h0, h1, h255, ge_iff_le, le_refl, not_true_eq_false, if_false, and_self,
    dite_true, exchangeSteps0]
  by_cases a : j = 1
  · simp only [a, if_true]
    exact StackPusherHelper.push_eq 0 _ p ht (by omega)
  · by_cases b : j ≤ 15
    · simp only [a, b, if_true, if_false]
      exact StackPusherHelper.push_eq 0 _ p ht (by omega)
    · simp only [a, b, if_false]
      exact StackPusherHelper.push_eq 0 _ p ht (by omega)

/-- The run of `exchange(i, j)` for `0 <= i <= j` and `1 <= j <= 255`. -/
theorem StackPusherHelper.exchange_run (i j : Int) (p : StackPusherHelper)
    (ht : 0 ≤ p.m_code.tabQty) (hs : 0 ≤ p.m_stack.m_size) (hi : 0 ≤ i) (hij : i ≤ j)
    (h1 : 1 ≤ j) (h255 : j ≤ 255) :
    StackPusherHelper.exchange i j p = some (StackPusherHelper.emitted (exchangeSteps i j) p) := by
  by_cases h0 : i = 0
  · subst h0
    simp only [exchangeSteps, if_true]
    exact StackPusherHelper.exchange0_run j p ht hs h1 h255
  · have hi1 : 1 ≤ i := by omega
    rw [StackPusherHelper.exchange]
    simp only [hij, hi, h1, h255, h0, hi1, ge_iff_le, not_true_eq_false, if_false, false_and,
      dite_false, true_and, and_true, dite_true, exchangeSteps]
    by_cases a : i < j ∧ j ≤ 15
    · by_cases b : i = 1
      · subst b
        have c : (2 : Int) ≤ j := by omega
        have e : "XCHG s" ++ toString (1 : Int) ++ ",s" ++ toString j =
            "XCHG s1,s" ++ toString j := by
          have : "XCHG s" ++ toString (1 : Int) ++ ",s" = "XCHG s1,s" := by decide
          rw [this]
        simp only [a, c, and_self, if_true, e, true_and]
        exact StackPusherHelper.push_eq 0 _ p ht (by omega)
      · simp only [a, and_self, if_true, and_true]
        rw [if_neg (fun h => b h.1)]
        exact StackPusherHelper.push_eq 0 _ p ht (by omega)
    · have c : ¬ (i = 1 ∧ 2 ≤ j ∧ j ≤ 15) := fun h => a ⟨by omega, h.2.2⟩
      simp only [c, a, if_false, Option.bind_eq_bind]
      have hi255 : i ≤ 255 := by omega
      rw [StackPusherHelper.exchange0_run i p ht hs hi1 hi255, Option.some_bind,
        StackPusherHelper.exchange0_run j _ (by rw [StackPusherHelper.emitted_tabQty]; exact ht)
          (by rw [StackPusherHelper.emitted_size, exchangeSteps0_sum]; omega) h1 h255,
        Option.some_bind,
        StackPusherHelper.exchange0_run i _
          (by rw [StackPusherHelper.emitted_tabQty, StackPusherHelper.emitted_tabQty]; exact ht)
          (by rw [StackPusherHelper.emitted_size, StackPusherHelper.emitted_size,
            exchangeSteps0_sum, exchangeSteps0_sum]; omega) hi1 hi255,
        StackPusherHelper.emitted_append, StackPusherHelper.emitted_append]

theorem StackPusherHelper.exchange_large (i j : Int) (p : StackPusherHelper) (h : 255 < j) :
    StackPusherHelper.exchange i j p = none := by
  rw [StackPusherHelper.exchange]
  have a : ¬ j ≤ 255 := by omega
  have b : ¬ j ≤ 15 := by omega
  simp [a, b]

/-- C21, the claim as stated fails: `exchange(0, 16)` on a pusher with 17
entries records the line `XCHG s0,s16`, with `s0` first, and not the line
`XCHG s16,s0` of the claim. -/
theorem StackPusherHelper.exchange_0_16_line :
    StackPusherHelper.exchange 0 16 (StackPusherHelper.ofSize 17) =
      some (StackPusherHelper.emitted [(0, "XCHG s0,s16")] (StackPusherHelper.ofSize 17)) ∧
    (StackPusherHelper.emitted [(0, "XCHG s0,s16")] (StackPusherHelper.ofSize 17)).m_code.lines =
      ["XCHG s0,s16"] ∧
    ¬ (∃ q, StackPusherHelper.exchange 0 16 (StackPusherHelper.ofSize 17) = some q ∧
      q.m_code.lines = ["XCHG s" ++ toString (16 : Int) ++ ",s0"]) := by
  have h := StackPusherHelper.exchange0_run 16 (StackPusherHelper.ofSize 17) (by decide)
    (by decide) (by decide) (by decide)
  have e : exchangeSteps0 16 = [(0, "XCHG s0,s16")] := by decide
  rw [e] at h
  refine ⟨h, by decide, ?_⟩
  rintro ⟨q, hq, hl⟩
  rw [h] at hq
  cases hq
  revert hl
  decide

/-- C21 (amended): for `0 <= i <= j` with `j >= 1`, on a pusher with a
non-negative indent and size, `exchange(i, j)` records `SWAP` for (0,1); the
single line `XCHG sj` for `i = 0` and `2 <= j <= 15`; the full form
`XCHG s0,sj` for `i = 0` and `16 <= j <= 255`; the single line `XCHG si,sj` for
`1 <= i < j <= 15`; and in the remaining cases with `j <= 255` the steps of
`exchange(0,i)`, `exchange(0,j)`, `exchange(0,i)` in that order; it aborts when
`j > 255`; every step has delta 0, so the modelled stack size is unchanged in
every successful case. -/
theorem StackPusherHelper.exchange_steps (i j : Int) (p : StackPusherHelper)
    (ht : 0 ≤ p.m_code.tabQty) (hs : 0 ≤ p.m_stack.m_size) (hi : 0 ≤ i) (hij : i ≤ j)
    (h1 : 1 ≤ j) :
    (j ≤ 255 → StackPusherHelper.exchange i j p =
      some (StackPusherHelper.emitted (exchangeSteps i j) p)) ∧
    (StackPusherHelper.emitted (exchangeSteps i j) p).m_code.lines =
      p.m_code.lines ++ (exchangeSteps i j).map (fun e => indented p.m_code.tabQty e.2) ∧
    (i = 0 → j = 1 → exchangeSteps i j = [(0, "SWAP")]) ∧
    (i = 0 → 2 ≤ j → j ≤ 15 → exchangeSteps i j = [(0, "XCHG s" ++ toString j)]) ∧
    (i = 0 → 16 ≤ j → exchangeSteps i j = [(0, "XCHG s0,s" ++ toString j)]) ∧
    (1 ≤ i → i < j → j ≤ 15 →
      exchangeSteps i j = [(0, "XCHG s" ++ toString i ++ ",s" ++ toString j)]) ∧
    (1 ≤ i → (i = j ∨ 15 < j) →
      exchangeSteps i j = exchangeSteps 0 i ++ exchangeSteps 0 j ++ exchangeSteps 0 i) ∧
    (1 ≤ i → (i = j ∨ 15 < j) → j ≤ 255 →
      StackPusherHelper.exchange i j p =
        (StackPusherHelper.exchange 0 i p).bind (fun q =>
          (StackPusherHelper.exchange 0 j q).bind (StackPusherHelper.exchange 0 i))) ∧
    (255 < j → StackPusherHelper.exchange i j p = none) ∧
    (∀ e ∈ exchangeSteps i j, e.1 = 0) ∧
    (∀ q, StackPusherHelper.exchange i j p = some q → q.m_stack.m_size = p.m_stack.m_size) := by
  have hsteps : 1 ≤ i → (i = j ∨ 15 < j) →
      exchangeSteps i j = exchangeSteps 0 i ++ exchangeSteps 0 j ++ exchangeSteps 0 i := by
    intro a b
    have c : i ≠ 0 := by omega
    have d : ¬ (i < j ∧ j ≤ 15) := by omega
    simp [exchangeSteps, c, d]
  refine ⟨fun h => StackPusherHelper.exchange_run i j p ht hs hi hij h1 h,
    StackPusherHelper.emitted_lines _ p (exchangeSteps_two_le i j), ?_, ?_, ?_, ?_, hsteps, ?_,
    fun h => StackPusherHelper.exchange_large i j p h, ?_, ?_⟩
  · intro a b; simp [exchangeSteps, exchangeSteps0, a, b]
  · intro a b c
    have d : j ≠ 1 := by omega
    simp [exchangeSteps, exchangeSteps0, a, c, d]
  · intro a b
    have d : j ≠ 1 := by omega
    have c : ¬ j ≤ 15 := by omega
    simp [exchangeSteps, exchangeSteps0, a, c, d]
  · intro a b c
    have d : i ≠ 0 := by omega
    simp [exchangeSteps, b, c, d]
  · intro a b c
    have hi255 : i ≤ 255 := by omega
    rw [StackPusherHelper.exchange_run i j p ht hs hi hij h1 c, hsteps a b,
      StackPusherHelper.exchange_run 0 i p ht hs (le_refl _) hi a hi255, Option.some_bind,
      StackPusherHelper.exchange_run 0 j _ (by rw [StackPusherHelper.emitted_tabQty]; exact ht)
        (by rw [StackPusherHelper.emitted_size, exchangeSteps_sum]; omega) (le_refl _)
        (by omega) h1 c,
      Option.some_bind,
      StackPusherHelper.exchange_run 0 i _
        (by rw [StackPusherHelper.emitted_tabQty, StackPusherHelper.emitted_tabQty]; exact ht)
        (by rw [StackPusherHelper.emitted_size, StackPusherHelper.emitted_size,
          exchangeSteps_sum, exchangeSteps_sum]; omega) (le_refl _) hi a hi255,
      StackPusherHelper.emitted_append, StackPusherHelper.emitted_append]
  · intro e he
    unfold exchangeSteps at he
    have h0 : ∀ k : Int, ∀ e ∈ exchangeSteps0 k, e.1 = 0 := by
      intro k e he
      unfold exchangeSteps0 at he
      split_ifs at he <;> simp only [List.mem_singleton] at he <;> subst he <;> rfl
    split_ifs at he
    · exact h0 j e he
    · simp only [List.mem_singleton] at he; subst he; rfl
    · simp only [List.mem_append] at he
      rcases he with (he | he) | he
      · exact h0 i e he
      · exact h0 j e he
      · exact h0 i e he
  · intro q hq
    by_cases h : j ≤ 255
    · rw [StackPusherHelper.exchange_run i j p ht hs hi hij h1 h] at hq
      cases hq
      rw [StackPusherHelper.emitted_size, exchangeSteps_sum]
      omega
    · rw [StackPusherHelper.exchange_large i j p (by omega)] at hq
      cases hq

/-- Witness of C21: `exchange(2, 20)` on a pusher with 21 entries is composed
of three exchanges with the top. -/
theorem StackPusherHelper.exchange_steps_witness :
    (0 : Int) ≤ (StackPusherHelper.ofSize 21).m_code.tabQty ∧
    (0 : Int) ≤ (StackPusherHelper.ofSize 21).m_stack.m_size ∧
    (0 : Int) ≤ 2 ∧ (2 : Int) ≤ 20 ∧ (1 : Int) ≤ 20 ∧ (20 : Int) ≤ 255 ∧
    StackPusherHelper.exchange 2 20 (StackPusherHelper.ofSize 21) =
      some (StackPusherHelper.emitted (exchangeSteps 2 20) (StackPusherHelper.ofSize 21)) ∧
    exchangeSteps 2 20 = [(0, "XCHG s2"), (0, "XCHG s0,s20"), (0, "XCHG s2")] :=
  ⟨by decide, by decide, by decide, by decide, by decide, by decide,
    (StackPusherHelper.exchange_steps 2 20 (StackPusherHelper.ofSize 21) (by decide) (by decide)
      (by decide) (by decide) (by decide)).1 (by decide), by decide⟩

/-! ## dropUnder (C22) -/

/-- An emitter that runs as a fixed list of steps has the stack effect of their
sum. -/
theorem StackEffect.of_run {f : StackPusherHelper → Option StackPusherHelper}
    (a : List (Int × String)) (need delta : Int)
    (h : ∀ p : StackPusherHelper, 0 ≤ p.m_code.tabQty → 0 ≤ p.m_stack.m_size →
      need ≤ p.m_stack.m_size → f p = some (StackPusherHelper.emitted a p))
    (hsum : (a.map Prod.fst).sum = delta) (hd : 0 ≤ need + delta) :
    StackEffect f need delta 0 := by
  intro p ht _ h0 hn
  refine ⟨_, h p ht h0 hn, ?_, ?_, ?_, ⟨a, StackPusherHelper.emitted_history a p⟩⟩
  · rw [StackPusherHelper.emitted_size, hsum]
  · rw [StackPusherHelper.emitted_tabQty]; omega
  · rw [StackPusherHelper.emitted_size, hsum]; omega

/-- The run of `drop(n)` on a pusher that holds `n` entries. -/
theorem StackPusherHelper.drop_run (n : Int) (p : StackPusherHelper)
    (ht : 0 ≤ p.m_code.tabQty) (hn : 0 ≤ n) (hs : n ≤ p.m_stack.m_size) :
    StackPusherHelper.drop n p = some (StackPusherHelper.emitted (dropSteps n) p) := by
  have h0 : ¬ n < 0 := by omega
  by_cases h1 : n = 0
  · subst h1; rfl
  by_cases h2 : n = 1
  · subst h2
    simp only [StackPusherHelper.drop, dropSteps]
    exact StackPusherHelper.push_eq _ _ p ht (by omega)
  by_cases h3 : n = 2
  · subst h3
    simp only [StackPusherHelper.drop, dropSteps]
    exact StackPusherHelper.push_eq _ _ p ht (by omega)
  by_cases h4 : n ≤ 15
  · have h5 : ¬ n > 15 := by omega
    simp only [StackPusherHelper.drop, dropSteps, h0, h1, h2, h3, h4, h5, if_false, if_true]
    exact StackPusherHelper.push_eq _ _ p ht (by omega)
  · have h5 : n > 15 := by omega
    simp only [StackPusherHelper.drop, dropSteps, h0, h1, h2, h3, h4, h5, if_false, if_true,
      StackPusherHelper.pushInt, Option.bind_eq_bind]
    rw [StackPusherHelper.push_eq 1 _ p ht (by omega), Option.some_bind]
    exact StackPusherHelper.push_emitted _ _ _ p ht (by simp; omega)

theorem StackPusherHelper.effect_drop (n : Int) (hn : 0 ≤ n) :
    StackEffect (StackPusherHelper.drop n) n (-n) 0 :=
  StackEffect.of_run (dropSteps n) n (-n)
    (fun p ht _ hs => StackPusherHelper.drop_run n p ht hn hs) (dropSteps_sum n) (by omega)

theorem StackPusherHelper.effect_exchange0 (j : Int) (h1 : 1 ≤ j) (h255 : j ≤ 255) :
    StackEffect (StackPusherHelper.exchange 0 j) 0 0 0 :=
  StackEffect.of_run (exchangeSteps0 j) 0 0
    (fun p ht h0 _ => StackPusherHelper.exchange0_run j p ht h0 h1 h255) (exchangeSteps0_sum j)
    (by decide)

theorem StackPusherHelper.effect_dropUnder_f (l d : Int) (hd : 0 ≤ d) :
    StackEffect (StackPusherHelper.dropUnder.f l d) d (-d) 0 := by
  unfold StackPusherHelper.dropUnder.f
  by_cases h : d > 15 ∨ l > 15
  · simp only [h, if_true, Option.bind_eq_bind]
    have h3 : StackEffect (StackPusherHelper.push (-2) "BLKSWX") 2 (-2) 0 :=
      (StackEffect.push (-2) "BLKSWX").mono (by decide) rfl rfl
    have h34 := StackEffect.bind h3 (StackPusherHelper.effect_drop d hd) (Or.inl (le_refl _))
    have h234 := StackEffect.bind (StackPusherHelper.effect_pushInt l) h34 (Or.inl (le_refl _))
    have h1234 := StackEffect.bind (StackPusherHelper.effect_pushInt d) h234 (Or.inl (le_refl _))
    exact h1234.mono (by omega) (by omega) (by decide)
  · simp only [h, if_false]
    exact (StackEffect.push (-d) _).mono (by omega) rfl rfl

theorem StackPusherHelper.effect_dropUnder (l d : Int) (hl : 0 ≤ l) (hd : 0 ≤ d)
    (h : l = 1 → d ≤ 255) : StackEffect (StackPusherHelper.dropUnder l d) d (-d) 0 := by
  have hl0 : ¬ l < 0 := by omega
  have hd0 : ¬ d < 0 := by omega
  have hf := StackPusherHelper.effect_dropUnder_f l d hd
  unfold StackPusherHelper.dropUnder
  simp only [hl0, hd0, if_false]
  by_cases a : d = 0
  · subst a
    simp only [if_true]
    exact StackEffect.pure.mono (le_refl _) (by decide) rfl
  simp only [a, if_false]
  by_cases b : l = 0
  · simp only [b, if_true]
    exact StackPusherHelper.effect_drop d hd
  simp only [b, if_false]
  by_cases c : l = 1
  · have h255 := h c
    subst c
    simp only [if_true]
    by_cases d1 : d = 1
    · subst d1
      simp only [if_true]
      exact (StackEffect.push (-1) "NIP").mono (by decide) rfl rfl
    by_cases d2 : d = 2
    · subst d2
      simp only [show ¬ ((2 : Int) = 1) by decide, if_false, if_true, Option.bind_eq_bind]
      have hn : StackEffect (StackPusherHelper.push (-1) "NIP") 1 (-1) 0 :=
        (StackEffect.push (-1) "NIP").mono (by decide) rfl rfl
      exact (StackEffect.bind hn hn (Or.inl (le_refl _))).mono (by decide) (by decide)
        (by decide)
    simp only [d1, d2, if_false, Option.bind_eq_bind]
    exact (StackEffect.bind (StackPusherHelper.effect_exchange0 d (by omega) h255)
      (StackPusherHelper.effect_drop d hd) (Or.inl (le_refl _))).mono (by omega) (by omega)
      (by decide)
  · simp only [c, if_false, ite_self]
    exact hf

theorem StackPusherHelper.dropUnder_large (d : Int) (p : StackPusherHelper) (h : 255 < d) :
    StackPusherHelper.dropUnder 1 d p = none := by
  have a : ¬ d < 0 := by omega
  have b : d ≠ 0 := by omega
  have c : d ≠ 1 := by omega
  have e : d ≠ 2 := by omega
  simp [StackPusherHelper.dropUnder, a, b, c, e, StackPusherHelper.exchange_large 0 d p h]

/-- C22 (the code, with the failing inputs): for `leftCount >= 0`,
`droppedCount >= 0` and a pusher that holds `leftCount + droppedCount` entries,
`dropUnder` succeeds and changes the modelled size by exactly `-droppedCount`,
unless `leftCount = 1` and `droppedCount > 255`: there the call
`exchange(0, droppedCount)` of the shortcut aborts, while the general path
(`leftCount = 2` for instance) takes the same count. `dropUnder(1, 1)` records
the single step `NIP` with delta -1. -/
theorem StackPusherHelper.dropUnder_effect (l d : Int) (p : StackPusherHelper)
    (ht : 0 ≤ p.m_code.tabQty) (hl : 0 ≤ l) (hd : 0 ≤ d) (hs : l + d ≤ p.m_stack.m_size) :
    ((l = 1 → d ≤ 255) → ∃ q, StackPusherHelper.dropUnder l d p = some q ∧
      q.m_stack.m_size = p.m_stack.m_size - d ∧ q.m_code.tabQty = p.m_code.tabQty) ∧
    (l = 1 → 255 < d → StackPusherHelper.dropUnder l d p = none) ∧
    (l = 1 → d = 1 →
      StackPusherHelper.dropUnder l d p = some (StackPusherHelper.emitted [(-1, "NIP")] p) ∧
      (StackPusherHelper.emitted [(-1, "NIP")] p).m_code.lines =
        p.m_code.lines ++ [indented p.m_code.tabQty "NIP"]) := by
  refine ⟨?_, ?_, ?_⟩
  · intro h
    obtain ⟨q, hq, hsz, htab, _, _⟩ := StackPusherHelper.effect_dropUnder l d hl hd h p ht
      (by omega) (by omega) (by omega)
    exact ⟨q, hq, by omega, by omega⟩
  · intro h1 h2
    subst h1
    exact StackPusherHelper.dropUnder_large d p h2
  · intro h1 h2
    subst h1 h2
    refine ⟨?_, ?_⟩
    · simp only [StackPusherHelper.dropUnder]
      exact StackPusherHelper.push_eq (-1) "NIP" p ht (by omega)
    · rw [StackPusherHelper.emitted_lines _ p (by decide)]
      rfl

/-- Witness of C22: `dropUnder(1, 256)` aborts on a pusher with 257 entries. -/
theorem StackPusherHelper.dropUnder_effect_witness :
    (0 : Int) ≤ (StackPusherHelper.ofSize 257).m_code.tabQty ∧ (0 : Int) ≤ 1 ∧
    (0 : Int) ≤ 256 ∧ (1 : Int) + 256 ≤ (StackPusherHelper.ofSize 257).m_stack.m_size ∧
    StackPusherHelper.dropUnder 1 256 (StackPusherHelper.ofSize 257) = none :=
  ⟨by decide, by decide, by decide, by decide,
    (StackPusherHelper.dropUnder_effect 1 256 (StackPusherHelper.ofSize 257) (by decide)
      (by decide) (by decide) (by decide)).2.1 rfl (by decide)⟩

/-! ## Tuples (C23, C24) and globals (C25) -/

/-- A small form `push(d, cmd)` or a variable form `pushInt(k); push(d2, cmd2)`
chosen by a condition runs as the corresponding list of steps. -/
theorem StackPusherHelper.two_forms (c : Prop) [Decidable c] (k d d2 : Int) (cmd cmd2 : String)
    (p : StackPusherHelper) (ht : 0 ≤ p.m_code.tabQty)
    (hs : c → 0 ≤ p.m_stack.m_size + d)
    (h1 : ¬ c → 0 ≤ p.m_stack.m_size + 1) (h2 : ¬ c → 0 ≤ p.m_stack.m_size + 1 + d2) :
    (if c then StackPusherHelper.push d cmd p
      else (StackPusherHelper.pushInt k p).bind (StackPusherHelper.push d2 cmd2)) =
    some (StackPusherHelper.emitted
      (if c then [(d, cmd)] else [(1, "PUSHINT " ++ toString k), (d2, cmd2)]) p) := by
  by_cases h : c
  · simp only [h, if_true]
    exact StackPusherHelper.push_eq d cmd p ht (hs h)
  · simp only [h, if_false, StackPusherHelper.pushInt]
    exact StackPusherHelper.push_push 1 d2 _ cmd2 p ht (h1 h) (h2 h)

theorem two_forms_two_le (c : Prop) [Decidable c] (k d d2 : Int) (cmd cmd2 : String)
    (h : 2 ≤ cmd.length) (h2 : 2 ≤ cmd2.length) :
    ∀ e ∈ (if c then [(d, cmd)] else [(1, "PUSHINT " ++ toString k), (d2, cmd2)]),
      2 ≤ e.2.length := by
  intro e he
  split_ifs at he
  · simp only [List.mem_singleton] at he; subst he; exact h
  · simp only [List.mem_cons, List.mem_singleton, List.not_mem_nil, or_false] at he
    rcases he with rfl | rfl
    · exact two_le_pushInt k
    · exact h2

theorem StackPusherHelper.tuple_run (n : Int) (p : StackPusherHelper)
    (ht : 0 ≤ p.m_code.tabQty) (h0 : 0 ≤ n) (h255 : n ≤ 255) (hs : n ≤ p.m_stack.m_size) :
    StackPusherHelper.tuple n p = some (StackPusherHelper.emitted (tupleSteps n) p) := by
  have a : ¬ n < 0 := by omega
  have h := StackPusherHelper.two_forms (n ≤ 15) n (-n + 1) (-1 - n + 1) ("TUPLE " ++ toString n)
    "TUPLEVAR" p ht (by omega) (by omega) (by omega)
  refine Eq.trans ?_ h
  unfold StackPusherHelper.tuple
  by_cases b : n ≤ 15
  · simp only [a, b, if_true, if_false]
  · simp only [a, b, h255, if_true, if_false, Option.bind_eq_bind]

theorem StackPusherHelper.untuple_run (n : Int) (p : StackPusherHelper)
    (ht : 0 ≤ p.m_code.tabQty) (h0 : 0 ≤ n) (h255 : n ≤ 255) (hs : 1 ≤ p.m_stack.m_size) :
    StackPusherHelper.untuple n p = some (StackPusherHelper.emitted (untupleSteps n) p) := by
  have a : ¬ n < 0 := by omega
  have h := StackPusherHelper.two_forms (n ≤ 15) n (-1 + n) (-2 + n) ("UNTUPLE " ++ toString n)
    "UNTUPLEVAR" p ht (by omega) (by omega) (by omega)
  refine Eq.trans ?_ h
  unfold StackPusherHelper.untuple
  by_cases b : n ≤ 15
  · simp only [a, b, if_true, if_false]
  · simp only [a, b, h255, if_true, if_false, Option.bind_eq_bind]

theorem tupleSteps_sum (n : Int) : ((tupleSteps n).map Prod.fst).sum = 1 - n := by
  unfold tupleSteps
  split_ifs <;> simp <;> omega

theorem untupleSteps_sum (n : Int) : ((untupleSteps n).map Prod.fst).sum = n - 1 := by
  unfold untupleSteps
  split_ifs <;> simp <;> omega

/-- C23: for every `0 <= n <= 254`, on a pusher that holds `n` entries
`tuple(n)` succeeds and changes the modelled size by `1 - n`, and on a pusher
that holds one entry `untuple(n)` succeeds and changes it by `n - 1`, in the
small form (`TUPLE n` / `UNTUPLE n`, chosen exactly for `n <= 15`) as in the
variable form (`PUSHINT n` then `TUPLEVAR` / `UNTUPLEVAR`); so `tuple(n)`
followed by `untuple(n)` restores the original size. -/
theorem StackPusherHelper.tuple_untuple_sizes (n : Int) (p : StackPusherHelper)
    (ht : 0 ≤ p.m_code.tabQty) (h0 : 0 ≤ n) (h254 : n ≤ 254) :
    (n ≤ p.m_stack.m_size →
      StackPusherHelper.tuple n p = some (StackPusherHelper.emitted (tupleSteps n) p) ∧
      (StackPusherHelper.emitted (tupleSteps n) p).m_stack.m_size = p.m_stack.m_size + (1 - n) ∧
      (StackPusherHelper.emitted (tupleSteps n) p).m_code.lines =
        p.m_code.lines ++ (tupleSteps n).map (fun e => indented p.m_code.tabQty e.2)) ∧
    (1 ≤ p.m_stack.m_size →
      StackPusherHelper.untuple n p = some (StackPusherHelper.emitted (untupleSteps n) p) ∧
      (StackPusherHelper.emitted (untupleSteps n) p).m_stack.m_size =
        p.m_stack.m_size + (n - 1) ∧
      (StackPusherHelper.emitted (untupleSteps n) p).m_code.lines =
        p.m_code.lines ++ (untupleSteps n).map (fun e => indented p.m_code.tabQty e.2)) ∧
    (n ≤ p.m_stack.m_size → ∃ q r, StackPusherHelper.tuple n p = some q ∧
      StackPusherHelper.untuple n q = some r ∧ r.m_stack.m_size = p.m_stack.m_size) ∧
    (n ≤ 15 → tupleSteps n = [(-n + 1, "TUPLE " ++ toString n)] ∧
      untupleSteps n = [(-1 + n, "UNTUPLE " ++ toString n)]) ∧
    (15 < n → tupleSteps n = [(1, "PUSHINT " ++ toString n), (-1 - n + 1, "TUPLEVAR")] ∧
      untupleSteps n = [(1, "PUSHINT " ++ toString n), (-2 + n, "UNTUPLEVAR")]) := by
  have h255 : n ≤ 255 := by omega
  refine ⟨fun hs => ⟨StackPusherHelper.tuple_run n p ht h0 h255 hs, ?_, ?_⟩,
    fun hs => ⟨StackPusherHelper.untuple_run n p ht h0 h255 hs, ?_, ?_⟩, ?_, ?_, ?_⟩
  · rw [StackPusherHelper.emitted_size, tupleSteps_sum]
  · exact StackPusherHelper.emitted_lines _ p
      (two_forms_two_le _ _ _ _ _ _ (two_le_length_append "TUPLE " _ (by decide)) (by decide))
  · rw [StackPusherHelper.emitted_size, untupleSteps_sum]
  · exact StackPusherHelper.emitted_lines _ p
      (two_forms_two_le _ _ _ _ _ _ (two_le_length_append "UNTUPLE " _ (by decide)) (by decide))
  · intro hs
    refine ⟨_, _, StackPusherHelper.tuple_run n p ht h0 h255 hs,
      StackPusherHelper.untuple_run n _ (by rw [StackPusherHelper.emitted_tabQty]; exact ht)
        h0 h255 (by rw [StackPusherHelper.emitted_size, tupleSteps_sum]; omega), ?_⟩
    rw [StackPusherHelper.emitted_size, StackPusherHelper.emitted_size, tupleSteps_sum,
      untupleSteps_sum]
    omega
  · intro h; simp [tupleSteps, untupleSteps, h]
  · intro h
    have : ¬ n ≤ 15 := by omega
    simp [tupleSteps, untupleSteps, this]

/-- Witness of C23: `tuple(16)` on a pusher with 16 entries takes the variable
form. -/
theorem StackPusherHelper.tuple_untuple_sizes_witness :
    (0 : Int) ≤ (StackPusherHelper.ofSize 16).m_code.tabQty ∧ (0 : Int) ≤ 16 ∧
    (16 : Int) ≤ 254 ∧ (16 : Int) ≤ (StackPusherHelper.ofSize 16).m_stack.m_size ∧
    StackPusherHelper.tuple 16 (StackPusherHelper.ofSize 16) =
      some (StackPusherHelper.emitted (tupleSteps 16) (StackPusherHelper.ofSize 16)) ∧
    tupleSteps 16 = [(1, "PUSHINT 16"), (-16, "TUPLEVAR")] :=
  ⟨by decide, by decide, by decide, by decide,
    ((StackPusherHelper.tuple_untuple_sizes 16 (StackPusherHelper.ofSize 16) (by decide)
      (by decide) (by decide)).1 (by decide)).1, by decide⟩

theorem StackPusherHelper.index_run (k : Int) (p : StackPusherHelper)
    (ht : 0 ≤ p.m_code.tabQty) (h0 : 0 ≤ k) (h254 : k ≤ 254) (hs : 0 ≤ p.m_stack.m_size) :
    StackPusherHelper.index k p = some (StackPusherHelper.emitted (indexSteps k) p) := by
  have a : ¬ k < 0 := by omega
  have h := StackPusherHelper.two_forms (k ≤ 15) k (-1 + 1) (-2 + 1) ("INDEX " ++ toString k)
    "INDEXVAR" p ht (by omega) (by omega) (by omega)
  refine Eq.trans ?_ h
  unfold StackPusherHelper.index
  by_cases b : k ≤ 15
  · simp only [a, b, if_true, if_false]
  · simp only [a, b, h254, if_true, if_false, Option.bind_eq_bind]

theorem StackPusherHelper.set_index_run (k : Int) (p : StackPusherHelper)
    (ht : 0 ≤ p.m_code.tabQty) (h0 : 0 ≤ k) (h254 : k ≤ 254) (hs : 1 ≤ p.m_stack.m_size) :
    StackPusherHelper.set_index k p = some (StackPusherHelper.emitted (setIndexSteps k) p) := by
  have a : ¬ k < 0 := by omega
  have h := StackPusherHelper.two_forms (k ≤ 15) k (-2 + 1) (-1 - 2 + 1)
    ("SETINDEX " ++ toString k) "SETINDEXVAR" p ht (by omega) (by omega) (by omega)
  refine Eq.trans ?_ h
  unfold StackPusherHelper.set_index
  by_cases b : k ≤ 15
  · simp only [a, b, if_true, if_false]
  · simp only [a, b, h254, if_true, if_false, Option.bind_eq_bind]

theorem indexSteps_sum (k : Int) : ((indexSteps k).map Prod.fst).sum = 0 := by
  unfold indexSteps
  split_ifs <;> simp

theorem setIndexSteps_sum (k : Int) : ((setIndexSteps k).map Prod.fst).sum = -1 := by
  unfold setIndexSteps
  split_ifs <;> simp

/-- C24, the claim as stated fails: `index(3)` on a pusher with one entry
records `INDEX 3` with delta 0 and leaves the modelled size at 1, and
`index(16)` records `PUSHINT 16` (+1) and `INDEXVAR` (-1), again with sum 0:
the modelled size does not change by -1. -/
theorem StackPusherHelper.index_keeps_size :
    StackPusherHelper.index 3 (StackPusherHelper.ofSize 1) =
      some (StackPusherHelper.emitted [(0, "INDEX 3")] (StackPusherHelper.ofSize 1)) ∧
    (StackPusherHelper.emitted [(0, "INDEX 3")] (StackPusherHelper.ofSize 1)).m_stack.m_size =
      1 ∧
    StackPusherHelper.index 16 (StackPusherHelper.ofSize 1) =
      some (StackPusherHelper.emitted [(1, "PUSHINT 16"), (-1, "INDEXVAR")]
        (StackPusherHelper.ofSize 1)) ∧
    ¬ (∃ q, StackPusherHelper.index 3 (StackPusherHelper.ofSize 1) = some q ∧
      q.m_stack.m_size = (StackPusherHelper.ofSize 1).m_stack.m_size + (-1)) := by
  have h3 := StackPusherHelper.index_run 3 (StackPusherHelper.ofSize 1) (by decide) (by decide)
    (by decide) (by decide)
  have h16 := StackPusherHelper.index_run 16 (StackPusherHelper.ofSize 1) (by decide)
    (by decide) (by decide) (by decide)
  have e3 : indexSteps 3 = [(0, "INDEX 3")] := by decide
  have e16 : indexSteps 16 = [(1, "PUSHINT 16"), (-1, "INDEXVAR")] := by decide
  rw [e3] at h3
  rw [e16] at h16
  refine ⟨h3, by decide, h16, ?_⟩
  rintro ⟨q, hq, hsz⟩
  rw [h3] at hq
  cases hq
  revert hsz
  decide

/-- C24 (amended): for every `0 <= k <= 254`, `index(k)` changes the modelled
stack size by 0 and `set_index(k)` (on a pusher that holds one entry) by -1,
both in the small form (`INDEX k` / `SETINDEX k`, `k <= 15`) and, counted over
the `PUSHINT k` and the `INDEXVAR` / `SETINDEXVAR` line, in the variable form
(`16 <= k <= 254`). -/
theorem StackPusherHelper.index_set_index_sizes (k : Int) (p : StackPusherHelper)
    (ht : 0 ≤ p.m_code.tabQty) (h0 : 0 ≤ k) (h254 : k ≤ 254) (hs : 1 ≤ p.m_stack.m_size) :
    StackPusherHelper.index k p = some (StackPusherHelper.emitted (indexSteps k) p) ∧
    (StackPusherHelper.emitted (indexSteps k) p).m_stack.m_size = p.m_stack.m_size ∧
    (StackPusherHelper.emitted (indexSteps k) p).m_code.lines =
      p.m_code.lines ++ (indexSteps k).map (fun e => indented p.m_code.tabQty e.2) ∧
    StackPusherHelper.set_index k p = some (StackPusherHelper.emitted (setIndexSteps k) p) ∧
    (StackPusherHelper.emitted (setIndexSteps k) p).m_stack.m_size = p.m_stack.m_size - 1 ∧
    (StackPusherHelper.emitted (setIndexSteps k) p).m_code.lines =
      p.m_code.lines ++ (setIndexSteps k).map (fun e => indented p.m_code.tabQty e.2) ∧
    (k ≤ 15 → indexSteps k = [(0, "INDEX " ++ toString k)] ∧
      setIndexSteps k = [(-1, "SETINDEX " ++ toString k)]) ∧
    (16 ≤ k → indexSteps k = [(1, "PUSHINT " ++ toString k), (-1, "INDEXVAR")] ∧
      setIndexSteps k = [(1, "PUSHINT " ++ toString k), (-2, "SETINDEXVAR")]) := by
  refine ⟨StackPusherHelper.index_run k p ht h0 h254 (by omega), ?_, ?_,
    StackPusherHelper.set_index_run k p ht h0 h254 hs, ?_, ?_, ?_, ?_⟩
  · rw [StackPusherHelper.emitted_size, indexSteps_sum]; omega
  · exact StackPusherHelper.emitted_lines _ p
      (two_forms_two_le _ _ _ _ _ _ (two_le_length_append "INDEX " _ (by decide)) (by decide))
  · rw [StackPusherHelper.emitted_size, setIndexSteps_sum]; omega
  · exact StackPusherHelper.emitted_lines _ p
      (two_forms_two_le _ _ _ _ _ _ (two_le_length_append "SETINDEX " _ (by decide))
        (by decide))
  · intro h; simp [indexSteps, setIndexSteps, h]
  · intro h
    have : ¬ k ≤ 15 := by omega
    simp [indexSteps, setIndexSteps, this]

/-- Witness of C24: `set_index(16)` on a pusher with two entries. -/
theorem StackPusherHelper.index_set_index_sizes_witness :
    (0 : Int) ≤ (StackPusherHelper.ofSize 2).m_code.tabQty ∧ (0 : Int) ≤ 16 ∧
    (16 : Int) ≤ 254 ∧ (1 : Int) ≤ (StackPusherHelper.ofSize 2).m_stack.m_size ∧
    StackPusherHelper.index 16 (StackPusherHelper.ofSize 2) =
      some (StackPusherHelper.emitted (indexSteps 16) (StackPusherHelper.ofSize 2)) ∧
    (StackPusherHelper.emitted (indexSteps 16) (StackPusherHelper.ofSize 2)).m_stack.m_size =
      (StackPusherHelper.ofSize 2).m_stack.m_size :=
  ⟨by decide, by decide, by decide, by decide,
    (StackPusherHelper.index_set_index_sizes 16 (StackPusherHelper.ofSize 2) (by decide)
      (by decide) (by decide) (by decide)).1,
    (StackPusherHelper.index_set_index_sizes 16 (StackPusherHelper.ofSize 2) (by decide)
      (by decide) (by decide) (by decide)).2.1⟩

theorem StackPusherHelper.getGlob_run (idx : Int) (p : StackPusherHelper)
    (ht : 0 ≤ p.m_code.tabQty) (h0 : 0 ≤ idx) (h255 : idx < 255) (hs : 0 ≤ p.m_stack.m_size) :
    StackPusherHelper.getGlob idx p = some (StackPusherHelper.emitted (getGlobSteps idx) p) := by
  have a : ¬ idx < 0 := by omega
  have h := StackPusherHelper.two_forms (idx ≤ 31) idx 1 (-1 + 1) ("GETGLOB " ++ toString idx)
    "GETGLOBVAR" p ht (by omega) (by omega) (by omega)
  refine Eq.trans ?_ h
  unfold StackPusherHelper.getGlob
  by_cases b : idx ≤ 31
  · simp only [a, b, if_true, if_false]
  · simp only [a, b, h255, if_true, if_false, Option.bind_eq_bind]

theorem StackPusherHelper.setGlob_run (idx : Int) (p : StackPusherHelper)
    (ht : 0 ≤ p.m_code.tabQty) (h255 : idx < 255) (hs : 1 ≤ p.m_stack.m_size) :
    StackPusherHelper.setGlob idx p = some (StackPusherHelper.emitted (setGlobSteps idx) p) := by
  have h := StackPusherHelper.two_forms (idx ≤ 31) idx (-1) (-1 - 1) ("SETGLOB " ++ toString idx)
    "SETGLOBVAR" p ht (by omega) (by omega) (by omega)
  refine Eq.trans ?_ h
  unfold StackPusherHelper.setGlob
  by_cases b : idx ≤ 31
  · simp only [b, if_true]
  · simp only [b, h255, if_true, if_false, Option.bind_eq_bind]

theorem getGlobSteps_sum (idx : Int) : ((getGlobSteps idx).map Prod.fst).sum = 1 := by
  unfold getGlobSteps
  split_ifs <;> simp

theorem setGlobSteps_sum (idx : Int) : ((setGlobSteps idx).map Prod.fst).sum = -1 := by
  unfold setGlobSteps
  split_ifs <;> simp

/-- C25 (the code, with the failing inputs): on a pusher that holds one entry,
`getGlob(idx)` succeeds exactly for `0 <= idx < 255` and `setGlob(idx)` exactly
for `idx < 255`: `setGlob(int)` has no assertion `index >= 0` and records
`SETGLOB idx` for a negative index, where `getGlob` aborts. On `0 <= idx < 255`
they agree: both take the short form (`GETGLOB idx` / `SETGLOB idx`) exactly
when `idx <= 31` and otherwise the variable form (`PUSHINT idx` then
`GETGLOBVAR` / `SETGLOBVAR`), `getGlob` changes the modelled size by +1 and
`setGlob` by -1; both abort for `idx >= 255`. -/
theorem StackPusherHelper.getGlob_setGlob_cases (idx : Int) (p : StackPusherHelper)
    (ht : 0 ≤ p.m_code.tabQty) (hs : 1 ≤ p.m_stack.m_size) :
    ((StackPusherHelper.getGlob idx p).isSome = true ↔ 0 ≤ idx ∧ idx < 255) ∧
    ((StackPusherHelper.setGlob idx p).isSome = true ↔ idx < 255) ∧
    (0 ≤ idx → idx < 255 →
      StackPusherHelper.getGlob idx p =
        some (StackPusherHelper.emitted (getGlobSteps idx) p) ∧
      (StackPusherHelper.emitted (getGlobSteps idx) p).m_stack.m_size = p.m_stack.m_size + 1 ∧
      StackPusherHelper.setGlob idx p =
        some (StackPusherHelper.emitted (setGlobSteps idx) p) ∧
      (StackPusherHelper.emitted (setGlobSteps idx) p).m_stack.m_size =
        p.m_stack.m_size - 1) ∧
    (idx ≤ 31 → getGlobSteps idx = [(1, "GETGLOB " ++ toString idx)] ∧
      setGlobSteps idx = [(-1, "SETGLOB " ++ toString idx)]) ∧
    (31 < idx → getGlobSteps idx = [(1, "PUSHINT " ++ toString idx), (0, "GETGLOBVAR")] ∧
      setGlobSteps idx = [(1, "PUSHINT " ++ toString idx), (-2, "SETGLOBVAR")]) ∧
    (255 ≤ idx → StackPusherHelper.getGlob idx p = none ∧
      StackPusherHelper.setGlob idx p = none) ∧
    (idx < 0 → StackPusherHelper.getGlob idx p = none ∧
      StackPusherHelper.setGlob idx p =
        some (StackPusherHelper.emitted [(-1, "SETGLOB " ++ toString idx)] p) ∧
      (StackPusherHelper.emitted [(-1, "SETGLOB " ++ toString idx)] p).m_code.lines =
        p.m_code.lines ++ [indented p.m_code.tabQty ("SETGLOB " ++ toString idx)]) := by
  have hbig : 255 ≤ idx → StackPusherHelper.getGlob idx p = none ∧
      StackPusherHelper.setGlob idx p = none := by
    intro h
    have a : ¬ idx < 0 := by omega
    have b : ¬ idx ≤ 31 := by omega
    have c : ¬ idx < 255 := by omega
    simp [StackPusherHelper.getGlob, StackPusherHelper.setGlob, a, b, c]
  have hneg : idx < 0 → StackPusherHelper.getGlob idx p = none := by
    intro h
    simp [StackPusherHelper.getGlob, h]
  have hshort : idx ≤ 31 → setGlobSteps idx = [(-1, "SETGLOB " ++ toString idx)] := by
    intro h; simp [setGlobSteps, h]
  refine ⟨?_, ?_, ?_, ?_, ?_, hbig, ?_⟩
  · constructor
    · intro h
      by_contra hc
      by_cases hn : idx < 0
      · rw [hneg hn] at h; cases h
      · rw [(hbig (by omega)).1] at h; cases h
    · rintro ⟨a, b⟩
      rw [StackPusherHelper.getGlob_run idx p ht a b (by omega)]
      rfl
  · constructor
    · intro h
      by_contra hc
      rw [(hbig (by omega)).2] at h; cases h
    · intro a
      rw [StackPusherHelper.setGlob_run idx p ht a hs]
      rfl
  · intro a b
    refine ⟨StackPusherHelper.getGlob_run idx p ht a b (by omega), ?_,
      StackPusherHelper.setGlob_run idx p ht b hs, ?_⟩
    · rw [StackPusherHelper.emitted_size, getGlobSteps_sum]
    · rw [StackPusherHelper.emitted_size, setGlobSteps_sum]; omega
  · intro h; exact ⟨by simp [getGlobSteps, h], hshort h⟩
  · intro h
    have : ¬ idx ≤ 31 := by omega
    simp [getGlobSteps, setGlobSteps, this]
  · intro h
    refine ⟨hneg h, ?_, ?_⟩
    · rw [StackPusherHelper.setGlob_run idx p ht (by omega) hs, hshort (by omega)]
    · rw [StackPusherHelper.emitted_lines _ p (by
        intro e he
        simp only [List.mem_singleton] at he
        subst he
        exact two_le_length_append "SETGLOB " _ (by decide))]
      rfl

/-- Witness of C25: `setGlob(-1)` on a pusher with one entry records
`SETGLOB -1`, and `getGlob(-1)` aborts. -/
theorem StackPusherHelper.getGlob_setGlob_cases_witness :
    (0 : Int) ≤ (StackPusherHelper.ofSize 1).m_code.tabQty ∧
    (1 : Int) ≤ (StackPusherHelper.ofSize 1).m_stack.m_size ∧
    StackPusherHelper.getGlob (-1) (StackPusherHelper.ofSize 1) = none ∧
    StackPusherHelper.setGlob (-1) (StackPusherHelper.ofSize 1) =
      some (StackPusherHelper.emitted [(-1, "SETGLOB " ++ toString (-1 : Int))]
        (StackPusherHelper.ofSize 1)) ∧
    "SETGLOB " ++ toString (-1 : Int) = "SETGLOB -1" :=
  ⟨by decide, by decide,
    ((StackPusherHelper.getGlob_setGlob_cases (-1) (StackPusherHelper.ofSize 1) (by decide)
      (by decide)).2.2.2.2.2.2 (by decide)).1,
    ((StackPusherHelper.getGlob_setGlob_cases (-1) (StackPusherHelper.ofSize 1) (by decide)
      (by decide)).2.2.2.2.2.2 (by decide)).2.1, by decide⟩

/-! ## tryPollLastRetOpcode (C26) -/

theorem dropWhile_tabs_RET (n : Nat) :
    (List.replicate n '\t' ++ "RET".data).dropWhile (fun c => c = '\t') = "RET".data := by
  induction n with
  | zero => decide
  | succ n ih =>
    rw [List.replicate_succ, List.cons_append, List.dropWhile_cons]
    simp only [decide_True, if_true]
    exact ih

theorem takeWhile_tabs (l : List Char) :
    l.takeWhile (fun c => c = '\t') =
      List.replicate (l.takeWhile (fun c => c = '\t')).length '\t' := by
  rw [List.eq_replicate_iff]
  refine ⟨rfl, ?_⟩
  intro c hc
  have := List.mem_takeWhile_imp hc
  simp only [decide_eq_true_eq] at this
  exact this

/-- The model of the regular expression accepts exactly the lines that are
tabs followed by `RET`. -/
theorem matchesTabsRET_iff (line : String) :
    matchesTabsRET line = true ↔
      ∃ n : Nat, line = String.mk (List.replicate n '\t') ++ "RET" := by
  unfold matchesTabsRET
  rw [decide_eq_true_iff]
  constructor
  · intro h
    refine ⟨(line.data.takeWhile (fun c => c = '\t')).length, ?_⟩
    apply String.ext
    rw [String.data_append, ← takeWhile_tabs, ← h, List.takeWhile_append_dropWhile]
  · rintro ⟨n, rfl⟩
    rw [String.data_append]
    exact dropWhile_tabs_RET n

/-- C26: `tryPollLastRetOpcode` does nothing on an empty buffer; on a buffer
`init ++ [last]` it removes `last` if that line is zero or more tabs followed
by exactly `RET`, and keeps the buffer otherwise (`RETALT`, ` RET` and
`RET ; x` are kept); the lines before the last, the indent, the stack model
and the recorded steps are never changed. -/
theorem StackPusherHelper.tryPollLastRetOpcode_cases (p : StackPusherHelper) :
    (p.m_code.lines = [] → StackPusherHelper.tryPollLastRetOpcode p = p) ∧
    (∀ (init : List String) (back : String), p.m_code.lines = init ++ [back] →
      ((∃ n : Nat, back = String.mk (List.replicate n '\t') ++ "RET") →
        (StackPusherHelper.tryPollLastRetOpcode p).m_code.lines = init) ∧
      ((¬ ∃ n : Nat, back = String.mk (List.replicate n '\t') ++ "RET") →
        StackPusherHelper.tryPollLastRetOpcode p = p) ∧
      ((back = "RETALT" ∨ back = " RET" ∨ back = "RET ; x") →
        StackPusherHelper.tryPollLastRetOpcode p = p)) ∧
    (StackPusherHelper.tryPollLastRetOpcode p).m_code.tabQty = p.m_code.tabQty ∧
    (StackPusherHelper.tryPollLastRetOpcode p).m_stack = p.m_stack ∧
    (StackPusherHelper.tryPollLastRetOpcode p).history = p.history := by
  have hkeep : ∀ (init : List String) (back : String), p.m_code.lines = init ++ [back] →
      matchesTabsRET back = false → StackPusherHelper.tryPollLastRetOpcode p = p := by
    intro init back hl hm
    have hne : p.m_code.lines ≠ [] := by rw [hl]; simp
    simp [StackPusherHelper.tryPollLastRetOpcode, hne, hl, hm]
  refine ⟨?_, ?_, ?_, ?_, ?_⟩
  · intro h
    simp [StackPusherHelper.tryPollLastRetOpcode, h]
  · intro init back hl
    have hne : p.m_code.lines ≠ [] := by rw [hl]; simp
    refine ⟨?_, ?_, ?_⟩
    · intro h
      have hm := (matchesTabsRET_iff back).mpr h
      simp [StackPusherHelper.tryPollLastRetOpcode, hne, hl, hm]
    · intro h
      have hm : matchesTabsRET back = false := by
        rw [← Bool.not_eq_true]
        exact fun hm => h ((matchesTabsRET_iff back).mp hm)
      exact hkeep init back hl hm
    · intro h
      refine hkeep init back hl ?_
      rcases h with rfl | rfl | rfl <;> decide
  all_goals
    unfold StackPusherHelper.tryPollLastRetOpcode
    split
    · rfl
    · split
      · split <;> rfl
      · rfl

/-! ## tryImplicitConvert (C27) -/

theorem bigEndianValue_lt (bs : List Nat) (h : ∀ b ∈ bs, b < 256) :
    bigEndianValue bs < 256 ^ bs.length := by
  induction bs with
  | nil => decide
  | cons b bs ih =>
    have hb := h b (List.mem_cons_self _ _)
    have ih2 := ih (fun x hx => h x (List.mem_cons_of_mem _ hx))
    simp only [bigEndianValue, List.length_cons, pow_succ]
    nlinarith [pow_pos (show (0 : Nat) < 256 by decide) bs.length]

theorem literalValueLoop_eq (cs : List Char) : ∀ (value k : Nat),
    (∀ c ∈ cs, c.toNat < 128) → value < 256 ^ k → k + cs.length ≤ 32 →
    literalValueLoop cs value =
      value * 256 ^ cs.length + bigEndianValue (cs.map Char.toNat) := by
  induction cs with
  | nil => intro value k _ _ _; simp [literalValueLoop, bigEndianValue]
  | cons c cs ih =>
    intro value k hc hv hk
    have hc1 : c.toNat < 128 := hc c (List.mem_cons_self _ _)
    simp only [List.length_cons] at hk
    have hcv : charValue c = (c.toNat : Int) := by
      have : c.toNat % 256 = c.toNat := Nat.mod_eq_of_lt (by omega)
      simp [charValue, this, hc1]
    have hlt : value * 256 + c.toNat < 256 ^ (k + 1) := by
      rw [pow_succ]; omega
    have h32 : (256 : Nat) ^ (k + 1) ≤ 2 ^ 256 := by
      have : (2 : Nat) ^ 256 = 256 ^ 32 := by norm_num
      rw [this]
      exact Nat.pow_le_pow_right (by decide) (by omega)
    have hmod : ((((value : Int) * 256 + charValue c) % (2 ^ 256 : Int)).toNat) =
        value * 256 + c.toNat := by
      rw [hcv]
      have e : ((value : Int) * 256 + (c.toNat : Int)) = ((value * 256 + c.toNat : Nat) : Int) := by
        norm_cast
      have e2 : ((2 : Int) ^ 256) = (((2 : Nat) ^ 256 : Nat) : Int) := by norm_cast
      rw [e, e2, ← Int.natCast_mod, Int.toNat_natCast]
      exact Nat.mod_eq_of_lt (by omega)
    simp only [literalValueLoop, hmod, List.map_cons, bigEndianValue, List.length_cons,
      List.length_map]
    rw [ih _ (k + 1) (fun x hx => hc x (List.mem_cons_of_mem _ hx)) hlt (by omega)]
    rw [pow_succ]
    ring

theorem category_stringLiteral (t : SolType) (h : t.category = .StringLiteral) :
    ∃ value, t = .stringLiteral value := by
  cases t <;> simp [SolType.category] at h
  exact ⟨_, rfl⟩

/-- C27: `tryImplicitConvert(left, right)` returns true exactly when `left` is
of category FixedBytes and `right` of category StringLiteral; then it records
exactly one step, `PUSHINT v` with delta +1, where `v` is the result of the
loop over the literal, and for a literal of at most 32 bytes, each below 0x80,
`v` is the big-endian base-256 number of the bytes; the width of the target
`bytesN` is not read. In every other case it returns false and leaves the
pusher as it is. -/
theorem StackPusherHelper.tryImplicitConvert_cases (leftType rightType : SolType)
    (p : StackPusherHelper) (ht : 0 ≤ p.m_code.tabQty) (hs : 0 ≤ p.m_stack.m_size + 1) :
    ((∃ q, StackPusherHelper.tryImplicitConvert leftType rightType p = some (true, q)) ↔
      (leftType.category = .FixedBytes ∧ rightType.category = .StringLiteral)) ∧
    (∀ (numBytes : Nat) (value : String),
      StackPusherHelper.tryImplicitConvert (.fixedBytes numBytes) (.stringLiteral value) p =
        some (true, StackPusherHelper.emitted
          [(1, "PUSHINT " ++ toString (literalValueLoop value.data 0))] p) ∧
      (StackPusherHelper.emitted
          [(1, "PUSHINT " ++ toString (literalValueLoop value.data 0))] p).m_code.lines =
        p.m_code.lines ++
          [indented p.m_code.tabQty ("PUSHINT " ++ toString (literalValueLoop value.data 0))]) ∧
    (∀ value : String, value.length ≤ 32 → (∀ c ∈ value.data, c.toNat < 128) →
      literalValueLoop value.data 0 = bigEndianValue (value.data.map Char.toNat)) ∧
    (¬ (leftType.category = .FixedBytes ∧ rightType.category = .StringLiteral) →
      StackPusherHelper.tryImplicitConvert leftType rightType p = some (false, p)) := by
  have hrun : ∀ (l : SolType) (value : String), l.category = .FixedBytes →
      StackPusherHelper.tryImplicitConvert l (.stringLiteral value) p =
        some (true, StackPusherHelper.emitted
          [(1, "PUSHINT " ++ toString (literalValueLoop value.data 0))] p) := by
    intro l value hl
    unfold StackPusherHelper.tryImplicitConvert
    rw [if_pos ⟨hl, rfl⟩]
    simp only [Option.bind_eq_bind]
    rw [StackPusherHelper.push_eq 1 _ p ht hs]
    rfl
  have hno : ¬ (leftType.category = .FixedBytes ∧ rightType.category = .StringLiteral) →
      StackPusherHelper.tryImplicitConvert leftType rightType p = some (false, p) := by
    intro h
    simp only [StackPusherHelper.tryImplicitConvert, h, if_false]
  refine ⟨⟨?_, ?_⟩, ?_, ?_, hno⟩
  · rintro ⟨q, hq⟩
    by_contra h
    rw [hno h] at hq
    cases hq
  · rintro ⟨hl, hr⟩
    obtain ⟨value, rfl⟩ := category_stringLiteral rightType hr
    exact ⟨_, hrun leftType value hl⟩
  · intro numBytes value
    refine ⟨hrun _ value rfl, ?_⟩
    rw [StackPusherHelper.emitted_lines _ p (by
      intro e he
      simp only [List.mem_singleton] at he
      subst he
      exact two_le_length_append "PUSHINT " _ (by decide))]
    rfl
  · intro value hlen hc
    have h := literalValueLoop_eq value.data 0 0 hc (by decide)
      (by rw [← String.length_eq_data]; omega)
    rw [h]
    simp

/-- Witness of C27: the two-byte literal `ab` converted to `bytes1`. -/
theorem StackPusherHelper.tryImplicitConvert_cases_witness :
    (0 : Int) ≤ (StackPusherHelper.ofSize 0).m_code.tabQty ∧
    (0 : Int) ≤ (StackPusherHelper.ofSize 0).m_stack.m_size + 1 ∧
    StackPusherHelper.tryImplicitConvert (.fixedBytes 1) (.stringLiteral "ab")
        (StackPusherHelper.ofSize 0) =
      some (true, StackPusherHelper.emitted
        [(1, "PUSHINT " ++ toString (literalValueLoop "ab".data 0))]
        (StackPusherHelper.ofSize 0)) ∧
    "PUSHINT " ++ toString (literalValueLoop "ab".data 0) = "PUSHINT 24930" ∧
    bigEndianValue ("ab".data.map Char.toNat) = 97 * 256 + 98 :=
  ⟨by decide, by decide,
    ((StackPusherHelper.tryImplicitConvert_cases (.fixedBytes 1) (.stringLiteral "ab")
      (StackPusherHelper.ofSize 0) (by decide) (by decide)).2.1 1 "ab").1,
    by set_option maxRecDepth 100000 in decide, by decide⟩

/-! ## load and preload (C28) -/

theorem StackPusherHelper.pushEach_run (ls : List String) : ∀ p : StackPusherHelper,
    0 ≤ p.m_code.tabQty → 0 ≤ p.m_stack.m_size →
    StackPusherHelper.pushEach ls p =
      some (StackPusherHelper.emitted (ls.map (fun l => ((0 : Int), l))) p) := by
  induction ls with
  | nil => intro p _ _; rfl
  | cons l ls ih =>
    intro p ht hs
    simp only [StackPusherHelper.pushEach, Option.bind_eq_bind, List.map_cons]
    rw [StackPusherHelper.push_eq 0 l p ht (by omega), Option.some_bind,
      ih _ (by rw [StackPusherHelper.emitted_tabQty]; exact ht)
        (by rw [StackPusherHelper.emitted_size]; simpa using hs)]
    rfl

theorem StackPusherHelper.loadArray_run (p : StackPusherHelper)
    (ht : 0 ≤ p.m_code.tabQty) (hs : 0 ≤ p.m_stack.m_size) :
    StackPusherHelper.loadArray true p = some (StackPusherHelper.emitted
      [(0, "LDU 32"), (0, "LDDICT"), (0, "ROTREV"), (0, "PAIR"), (0, "SWAP"), (1, "")] p) := by
  have hl : getlines [] "LDU 32\nLDDICT\nROTREV\nPAIR\n".data =
      ["LDU 32", "LDDICT", "ROTREV", "PAIR"] := by decide
  simp only [StackPusherHelper.loadArray, StackPusherHelper.pushLines, hl, if_true,
    Option.bind_eq_bind]
  rw [StackPusherHelper.pushEach_run _ p ht hs, Option.some_bind,
    StackPusherHelper.exchange0_run 1 _ (by rw [StackPusherHelper.emitted_tabQty]; exact ht)
      (by rw [StackPusherHelper.emitted_size]; simpa using hs) (by decide) (by decide),
    Option.some_bind, ← StackPusherHelper.emitted_append]
  exact StackPusherHelper.push_emitted _ _ _ p ht (by
    simp [exchangeSteps0]; omega)

theorem StackPusherHelper.preLoadArray_run (p : StackPusherHelper)
    (ht : 0 ≤ p.m_code.tabQty) (hs : 0 ≤ p.m_stack.m_size) :
    StackPusherHelper.preLoadArray p = some (StackPusherHelper.emitted
      [(0, "LDU 32"), (0, "PLDDICT"), (0, "PAIR"), (0, "")] p) := by
  have hl : getlines [] "LDU 32\nPLDDICT\nPAIR\n".data = ["LDU 32", "PLDDICT", "PAIR"] := by
    decide
  simp only [StackPusherHelper.preLoadArray, StackPusherHelper.pushLines, hl,
    Option.bind_eq_bind]
  rw [StackPusherHelper.pushEach_run _ p ht hs, Option.some_bind]
  exact StackPusherHelper.push_emitted _ _ _ p ht (by simp; omega)

/-- A step with an empty command adds no line. -/
theorem StackPusherHelper.emitted_lines_blank (a : List (Int × String)) (d : Int)
    (p : StackPusherHelper) (h : ∀ e ∈ a, 2 ≤ e.2.length) :
    (StackPusherHelper.emitted (a ++ [(d, "")]) p).m_code.lines =
      p.m_code.lines ++ a.map (fun e => indented p.m_code.tabQty e.2) := by
  rw [StackPusherHelper.emitted_append, ← StackPusherHelper.emitted_lines a p h]
  rfl

theorem numeric_not_array (type : SolType) (h : (TypeInfo.of type).isNumeric = true) :
    isUsualArray type = false ∧ type.category ≠ .Mapping ∧
      type.category ≠ .ExtraCurrencyCollection ∧ type.category ≠ .VarInteger := by
  cases type <;> simp [TypeInfo.of, isUsualArray, SolType.category] at h ⊢

theorem array_category (type : SolType) (h : isUsualArray type = true) :
    (TypeInfo.of type).isNumeric = false := by
  cases type <;> simp [TypeInfo.of, isUsualArray] at h ⊢

theorem StackPusherHelper.load_numeric (type : SolType) (p : StackPusherHelper)
    (ht : 0 ≤ p.m_code.tabQty) (hs : 0 ≤ p.m_stack.m_size)
    (h : (TypeInfo.of type).isNumeric = true) :
    StackPusherHelper.load type p = some (StackPusherHelper.emitted
      [(1, (if (TypeInfo.of type).isSigned then "LDI " else "LDU ") ++
        toString (TypeInfo.of type).numBits)] p) := by
  simp only [StackPusherHelper.load, (numeric_not_array type h).1, h, Bool.false_eq_true,
    if_false, not_true_eq_false]
  exact StackPusherHelper.push_eq (-1 + 2) _ p ht (by omega)

theorem StackPusherHelper.preload_numeric (type : SolType) (p : StackPusherHelper)
    (ht : 0 ≤ p.m_code.tabQty) (hs : 0 ≤ p.m_stack.m_size)
    (h : (TypeInfo.of type).isNumeric = true) :
    StackPusherHelper.preload type p = some (StackPusherHelper.emitted
      [(0, (if (TypeInfo.of type).isSigned then "PLDI " else "PLDU ") ++
        toString (TypeInfo.of type).numBits)] p) := by
  obtain ⟨h1, h2, h3, h4⟩ := numeric_not_array type h
  simp only [StackPusherHelper.preload, h1, h2, h3, h4, h, Bool.false_eq_true, if_false,
    not_true_eq_false, or_self]
  exact StackPusherHelper.push_eq (-1 + 1) _ p ht (by omega)

theorem StackPusherHelper.load_cases (type : SolType) (p : StackPusherHelper)
    (ht : 0 ≤ p.m_code.tabQty) (hs : 0 ≤ p.m_stack.m_size) :
    (isUsualArray type = true →
      StackPusherHelper.load type p = some (StackPusherHelper.emitted
        [(0, "LDU 32"), (0, "LDDICT"), (0, "ROTREV"), (0, "PAIR"), (0, "SWAP"), (1, "")] p)) ∧
    (isUsualArray type = false → (TypeInfo.of type).isNumeric = false →
      StackPusherHelper.load type p = none) := by
  refine ⟨?_, ?_⟩
  · intro h
    simp only [StackPusherHelper.load, h, if_true]
    exact StackPusherHelper.loadArray_run p ht hs
  · intro h1 h2
    simp [StackPusherHelper.load, h1, h2]

theorem StackPusherHelper.preload_cases (type : SolType) (p : StackPusherHelper)
    (ht : 0 ≤ p.m_code.tabQty) (hs : 0 ≤ p.m_stack.m_size) :
    (isUsualArray type = true →
      StackPusherHelper.preload type p = some (StackPusherHelper.emitted
        [(0, "LDU 32"), (0, "PLDDICT"), (0, "PAIR"), (0, "")] p)) ∧
    (isUsualArray type = false →
      (type.category = .Mapping ∨ type.category = .ExtraCurrencyCollection) →
      StackPusherHelper.preload type p =
        some (StackPusherHelper.emitted [(0, "PLDDICT")] p)) ∧
    (isUsualArray type = false → type.category = .VarInteger →
      StackPusherHelper.preload type p =
        some (StackPusherHelper.emitted [(0, "LDVARUINT32"), (0, "DROP")] p)) ∧
    (isUsualArray type = false → (TypeInfo.of type).isNumeric = false →
      type.category ≠ .Mapping → type.category ≠ .ExtraCurrencyCollection →
      type.category ≠ .VarInteger → StackPusherHelper.preload type p = none) := by
  refine ⟨?_, ?_, ?_, ?_⟩
  · intro h
    simp only [StackPusherHelper.preload, h, if_true]
    exact StackPusherHelper.preLoadArray_run p ht hs
  · intro h1 h2
    simp only [StackPusherHelper.preload, h1, h2, Bool.false_eq_true, if_false, if_true]
    exact StackPusherHelper.push_eq 0 _ p ht (by omega)
  · intro h1 h2
    simp only [StackPusherHelper.preload, h1, h2, Bool.false_eq_true, if_false, if_true,
      Option.bind_eq_bind]
    have hm : ¬ (Category.VarInteger = Category.Mapping ∨
        Category.VarInteger = Category.ExtraCurrencyCollection) := by decide
    rw [if_neg hm]
    exact StackPusherHelper.push_push 0 0 _ _ p ht (by omega) (by omega)
  · intro h1 h2 h3 h4 h5
    simp [StackPusherHelper.preload, h1, h2, h3, h4, h5]

theorem usualArray_category (type : SolType) (h : isUsualArray type = true) :
    type.category = .Array := by
  cases type <;> simp [isUsualArray, SolType.category] at h ⊢

/-- C28: `load` succeeds exactly on the usual arrays and the numeric types and
changes the modelled stack size by +1; `preload` succeeds exactly on these, on
mappings, ExtraCurrencyCollection and VarInteger and changes it by 0; every
other type aborts. For a numeric type of width `n`, `load` records the single
line `LDI n` (signed) or `LDU n` and `preload` the single line `PLDI n` or
`PLDU n` (`uint16` gives `LDU 16` and `PLDU 16`); for a usual array `load`
appends `LDU 32`, `LDDICT`, `ROTREV`, `PAIR`, `SWAP` and `preload` appends
`LDU 32`, `PLDDICT`, `PAIR`; `preload` of a mapping or ExtraCurrencyCollection
records `PLDDICT` and of a VarInteger `LDVARUINT32`, `DROP`. -/
theorem StackPusherHelper.load_preload_effect (type : SolType) (p : StackPusherHelper)
    (ht : 0 ≤ p.m_code.tabQty) (hs : 0 ≤ p.m_stack.m_size) :
    ((StackPusherHelper.load type p).isSome = true ↔
      (isUsualArray type = true ∨ (TypeInfo.of type).isNumeric = true)) ∧
    ((StackPusherHelper.preload type p).isSome = true ↔
      (isUsualArray type = true ∨ (TypeInfo.of type).isNumeric = true ∨
        type.category = .Mapping ∨ type.category = .ExtraCurrencyCollection ∨
        type.category = .VarInteger)) ∧
    (∀ q, StackPusherHelper.load type p = some q →
      q.m_stack.m_size = p.m_stack.m_size + 1) ∧
    (∀ q, StackPusherHelper.preload type p = some q → q.m_stack.m_size = p.m_stack.m_size) ∧
    ((TypeInfo.of type).isNumeric = true →
      StackPusherHelper.load type p = some (StackPusherHelper.emitted
        [(1, (if (TypeInfo.of type).isSigned then "LDI " else "LDU ") ++
          toString (TypeInfo.of type).numBits)] p) ∧
      StackPusherHelper.preload type p = some (StackPusherHelper.emitted
        [(0, (if (TypeInfo.of type).isSigned then "PLDI " else "PLDU ") ++
          toString (TypeInfo.of type).numBits)] p)) ∧
    (StackPusherHelper.load (.integer 16 false) p =
        some (StackPusherHelper.emitted [(1, "LDU 16")] p) ∧
      StackPusherHelper.preload (.integer 16 false) p =
        some (StackPusherHelper.emitted [(0, "PLDU 16")] p)) ∧
    (isUsualArray type = true →
      StackPusherHelper.load type p = some (StackPusherHelper.emitted
        [(0, "LDU 32"), (0, "LDDICT"), (0, "ROTREV"), (0, "PAIR"), (0, "SWAP"), (1, "")] p) ∧
      (StackPusherHelper.emitted
        [(0, "LDU 32"), (0, "LDDICT"), (0, "ROTREV"), (0, "PAIR"), (0, "SWAP"), (1, "")]
          p).m_code.lines = p.m_code.lines ++
        ["LDU 32", "LDDICT", "ROTREV", "PAIR", "SWAP"].map (indented p.m_code.tabQty) ∧
      StackPusherHelper.preload type p = some (StackPusherHelper.emitted
        [(0, "LDU 32"), (0, "PLDDICT"), (0, "PAIR"), (0, "")] p) ∧
      (StackPusherHelper.emitted
        [(0, "LDU 32"), (0, "PLDDICT"), (0, "PAIR"), (0, "")] p).m_code.lines =
        p.m_code.lines ++ ["LDU 32", "PLDDICT", "PAIR"].map (indented p.m_code.tabQty)) ∧
    ((type.category = .Mapping ∨ type.category = .ExtraCurrencyCollection) →
      StackPusherHelper.preload type p =
        some (StackPusherHelper.emitted [(0, "PLDDICT")] p)) ∧
    (type.category = .VarInteger → StackPusherHelper.preload type p =
      some (StackPusherHelper.emitted [(0, "LDVARUINT32"), (0, "DROP")] p)) := by
  have hl := StackPusherHelper.load_cases type p ht hs
  have hp := StackPusherHelper.preload_cases type p ht hs
  have hln := StackPusherHelper.load_numeric type p ht hs
  have hpn := StackPusherHelper.preload_numeric type p ht hs
  have hna : ∀ c : Category, c ≠ .Array → type.category = c → isUsualArray type = false := by
    intro c hc h
    rw [← Bool.not_eq_true]
    intro ha
    exact hc ((usualArray_category type ha).symm.trans h).symm
  have hmap : (type.category = .Mapping ∨ type.category = .ExtraCurrencyCollection) →
      StackPusherHelper.preload type p =
        some (StackPusherHelper.emitted [(0, "PLDDICT")] p) := by
    intro h
    refine hp.2.1 ?_ h
    rcases h with h | h
    · exact hna _ (by decide) h
    · exact hna _ (by decide) h
  have hvar : type.category = .VarInteger → StackPusherHelper.preload type p =
      some (StackPusherHelper.emitted [(0, "LDVARUINT32"), (0, "DROP")] p) :=
    fun h => hp.2.2.1 (hna _ (by decide) h) h
  refine ⟨?_, ?_, ?_, ?_, fun h => ⟨hln h, hpn h⟩, ⟨?_, ?_⟩, ?_, hmap, hvar⟩
  · constructor
    · intro h
      by_contra hc
      simp only [not_or, Bool.not_eq_true] at hc
      rw [hl.2 hc.1 hc.2] at h
      cases h
    · rintro (h | h)
      · rw [hl.1 h]; rfl
      · rw [hln h]; rfl
  · constructor
    · intro h
      by_contra hc
      simp only [not_or, Bool.not_eq_true] at hc
      rw [hp.2.2.2 hc.1 hc.2.1 hc.2.2.1 hc.2.2.2.1 hc.2.2.2.2] at h
      cases h
    · rintro (h | h | h | h | h)
      · rw [hp.1 h]; rfl
      · rw [hpn h]; rfl
      · rw [hmap (Or.inl h)]; rfl
      · rw [hmap (Or.inr h)]; rfl
      · rw [hvar h]; rfl
  · intro q hq
    by_cases ha : isUsualArray type = true
    · rw [hl.1 ha] at hq
      cases hq
      rw [StackPusherHelper.emitted_size]
      simp
    · by_cases hn : (TypeInfo.of type).isNumeric = true
      · rw [hln hn] at hq
        cases hq
        rw [StackPusherHelper.emitted_size]
        simp
      · simp only [Bool.not_eq_true] at ha hn
        rw [hl.2 ha hn] at hq
        cases hq
  · intro q hq
    by_cases ha : isUsualArray type = true
    · rw [hp.1 ha] at hq
      cases hq
      rw [StackPusherHelper.emitted_size]
      simp
    · by_cases hn : (TypeInfo.of type).isNumeric = true
      · rw [hpn hn] at hq
        cases hq
        rw [StackPusherHelper.emitted_size]
        simp
      · by_cases hm : type.category = .Mapping ∨ type.category = .ExtraCurrencyCollection
        · rw [hmap hm] at hq
          cases hq
          rw [StackPusherHelper.emitted_size]
          simp
        · by_cases hv : type.category = .VarInteger
          · rw [hvar hv] at hq
            cases hq
            rw [StackPusherHelper.emitted_size]
            simp
          · simp only [Bool.not_eq_true, not_or] at ha hn hm
            rw [hp.2.2.2 ha hn hm.1 hm.2 hv] at hq
            cases hq
  · exact StackPusherHelper.load_numeric (.integer 16 false) p ht hs rfl
  · exact StackPusherHelper.preload_numeric (.integer 16 false) p ht hs rfl
  · intro h
    refine ⟨hl.1 h, ?_, hp.1 h, ?_⟩
    · exact StackPusherHelper.emitted_lines_blank
        [(0, "LDU 32"), (0, "LDDICT"), (0, "ROTREV"), (0, "PAIR"), (0, "SWAP")] 1 p (by decide)
    · exact StackPusherHelper.emitted_lines_blank
        [(0, "LDU 32"), (0, "PLDDICT"), (0, "PAIR")] 0 p (by decide)

/-- Witness of C28: `load(uint16)` on a pusher with one entry. -/
theorem StackPusherHelper.load_preload_effect_witness :
    (0 : Int) ≤ (StackPusherHelper.ofSize 1).m_code.tabQty ∧
    (0 : Int) ≤ (StackPusherHelper.ofSize 1).m_stack.m_size ∧
    StackPusherHelper.load (.integer 16 false) (StackPusherHelper.ofSize 1) =
      some (StackPusherHelper.emitted [(1, "LDU 16")] (StackPusherHelper.ofSize 1)) ∧
    StackPusherHelper.preload (.integer 16 false) (StackPusherHelper.ofSize 1) =
      some (StackPusherHelper.emitted [(0, "PLDU 16")] (StackPusherHelper.ofSize 1)) :=
  ⟨by decide, by decide,
    (StackPusherHelper.load_preload_effect (.integer 16 false) (StackPusherHelper.ofSize 1)
      (by decide) (by decide)).2.2.2.2.2.1⟩

/-! ## pushDefaultValue (C29) -/

theorem StackPusherHelper.pushDefaultValue_run (env : Collaborators) (type : SolType)
    (isResultBuilder : Bool) (p : StackPusherHelper)
    (ht : 0 ≤ p.m_code.tabQty) (hs : 0 ≤ p.m_stack.m_size)
    (hc : type.category ∈ [Category.Address, Category.Contract, Category.Bool,
      Category.FixedBytes, Category.Integer, Category.Enum, Category.VarInteger,
      Category.Array, Category.Mapping, Category.ExtraCurrencyCollection, Category.TvmSlice,
      Category.TvmBuilder, Category.TvmCell]) :
    ∃ a, StackPusherHelper.pushDefaultValue env type isResultBuilder p =
      some (StackPusherHelper.emitted a p) ∧ (a.map Prod.fst).sum = 1 := by
  have h1 : ∀ c : String, StackPusherHelper.push 1 c p =
      some (StackPusherHelper.emitted [(1, c)] p) :=
    fun c => StackPusherHelper.push_eq 1 c p ht (by omega)
  have h2 : ∀ c1 c2 : String, (StackPusherHelper.push 1 c1 p).bind
      (StackPusherHelper.push 0 c2) = some (StackPusherHelper.emitted [(1, c1), (0, c2)] p) :=
    fun c1 c2 => StackPusherHelper.push_push 1 0 c1 c2 p ht (by omega) (by omega)
  have h3 : ∀ c1 c2 c3 : String, ((StackPusherHelper.push 1 c1 p).bind fun p =>
      (StackPusherHelper.push 1 c2 p).bind (StackPusherHelper.push (-1) c3)) =
      some (StackPusherHelper.emitted [(1, c1), (1, c2), (-1, c3)] p) :=
    fun c1 c2 c3 => StackPusherHelper.three_push 1 1 (-1) c1 c2 c3 p ht (by omega) (by omega)
      (by omega)
  cases type <;> simp [SolType.category] at hc <;> cases isResultBuilder
  all_goals simp only [StackPusherHelper.pushDefaultValue, StackPusherHelper.pushZeroAddress,
    StackPusherHelper.pushInt, StackPusherHelper.stzeroes, Option.bind_eq_bind,
    Bool.false_eq_true, if_false, if_true, Bool.not_false, Bool.not_true, Option.bind_some,
    show (-2 + 1 : Int) = -1 from rfl, show ((1 : Int) > 0) from by decide]
  all_goals first
    | exact ⟨_, h3 _ _ _, by simp⟩
    | exact ⟨_, h2 _ _, by decide⟩
    | exact ⟨_, h1 _, by decide⟩
    | (rename_i ba
       cases ba <;> simp only [Bool.false_eq_true, if_false, if_true] <;>
         first
           | exact ⟨_, h3 _ _ _, by simp⟩
           | exact ⟨_, h2 _ _, by decide⟩
           | exact ⟨_, h1 _, by decide⟩)

theorem StackPusherHelper.pushDefaultValue_array (env : Collaborators) (p : StackPusherHelper)
    (ht : 0 ≤ p.m_code.tabQty) (hs : 0 ≤ p.m_stack.m_size) :
    StackPusherHelper.pushDefaultValue env (.array false) false p =
      some (StackPusherHelper.emitted [(1, "PUSHINT 0"), (1, "NEWDICT"), (-1, "PAIR")] p) ∧
    StackPusherHelper.pushDefaultValue env (.array false) true p =
      some (StackPusherHelper.emitted [(1, "NEWC"), (1, "PUSHINT 33"), (-1, "STZEROES")] p) := by
  refine ⟨?_, ?_⟩
  · simp only [StackPusherHelper.pushDefaultValue, StackPusherHelper.pushInt,
      Option.bind_eq_bind, Bool.false_eq_true, if_false, if_true, Bool.not_false]
    exact StackPusherHelper.three_push 1 1 (-2 + 1) _ _ _ p ht (by omega) (by omega) (by omega)
  · simp only [StackPusherHelper.pushDefaultValue, StackPusherHelper.pushInt,
      Option.bind_eq_bind, Bool.false_eq_true, if_false, Bool.not_true]
    exact StackPusherHelper.three_push 1 1 (-1) _ _ _ p ht (by omega) (by omega) (by omega)

/-- C29: for every type whose category is Address, Contract, Bool, FixedBytes,
Integer, Enum, VarInteger, Array (byte or usual), Mapping,
ExtraCurrencyCollection, TvmSlice, TvmBuilder or TvmCell, and for both values
of `isResultBuilder`, `pushDefaultValue` succeeds and changes the modelled
stack size by exactly +1; for a usual array with `isResultBuilder = false` it
records exactly `PUSHINT 0`, `NEWDICT`, `PAIR`, and with `isResultBuilder =
true` exactly `NEWC`, `PUSHINT 33`, `STZEROES`. -/
theorem StackPusherHelper.pushDefaultValue_effect (env : Collaborators) (type : SolType)
    (isResultBuilder : Bool) (p : StackPusherHelper)
    (ht : 0 ≤ p.m_code.tabQty) (hs : 0 ≤ p.m_stack.m_size)
    (hc : type.category ∈ [Category.Address, Category.Contract, Category.Bool,
      Category.FixedBytes, Category.Integer, Category.Enum, Category.VarInteger,
      Category.Array, Category.Mapping, Category.ExtraCurrencyCollection, Category.TvmSlice,
      Category.TvmBuilder, Category.TvmCell]) :
    (∃ q, StackPusherHelper.pushDefaultValue env type isResultBuilder p = some q ∧
      q.m_stack.m_size = p.m_stack.m_size + 1 ∧ q.m_code.tabQty = p.m_code.tabQty) ∧
    (isUsualArray type = true →
      StackPusherHelper.pushDefaultValue env type false p =
        some (StackPusherHelper.emitted [(1, "PUSHINT 0"), (1, "NEWDICT"), (-1, "PAIR")] p) ∧
      (StackPusherHelper.emitted [(1, "PUSHINT 0"), (1, "NEWDICT"), (-1, "PAIR")]
          p).m_code.lines =
        p.m_code.lines ++ ["PUSHINT 0", "NEWDICT", "PAIR"].map (indented p.m_code.tabQty) ∧
      StackPusherHelper.pushDefaultValue env type true p =
        some (StackPusherHelper.emitted [(1, "NEWC"), (1, "PUSHINT 33"), (-1, "STZEROES")] p) ∧
      (StackPusherHelper.emitted [(1, "NEWC"), (1, "PUSHINT 33"), (-1, "STZEROES")]
          p).m_code.lines =
        p.m_code.lines ++ ["NEWC", "PUSHINT 33", "STZEROES"].map (indented p.m_code.tabQty)) := by
  refine ⟨?_, ?_⟩
  · obtain ⟨a, ha, hsum⟩ := StackPusherHelper.pushDefaultValue_run env type isResultBuilder p
      ht hs hc
    refine ⟨_, ha, ?_, StackPusherHelper.emitted_tabQty a p⟩
    rw [StackPusherHelper.emitted_size, hsum]
  · intro h
    have ht2 : type = .array false := by
      cases type <;> simp [isUsualArray] at h
      rw [h]
    subst ht2
    obtain ⟨h1, h2⟩ := StackPusherHelper.pushDefaultValue_array env p ht hs
    refine ⟨h1, ?_, h2, ?_⟩
    · rw [StackPusherHelper.emitted_lines _ p (by decide)]
      rfl
    · rw [StackPusherHelper.emitted_lines _ p (by decide)]
      rfl

/-- Witness of C29: the default value of `uint[]`, not as a builder, on a fresh
pusher. -/
theorem StackPusherHelper.pushDefaultValue_effect_witness :
    (0 : Int) ≤ (StackPusherHelper.ofSize 0).m_code.tabQty ∧
    (0 : Int) ≤ (StackPusherHelper.ofSize 0).m_stack.m_size ∧
    (SolType.array false).category ∈ [Category.Address, Category.Contract, Category.Bool,
      Category.FixedBytes, Category.Integer, Category.Enum, Category.VarInteger,
      Category.Array, Category.Mapping, Category.ExtraCurrencyCollection, Category.TvmSlice,
      Category.TvmBuilder, Category.TvmCell] ∧
    StackPusherHelper.pushDefaultValue specCollaborators (.array false) false
        (StackPusherHelper.ofSize 0) =
      some (StackPusherHelper.emitted [(1, "PUSHINT 0"), (1, "NEWDICT"), (-1, "PAIR")]
        (StackPusherHelper.ofSize 0)) ∧
    (StackPusherHelper.emitted [(1, "PUSHINT 0"), (1, "NEWDICT"), (-1, "PAIR")]
        (StackPusherHelper.ofSize 0)).m_code.lines = ["PUSHINT 0", "NEWDICT", "PAIR"] :=
  ⟨by decide, by decide, by decide,
    ((StackPusherHelper.pushDefaultValue_effect specCollaborators (.array false) false
      (StackPusherHelper.ofSize 0) (by decide) (by decide) (by decide)).2 rfl).1, by decide⟩

/-! ## prepareKeyForDictOperations (C30) -/

theorem isStringOrStringLiteralOrBytes_iff (key : SolType) :
    isStringOrStringLiteralOrBytes key = true ↔
      (key = .array true ∨ ∃ value, key = .stringLiteral value) := by
  cases key <;> simp [isStringOrStringLiteralOrBytes, isByteArrayOrString, SolType.category]

/-- C30: on a pusher that holds the key and the dictionary,
`prepareKeyForDictOperations(key)` records exactly the three steps `PUSH s1`
(+1), `HASHCU` (0), `POP s2` (-1), with net delta 0, when the key is a string
or bytes type (an array with `isByteArray`) or a string literal, and records
nothing and changes nothing for every other key type. -/
theorem StackPusherHelper.prepareKey_steps (key : SolType) (p : StackPusherHelper)
    (ht : 0 ≤ p.m_code.tabQty) (hs : 2 ≤ p.m_stack.m_size) :
    ((key = .array true ∨ ∃ value, key = .stringLiteral value) →
      StackPusherHelper.prepareKeyForDictOperations key p =
        some (StackPusherHelper.emitted [(1, "PUSH s1"), (0, "HASHCU"), (-1, "POP s2")] p) ∧
      (StackPusherHelper.emitted [(1, "PUSH s1"), (0, "HASHCU"), (-1, "POP s2")]
          p).m_code.lines =
        p.m_code.lines ++ ["PUSH s1", "HASHCU", "POP s2"].map (indented p.m_code.tabQty) ∧
      (StackPusherHelper.emitted [(1, "PUSH s1"), (0, "HASHCU"), (-1, "POP s2")]
          p).m_stack.m_size = p.m_stack.m_size) ∧
    (¬ (key = .array true ∨ ∃ value, key = .stringLiteral value) →
      StackPusherHelper.prepareKeyForDictOperations key p = some p) ∧
    (isStringOrStringLiteralOrBytes key = true ↔
      (key = .array true ∨ ∃ value, key = .stringLiteral value)) := by
  have h := StackPusherHelper.prepareKey_eq key p ht (by omega)
  refine ⟨?_, ?_, isStringOrStringLiteralOrBytes_iff key⟩
  · intro hk
    rw [if_pos ((isStringOrStringLiteralOrBytes_iff key).mpr hk)] at h
    refine ⟨h, ?_, ?_⟩
    · rw [StackPusherHelper.emitted_lines _ p (by decide)]
      rfl
    · rw [StackPusherHelper.emitted_size]
      simp
  · intro hk
    have hf : ¬ isStringOrStringLiteralOrBytes key = true :=
      fun hc => hk ((isStringOrStringLiteralOrBytes_iff key).mp hc)
    rw [if_neg hf] at h
    exact h

/-- Witness of C30: a `string` key on a pusher that holds key and dictionary. -/
theorem StackPusherHelper.prepareKey_steps_witness :
    (0 : Int) ≤ (StackPusherHelper.ofSize 2).m_code.tabQty ∧
    (2 : Int) ≤ (StackPusherHelper.ofSize 2).m_stack.m_size ∧
    StackPusherHelper.prepareKeyForDictOperations (.array true) (StackPusherHelper.ofSize 2) =
      some (StackPusherHelper.emitted [(1, "PUSH s1"), (0, "HASHCU"), (-1, "POP s2")]
        (StackPusherHelper.ofSize 2)) ∧
    (StackPusherHelper.emitted [(1, "PUSH s1"), (0, "HASHCU"), (-1, "POP s2")]
        (StackPusherHelper.ofSize 2)).m_code.lines = ["PUSH s1", "HASHCU", "POP s2"] :=
  ⟨by decide, by decide,
    ((StackPusherHelper.prepareKey_steps (.array true) (StackPusherHelper.ofSize 2) (by decide)
      (by decide)).1 (Or.inl rfl)).1, by decide⟩

/-! ## Continuations on a code buffer (C31) -/

theorem CodeLines.startContinuation_eq (c : CodeLines) (ht : 0 ≤ c.tabQty) :
    c.startContinuation =
      some ⟨c.lines ++ [indented c.tabQty "PUSHCONT \x7b"], c.tabQty + 1⟩ := by
  simp only [CodeLines.startContinuation, StackPusherHelper.codePush_eq c _ ht,
    Option.bind_eq_bind, Option.some_bind,
    StackPusherHelper.pushed_of_length c "PUSHCONT \x7b" (by decide), CodeLines.addTabs]

theorem CodeLines.endContinuation_eq (c : CodeLines) (ht : 1 ≤ c.tabQty) :
    c.endContinuation = some ⟨c.lines ++ [indented (c.tabQty - 1) "\x7d"], c.tabQty - 1⟩ := by
  have h1 : 0 ≤ (c.subTabs 1).tabQty := by simp only [CodeLines.subTabs]; omega
  have hp : (c.subTabs 1).push "\x7d" =
      some ⟨c.lines ++ [indented (c.tabQty - 1) "\x7d"], c.tabQty - 1⟩ := by
    rw [StackPusherHelper.codePush_eq _ _ h1]
    simp [CodeLines.pushed, CodeLines.subTabs, indented]
  have h2 : (0 : Int) ≤ c.tabQty - 1 := by omega
  simp only [CodeLines.endContinuation, hp, Option.bind_eq_bind, Option.some_bind, h2, if_true]

theorem CodeLines.endContinuation_zero (c : CodeLines) (ht : c.tabQty ≤ 0) :
    c.endContinuation = none := by
  have h1 : ¬ 0 ≤ (c.subTabs 1).tabQty := by simp only [CodeLines.subTabs]; omega
  have hp : (c.subTabs 1).push "\x7d" = none := by
    simp [CodeLines.push, h1]
  simp only [CodeLines.endContinuation, hp, Option.bind_eq_bind, Option.none_bind]

theorem CodeLines.runCalls_depth (calls : List CodeCall) : ∀ c : CodeLines,
    (∀ n : Nat, 0 ≤ c.tabQty + CodeCall.depth (calls.take n)) →
    ∃ c1, CodeLines.runCalls calls c = some c1 ∧
      c1.tabQty = c.tabQty + CodeCall.depth calls := by
  induction calls with
  | nil => intro c _; exact ⟨c, rfl, by simp [CodeCall.depth]⟩
  | cons call rest ih =>
    intro c h
    have h0 : 0 ≤ c.tabQty := by simpa [CodeCall.depth] using h 0
    have h1 : 0 ≤ c.tabQty + call.depthChange := by simpa [CodeCall.depth] using h 1
    have hstep : ∃ c0, call.run c = some c0 ∧ c0.tabQty = c.tabQty + call.depthChange := by
      cases call with
      | push cmd =>
        obtain ⟨c0, e, t⟩ := CodeLines.push_isSome c cmd h0
        exact ⟨c0, e, by simp [CodeCall.depthChange, t]⟩
      | startContinuation =>
        exact ⟨_, CodeLines.startContinuation_eq c h0, by simp [CodeCall.depthChange]⟩
      | endContinuation =>
        simp only [CodeCall.depthChange] at h1
        exact ⟨_, CodeLines.endContinuation_eq c (by omega), by
          simp only [CodeCall.depthChange]; omega⟩
    obtain ⟨c0, e0, t0⟩ := hstep
    obtain ⟨c1, e1, t1⟩ := ih c0 (by
      intro n
      have := h (n + 1)
      simp only [List.take_succ_cons, CodeCall.depth, List.map_cons, List.sum_cons] at this
      simp only [CodeCall.depth]
      omega)
    refine ⟨c1, by simp [CodeLines.runCalls, e0, e1], ?_⟩
    simp only [CodeCall.depth, List.map_cons, List.sum_cons] at t1 ⊢
    omega

/-- C31, the claim as stated fails: the one-call sequence `startContinuation`
has no prefix with more ends than starts, and started at indent 0 it ends at
indent 1, not 0. -/
theorem CodeLines.start_alone_raises_indent :
    CodeCall.NoExcessEnd [CodeCall.startContinuation] ∧
    CodeLines.runCalls [CodeCall.startContinuation] ⟨[], 0⟩ = some ⟨["PUSHCONT \x7b"], 1⟩ ∧
    ¬ (∃ c1, CodeLines.runCalls [CodeCall.startContinuation] ⟨[], 0⟩ = some c1 ∧
      c1.tabQty = 0) := by
  refine ⟨?_, rfl, ?_⟩
  · intro n
    cases n with
    | zero => decide
    | succ n => simp [CodeCall.depth, CodeCall.depthChange]
  · rintro ⟨c1, h, ht⟩
    have e : CodeLines.runCalls [CodeCall.startContinuation] ⟨[], 0⟩ =
        some ⟨["PUSHCONT \x7b"], 1⟩ := rfl
    rw [e] at h
    cases h
    revert ht
    decide

/-- C31 (amended): `startContinuation` appends `PUSHCONT {` at the current
indent and raises `tabQty` by 1, `endContinuation` lowers `tabQty` by 1 and
appends `}` at the lowered indent; for every sequence of `push`,
`startContinuation` and `endContinuation` calls in which no prefix has more
ends than starts, started at `tabQty = t >= 0`, no assertion fires and the
final `tabQty` is `t` plus the number of starts minus the number of ends, hence
`t` when the sequence has as many ends as starts; an `endContinuation` at
`tabQty = 0` aborts. -/
theorem CodeLines.continuations_balanced (c : CodeLines) (calls : List CodeCall)
    (ht : 0 ≤ c.tabQty) (hcalls : CodeCall.NoExcessEnd calls) :
    (∃ c1, CodeLines.runCalls calls c = some c1 ∧
      c1.tabQty = c.tabQty + CodeCall.depth calls ∧
      (CodeCall.depth calls = 0 → c1.tabQty = c.tabQty)) ∧
    c.startContinuation =
      some ⟨c.lines ++ [indented c.tabQty "PUSHCONT \x7b"], c.tabQty + 1⟩ ∧
    (1 ≤ c.tabQty → c.endContinuation =
      some ⟨c.lines ++ [indented (c.tabQty - 1) "\x7d"], c.tabQty - 1⟩) ∧
    (c.tabQty = 0 → c.endContinuation = none) := by
  refine ⟨?_, CodeLines.startContinuation_eq c ht, CodeLines.endContinuation_eq c, ?_⟩
  · obtain ⟨c1, e, t⟩ := CodeLines.runCalls_depth calls c (fun n => by
      have := hcalls n
      omega)
    exact ⟨c1, e, t, fun h => by rw [t, h]; omega⟩
  · intro h
    exact CodeLines.endContinuation_zero c (by omega)

/-- Witness of C31: a continuation with one line inside, started at indent 0. -/
theorem CodeLines.continuations_balanced_witness :
    (0 : Int) ≤ (CodeLines.mk [] 0).tabQty ∧
    CodeCall.NoExcessEnd
      [CodeCall.startContinuation, CodeCall.push "NOP", CodeCall.endContinuation] ∧
    CodeLines.runCalls
        [CodeCall.startContinuation, CodeCall.push "NOP", CodeCall.endContinuation]
        (CodeLines.mk [] 0) = some ⟨["PUSHCONT \x7b", "\tNOP", "\x7d"], 0⟩ ∧
    ∃ c1, CodeLines.runCalls
        [CodeCall.startContinuation, CodeCall.push "NOP", CodeCall.endContinuation]
        (CodeLines.mk [] 0) = some c1 ∧
      c1.tabQty = (CodeLines.mk [] 0).tabQty +
        CodeCall.depth
          [CodeCall.startContinuation, CodeCall.push "NOP", CodeCall.endContinuation] ∧
      (CodeCall.depth
          [CodeCall.startContinuation, CodeCall.push "NOP", CodeCall.endContinuation] = 0 →
        c1.tabQty = (CodeLines.mk [] 0).tabQty) :=
  have h : CodeCall.NoExcessEnd
      [CodeCall.startContinuation, CodeCall.push "NOP", CodeCall.endContinuation] := by
    intro n
    match n with
    | 0 => decide
    | 1 => decide
    | 2 => decide
    | n + 3 => simp [CodeCall.depth, CodeCall.depthChange]
  ⟨by decide, h, rfl,
    (CodeLines.continuations_balanced (CodeLines.mk [] 0)
      [CodeCall.startContinuation, CodeCall.push "NOP", CodeCall.endContinuation]
      (by decide) h).1⟩

/-! ## Indices of the state variables (C32) -/

namespace TVMCompilerContext

theorem collectVariables_eq (vs : List VariableDeclaration) : ∀ acc : List VariableDeclaration,
    collectVariables vs acc = acc ++ vs.filter (fun v => !v.isConstant) := by
  induction vs with
  | nil => intro acc; simp [collectVariables]
  | cons v vs ih =>
    intro acc
    simp only [collectVariables, ih, List.filter_cons]
    cases v.isConstant <;> simp

theorem collectChain_eq (cs : List ContractDefinition) : ∀ acc : List VariableDeclaration,
    collectChain cs acc = acc ++ nonConstantOfChain cs := by
  induction cs with
  | nil => intro acc; simp [collectChain, nonConstantOfChain]
  | cons c cs ih =>
    intro acc
    simp only [collectChain, ih, collectVariables_eq, nonConstantOfChain, List.map_cons,
      List.flatten_cons, List.filter_append, List.append_assoc]

theorem indexedFrom_fst (vs : List VariableDeclaration) : ∀ start : Nat,
    (indexedFrom start vs).map Prod.fst = vs := by
  induction vs with
  | nil => intro start; rfl
  | cons v vs ih => intro start; simp [indexedFrom, ih]

theorem indexedFrom_snd (vs : List VariableDeclaration) : ∀ start : Nat,
    (indexedFrom start vs).map Prod.snd =
      (List.range vs.length).map (fun k => (10 : Int) + ((start + k : Nat) : Int)) := by
  induction vs with
  | nil => intro start; rfl
  | cons v vs ih =>
    intro start
    simp only [indexedFrom, List.map_cons, ih, List.length_cons, List.range_succ_eq_map,
      List.map_map]
    refine congrArg₂ _ (by simp) (List.map_congr_left (fun k _ => ?_))
    simp only [Function.comp]
    push_cast
    omega

theorem indexedFrom_length (vs : List VariableDeclaration) (start : Nat) :
    (indexedFrom start vs).length = vs.length := by
  rw [← List.length_map (indexedFrom start vs) Prod.fst, indexedFrom_fst]

theorem indexedFrom_append (vs : List VariableDeclaration) : ∀ (start : Nat)
    (v : VariableDeclaration),
    indexedFrom start (vs ++ [v]) =
      indexedFrom start vs ++ [(v, 10 + ((start + vs.length : Nat) : Int))] := by
  induction vs with
  | nil => intro start v; simp [indexedFrom]
  | cons w vs ih =>
    intro start v
    have e : start + 1 + vs.length = start + (vs.length + 1) := by omega
    show indexedFrom start (w :: (vs ++ [v])) = _
    rw [indexedFrom, ih, e]
    rfl

theorem assign_fresh (m : StateVarIndex) (v : VariableDeclaration) (x : Int)
    (h : v ∉ m.map Prod.fst) : m.assign v x = m ++ [(v, x)] := by
  have : m.any (fun e => e.1 = v) = false := by
    rw [List.any_eq_false]
    intro e he hc
    simp only [decide_eq_true_eq] at hc
    exact h (List.mem_map.mpr ⟨e, he, hc⟩)
  simp [StateVarIndex.assign, this]

/-- Without repetition the loop of `initMembers` gives the variables the
indices 10, 11, ... in order. -/
theorem assignIndices_nodup (vs : List VariableDeclaration) :
    ∀ done : List VariableDeclaration, (done ++ vs).Nodup →
    assignIndices vs (indexedFrom 0 done) = indexedFrom 0 (done ++ vs) := by
  induction vs with
  | nil => intro done _; simp [assignIndices]
  | cons v vs ih =>
    intro done hnd
    have hv : v ∉ done := by
      intro hc
      have := List.nodup_append.mp hnd
      exact this.2.2 hc (List.mem_cons_self _ _)
    simp only [assignIndices]
    rw [assign_fresh _ _ _ (by rw [indexedFrom_fst]; exact hv), indexedFrom_length]
    have e := indexedFrom_append done 0 v
    simp only [Nat.zero_add] at e
    rw [← e]
    have e2 : done ++ v :: vs = (done ++ [v]) ++ vs := by simp
    rw [e2]
    exact ih (done ++ [v]) (by rw [← e2]; exact hnd)

theorem atKey_indexedFrom (vs : List VariableDeclaration) : ∀ (start k : Nat)
    (v : VariableDeclaration), vs.Nodup → vs.get? k = some v →
    StateVarIndex.atKey (indexedFrom start vs) v = some (10 + ((start + k : Nat) : Int)) := by
  induction vs with
  | nil => intro start k v _ h; simp at h
  | cons w vs ih =>
    intro start k v hnd h
    cases k with
    | zero =>
      simp only [List.get?_cons_zero, Option.some.injEq] at h
      subst h
      simp [StateVarIndex.atKey, indexedFrom]
    | succ k =>
      simp only [List.get?_cons_succ] at h
      have hne : w ≠ v := by
        intro hc
        subst hc
        exact (List.nodup_cons.mp hnd).1 (List.get?_mem h)
      have := ih (start + 1) k v (List.nodup_cons.mp hnd).2 h
      simp only [StateVarIndex.atKey, indexedFrom, List.find?_cons, hne, decide_False] at this ⊢
      rw [this]
      congr 2
      push_cast
      omega

theorem atKey_missing (m : StateVarIndex) (v : VariableDeclaration)
    (h : v ∉ m.map Prod.fst) : StateVarIndex.atKey m v = none := by
  have : m.find? (fun e => decide (e.1 = v)) = none := by
    rw [List.find?_eq_none]
    intro e he hc
    simp only [decide_eq_true_eq] at hc
    exact h (List.mem_map.mpr ⟨e, he, hc⟩)
  simp [StateVarIndex.atKey, this]

end TVMCompilerContext

namespace TVMCompilerContext

theorem scanFunction_keeps (f : FunctionDefinition) (ctx ctx1 : TVMCompilerContext)
    (h : scanFunction f ctx = some ctx1) :
    ctx1.m_contract = ctx.m_contract ∧ ctx1.m_stateVarIndex = ctx.m_stateVarIndex ∧
      ctx1.m_pragmaHelper = ctx.m_pragmaHelper := by
  unfold scanFunction at h
  simp only [Option.bind_eq_bind] at h
  split_ifs at h <;> simp at h <;> subst h <;> exact ⟨rfl, rfl, rfl⟩

theorem scanFunctions_keeps (fs : List FunctionDefinition) : ∀ ctx ctx1 : TVMCompilerContext,
    scanFunctions fs ctx = some ctx1 →
    ctx1.m_contract = ctx.m_contract ∧ ctx1.m_stateVarIndex = ctx.m_stateVarIndex ∧
      ctx1.m_pragmaHelper = ctx.m_pragmaHelper := by
  induction fs with
  | nil => intro ctx ctx1 h; cases h; exact ⟨rfl, rfl, rfl⟩
  | cons f fs ih =>
    intro ctx ctx1 h
    simp only [scanFunctions, Option.bind_eq_some] at h
    obtain ⟨c0, h0, h1⟩ := h
    obtain ⟨a, b, c⟩ := scanFunction_keeps f ctx c0 h0
    obtain ⟨a1, b1, c1⟩ := ih c0 ctx1 h1
    exact ⟨a1.trans a, b1.trans b, c1.trans c⟩

theorem scanContracts_keeps (cs : List ContractDefinition) : ∀ ctx ctx1 : TVMCompilerContext,
    scanContracts cs ctx = some ctx1 →
    ctx1.m_contract = ctx.m_contract ∧ ctx1.m_stateVarIndex = ctx.m_stateVarIndex ∧
      ctx1.m_pragmaHelper = ctx.m_pragmaHelper := by
  induction cs with
  | nil => intro ctx ctx1 h; cases h; exact ⟨rfl, rfl, rfl⟩
  | cons c cs ih =>
    intro ctx ctx1 h
    simp only [scanContracts, Option.bind_eq_some] at h
    obtain ⟨c0, h0, h1⟩ := h
    obtain ⟨a, b, c⟩ := scanFunctions_keeps _ ctx c0 h0
    obtain ⟨a1, b1, c1⟩ := ih c0 ctx1 h1
    exact ⟨a1.trans a, b1.trans b, c1.trans c⟩

theorem scanFunctions_plain (fs : List FunctionDefinition)
    (h : ∀ f ∈ fs, f.name ≠ "offchainConstructor") : ∀ ctx : TVMCompilerContext,
    ∃ ctx1, scanFunctions fs ctx = some ctx1 := by
  induction fs with
  | nil => intro ctx; exact ⟨ctx, rfl⟩
  | cons f fs ih =>
    intro ctx
    have hf := h f (List.mem_cons_self _ _)
    obtain ⟨c1, h1⟩ := ih (fun g hg => h g (List.mem_cons_of_mem _ hg))
      { ctx with
        ignoreIntOverflow := ctx.ignoreIntOverflow || f.name = "tvm_ignore_integer_overflow"
        haveFallback := ctx.haveFallback || f.isFallback
        haveOnBounce := ctx.haveOnBounce || f.isOnBounce
        haveReceive := ctx.haveReceive || f.isReceive }
    exact ⟨c1, by simpa [scanFunctions, scanFunction, hf] using h1⟩

theorem scanContracts_plain (cs : List ContractDefinition)
    (h : ∀ c ∈ cs, ∀ f ∈ c.definedFunctions, f.name ≠ "offchainConstructor") :
    ∀ ctx : TVMCompilerContext, ∃ ctx1, scanContracts cs ctx = some ctx1 := by
  induction cs with
  | nil => intro ctx; exact ⟨ctx, rfl⟩
  | cons c cs ih =>
    intro ctx
    obtain ⟨c0, h0⟩ := scanFunctions_plain c.definedFunctions (h c (List.mem_cons_self _ _)) ctx
    obtain ⟨c1, h1⟩ := ih (fun d hd => h d (List.mem_cons_of_mem _ hd)) c0
    exact ⟨c1, by simp [scanContracts, h0, h1]⟩

/-- After a successful construction the context holds the contract, the pragma
helper and the indices that the loop assigns to the non-constant state
variables of the chain. -/
theorem create_result (ast : AstView) (contract : ContractDefinition)
    (pragmaHelper : PragmaDirectiveHelper) (ctx : TVMCompilerContext)
    (h : create ast contract pragmaHelper = some ctx) :
    ctx.m_contract = some contract ∧ ctx.m_pragmaHelper = pragmaHelper ∧
      ctx.m_stateVarIndex =
        assignIndices (nonConstantOfChain (ast.getContractsChain contract)) [] := by
  simp only [create, initMembers, Option.isSome_none, Bool.false_eq_true, if_false,
    Option.bind_eq_bind, Option.bind_eq_some] at h
  obtain ⟨c0, h0, h1⟩ := h
  obtain ⟨a, b, c⟩ := scanContracts_keeps _ _ c0 h0
  split_ifs at h1
  simp only [notConstantStateVariables, a, Option.bind_eq_bind, Option.some_bind,
    Option.some.injEq] at h1
  subst h1
  refine ⟨rfl, c, ?_⟩
  show assignIndices (collectChain (ast.getContractsChain contract) []) c0.m_stateVarIndex = _
  rw [collectChain_eq, List.nil_append, b]

end TVMCompilerContext

/-- C32: after the construction of a `TVMCompilerContext`,
`notConstantStateVariables()` is the list of the non-constant state variables
of the contract chain in order, and when it has no repetition its `k`-th
variable (from 0) has `getStateVarIndex = 10 + k`: the keys of the index map are
these variables and the indices are 10, 11, ..., pairwise distinct, contiguous
and all at least 10. A constant state variable, like every variable outside the
list, has no index. The construction succeeds when the registration of the
functions completes and no base contract defines `offchainConstructor`. -/
theorem TVMCompilerContext.stateVarIndex_from_10 (ast : AstView)
    (contract : ContractDefinition) (pragmaHelper : PragmaDirectiveHelper)
    (ctx : TVMCompilerContext)
    (h : TVMCompilerContext.create ast contract pragmaHelper = some ctx)
    (hnd : (nonConstantOfChain (ast.getContractsChain contract)).Nodup) :
    TVMCompilerContext.notConstantStateVariables ast ctx =
      some (nonConstantOfChain (ast.getContractsChain contract)) ∧
    (∀ (k : Nat) (v : VariableDeclaration),
      (nonConstantOfChain (ast.getContractsChain contract)).get? k = some v →
      TVMCompilerContext.getStateVarIndex ctx v = some (10 + (k : Int))) ∧
    ctx.m_stateVarIndex.map Prod.fst = nonConstantOfChain (ast.getContractsChain contract) ∧
    ctx.m_stateVarIndex.map Prod.snd =
      (List.range (nonConstantOfChain (ast.getContractsChain contract)).length).map
        (fun k : Nat => (10 : Int) + (k : Int)) ∧
    (∀ v : VariableDeclaration, v.isConstant = true →
      TVMCompilerContext.getStateVarIndex ctx v = none) ∧
    (∀ v : VariableDeclaration, v ∉ nonConstantOfChain (ast.getContractsChain contract) →
      TVMCompilerContext.getStateVarIndex ctx v = none) ∧
    (ast.functionsRegistered contract = true →
      (∀ c ∈ ast.linearizedBaseContracts contract, ∀ f ∈ c.definedFunctions,
        f.name ≠ "offchainConstructor") →
      ∀ pragma : PragmaDirectiveHelper,
        (TVMCompilerContext.create ast contract pragma).isSome = true) := by
  obtain ⟨hc, _, hm⟩ := TVMCompilerContext.create_result ast contract pragmaHelper ctx h
  have hm2 : ctx.m_stateVarIndex =
      indexedFrom 0 (nonConstantOfChain (ast.getContractsChain contract)) := by
    rw [hm]
    have := TVMCompilerContext.assignIndices_nodup
      (nonConstantOfChain (ast.getContractsChain contract)) [] (by simpa using hnd)
    simpa [indexedFrom] using this
  have hout : ∀ v : VariableDeclaration,
      v ∉ nonConstantOfChain (ast.getContractsChain contract) →
      TVMCompilerContext.getStateVarIndex ctx v = none := by
    intro v hv
    unfold TVMCompilerContext.getStateVarIndex
    rw [hm2]
    exact TVMCompilerContext.atKey_missing _ v (by
      rw [TVMCompilerContext.indexedFrom_fst]; exact hv)
  refine ⟨?_, ?_, ?_, ?_, ?_, hout, ?_⟩
  · simp only [TVMCompilerContext.notConstantStateVariables, hc, Option.bind_eq_bind,
      Option.some_bind, TVMCompilerContext.collectChain_eq, List.nil_append]
  · intro k v hk
    unfold TVMCompilerContext.getStateVarIndex
    rw [hm2, TVMCompilerContext.atKey_indexedFrom _ 0 k v hnd hk]
    simp
  · rw [hm2, TVMCompilerContext.indexedFrom_fst]
  · rw [hm2, TVMCompilerContext.indexedFrom_snd]
    simp
  · intro v hv
    refine hout v ?_
    intro hc2
    have := (List.mem_filter.mp hc2).2
    simp [hv] at this
  · intro hreg hoff pragma
    obtain ⟨c1, h1⟩ := TVMCompilerContext.scanContracts_plain _ hoff
      ⟨some contract, false, false, false, false, false, pragma, []⟩
    obtain ⟨a, _, _⟩ := TVMCompilerContext.scanContracts_keeps _ _ c1 h1
    simp [TVMCompilerContext.create, TVMCompilerContext.initMembers, h1, hreg,
      TVMCompilerContext.notConstantStateVariables, a]

/-- Witness of C32: a contract with the state variables 0 (not constant),
1 (constant) and 2 (not constant): the indices are 10 and 11. -/
theorem TVMCompilerContext.stateVarIndex_from_10_witness :
    TVMCompilerContext.create
        ⟨fun c => [c], fun c => [c], fun _ => true⟩
        ⟨[], [⟨0, false⟩, ⟨1, true⟩, ⟨2, false⟩]⟩ ⟨2, false, false⟩ =
      some ⟨some ⟨[], [⟨0, false⟩, ⟨1, true⟩, ⟨2, false⟩]⟩, false, false, false, false, false,
        ⟨2, false, false⟩, [(⟨0, false⟩, 10), (⟨2, false⟩, 11)]⟩ ∧
    (nonConstantOfChain [⟨[], [⟨0, false⟩, ⟨1, true⟩, ⟨2, false⟩]⟩]).Nodup ∧
    TVMCompilerContext.getStateVarIndex
        ⟨some ⟨[], [⟨0, false⟩, ⟨1, true⟩, ⟨2, false⟩]⟩, false, false, false, false, false,
          ⟨2, false, false⟩, [(⟨0, false⟩, 10), (⟨2, false⟩, 11)]⟩ ⟨2, false⟩ =
      some (10 + ((1 : Nat) : Int)) :=
  ⟨rfl, by decide,
    (TVMCompilerContext.stateVarIndex_from_10
      ⟨fun c => [c], fun c => [c], fun _ => true⟩
      ⟨[], [⟨0, false⟩, ⟨1, true⟩, ⟨2, false⟩]⟩ ⟨2, false, false⟩ _ rfl (by decide)).2.1
      1 ⟨2, false⟩ rfl⟩

/-! ## storeTimestampInC4 (C38) -/

/-- C38: on a context that holds its contract, for ABI version 1 or 2
`storeTimestampInC4()` is true exactly when the contract defines no function
named `afterSignatureCheck`, whatever the `haveTime` flag of the pragma is, and
then `haveTimeInAbiHeader()` is true as well; for any other ABI version the
call aborts. -/
theorem TVMCompilerContext.storeTimestampInC4_iff (ctx : TVMCompilerContext)
    (contract : ContractDefinition) (hc : ctx.m_contract = some contract) :
    ((ctx.m_pragmaHelper.abiVersion = 1 ∨ ctx.m_pragmaHelper.abiVersion = 2) →
      (TVMCompilerContext.storeTimestampInC4 ctx = some true ↔
        ∀ f ∈ contract.definedFunctions, f.name ≠ "afterSignatureCheck") ∧
      (TVMCompilerContext.storeTimestampInC4 ctx = some false ↔
        ∃ f ∈ contract.definedFunctions, f.name = "afterSignatureCheck") ∧
      ((∀ f ∈ contract.definedFunctions, f.name ≠ "afterSignatureCheck") →
        TVMCompilerContext.haveTimeInAbiHeader ctx = some true)) ∧
    (ctx.m_pragmaHelper.abiVersion ≠ 1 → ctx.m_pragmaHelper.abiVersion ≠ 2 →
      TVMCompilerContext.storeTimestampInC4 ctx = none) := by
  have hasc : TVMCompilerContext.afterSignatureCheck ctx =
      some (contract.definedFunctions.find? (fun f => f.name = "afterSignatureCheck")) := by
    simp [TVMCompilerContext.afterSignatureCheck, hc]
  have hnone : (contract.definedFunctions.find? (fun f => f.name = "afterSignatureCheck")).isNone
      = true ↔ ∀ f ∈ contract.definedFunctions, f.name ≠ "afterSignatureCheck" := by
    rw [Option.isNone_iff_eq_none, List.find?_eq_none]
    simp
  refine ⟨?_, ?_⟩
  · intro habi
    have hstore : TVMCompilerContext.storeTimestampInC4 ctx = some
        (contract.definedFunctions.find? (fun f => f.name = "afterSignatureCheck")).isNone := by
      rcases habi with h1 | h2
      · simp [TVMCompilerContext.storeTimestampInC4, TVMCompilerContext.haveTimeInAbiHeader, h1,
          hasc]
      · have h1 : ctx.m_pragmaHelper.abiVersion ≠ 1 := by omega
        cases ht : ctx.m_pragmaHelper.haveTime <;>
          cases hf : (contract.definedFunctions.find?
            (fun f => f.name = "afterSignatureCheck")).isNone <;>
          simp [TVMCompilerContext.storeTimestampInC4, TVMCompilerContext.haveTimeInAbiHeader,
            h1, h2, hasc, ht, hf]
    refine ⟨?_, ?_, ?_⟩
    · rw [hstore, Option.some.injEq, hnone]
    · rw [hstore, Option.some.injEq, ← Bool.not_eq_true, hnone]
      push_neg
      rfl
    · intro hno
      have hn := hnone.mpr hno
      rcases habi with h1 | h2
      · simp [TVMCompilerContext.haveTimeInAbiHeader, h1]
      · have h1 : ctx.m_pragmaHelper.abiVersion ≠ 1 := by omega
        cases ht : ctx.m_pragmaHelper.haveTime <;>
          simp [TVMCompilerContext.haveTimeInAbiHeader, h1, h2, hasc, ht, hn]
  · intro h1 h2
    simp [TVMCompilerContext.storeTimestampInC4, TVMCompilerContext.haveTimeInAbiHeader, h1, h2]

/-- Witness of C38: ABI version 2 with `haveTime` set and a contract that
defines `afterSignatureCheck`: the timestamp is not stored. -/
theorem TVMCompilerContext.storeTimestampInC4_iff_witness :
    (TVMCompilerContext.mk (some ⟨[⟨"afterSignatureCheck", false, false, false⟩], []⟩) false
      false false false false ⟨2, true, false⟩ []).m_contract =
      some ⟨[⟨"afterSignatureCheck", false, false, false⟩], []⟩ ∧
    TVMCompilerContext.storeTimestampInC4
        ⟨some ⟨[⟨"afterSignatureCheck", false, false, false⟩], []⟩, false, false, false, false,
          false, ⟨2, true, false⟩, []⟩ = some false ∧
    TVMCompilerContext.storeTimestampInC4
        ⟨some ⟨[⟨"f", false, false, false⟩], []⟩, false, false, false, false,
          false, ⟨2, false, false⟩, []⟩ = some true :=
  ⟨rfl, ((TVMCompilerContext.storeTimestampInC4_iff
      ⟨some ⟨[⟨"afterSignatureCheck", false, false, false⟩], []⟩, false, false, false, false,
        false, ⟨2, true, false⟩, []⟩
      ⟨[⟨"afterSignatureCheck", false, false, false⟩], []⟩ rfl).1 (Or.inr rfl)).2.1.mpr
      ⟨⟨"afterSignatureCheck", false, false, false⟩, by simp, rfl⟩,
    by decide⟩

/-! ## The builder flag between prepareValueForDictOperations, setDict and getDict (C33, C36) -/

theorem ReturnsFlag.done (c : Bool) (p : StackPusherHelper) : ReturnsFlag c (some (c, p)) := by
  intro r h; cases h; rfl

theorem ReturnsFlag.after {α : Type} {c : Bool} (x : Option α)
    (f : α → Option (Bool × StackPusherHelper)) (h : ∀ a, ReturnsFlag c (f a)) :
    ReturnsFlag c (x.bind f) := by
  intro r hr
  cases x with
  | none => cases hr
  | some a => exact h a r hr

theorem ReturnsFlag.branch {c : Bool} (P : Prop) [Decidable P]
    {A B : Option (Bool × StackPusherHelper)} (hA : ReturnsFlag c A) (hB : ReturnsFlag c B) :
    ReturnsFlag c (if P then A else B) := by
  split_ifs
  · exact hA
  · exact hB

theorem isDictValue_cases (vt : SolType) (h : IsDictValue vt) :
    vt = .tvmCell ∨ vt = .address ∨ vt = .contract ∨ vt = .array true ∨ vt = .array false ∨
      (∃ n s, vt = .integer n s) ∨ vt = .bool ∨ (∃ n, vt = .fixedBytes n) ∨
      (∃ n, vt = .enum n) ∨ vt = .varInteger ∨ vt = .mapping ∨
      vt = .extraCurrencyCollection ∨ (∃ n, vt = .struct n) := by
  cases vt <;> simp [IsDictValue, IsPlainDictValue, SolType.category] at h ⊢

/-- The flag returned by `prepareValueForDictOperations` on a supported value
type. -/
theorem StackPusherHelper.prepareValue_returns (env : Collaborators) (kt vt : SolType)
    (b : Bool) (p : StackPusherHelper) (hv : IsDictValue vt) :
    ReturnsFlag (preparedFlag vt b)
      (StackPusherHelper.prepareValueForDictOperations env kt vt b p) := by
  rcases isDictValue_cases vt hv with rfl | rfl | rfl | rfl | rfl | ⟨n, s, rfl⟩ | rfl |
    ⟨n, rfl⟩ | ⟨n, rfl⟩ | rfl | rfl | rfl | ⟨n, rfl⟩
  all_goals
    cases b <;>
    simp only [StackPusherHelper.prepareValueForDictOperations, isIntegralType, TypeInfo.of,
      SolType.category, isUsualArray, isByteArrayOrString, preparedFlag, Option.bind_eq_bind,
      Bool.false_eq_true, if_false, if_true, Bool.not_false, Bool.not_true, reduceCtorEq,
      or_self, or_false, false_or, or_true, true_or] <;>
    repeat (first
      | exact ReturnsFlag.done _ _
      | (apply ReturnsFlag.after; intro _)
      | apply ReturnsFlag.branch)

/-- The flag of `prepareValueForDictOperations` has a row in the table of the
set family: no builder-flag assertion of `DictSet` can fire on it. -/
theorem preparedFlag_suffix (env : Collaborators) (L : Int) (vt : SolType) (b : Bool)
    (hv : IsDictValue vt) : ∃ suf, specSetSuffix env L vt (preparedFlag vt b) = some suf := by
  rcases isDictValue_cases vt hv with rfl | rfl | rfl | rfl | rfl | ⟨n, s, rfl⟩ | rfl |
    ⟨n, rfl⟩ | ⟨n, rfl⟩ | rfl | rfl | rfl | ⟨n, rfl⟩
  case inr.inr.inr.inr.inr.inr.inr.inr.inr.inr.inr.inr =>
    by_cases hc : env.isCompatibleWithSDK L (.struct n) = true <;>
      simp [specSetSuffix, preparedFlag, SolType.category, isByteArrayOrString, hc]
  all_goals
    cases b <;> simp [specSetSuffix, preparedFlag, SolType.category, isByteArrayOrString]

/-- The suffix that `getDict` appends for the SETGET family, as the code
selects it. -/
theorem GetFromDict.opcode_setGet (env : Collaborators) (d : GetFromDict)
    (hop : d.op = .GetSetFromMapping ∨ d.op = .GetAddFromMapping ∨
      d.op = .GetReplaceFromMapping) :
    GetFromDict.opcode env d = "DICT" ++ env.typeToDictChar d.keyType ++ d.op.setGetName ++
      (if d.valueType.category = .Address ∨ d.valueType.category = .Contract ∨
          isByteArrayOrString d.valueType = true then ""
        else if d.valueType.category = .TvmCell ∨
          (d.valueType.category = .Struct ∧
            env.isCompatibleWithSDK d.keyLength d.valueType = false) then "REF"
        else "B") := by
  have happ : ∀ s : String, s ++ "" = s := fun s => String.ext (by simp)
  rcases hop with h | h | h <;>
    simp only [GetFromDict.opcode, h, GetDictOperation.setGetName, if_true, if_false,
      reduceCtorEq] <;>
    split_ifs <;> simp_all [happ]

/-- On a supported value that is not a byte array or string, and for an address
or contract that is not passed as a builder, the set-family suffix of the
prepared value is the suffix that `getDict` selects for the SETGET family. -/
theorem setGet_suffix_eq (env : Collaborators) (L : Int) (vt : SolType) (b : Bool)
    (hv : IsDictValue vt) (hba : isByteArrayOrString vt = false)
    (hadr : (vt.category = .Address ∨ vt.category = .Contract) → b = false) :
    specSetSuffix env L vt (preparedFlag vt b) =
      some (if vt.category = .Address ∨ vt.category = .Contract ∨
          isByteArrayOrString vt = true then ""
        else if vt.category = .TvmCell ∨
          (vt.category = .Struct ∧ env.isCompatibleWithSDK L vt = false) then "REF"
        else "B") := by
  rcases isDictValue_cases vt hv with rfl | rfl | rfl | rfl | rfl | ⟨n, s, rfl⟩ | rfl |
    ⟨n, rfl⟩ | ⟨n, rfl⟩ | rfl | rfl | rfl | ⟨n, rfl⟩
  case inr.inr.inr.inr.inr.inr.inr.inr.inr.inr.inr.inr =>
    by_cases hc : env.isCompatibleWithSDK L (.struct n) = true <;>
      simp [specSetSuffix, preparedFlag, SolType.category, isByteArrayOrString, hc]
  case inr.inl =>
    have := hadr (Or.inl rfl)
    subst this
    simp [specSetSuffix, preparedFlag, SolType.category, isByteArrayOrString]
  case inr.inr.inl =>
    have := hadr (Or.inr rfl)
    subst this
    simp [specSetSuffix, preparedFlag, SolType.category, isByteArrayOrString]
  case inr.inr.inr.inl => simp [isByteArrayOrString] at hba
  all_goals
    cases b <;> simp [specSetSuffix, preparedFlag, SolType.category, isByteArrayOrString]

theorem StackPusherHelper.prepareValue_plain (env : Collaborators) (kt vt : SolType) (b : Bool)
    (p : StackPusherHelper) (hv : IsPlainDictValue vt) (ht : 0 ≤ p.m_code.tabQty)
    (hs : 0 ≤ p.m_stack.m_size) :
    (StackPusherHelper.prepareValueForDictOperations env kt vt b p).isSome = true := by
  have e5 : ∀ (c1 c2 c3 c4 c5 : String),
      ((StackPusherHelper.push (-1 + 2) c1 p).bind fun p =>
        (StackPusherHelper.push 0 c2 p).bind fun p =>
          (StackPusherHelper.push 1 c3 p).bind fun p =>
            (StackPusherHelper.push (-1) c4 p).bind fun p =>
              (StackPusherHelper.push (-1) c5 p).bind fun p => some (true, p)).isSome = true := by
    intro c1 c2 c3 c4 c5
    rw [StackPusherHelper.bind_push _ _ _ _ ht (by omega),
      StackPusherHelper.bind_push_emitted _ _ _ _ _ ht (by simp; omega),
      StackPusherHelper.bind_push_emitted _ _ _ _ _ ht (by simp; omega),
      StackPusherHelper.bind_push_emitted _ _ _ _ _ ht (by simp; omega),
      StackPusherHelper.bind_push_emitted _ _ _ _ _ ht (by simp; omega)]
    rfl
  have e3 : ∀ (d2 : Int) (c1 c2 c3 : String), 0 ≤ d2 →
      ((StackPusherHelper.push 1 c1 p).bind fun p =>
        (StackPusherHelper.push d2 c2 p).bind fun p =>
          (StackPusherHelper.push (-1) c3 p).bind fun p => some (true, p)).isSome = true := by
    intro d2 c1 c2 c3 hd
    rw [StackPusherHelper.bind_push _ _ _ _ ht (by omega),
      StackPusherHelper.bind_push_emitted _ _ _ _ _ ht (by simp; omega),
      StackPusherHelper.bind_push_emitted _ _ _ _ _ ht (by simp; omega)]
    rfl
  have e2 : ∀ (d1 d2 : Int) (c1 c2 : String), 0 ≤ d1 → 0 ≤ d1 + d2 →
      ((StackPusherHelper.push d1 c1 p).bind fun p =>
        (StackPusherHelper.push d2 c2 p).bind fun p => some (true, p)).isSome = true := by
    intro d1 d2 c1 c2 h1 h2
    rw [StackPusherHelper.bind_push _ _ _ _ ht (by omega),
      StackPusherHelper.bind_push_emitted _ _ _ _ _ ht (by simp; omega)]
    rfl
  have e1 : ∀ (c1 : String),
      ((StackPusherHelper.push 0 c1 p).bind fun p => some (false, p)).isSome = true := by
    intro c1
    rw [StackPusherHelper.bind_push _ _ _ _ ht (by omega)]
    rfl
  cases vt <;> simp only [IsPlainDictValue] at hv
  case array ba =>
    cases ba <;> cases b <;>
      simp only [StackPusherHelper.prepareValueForDictOperations, isIntegralType, TypeInfo.of,
        SolType.category, isUsualArray, isByteArrayOrString, Option.bind_eq_bind,
        Bool.false_eq_true, if_false, if_true, Bool.not_false, Bool.not_true, reduceCtorEq,
        or_self, or_false, false_or, or_true, true_or] <;>
      first
        | rfl
        | exact e5 _ _ _ _ _
        | exact e1 _
  all_goals
    cases b <;>
      simp only [StackPusherHelper.prepareValueForDictOperations, isIntegralType, TypeInfo.of,
        SolType.category, isUsualArray, isByteArrayOrString, Option.bind_eq_bind,
        Bool.false_eq_true, if_false, if_true, Bool.not_false, Bool.not_true, reduceCtorEq,
        or_self, or_false, false_or, or_true, true_or] <;>
      first
        | rfl
        | exact e3 _ _ _ _ (by decide)
        | exact e2 _ _ _ _ (by decide) (by decide)
        | exact e1 _

theorem StackPusherHelper.setDict_prepared (env : Collaborators) (kt vt : SolType) (b : Bool)
    (op : SetDictOperation) (L : Int) (q : StackPusherHelper)
    (hL : env.lengthOfDictKey kt = some L) (hv : IsDictValue vt)
    (ht : 0 ≤ q.m_code.tabQty) (hs : 3 ≤ q.m_stack.m_size) :
    ∃ suf, specSetSuffix env L vt (preparedFlag vt b) = some suf ∧
      StackPusherHelper.setDict env kt vt (preparedFlag vt b) op q =
        some (StackPusherHelper.emitted [(1, "PUSHINT " ++ toString L),
          (op.opDelta, "DICT" ++ env.typeToDictChar kt ++ op.opName ++ suf)] q) := by
  obtain ⟨suf, hsuf⟩ := preparedFlag_suffix env L vt b hv
  refine ⟨suf, hsuf, ?_⟩
  rw [StackPusherHelper.setDict_unfold env kt vt _ op L suf q hL hsuf]
  exact StackPusherHelper.push_push _ _ _ _ q ht (by omega)
    (by cases op <;> simp only [SetDictOperation.opDelta] <;> omega)

/-- C36: for every key type with a key length, every supported dictionary value
type, either initial flag `b` and every operation, the flag that
`prepareValueForDictOperations` returns is `false` for a TvmCell and a byte
array or string and `true` for a struct, an integral type, a usual array, a
VarInteger, a mapping and an ExtraCurrencyCollection, which is what the hooks
of `DictSet` assert: the dispatch of `DictSet` on that flag returns (it appends
a suffix to the opcode), and `setDict` with that flag succeeds on a pusher that
holds value, key and dictionary. On a plain value type the preparation itself
succeeds. -/
theorem StackPusherHelper.prepared_flag_fits (env : Collaborators) (kt vt : SolType) (b : Bool)
    (op : SetDictOperation) (L : Int) (p : StackPusherHelper)
    (hL : env.lengthOfDictKey kt = some L) (hv : IsDictValue vt) :
    (∀ (flag : Bool) (q : StackPusherHelper),
      StackPusherHelper.prepareValueForDictOperations env kt vt b p = some (flag, q) →
      flag = preparedFlag vt b ∧
      (∀ (pusher : StackPusherHelper) (opc : String), ∃ suf,
        DictOperation.doDictOperation env L vt
          DictSet.onCell DictSet.onSmallStruct DictSet.onLargeStruct DictSet.onAddress
          DictSet.onByteArrayOrString DictSet.onIntegralOrArrayOrVarInt DictSet.onMapOrECC
          ⟨pusher, kt, L, vt, flag, op, opc⟩ = some ⟨pusher, kt, L, vt, flag, op, opc ++ suf⟩) ∧
      (0 ≤ q.m_code.tabQty → 3 ≤ q.m_stack.m_size →
        ∃ r, StackPusherHelper.setDict env kt vt flag op q = some r ∧
          r.m_stack.m_size = q.m_stack.m_size + 1 + op.opDelta)) ∧
    ((vt.category = .TvmCell ∨ isByteArrayOrString vt = true) → preparedFlag vt b = false) ∧
    ((vt.category = .Struct ∨ isIntegralType vt = true ∨ isUsualArray vt = true ∨
        vt.category = .VarInteger ∨ vt.category = .Mapping ∨
        vt.category = .ExtraCurrencyCollection) → preparedFlag vt b = true) ∧
    (IsPlainDictValue vt → 0 ≤ p.m_code.tabQty → 0 ≤ p.m_stack.m_size →
      (StackPusherHelper.prepareValueForDictOperations env kt vt b p).isSome = true) := by
  refine ⟨?_, ?_, ?_, fun h ht hs => StackPusherHelper.prepareValue_plain env kt vt b p h ht hs⟩
  · intro flag q h
    have hf : flag = preparedFlag vt b :=
      StackPusherHelper.prepareValue_returns env kt vt b p hv (flag, q) h
    subst hf
    refine ⟨rfl, ?_, ?_⟩
    · intro pusher opc
      obtain ⟨suf, hsuf⟩ := preparedFlag_suffix env L vt b hv
      exact ⟨suf, StackPusherHelper.doDictOperation_set env pusher kt L vt _ op opc suf hsuf⟩
    · intro ht hs
      obtain ⟨suf, _, hrun⟩ := StackPusherHelper.setDict_prepared env kt vt b op L q hL hv ht hs
      refine ⟨_, hrun, ?_⟩
      rw [StackPusherHelper.emitted_size]
      simp
      omega
  · intro h
    rcases isDictValue_cases vt hv with rfl | rfl | rfl | rfl | rfl | ⟨n, s, rfl⟩ | rfl |
      ⟨n, rfl⟩ | ⟨n, rfl⟩ | rfl | rfl | rfl | ⟨n, rfl⟩ <;>
      simp [preparedFlag, SolType.category, isByteArrayOrString] at h ⊢
  · intro h
    rcases isDictValue_cases vt hv with rfl | rfl | rfl | rfl | rfl | ⟨n, s, rfl⟩ | rfl |
      ⟨n, rfl⟩ | ⟨n, rfl⟩ | rfl | rfl | rfl | ⟨n, rfl⟩ <;>
      simp [preparedFlag, SolType.category, isByteArrayOrString, isIntegralType, TypeInfo.of,
        isUsualArray] at h ⊢

/-- Witness of C36: key `uint32`, value `uint64` not yet a builder, with the
collaborators of the specification. -/
theorem StackPusherHelper.prepared_flag_fits_witness :
    specCollaborators.lengthOfDictKey (.integer 32 false) = some 32 ∧
    IsDictValue (.integer 64 false) ∧
    preparedFlag (.integer 64 false) false = true ∧
    (StackPusherHelper.prepareValueForDictOperations specCollaborators (.integer 32 false)
      (.integer 64 false) false (StackPusherHelper.ofSize 3)).isSome = true :=
  ⟨rfl, Or.inl trivial, rfl,
    (StackPusherHelper.prepared_flag_fits specCollaborators (.integer 32 false)
      (.integer 64 false) false .Set 32 (StackPusherHelper.ofSize 3) rfl
      (Or.inl trivial)).2.2.2 trivial (by decide) (by decide)⟩

/-- C33, the claim as stated fails, with the collaborators of the specification
and key `uint32`. For a `bytes` value the preparation returns the flag `false`
and `setDict` emits `DICTUSETREF`, while `getDict` for `GetSetFromMapping`
selects `DICTUSETGET` without `REF`. For an address that is passed as a builder
`setDict` emits `DICTUSETB`, while `getDict`, which has no builder flag,
selects `DICTUSETGET` without `B`. -/
theorem StackPusherHelper.setGet_suffix_differs :
    StackPusherHelper.prepareValueForDictOperations specCollaborators (.integer 32 false)
      (.array true) false (StackPusherHelper.ofSize 3) =
        some (false, StackPusherHelper.ofSize 3) ∧
    StackPusherHelper.setDict specCollaborators (.integer 32 false) (.array true) false .Set
      (StackPusherHelper.ofSize 3) =
        some (StackPusherHelper.emitted [(1, "PUSHINT 32"), (-3, "DICTUSETREF")]
          (StackPusherHelper.ofSize 3)) ∧
    (∀ d, GetFromDict.create specCollaborators (StackPusherHelper.ofSize 3) (.integer 32 false)
        (.array true) .GetSetFromMapping false = some d →
      GetFromDict.opcode specCollaborators d = "DICTUSETGET") ∧
    StackPusherHelper.prepareValueForDictOperations specCollaborators (.integer 32 false)
      .address true (StackPusherHelper.ofSize 3) = some (true, StackPusherHelper.ofSize 3) ∧
    StackPusherHelper.setDict specCollaborators (.integer 32 false) .address true .Set
      (StackPusherHelper.ofSize 3) =
        some (StackPusherHelper.emitted [(1, "PUSHINT 32"), (-3, "DICTUSETB")]
          (StackPusherHelper.ofSize 3)) ∧
    (∀ d, GetFromDict.create specCollaborators (StackPusherHelper.ofSize 3) (.integer 32 false)
        .address .GetSetFromMapping false = some d →
      GetFromDict.opcode specCollaborators d = "DICTUSETGET") ∧
    "DICTUSETGET" ≠ "DICTU" ++ "SETGET" ++ "REF" ∧ "DICTUSETGET" ≠ "DICTU" ++ "SETGET" ++ "B" := by
  have hL : specCollaborators.lengthOfDictKey (.integer 32 false) = some 32 := rfl
  refine ⟨rfl, ?_, ?_, rfl, ?_, ?_, by decide, by decide⟩
  · rw [StackPusherHelper.setDict_unfold specCollaborators _ (.array true) false .Set 32 "REF" _
      hL rfl]
    exact StackPusherHelper.push_push _ _ _ _ _ (by decide) (by decide) (by decide)
  · intro d hd
    simp only [GetFromDict.create, hL, Option.bind_eq_bind, Option.some_bind,
      Option.some.injEq] at hd
    subst hd
    decide
  · rw [StackPusherHelper.setDict_unfold specCollaborators _ .address true .Set 32 "B" _ hL rfl]
    exact StackPusherHelper.push_push _ _ _ _ _ (by decide) (by decide) (by decide)
  · intro d hd
    simp only [GetFromDict.create, hL, Option.bind_eq_bind, Option.some_bind,
      Option.some.injEq] at hd
    subst hd
    decide

/-- C33 (amended): for every key type with a key length, every supported value
type that is not a byte array or string, and an address or contract that is
not passed as a builder, the suffix that `getDict` appends to `SETGET`,
`ADDGET` or `REPLACEGET` equals the suffix that the dispatch of `DictSet`
appends for the same value once it has been prepared by
`prepareValueForDictOperations`: `REF` for a TvmCell and a struct that is not
SDK-compatible, nothing for an address or contract, `B` for every other value
(they are stored through a builder). -/
theorem StackPusherHelper.setGet_suffix_matches (env : Collaborators) (kt vt : SolType)
    (b : Bool) (L : Int) (p : StackPusherHelper)
    (hL : env.lengthOfDictKey kt = some L) (hv : IsDictValue vt)
    (hba : isByteArrayOrString vt = false)
    (hadr : (vt.category = .Address ∨ vt.category = .Contract) → b = false)
    (pusher : StackPusherHelper) (gop : GetDictOperation) (asSlice : Bool) (d : GetFromDict)
    (hd : GetFromDict.create env pusher kt vt gop asSlice = some d)
    (hop : gop = .GetSetFromMapping ∨ gop = .GetAddFromMapping ∨
      gop = .GetReplaceFromMapping)
    (flag : Bool) (q : StackPusherHelper)
    (h : StackPusherHelper.prepareValueForDictOperations env kt vt b p = some (flag, q)) :
    ∃ suf,
      (∀ (sp : StackPusherHelper) (sop : SetDictOperation) (opc : String),
        DictOperation.doDictOperation env L vt
          DictSet.onCell DictSet.onSmallStruct DictSet.onLargeStruct DictSet.onAddress
          DictSet.onByteArrayOrString DictSet.onIntegralOrArrayOrVarInt DictSet.onMapOrECC
          ⟨sp, kt, L, vt, flag, sop, opc⟩ = some ⟨sp, kt, L, vt, flag, sop, opc ++ suf⟩) ∧
      GetFromDict.opcode env d = "DICT" ++ env.typeToDictChar kt ++ gop.setGetName ++ suf ∧
      ((vt.category = .TvmCell ∨
        (vt.category = .Struct ∧ env.isCompatibleWithSDK L vt = false)) → suf = "REF") ∧
      ((vt.category = .Address ∨ vt.category = .Contract) → suf = "") ∧
      (¬ (vt.category = .TvmCell ∨
          (vt.category = .Struct ∧ env.isCompatibleWithSDK L vt = false)) →
        ¬ (vt.category = .Address ∨ vt.category = .Contract) → suf = "B") := by
  have hf : flag = preparedFlag vt b :=
    StackPusherHelper.prepareValue_returns env kt vt b p hv (flag, q) h
  subst hf
  have hsuf := setGet_suffix_eq env L vt b hv hba hadr
  simp only [GetFromDict.create, hL, Option.bind_eq_bind, Option.some_bind,
    Option.some.injEq] at hd
  subst hd
  refine ⟨_, fun sp sop opc =>
    StackPusherHelper.doDictOperation_set env sp kt L vt _ sop opc _ hsuf,
    GetFromDict.opcode_setGet env _ hop, ?_, ?_, ?_⟩
  · intro hc
    have hna : ¬ (vt.category = .Address ∨ vt.category = .Contract ∨
        isByteArrayOrString vt = true) := by
      rcases hc with hc | ⟨hc, _⟩ <;> simp [hc, hba]
    rw [if_neg hna, if_pos hc]
  · intro hc
    have ha : vt.category = .Address ∨ vt.category = .Contract ∨
        isByteArrayOrString vt = true := by
      rcases hc with hc | hc
      · exact Or.inl hc
      · exact Or.inr (Or.inl hc)
    rw [if_pos ha]
  · intro h1 h2
    have hna : ¬ (vt.category = .Address ∨ vt.category = .Contract ∨
        isByteArrayOrString vt = true) := by
      rintro (hc | hc | hc)
      · exact h2 (Or.inl hc)
      · exact h2 (Or.inr hc)
      · rw [hba] at hc; cases hc
    rw [if_neg hna, if_neg h1]

/-- Witness of C33: key `uint32`, value `uint64`, `GetSetFromMapping`, with the
collaborators of the specification: both sides append `B`. -/
theorem StackPusherHelper.setGet_suffix_matches_witness :
    specCollaborators.lengthOfDictKey (.integer 32 false) = some 32 ∧
    IsDictValue (.integer 64 false) ∧ isByteArrayOrString (.integer 64 false) = false ∧
    ∃ suf, GetFromDict.opcode specCollaborators
        ⟨StackPusherHelper.ofSize 3, .integer 32 false, 32, .integer 64 false,
          StackPusherHelper.fresh, .GetSetFromMapping, false⟩ =
        "DICT" ++ specCollaborators.typeToDictChar (.integer 32 false) ++
          GetDictOperation.GetSetFromMapping.setGetName ++ suf ∧ suf = "B" :=
  ⟨rfl, Or.inl trivial, rfl,
    match StackPusherHelper.setGet_suffix_matches specCollaborators (.integer 32 false)
      (.integer 64 false) true 32 (StackPusherHelper.ofSize 3) rfl (Or.inl trivial) rfl
      (fun h => by simp [SolType.category] at h) (StackPusherHelper.ofSize 3)
      .GetSetFromMapping false _ rfl (Or.inl rfl) true (StackPusherHelper.ofSize 3) rfl with
    | ⟨suf, _, h2, _, _, h5⟩ => ⟨suf, h2, h5 (by simp [SolType.category]) (by
        simp [SolType.category])⟩⟩

/-! ## The stack effect of the lines of exchange (C34, C35) -/

theorem readExchange_short : ∀ j : Nat, j < 16 →
    readExchange ("XCHG s" ++ toString (j : Int)) = some (0, j) := by
  set_option maxRecDepth 100000 in decide

theorem readExchange_full : ∀ j : Nat, j < 256 →
    readExchange ("XCHG s0,s" ++ toString (j : Int)) = some (0, j) := by
  set_option maxRecDepth 100000 in decide

theorem readExchange_pair : ∀ i : Nat, i < 16 → ∀ j : Nat, j < 16 →
    readExchange ("XCHG s" ++ toString (i : Int) ++ ",s" ++ toString (j : Int)) =
      some (i, j) := by
  set_option maxRecDepth 100000 in decide

theorem swapDepths_spec {α : Type} (i j : Nat) (stack : List α) (hi : i < stack.length)
    (hj : j < stack.length) :
    ∃ r, swapDepths i j stack = some r ∧ r.length = stack.length ∧
      ∀ k, r[k]? = stack[swappedDepth i j k]? := by
  refine ⟨(stack.set i stack[j]).set j stack[i], ?_, by simp, ?_⟩
  · simp [swapDepths, List.getElem?_eq_getElem hi, List.getElem?_eq_getElem hj]
  · intro k
    unfold swappedDepth
    by_cases h1 : k = i
    · subst h1
      by_cases h2 : j = k
      · subst h2
        simp [List.getElem?_set, hj]
      · simp [List.getElem?_set, h2, hi, List.getElem?_eq_getElem hj]
    · by_cases h2 : k = j
      · subst h2
        simp [List.getElem?_set, h1, hj, List.getElem?_eq_getElem hi]
      · have h3 : ¬ i = k := fun h => h1 h.symm
        have h4 : ¬ j = k := fun h => h2 h.symm
        simp [List.getElem?_set, h1, h2, h3, h4]

/-- Two stacks of the same entries at every depth are equal. -/
theorem stack_ext {α : Type} (r s : List α) (h : ∀ k : Nat, r[k]? = s[k]?) : r = s :=
  List.ext_getElem? h

/-- Exchanging with the top three times, `(0 i) (0 j) (0 i)`, swaps the depths
`i` and `j` when they differ and are not the top. -/
theorem swapDepths_three {α : Type} (i j : Nat) (stack : List α) (hi : 1 ≤ i) (hij : i < j)
    (hj : j < stack.length) :
    ((swapDepths 0 i stack).bind fun s => (swapDepths 0 j s).bind (swapDepths 0 i)) =
      swapDepths i j stack := by
  have h0 : 0 < stack.length := by omega
  have hi2 : i < stack.length := by omega
  obtain ⟨r1, e1, l1, g1⟩ := swapDepths_spec 0 i stack h0 hi2
  obtain ⟨r2, e2, l2, g2⟩ := swapDepths_spec 0 j r1 (by omega) (by omega)
  obtain ⟨r3, e3, l3, g3⟩ := swapDepths_spec 0 i r2 (by omega) (by omega)
  obtain ⟨r, e, l, g⟩ := swapDepths_spec i j stack hi2 hj
  rw [e1, Option.some_bind, e2, Option.some_bind, e3, e]
  congr 1
  apply stack_ext
  intro k
  rw [g3, g2, g1, g]
  congr 1
  unfold swappedDepth
  split_ifs <;> omega

/-- Exchanging with the top three times at the same depth, `(0 i) (0 i) (0 i)`,
is one exchange with the top. -/
theorem swapDepths_thrice {α : Type} (i : Nat) (stack : List α) (hi : i < stack.length) :
    ((swapDepths 0 i stack).bind fun s => (swapDepths 0 i s).bind (swapDepths 0 i)) =
      swapDepths 0 i stack := by
  have h0 : 0 < stack.length := by omega
  obtain ⟨r1, e1, l1, g1⟩ := swapDepths_spec 0 i stack h0 hi
  obtain ⟨r2, e2, l2, g2⟩ := swapDepths_spec 0 i r1 (by omega) (by omega)
  obtain ⟨r3, e3, l3, g3⟩ := swapDepths_spec 0 i r2 (by omega) (by omega)
  rw [e1, Option.some_bind, e2, Option.some_bind, e3]
  congr 1
  apply stack_ext
  intro k
  rw [g3, g2, g1, g1]
  congr 1
  unfold swappedDepth
  split_ifs <;> omega

theorem execExchangeLines_append {α : Type} (a b : List String) : ∀ stack : List α,
    execExchangeLines (a ++ b) stack =
      (execExchangeLines a stack).bind (execExchangeLines b) := by
  induction a with
  | nil => intro stack; rfl
  | cons l a ih =>
    intro stack
    simp only [List.cons_append, execExchangeLines, Option.bind_eq_bind]
    cases readExchange l with
    | none => rfl
    | some ij =>
      simp only [Option.some_bind]
      cases swapDepths ij.1 ij.2 stack with
      | none => rfl
      | some s => simp only [Option.some_bind]; exact ih s

/-- The line of `exchange(0, j)` swaps the top with depth `j`. -/
theorem exec_exchangeSteps0 {α : Type} (j : Nat) (h1 : 1 ≤ j) (h255 : j ≤ 255)
    (stack : List α) :
    execExchangeLines ((exchangeSteps0 (j : Int)).map Prod.snd) stack =
      swapDepths 0 j stack := by
  have hone : ∀ (line : String) (i k : Nat), readExchange line = some (i, k) →
      execExchangeLines [line] stack = swapDepths i k stack := by
    intro line i k h
    simp only [execExchangeLines, h, Option.bind_eq_bind, Option.some_bind]
    cases swapDepths i k stack <;> rfl
  unfold exchangeSteps0
  by_cases a : (j : Int) = 1
  · have : j = 1 := by omega
    subst this
    simp only [a, if_true, List.map_cons, List.map_nil]
    exact hone _ 0 1 (by decide)
  · by_cases b : (j : Int) ≤ 15
    · simp only [a, b, if_true, if_false, List.map_cons, List.map_nil]
      exact hone _ 0 j (readExchange_short j (by omega))
    · simp only [a, b, if_false, List.map_cons, List.map_nil]
      exact hone _ 0 j (readExchange_full j (by omega))

/-- The lines of `exchange(i, j)` for `i < j <= 255` swap the depths `i` and
`j`. -/
theorem exec_exchangeSteps {α : Type} (i j : Nat) (hij : i < j) (h255 : j ≤ 255)
    (stack : List α) (hd : j < stack.length) :
    execExchangeLines ((exchangeSteps (i : Int) (j : Int)).map Prod.snd) stack =
      swapDepths i j stack := by
  unfold exchangeSteps
  by_cases a : (i : Int) = 0
  · have : i = 0 := by omega
    subst this
    simp only [a, if_true]
    exact exec_exchangeSteps0 j (by omega) h255 stack
  · by_cases b : (i : Int) < j ∧ (j : Int) ≤ 15
    · simp only [a, b, and_self, if_true, if_false, List.map_cons, List.map_nil,
        execExchangeLines, readExchange_pair i (by omega) j (by omega), Option.bind_eq_bind,
        Option.some_bind]
      cases swapDepths i j stack <;> rfl
    · simp only [a, b, if_false, List.map_append, execExchangeLines_append]
      rw [exec_exchangeSteps0 i (by omega) (by omega) stack]
      have hrest : ∀ s : List α,
          (execExchangeLines (List.map Prod.snd (exchangeSteps0 (j : Int))) s).bind
            (execExchangeLines (List.map Prod.snd (exchangeSteps0 (i : Int)))) =
          (swapDepths 0 j s).bind (swapDepths 0 i) := by
        intro s
        rw [exec_exchangeSteps0 j (by omega) h255 s]
        congr 1
        funext t
        exact exec_exchangeSteps0 i (by omega) (by omega) t
      rw [← swapDepths_three i j stack (by omega) hij hd]
      cases h : swapDepths 0 i stack with
      | none => rfl
      | some s =>
        simp only [Option.some_bind, Option.bind_eq_bind]
        rw [← hrest s]

/-- C34: reading `SWAP` as swapping the two top stack entries, `XCHG sj` and
`XCHG s0,sj` as swapping the top entry with the entry at depth `j`, and
`XCHG si,sj` as swapping the entries at depths `i` and `j`: for every
`0 <= i < j <= 255` and every stack deeper than `j`, `exchange(i, j)` succeeds
and executing the lines it records yields the original stack with exactly the
entries at depths `i` and `j` swapped; this holds in particular for the three
exchanges with the top that are composed when `j > 15` and `i >= 1`. -/
theorem StackPusherHelper.exchange_swaps {α : Type} (i j : Nat) (hij : i < j) (h255 : j ≤ 255)
    (p : StackPusherHelper) (ht : 0 ≤ p.m_code.tabQty) (hs : 0 ≤ p.m_stack.m_size)
    (stack : List α) (hd : j < stack.length) :
    StackPusherHelper.exchange (i : Int) (j : Int) p =
      some (StackPusherHelper.emitted (exchangeSteps (i : Int) (j : Int)) p) ∧
    (StackPusherHelper.emitted (exchangeSteps (i : Int) (j : Int)) p).m_code.lines =
      p.m_code.lines ++ ((exchangeSteps (i : Int) (j : Int)).map Prod.snd).map
        (indented p.m_code.tabQty) ∧
    (∃ r, execExchangeLines ((exchangeSteps (i : Int) (j : Int)).map Prod.snd) stack = some r ∧
      r.length = stack.length ∧ r[i]? = stack[j]? ∧ r[j]? = stack[i]? ∧
      ∀ k : Nat, k ≠ i → k ≠ j → r[k]? = stack[k]?) ∧
    (1 ≤ i → 15 < j → exchangeSteps (i : Int) (j : Int) =
      exchangeSteps0 (i : Int) ++ exchangeSteps0 (j : Int) ++ exchangeSteps0 (i : Int)) := by
  refine ⟨StackPusherHelper.exchange_run i j p ht hs (by omega) (by omega) (by omega) (by omega),
    ?_, ?_, ?_⟩
  · rw [StackPusherHelper.emitted_lines _ p (exchangeSteps_two_le _ _), List.map_map]
    rfl
  · obtain ⟨r, e, l, g⟩ := swapDepths_spec i j stack (by omega) hd
    refine ⟨r, ?_, l, ?_, ?_, ?_⟩
    · rw [exec_exchangeSteps i j hij h255 stack hd, e]
    · rw [g]; simp [swappedDepth]
    · rw [g]
      have : j ≠ i := by omega
      simp [swappedDepth, this]
    · intro k h1 h2
      rw [g]; simp [swappedDepth, h1, h2]
  · intro h1 h15
    have a : (i : Int) ≠ 0 := by omega
    have b : ¬ ((i : Int) < j ∧ (j : Int) ≤ 15) := by omega
    unfold exchangeSteps
    rw [if_neg a, if_neg b]

/-- Witness of C34: `exchange(2, 20)` on the stack 0, 1, ..., 20. -/
theorem StackPusherHelper.exchange_swaps_witness :
    (2 : Nat) < 20 ∧ (20 : Nat) ≤ 255 ∧ (20 : Nat) < (List.range 21).length ∧
    (exchangeSteps ((2 : Nat) : Int) ((20 : Nat) : Int)).map Prod.snd =
      ["XCHG s2", "XCHG s0,s20", "XCHG s2"] ∧
    ∃ r, execExchangeLines ((exchangeSteps ((2 : Nat) : Int) ((20 : Nat) : Int)).map Prod.snd)
        (List.range 21) = some r ∧
      r.length = (List.range 21).length ∧ r[2]? = (List.range 21)[20]? ∧
      r[20]? = (List.range 21)[2]? ∧
      ∀ k : Nat, k ≠ 2 → k ≠ 20 → r[k]? = (List.range 21)[k]? :=
  ⟨by decide, by decide, by decide, by decide,
    (StackPusherHelper.exchange_swaps 2 20 (by decide) (by decide) (StackPusherHelper.ofSize 21)
      (by decide) (by decide) (List.range 21) (by decide)).2.2.1⟩

/-- C35 (the code at the failing inputs): for every `1 <= i <= 255`,
`exchange(i, i)` succeeds and records the line of `exchange(0, i)` three times;
under the reading of C34, executing them on a stack deeper than `i` swaps the
top entry with the entry at depth `i`, so the stack is left unchanged only when
these two entries are equal: `exchange(i, i)` is not a no-op. -/
theorem StackPusherHelper.exchange_same_depth {α : Type} (i : Nat) (h1 : 1 ≤ i)
    (h255 : i ≤ 255) (p : StackPusherHelper) (ht : 0 ≤ p.m_code.tabQty)
    (hs : 0 ≤ p.m_stack.m_size) (stack : List α) (hd : i < stack.length) :
    StackPusherHelper.exchange (i : Int) (i : Int) p =
      some (StackPusherHelper.emitted (exchangeSteps (i : Int) (i : Int)) p) ∧
    exchangeSteps (i : Int) (i : Int) =
      exchangeSteps0 (i : Int) ++ exchangeSteps0 (i : Int) ++ exchangeSteps0 (i : Int) ∧
    (∃ r, execExchangeLines ((exchangeSteps (i : Int) (i : Int)).map Prod.snd) stack = some r ∧
      r.length = stack.length ∧ r[0]? = stack[i]? ∧ r[i]? = stack[0]? ∧
      (∀ k : Nat, k ≠ 0 → k ≠ i → r[k]? = stack[k]?) ∧
      (r = stack ↔ stack[0]? = stack[i]?)) := by
  have a : (i : Int) ≠ 0 := by omega
  have hsteps : exchangeSteps (i : Int) (i : Int) =
      exchangeSteps0 (i : Int) ++ exchangeSteps0 (i : Int) ++ exchangeSteps0 (i : Int) := by
    have b : ¬ ((i : Int) < i ∧ (i : Int) ≤ 15) := by omega
    unfold exchangeSteps
    rw [if_neg a, if_neg b]
  refine ⟨StackPusherHelper.exchange_run i i p ht hs (by omega) (le_refl _) (by omega)
    (by omega), hsteps, ?_⟩
  obtain ⟨r, e, l, g⟩ := swapDepths_spec 0 i stack (by omega) hd
  have hexec : execExchangeLines ((exchangeSteps (i : Int) (i : Int)).map Prod.snd) stack =
      some r := by
    rw [hsteps, List.map_append, List.map_append, execExchangeLines_append,
      execExchangeLines_append, ← e, ← swapDepths_thrice i stack hd,
      exec_exchangeSteps0 i h1 h255 stack]
    cases swapDepths 0 i stack with
    | none => rfl
    | some s =>
      simp only [Option.some_bind, Option.bind_eq_bind]
      rw [exec_exchangeSteps0 i h1 h255 s]
      cases swapDepths 0 i s with
      | none => rfl
      | some t =>
        simp only [Option.some_bind]
        exact exec_exchangeSteps0 i h1 h255 t
  have h0 : r[0]? = stack[i]? := by rw [g]; simp [swappedDepth]
  have hi : r[i]? = stack[0]? := by
    rw [g]
    have : i ≠ 0 := by omega
    simp [swappedDepth, this]
  refine ⟨r, hexec, l, h0, hi, ?_, ?_⟩
  · intro k k0 ki
    rw [g]; simp [swappedDepth, k0, ki]
  · constructor
    · intro hr
      rw [← h0, hr]
    · intro hst
      apply stack_ext
      intro k
      rw [g]
      unfold swappedDepth
      split_ifs with c1 c2
      · rw [c1, hst]
      · rw [c2, hst]
      · rfl

/-- Witness of C35: `exchange(1, 1)` records `SWAP` three times, which turns
the stack 7, 8 into 8, 7. -/
theorem StackPusherHelper.exchange_same_depth_witness :
    (1 : Nat) ≤ 1 ∧ (1 : Nat) ≤ 255 ∧ (1 : Nat) < [7, 8].length ∧
    (exchangeSteps ((1 : Nat) : Int) ((1 : Nat) : Int)).map Prod.snd =
      ["SWAP", "SWAP", "SWAP"] ∧
    execExchangeLines ((exchangeSteps ((1 : Nat) : Int) ((1 : Nat) : Int)).map Prod.snd)
      [7, 8] = some [8, 7] ∧
    StackPusherHelper.exchange ((1 : Nat) : Int) ((1 : Nat) : Int) (StackPusherHelper.ofSize 2) =
      some (StackPusherHelper.emitted (exchangeSteps ((1 : Nat) : Int) ((1 : Nat) : Int))
        (StackPusherHelper.ofSize 2)) :=
  ⟨by decide, by decide, by decide, by decide, by decide,
    (StackPusherHelper.exchange_same_depth 1 (by decide) (by decide)
      (StackPusherHelper.ofSize 2) (by decide) (by decide) ([7, 8] : List Nat) (by decide)).1⟩

/-! ## The inverse of binaryStringToSlice (C37) -/

theorem hexDigitBits_hexDigit (a b c d : Char) (ha : a = '0' ∨ a = '1')
    (hb : b = '0' ∨ b = '1') (hc : c = '0' ∨ c = '1') (hd : d = '0' ∨ d = '1') :
    hexDigitBits (hexDigit (bitValue [a, b, c, d])) = [a, b, c, d] := by
  rcases ha with rfl | rfl <;> rcases hb with rfl | rfl <;> rcases hc with rfl | rfl <;>
    rcases hd with rfl | rfl <;> decide

theorem hexToBits_hexDigitsOf (n : Nat) : ∀ l : List Char, l.length = 4 * n →
    (∀ c ∈ l, c = '0' ∨ c = '1') → hexToBits (hexDigitsOf l) = l := by
  induction n with
  | zero =>
    intro l hl _
    have : l = [] := List.length_eq_zero.mp (by omega)
    subst this
    rfl
  | succ n ih =>
    intro l hl hb
    match l, hl, hb with
    | a :: b :: c :: d :: rest, hl, hb =>
      have h1 := hexDigitBits_hexDigit a b c d (hb a (by simp)) (hb b (by simp))
        (hb c (by simp)) (hb d (by simp))
      have h2 := ih rest (by simp at hl; omega) (fun x hx => hb x (by simp [hx]))
      simp only [hexDigitsOf, hexToBits, h1, h2, List.cons_append, List.nil_append]
    | [], hl, _ => simp at hl
    | [_], hl, _ => simp at hl ; omega
    | [_, _], hl, _ => simp at hl ; omega
    | [_, _, _], hl, _ => simp at hl ; omega

theorem stripCompletionTag_padded (l : List Char) (k : Nat) :
    stripCompletionTag (l ++ '1' :: List.replicate k '0') = l := by
  have h : ∀ (k : Nat) (t : List Char),
      (List.replicate k '0' ++ '1' :: t).dropWhile (fun c => c = '0') = '1' :: t := by
    intro k t
    induction k with
    | zero => simp [List.dropWhile_cons]
    | succ k ih =>
      rw [List.replicate_succ, List.cons_append, List.dropWhile_cons]
      simp only [decide_True, if_true]
      exact ih
  unfold stripCompletionTag
  rw [List.reverse_append, List.reverse_cons, List.reverse_replicate, List.append_assoc,
    List.singleton_append, h]
  simp

theorem getLast?_not_mem (l : List Char) (c : Char) (h : c ∉ l) : l.getLast? ≠ some c := by
  intro hc
  exact h (List.mem_of_getLast?_eq_some hc)

/-- The reading of the slice literal of a bit string gives the bit string
back. -/
theorem sliceToBits_binaryStringToSlice (s : String) (hb : IsBitString s) :
    ∃ hex, binaryStringToSlice s = some hex ∧ sliceToBits hex = s.data ∧
      (hex.data.getLast? = some '_' ↔ s.length % 4 ≠ 0) := by
  rw [binaryStringToSlice_eq]
  by_cases h : s.length % 4 = 0
  · obtain ⟨h1, _, h3⟩ := hexGroups_digits (s.length / 4) s.data
      (by rw [← String.length_eq_data]; omega) hb
    have hl := getLast?_not_mem _ '_' h3
    refine ⟨String.mk (hexDigitsOf s.data), by simp [h, h1], ?_, ?_⟩
    · simp only [sliceToBits, hl, if_false]
      exact hexToBits_hexDigitsOf (s.length / 4) s.data
        (by rw [← String.length_eq_data]; omega) hb
    · simp [hl, h]
  · have hlen : (s.data ++ '1' :: List.replicate (3 - s.length % 4) '0').length =
        4 * (s.length / 4 + 1) := by
      simp only [List.length_append, List.length_replicate, List.length_cons]
      rw [← String.length_eq_data]
      omega
    have hbits : ∀ c ∈ s.data ++ '1' :: List.replicate (3 - s.length % 4) '0',
        c = '0' ∨ c = '1' := by
      intro c hc
      simp only [List.mem_append, List.mem_cons, List.mem_replicate] at hc
      rcases hc with hc | hc | ⟨_, hc⟩
      · exact hb c hc
      · exact Or.inr hc
      · exact Or.inl hc
    obtain ⟨h1, _, _⟩ := hexGroups_digits (s.length / 4 + 1) _ hlen hbits
    have hdata : (String.mk (hexDigitsOf
        (s.data ++ '1' :: List.replicate (3 - s.length % 4) '0')) ++ "_").data =
        hexDigitsOf (s.data ++ '1' :: List.replicate (3 - s.length % 4) '0') ++ ['_'] := by
      rw [String.data_append]
    refine ⟨String.mk (hexDigitsOf
      (s.data ++ '1' :: List.replicate (3 - s.length % 4) '0')) ++ "_",
      by simp only [h, if_false, h1, Option.map_some'], ?_, ?_⟩
    · simp only [sliceToBits, hdata, List.getLast?_concat, if_true, List.dropLast_concat]
      rw [hexToBits_hexDigitsOf _ _ hlen hbits]
      exact stripCompletionTag_padded s.data _
    · simp [hdata, h, List.getLast?_concat]

/-- C37: `binaryStringToSlice` is injective on the bit strings, with an
explicit inverse: for every string `s` over `0` and `1` of any length it
returns a literal, and expanding the hexadecimal digits of that literal to four
bits each and, when the literal ends in `_` (which it does exactly when the
length of `s` is not a multiple of 4), removing the trailing `0` bits and the
last `1` bit gives back `s`; so two bit strings with the same literal are
equal. -/
theorem binaryStringToSlice_inverse (s : String) (hb : IsBitString s) :
    ∃ hex, binaryStringToSlice s = some hex ∧ String.mk (sliceToBits hex) = s ∧
      (hex.data.getLast? = some '_' ↔ s.length % 4 ≠ 0) ∧
      (hex.data.getLast? = some '_' →
        sliceToBits hex = stripCompletionTag (hexToBits hex.data.dropLast)) ∧
      (hex.data.getLast? ≠ some '_' → sliceToBits hex = hexToBits hex.data) ∧
      ∀ t : String, IsBitString t → binaryStringToSlice t = some hex → t = s := by
  obtain ⟨hex, h1, h2, h3⟩ := sliceToBits_binaryStringToSlice s hb
  refine ⟨hex, h1, by rw [h2], h3, ?_, ?_, ?_⟩
  · intro h; simp [sliceToBits, h]
  · intro h; simp [sliceToBits, h]
  · intro t ht hth
    obtain ⟨hex2, g1, g2, _⟩ := sliceToBits_binaryStringToSlice t ht
    rw [hth] at g1
    cases g1
    apply String.ext
    rw [← g2, h2]

/-- Witness of C37: the bit string `11001` and its literal `cc_`. -/
theorem binaryStringToSlice_inverse_witness :
    IsBitString "11001" ∧ binaryStringToSlice "11001" = some "cc_" ∧
    String.mk (sliceToBits "cc_") = "11001" ∧
    ∃ hex, binaryStringToSlice "11001" = some hex ∧ String.mk (sliceToBits hex) = "11001" :=
  ⟨by unfold IsBitString; decide, by decide, by decide,
    match binaryStringToSlice_inverse "11001" (by unfold IsBitString; decide) with
    | ⟨hex, h1, h2, _⟩ => ⟨hex, h1, h2⟩⟩

/-! ## Calibration of every operation (C3) -/

/-- Two runs in a row only add calibrated steps when each of them does. -/
theorem calibrated_follow {a b c : StackPusherHelper}
    (h1 : ∃ new, b.history = a.history ++ new ∧ Calibrated new)
    (h2 : ∃ new, c.history = b.history ++ new ∧ Calibrated new) :
    ∃ new, c.history = a.history ++ new ∧ Calibrated new := by
  obtain ⟨n1, e1, c1⟩ := h1
  obtain ⟨n2, e2, c2⟩ := h2
  exact ⟨n1 ++ n2, by rw [e2, e1, List.append_assoc], calibrated_append c1 c2⟩

theorem calibrated_stay (a : StackPusherHelper) :
    ∃ new, a.history = a.history ++ new ∧ Calibrated new :=
  ⟨[], by simp, calibrated_nil⟩

namespace StackPusherHelper

/-- An operation that returns a value next to the pusher. -/
theorem CalibratedOp.of_pair {α : Type} {f : StackPusherHelper → Option (α × StackPusherHelper)}
    (h : ∀ p r, f p = some r → ∃ new, r.2.history = p.history ++ new ∧ Calibrated new) :
    CalibratedOp (fun p => (f p).map Prod.snd) := by
  intro p q hq
  simp only [Option.map_eq_some'] at hq
  obtain ⟨r, hr, rfl⟩ := hq
  exact h p r hr

/-- An operation that leaves the recorded steps alone. -/
theorem CalibratedOp.of_history {f : StackPusherHelper → Option StackPusherHelper}
    (h : ∀ p q, f p = some q → q.history = p.history) : CalibratedOp f :=
  fun p q hq => ⟨[], by rw [h p q hq]; simp, calibrated_nil⟩

theorem calibrated_tryPollLastRetOpcode :
    CalibratedOp (fun p => some p.tryPollLastRetOpcode) := by
  refine CalibratedOp.of_history (fun p q h => ?_)
  simp only [Option.some.injEq] at h
  subst h
  unfold tryPollLastRetOpcode
  split_ifs
  · rfl
  · split
    · split_ifs <;> rfl
    · rfl

theorem calibrated_pollLastOpcode : CalibratedOp pollLastOpcode := by
  refine CalibratedOp.of_history (fun p q h => ?_)
  unfold pollLastOpcode at h
  split_ifs at h
  simp only [Option.some.injEq] at h
  subst h
  rfl

/-- What `append` does: the lines of the other buffer behind the indent, with
no step recorded and the stack model unchanged. -/
theorem append_lines (oth : CodeLines) (p q : StackPusherHelper) (h : append oth p = some q) :
    q.history = p.history ∧ q.m_stack = p.m_stack ∧
      q.m_code.lines = p.m_code.lines ++ oth.lines.map (indented p.m_code.tabQty) := by
  simp only [append, CodeLines.append, Option.bind_eq_bind, Option.bind_eq_some,
    Option.some.injEq] at h
  obtain ⟨c, hc, rfl⟩ := h
  refine ⟨rfl, rfl, ?_⟩
  split_ifs at hc with h1 h2
  · simp only [Option.some.injEq] at hc
    subst hc
    simp [h1]
  · simp only [Option.some.injEq] at hc
    subst hc
    rfl

/-- What `startContinuation` does: the opening line behind the indent, with no
step recorded and the stack model unchanged. -/
theorem startContinuation_lines (p q : StackPusherHelper) (h : startContinuation p = some q) :
    q.history = p.history ∧ q.m_stack = p.m_stack ∧
      q.m_code.lines = p.m_code.lines ++ [indented p.m_code.tabQty "PUSHCONT \x7b"] := by
  simp only [startContinuation, CodeLines.startContinuation, CodeLines.push,
    Option.bind_eq_bind, Option.bind_eq_some, Option.some.injEq] at h
  obtain ⟨c, ⟨c1, hc1, rfl⟩, rfl⟩ := h
  refine ⟨rfl, rfl, ?_⟩
  rw [if_neg (by decide), if_neg (by decide)] at hc1
  split_ifs at hc1
  simp only [Option.some.injEq] at hc1
  subst hc1
  rfl

/-- What `endContinuation` does: the closing brace one indent back, with no
step recorded and the stack model unchanged. -/
theorem endContinuation_lines (p q : StackPusherHelper) (h : endContinuation p = some q) :
    q.history = p.history ∧ q.m_stack = p.m_stack ∧
      q.m_code.lines = p.m_code.lines ++ [indented (p.m_code.tabQty - 1) "\x7d"] := by
  simp only [endContinuation, CodeLines.endContinuation, CodeLines.push, CodeLines.subTabs,
    Option.bind_eq_bind, Option.bind_eq_some] at h
  obtain ⟨c, ⟨c1, hc1, hc2⟩, hq⟩ := h
  simp only [Option.some.injEq] at hq
  subst hq
  refine ⟨rfl, rfl, ?_⟩
  rw [if_neg (by decide), if_neg (by decide)] at hc1
  split_ifs at hc1 hc2
  simp only [Option.some.injEq] at hc1 hc2
  subst hc2
  subst hc1
  rfl

theorem calibrated_append_call (oth : CodeLines) : CalibratedOp (append oth) :=
  CalibratedOp.of_history (fun p q h => (append_lines oth p q h).1)

theorem calibrated_addTabs (qty : Int) : CalibratedOp (fun p => some (addTabs qty p)) := by
  refine CalibratedOp.of_history (fun p q h => ?_)
  simp only [Option.some.injEq] at h
  subst h
  rfl

theorem calibrated_subTabs (qty : Int) : CalibratedOp (fun p => some (subTabs qty p)) := by
  refine CalibratedOp.of_history (fun p q h => ?_)
  simp only [Option.some.injEq] at h
  subst h
  rfl

/-- The steps of `pushCont` with any comment are calibrated: the opening line,
the lines of the continuation behind a tab with delta 0, the closing brace. -/
theorem calibrated_pushCont_comment (cont : CodeLines) (comment : String) :
    CalibratedOp (pushCont cont comment) := by
  unfold pushCont
  have hbody : CalibratedOp (fun p =>
      (pushEach (cont.lines.map (fun l => "\t" ++ l)) p).bind (push 1 "\x7d")) := by
    refine CalibratedOp.chain (calibrated_pushEach _ ?_) (calibrated_push1 _)
    intro l hl
    simp only [List.mem_map] at hl
    obtain ⟨l0, _, rfl⟩ := hl
    exact not_calibrated_of_head '\t' "\t" l0 [] rfl (by decide)
  exact CalibratedOp.ite _
    (CalibratedOp.chain (calibrated_push0 "PUSHCONT \x7b" (by decide) 0) hbody)
    (CalibratedOp.chain (calibrated_push0 _ (not_calibrated_of_start "PUSHCONT \x7b ; "
      comment (by decide) (by decide)) 0) hbody)

theorem calibrated_generateGlobl (fname : String) (isPublic : Bool) :
    CalibratedOp (generateGlobl fname isPublic) := by
  unfold generateGlobl
  simp only [String.append_assoc]
  exact CalibratedOp.chain (calibrated_headed '.' ".globl\t" _ _ _ rfl (by decide))
    (CalibratedOp.ite _
      (CalibratedOp.chain (calibrated_headed '.' ".public\t" _ _ _ rfl (by decide))
        (calibrated_headed '.' ".type\t" _ _ _ rfl (by decide)))
      (CalibratedOp.chain CalibratedOp.skip
        (calibrated_headed '.' ".type\t" _ _ _ rfl (by decide))))

theorem calibrated_generateInternal (fname : String) (id : Int) :
    CalibratedOp (generateInternal fname id) := by
  unfold generateInternal
  simp only [String.append_assoc]
  exact CalibratedOp.chain (calibrated_headed '.' ".internal-alias :" _ _ _ rfl (by decide))
    (calibrated_headed '.' ".internal\t:" _ _ _ rfl (by decide))

theorem calibrated_generateMacro (functionName : String) :
    CalibratedOp (generateMacro functionName) :=
  calibrated_headed '.' ".macro " _ _ _ rfl (by decide)

theorem calibrated_pushLog (sur : Surroundings) (str : String) :
    CalibratedOp (pushLog sur str) := by
  unfold pushLog
  exact CalibratedOp.ite _
    (calibrated_push0 _ (not_calibrated_of_start "PRINTSTR " str (by decide) (by decide)) 0)
    CalibratedOp.skip

theorem calibrated_getGlobOf (ctx : TVMCompilerContext) (vd : VariableDeclaration) :
    CalibratedOp (getGlobOf ctx vd) :=
  CalibratedOp.const_bind (ctx.getStateVarIndex vd) (fun index => calibrated_getGlob index)

theorem calibrated_setGlobOf (ctx : TVMCompilerContext) (vd : VariableDeclaration) :
    CalibratedOp (setGlobOf ctx vd) :=
  CalibratedOp.const_bind (ctx.getStateVarIndex vd)
    (fun index => CalibratedOp.ite _ CalibratedOp.fail (calibrated_setGlob index))

theorem calibrated_sendrawmsg : CalibratedOp sendrawmsg :=
  calibrated_push0 "SENDRAWMSG" (by decide) (-2)

theorem calibrated_pushZeroAddress : CalibratedOp pushZeroAddress := calibrated_push1 _

theorem calibrated_literalToSliceAddress (value : Nat) (pushSlice : Bool) :
    CalibratedOp (fun p => (literalToSliceAddress value pushSlice p).map Prod.snd) := by
  refine CalibratedOp.of_pair (fun p r h => ?_)
  cases pushSlice
  · simp only [literalToSliceAddress, Bool.false_eq_true, if_false, Option.bind_eq_bind,
      Option.some_bind, Option.some.injEq] at h
    subst h
    exact calibrated_stay p
  · simp only [literalToSliceAddress, if_true, Option.bind_eq_bind, Option.bind_eq_some,
      Option.some.injEq] at h
    obtain ⟨hex, _, q, hq, rfl⟩ := h
    exact calibrated_push1 _ p q hq

theorem calibrated_tryImplicitConvert (leftType rightType : SolType) :
    CalibratedOp (fun p => (tryImplicitConvert leftType rightType p).map Prod.snd) := by
  refine CalibratedOp.of_pair (fun p r h => ?_)
  unfold tryImplicitConvert at h
  split_ifs at h
  · split at h
    · exact calibrated_with_flag (calibrated_push1 _) p true r h
    · cases h
  · simp only [Option.some.injEq] at h
    subst h
    exact calibrated_stay p

theorem calibrated_pushPrivateFunctionOrMacroCall (stackDelta : Int) (fname : String) :
    CalibratedOp (pushPrivateFunctionOrMacroCall stackDelta fname) := by
  unfold pushPrivateFunctionOrMacroCall
  simp only [String.append_assoc]
  exact calibrated_headed 'C' "CALL $" _ _ _ rfl (by decide)

theorem calibrated_pushCall (functionName : String) (ps rs : SolTypes) :
    CalibratedOp (pushCall functionName ps rs) := by
  unfold pushCall
  simp only [String.append_assoc]
  exact calibrated_headed 'C' "CALL $" _ _ _ rfl (by decide)

theorem calibrated_tryAssignParam (name : Declaration) :
    CalibratedOp (fun p => (tryAssignParam name p).map Prod.snd) := by
  refine CalibratedOp.of_pair (fun p r h => ?_)
  unfold tryAssignParam at h
  split_ifs at h
  · simp only [Option.bind_eq_bind, Option.bind_eq_some] at h
    obtain ⟨idx, _, h⟩ := h
    split_ifs at h
    · simp only [Option.some.injEq] at h
      subst h
      exact calibrated_stay p
    · exact calibrated_with_flag (calibrated_push0 "NIP" (by decide) (-1)) p true r h
    · exact calibrated_with_flag (calibrated_push0 _
        (not_calibrated_of_start "POP s" (toString idx) (by decide) (by decide)) (-1)) p true r h
  · simp only [Option.some.injEq] at h
    subst h
    exact calibrated_stay p

theorem calibrated_ensureValueFitsType (typeName : ElementaryTypeNameToken) :
    CalibratedOp (ensureValueFitsType typeName) := by
  unfold ensureValueFitsType
  refine CalibratedOp.chain (calibrated_headed ';' ";; " _ _ _ rfl (by decide)) ?_
  cases typeName.token
  · exact calibrated_headed 'F' "FITS " _ _ _ rfl (by decide)
  · exact calibrated_headed 'U' "UFITS " _ _ _ rfl (by decide)
  · exact calibrated_headed 'U' "UFITS " _ _ _ rfl (by decide)
  · exact calibrated_push0 "FITS 256" (by decide) 0
  · exact CalibratedOp.skip
  · exact calibrated_push0 "UFITS 256" (by decide) 0
  · exact calibrated_push0 "FITS 1" (by decide) 0
  · exact CalibratedOp.fail

end StackPusherHelper
namespace StackPusherHelper

/-- Every `NEWC`, `NEWDICT` and `PUSHINT 0` of `pushDefaultValue` is pushed with
+1, for every type, when `createDefaultStruct` is calibrated. -/
theorem calibrated_pushDefaultValue_any (env : Collaborators) (sur : Surroundings)
    (hout : OutsideCalibrated env sur) (type : SolType) (isResultBuilder : Bool) :
    CalibratedOp (pushDefaultValue env type isResultBuilder) := by
  cases type with
  | struct id =>
    exact (hout.createDefaultStruct (.struct id) isResultBuilder).transport
      (fun p => by simp only [pushDefaultValue])
  | _ =>
    exact calibrated_pushDefaultValue env hout.store _ (by intro h; cases h) isResultBuilder

/-- The loop of `resetAllStateVars` is calibrated. -/
theorem calibrated_resetEach (env : Collaborators) (sur : Surroundings)
    (hout : OutsideCalibrated env sur) (ctx : TVMCompilerContext) :
    ∀ vars : List VariableDeclaration, CalibratedOp (resetEach env sur ctx vars)
  | [] => CalibratedOp.skip
  | var :: rest =>
    (CalibratedOp.chain (calibrated_pushDefaultValue_any env sur hout (sur.type var) false)
      (CalibratedOp.chain (calibrated_setGlobOf ctx var)
        (calibrated_resetEach env sur hout ctx rest))).transport
      (fun p => by simp only [resetEach, Option.bind_eq_bind])

theorem calibrated_resetAllStateVars (env : Collaborators) (sur : Surroundings)
    (hout : OutsideCalibrated env sur) (ast : AstView) (ctx : TVMCompilerContext) :
    CalibratedOp (resetAllStateVars env sur ast ctx) := by
  unfold resetAllStateVars
  exact CalibratedOp.chain (calibrated_push0 ";; set default state vars" (by decide) 0)
    (CalibratedOp.const_bind (ctx.notConstantStateVariables ast) (fun vars =>
      CalibratedOp.chain (calibrated_resetEach env sur hout ctx vars)
        (calibrated_push0 ";; end set default state vars" (by decide) 0)))

/-- The loop of `sendIntMsg` is calibrated when the expression compiler is. -/
theorem calibrated_compileEach (sur : Surroundings)
    (hc : ∀ e, CalibratedOp (sur.compileNewExpr e)) :
    ∀ exprs : List (Int × Expression), CalibratedOp (compileEach sur exprs)
  | [] => CalibratedOp.skip
  | (_, expr) :: rest =>
    (CalibratedOp.chain (hc expr) (calibrated_compileEach sur hc rest)).transport
      (fun p => by simp only [compileEach, Option.bind_eq_bind])

/-- One emitter of a sequence, seen from a run of the sequence. -/
theorem calibrated_bind_step {f g : StackPusherHelper → Option StackPusherHelper}
    (hf : CalibratedOp f) {p q : StackPusherHelper} (h : (f p).bind g = some q)
    (hg : ∀ r, g r = some q → ∃ new, q.history = r.history ++ new ∧ Calibrated new) :
    ∃ new, q.history = p.history ++ new ∧ Calibrated new := by
  rcases hfp : f p with _ | r
  · rw [hfp] at h; cases h
  · rw [hfp, Option.some_bind] at h
    exact calibrated_follow (hf p r hfp) (hg r h)

/-- With calibrated callbacks every `NEWC` and `PUSHINT k` of `sendMsg` is
pushed with +1. -/
theorem calibrated_sendMsg_callbacks (env : Collaborators) (R : Finset Int)
    (C : Int → Option String)
    (appendBody : Option (Int → StackPusherHelper → Option StackPusherHelper))
    (appendStateInit pushSendrawmsgFlag : Option (StackPusherHelper → Option StackPusherHelper))
    (isInternalMessage : Bool)
    (hb : ∀ f n, appendBody = some f → CalibratedOp (f n))
    (hi : ∀ f, appendStateInit = some f → CalibratedOp f)
    (hf : ∀ f, pushSendrawmsgFlag = some f → CalibratedOp f) :
    CalibratedOp (sendMsg env R C appendBody appendStateInit pushSendrawmsgFlag
      isInternalMessage) := by
  intro p q h
  cases isInternalMessage
  · rcases hr : ext_msg_info env R p with _ | ⟨⟨bs, n⟩, p1⟩
    · simp [sendMsg, hr] at h
    · refine calibrated_follow (calibrated_ext_msg_info env R p _ hr) ?_
      cases appendStateInit <;> cases appendBody <;> cases pushSendrawmsgFlag <;>
        simp only [sendMsg, hr, Option.bind_eq_bind, Option.some_bind, Bool.false_eq_true,
          if_false] at h <;>
        repeat (first
          | exact calibrated_sendrawmsg _ _ h
          | refine calibrated_bind_step (calibrated_appendToBuilder _) h (fun r h => ?_)
          | refine calibrated_bind_step (calibrated_push0 "ENDC" (by decide) 0) h (fun r h => ?_)
          | refine calibrated_bind_step (calibrated_pushInt _) h (fun r h => ?_)
          | refine calibrated_bind_step (hb _ _ rfl) h (fun r h => ?_)
          | refine calibrated_bind_step (hi _ rfl) h (fun r h => ?_)
          | refine calibrated_bind_step (hf _ rfl) h (fun r h => ?_))
  · rcases hr : int_msg_info env R C p with _ | ⟨⟨bs, n⟩, p1⟩
    · simp [sendMsg, hr] at h
    · refine calibrated_follow (calibrated_int_msg_info env R C p _ hr) ?_
      cases appendStateInit <;> cases appendBody <;> cases pushSendrawmsgFlag <;>
        simp only [sendMsg, hr, Option.bind_eq_bind, Option.some_bind, if_true] at h <;>
        repeat (first
          | exact calibrated_sendrawmsg _ _ h
          | refine calibrated_bind_step (calibrated_appendToBuilder _) h (fun r h => ?_)
          | refine calibrated_bind_step (calibrated_push0 "ENDC" (by decide) 0) h (fun r h => ?_)
          | refine calibrated_bind_step (calibrated_pushInt _) h (fun r h => ?_)
          | refine calibrated_bind_step (hb _ _ rfl) h (fun r h => ?_)
          | refine calibrated_bind_step (hi _ rfl) h (fun r h => ?_)
          | refine calibrated_bind_step (hf _ rfl) h (fun r h => ?_))

theorem calibrated_sendIntMsg (env : Collaborators) (sur : Surroundings)
    (hout : OutsideCalibrated env sur) (exprs : List (Int × Expression))
    (C : Int → Option String)
    (appendBody : Option (Int → StackPusherHelper → Option StackPusherHelper))
    (pushSendrawmsgFlag : Option (StackPusherHelper → Option StackPusherHelper))
    (hb : ∀ f n, appendBody = some f → CalibratedOp (f n))
    (hf : ∀ f, pushSendrawmsgFlag = some f → CalibratedOp f) :
    CalibratedOp (sendIntMsg env sur exprs C appendBody pushSendrawmsgFlag) := by
  unfold sendIntMsg
  exact CalibratedOp.chain (calibrated_compileEach sur hout.compileNewExpr _)
    (calibrated_sendMsg_callbacks env _ C appendBody none pushSendrawmsgFlag true hb
      (fun _ h => nomatch h) hf)

/-- For a struct value every step of `prepareValueForDictOperations` is
calibrated when `tupleToBuilder` is. -/
theorem calibrated_prepareValue_struct (env : Collaborators)
    (htb : ∀ t, CalibratedOp (env.tupleToBuilder t)) (keyType vt : SolType)
    (isValueBuilder : Bool) (hs : vt.category = .Struct)
    (p : StackPusherHelper) (r : Bool × StackPusherHelper)
    (h : prepareValueForDictOperations env keyType vt isValueBuilder p = some r) :
    ∃ new, r.2.history = p.history ++ new ∧ Calibrated new := by
  have hint : isIntegralType vt = false := by
    cases vt <;> first | rfl | cases hs
  simp only [prepareValueForDictOperations, hint, Bool.false_eq_true, if_false, hs, if_true,
    Option.bind_eq_bind, Option.bind_eq_some] at h
  obtain ⟨L, _, h⟩ := h
  cases isValueBuilder
  · simp only [Bool.false_eq_true, if_false, Bool.not_false, if_true, Option.bind_eq_bind] at h
    split_ifs at h
    · exact calibrated_with_flag (htb vt) p true r h
    · exact calibrated_with_flag
        (CalibratedOp.chain (htb vt) (calibrated_push0 "ENDC" (by decide) 0)) p true r
        (by rw [← h]; simp [Option.bind_assoc])
  · simp only [if_true, Bool.not_true, Bool.false_eq_true, if_false, Option.bind_eq_bind,
      Option.some_bind] at h
    split_ifs at h
    · simp only [Option.some.injEq] at h
      subst h
      exact calibrated_stay p
    · exact calibrated_with_flag (calibrated_push0 "ENDC" (by decide) 0) p true r h

/-- Apart from the integral value that is not yet a builder, every `NEWC` of
`prepareValueForDictOperations` is pushed with +1. -/
theorem calibrated_prepareValue_any (env : Collaborators) (sur : Surroundings)
    (hout : OutsideCalibrated env sur) (keyType vt : SolType) (isValueBuilder : Bool)
    (hex : ¬ (isIntegralType vt = true ∧ isValueBuilder = false)) :
    CalibratedOp (fun p =>
      (prepareValueForDictOperations env keyType vt isValueBuilder p).map Prod.snd) := by
  refine CalibratedOp.of_pair (fun p r h => ?_)
  by_cases hs : vt.category = .Struct
  · exact calibrated_prepareValue_struct env hout.tupleToBuilder keyType vt isValueBuilder hs p r h
  · refine calibrated_prepareValue env keyType vt isValueBuilder hs ?_ p r h
    cases hi : isIntegralType vt
    · exact Or.inl rfl
    · cases hb : isValueBuilder
      · exact absurd ⟨hi, hb⟩ hex
      · exact Or.inr rfl

end StackPusherHelper
theorem CalibratedButDup.strict {h : List (Int × String)} (hc : CalibratedButDup False h) :
    Calibrated h := by
  intro e he hl
  rcases hc e he hl with h1 | ⟨h1, _⟩
  · exact h1
  · exact h1.elim

namespace GetFromDict

theorem steps_convert (env : Collaborators)
    (hc : ∀ t, StackPusherHelper.CalibratedOp (env.convertSliceToTuple t)) :
    Steps False (fun d => GetFromDict.onPusher (env.convertSliceToTuple d.valueType) d) :=
  Steps.emit (fun d => hc d.valueType)

theorem steps_createDefault (env : Collaborators)
    (hc : ∀ t b, StackPusherHelper.CalibratedOp (env.createDefaultStruct t b)) (b : Bool) :
    Steps False (fun d => GetFromDict.onPusher (env.createDefaultStruct d.valueType b) d) :=
  Steps.emit (fun d => hc d.valueType b)

theorem hook_onSmallStruct (env : Collaborators)
    (hc : ∀ t, StackPusherHelper.CalibratedOp (env.convertSliceToTuple t))
    (hd : ∀ t b, StackPusherHelper.CalibratedOp (env.createDefaultStruct t b)) :
    HookSteps (onSmallStruct env) := by
  have hSet : Steps False (fun d => if d.resultAsSliceForStruct = true then none else
      (GetFromDict.onPusher StackPusherHelper.startContinuation d).bind
      fun d => (GetFromDict.onPusher (env.convertSliceToTuple d.valueType) d).bind
      fun d => (GetFromDict.onPusher (StackPusherHelper.push 0 "TRUE") d).bind
      fun d => (GetFromDict.onPusher StackPusherHelper.endContinuation d).bind
      fun d => (pushContinuationWithDefaultValue env .False false d).bind
      fun d => GetFromDict.onPusher (StackPusherHelper.push (-1) "IFELSE") d) :=
    Steps.cond (fun d => d.resultAsSliceForStruct = true) Steps.never
      (Steps.next steps_start (Steps.next (steps_convert env hc) (Steps.next
        (steps_push 0 "TRUE" (by decide)) (Steps.next steps_end (Steps.next
          (steps_pcwd env .False false) (steps_push (-1) "IFELSE" (by decide)))))))
  intro d d1 h
  cases hop : d.op <;> simp only [onSmallStruct, hop] at h
  · exact (Steps.cond (fun d => d.resultAsSliceForStruct = true)
      (Steps.next (steps_pcwd env .Non false) (steps_push (-2) "IFNOT" (by decide)))
      (Steps.next steps_start (Steps.next (steps_convert env hc) (Steps.next steps_end
        (Steps.next steps_start (Steps.next (steps_createDefault env hd false)
          (Steps.next steps_end (steps_push (-2) "IFELSE" (by decide))))))))).hook
      d d1 h False.elim
  · exact hSet.hook d d1 h False.elim
  · exact (Steps.cond (fun d => d.resultAsSliceForStruct = true) Steps.never
      (Steps.next (steps_pcwd env .True false) (Steps.next steps_start
        (Steps.next (steps_convert env hc) (Steps.next (steps_push 0 "FALSE" (by decide))
          (Steps.next steps_end (steps_push (-1) "IFELSE" (by decide)))))))).hook
      d d1 h False.elim
  · exact hSet.hook d d1 h False.elim
  · exact (Steps.next (steps_throw env)
      (Steps.cond (fun d => (!d.resultAsSliceForStruct) = true) (steps_convert env hc)
        Steps.unit)).hook d d1 h False.elim
  · exact (Steps.next
      ((Steps.aside (fun d => env.convertSliceToTuple d.valueType)).widen False.elim)
      (steps_fetchValue env)).hook d d1 h (fun _ => Or.inl rfl)
  · exact steps_checkExist.hook d d1 h (fun _ => Or.inr rfl)

theorem hook_onLargeStruct (env : Collaborators)
    (hc : ∀ t, StackPusherHelper.CalibratedOp (env.convertSliceToTuple t)) :
    HookSteps (onLargeStruct env) := by
  have hSet : Steps False (fun d => if d.resultAsSliceForStruct = true then none else
      (GetFromDict.onPusher StackPusherHelper.startContinuation d).bind
      fun d => (GetFromDict.onPusher (StackPusherHelper.push 0 "CTOS") d).bind
      fun d => (GetFromDict.onPusher (env.convertSliceToTuple d.valueType) d).bind
      fun d => (GetFromDict.onPusher (StackPusherHelper.push 0 "TRUE") d).bind
      fun d => (GetFromDict.onPusher StackPusherHelper.endContinuation d).bind
      fun d => (pushContinuationWithDefaultValue env .False false d).bind
      fun d => (GetFromDict.onPusher (StackPusherHelper.push (-1) "") d).bind
      fun d => GetFromDict.onPusher (StackPusherHelper.push 0 "IFELSE") d) :=
    Steps.cond (fun d => d.resultAsSliceForStruct = true) Steps.never
      (Steps.next steps_start (Steps.next (steps_push 0 "CTOS" (by decide))
        (Steps.next (steps_convert env hc) (Steps.next
          (steps_push 0 "TRUE" (by decide)) (Steps.next steps_end (Steps.next
            (steps_pcwd env .False false) (Steps.next (steps_push (-1) "" (by decide))
              (steps_push 0 "IFELSE" (by decide)))))))))
  intro d d1 h
  cases hop : d.op <;> simp only [onLargeStruct, hop] at h
  · have hrest : ∀ y : StackPusherHelper, Steps False (fun d =>
        (GetFromDict.onPusher (StackPusherHelper.pushCont y.code "") d).bind
        fun d => (pushContinuationWithDefaultValue env .Non false d).bind
        fun d => GetFromDict.onPusher (StackPusherHelper.push (-3) "IFELSE") d) :=
      fun y => Steps.next (Steps.emit (fun _ => StackPusherHelper.calibrated_pushCont y.code))
        (Steps.next (steps_pcwd env .Non false) (steps_push (-3) "IFELSE" (by decide)))
    exact (Steps.sub
      (fun _ : GetFromDict => StackPusherHelper.push (-1 + 1) "CTOS" StackPusherHelper.fresh)
      (fun ph => Steps.cond (fun d => (!d.resultAsSliceForStruct) = true)
        (Steps.sub (fun d : GetFromDict => env.convertSliceToTuple d.valueType ph)
          (fun y => hrest y))
        (Steps.sub (fun _ : GetFromDict => some ph) (fun y => hrest y)))).hook
      d d1 h False.elim
  · exact hSet.hook d d1 h False.elim
  · exact (Steps.cond (fun d => d.resultAsSliceForStruct = true) Steps.never
      (Steps.next (steps_pcwd env .True false) (Steps.next steps_start
        (Steps.next (steps_push 0 "CTOS" (by decide)) (Steps.next (steps_convert env hc)
          (Steps.next (steps_push 0 "FALSE" (by decide))
            (Steps.next steps_end (steps_push (-1) "IFELSE" (by decide))))))))).hook
      d d1 h False.elim
  · exact hSet.hook d d1 h False.elim
  · exact (Steps.next (steps_throw env) (Steps.next (steps_push (-1 + 1) "CTOS" (by decide))
      (Steps.cond (fun d => (!d.resultAsSliceForStruct) = true) (steps_convert env hc)
        Steps.unit))).hook d d1 h False.elim
  · exact (Steps.next
      ((Steps.aside (fun _ => StackPusherHelper.push 0 "CTOS")).widen False.elim)
      (Steps.next
        ((Steps.aside (fun d => env.convertSliceToTuple d.valueType)).widen False.elim)
        (steps_fetchValue env))).hook d d1 h (fun _ => Or.inl rfl)
  · exact steps_checkExist.hook d d1 h (fun _ => Or.inr rfl)

theorem hook_dispatch_any (env : Collaborators)
    (hc : ∀ t, StackPusherHelper.CalibratedOp (env.convertSliceToTuple t))
    (hd : ∀ t b, StackPusherHelper.CalibratedOp (env.createDefaultStruct t b))
    (d d1 : GetFromDict)
    (h : DictOperation.doDictOperation env d.keyLength d.valueType
      (onCell env) (onSmallStruct env) (onLargeStruct env) (onAddress env)
      (onByteArrayOrString env) (onIntegralOrArrayOrVarInt env) (onMapOrECC env) d = some d1) :
    ∃ new, d1.pusher.history = d.pusher.history ++ new ∧
      CalibratedButDup (d.op = .Fetch ∨ d.op = .Exist) new := by
  by_cases hns : d.valueType.category = .Struct
  · unfold DictOperation.doDictOperation at h
    split_ifs at h
    · exact hook_onCell env d d1 h
    · exact hook_onSmallStruct env hc hd d d1 h
    · exact hook_onLargeStruct env hc d d1 h
  · exact hook_dispatch env d d1 hns h

end GetFromDict

namespace StackPusherHelper

/-- For every value type every `NEWC`, `DUP`, `NEWDICT` and `PUSHINT k` of
`getDict` on the pusher is pushed with +1, but for the `DUP` of `fetchValue`
and `checkExist` in the operations `Fetch` and `Exist`. -/
theorem calibrated_getDict_any (env : Collaborators)
    (hc : ∀ t, CalibratedOp (env.convertSliceToTuple t))
    (hd : ∀ t b, CalibratedOp (env.createDefaultStruct t b))
    (keyType valueType : SolType) (op : GetDictOperation) (resultAsSliceForStruct : Bool)
    (p q : StackPusherHelper)
    (h : getDict env keyType valueType op resultAsSliceForStruct p = some q) :
    ∃ new, q.history = p.history ++ new ∧ CalibratedButDup (op = .Fetch ∨ op = .Exist) new := by
  simp only [getDict, GetFromDict.create, GetFromDict.getDict, Option.bind_eq_bind,
    Option.bind_eq_some, Option.some.injEq] at h
  obtain ⟨d, ⟨L, _, rfl⟩, d2, ⟨d1, hd1, hd2⟩, rfl⟩ := h
  obtain ⟨hv, ho, n1, e1, c1⟩ := GetFromDict.steps_emitOpcode env _ d1 hd1
  simp only at hv ho e1
  obtain ⟨n2, e2, c2⟩ := GetFromDict.hook_dispatch_any env hc hd d1 d2 hd2
  rw [ho] at c2
  exact ⟨n1 ++ n2, by rw [e2, e1, List.append_assoc], (c1.allow False.elim).append c2⟩

/-- The steps of `generateC7ToT4Macro`: the first text is pushed line by line
with delta 0, its fourth line being `NEWC`; every later step is calibrated when
`stateVarsToBuilder` is. The size changes only in `stateVarsToBuilder`. -/
theorem generateC7ToT4Macro_history (sur : Surroundings)
    (hsv : CalibratedOp sur.stateVarsToBuilder) (ast : AstView) (ctx : TVMCompilerContext)
    (p q : StackPusherHelper) (h : generateC7ToT4Macro sur ast ctx p = some q) :
    ∃ rest, q.history = p.history ++ ([(0, ""), (0, ".macro\tc7_to_c4"), (0, "GETGLOB 2"),
      (0, "NEWC")] ++ rest) ∧ Calibrated rest := by
  have hl : ∀ ls : List String, (∀ l ∈ ls, ¬ IsCalibratedLine l) →
      CalibratedOp (pushEach ls) := calibrated_pushEach
  have h3 : CalibratedOp (fun y => (pushLines "\nENDC\nPOP C4\n" y).bind fun p =>
      push 0 " " p) :=
    CalibratedOp.chain (hl _ (by decide)) (calibrated_push0 " " (by decide) 0)
  have h2 : CalibratedOp (fun y => (pushLines "\nGETGLOB 6\nSTUR 1\n" y).bind fun p =>
      (ctx.notConstantStateVariables ast).bind fun vars =>
        if ¬ vars = [] then (sur.stateVarsToBuilder p).bind fun y =>
          (pushLines "\nENDC\nPOP C4\n" y).bind fun p => push 0 " " p
        else (pushLines "\nENDC\nPOP C4\n" p).bind fun p => push 0 " " p) :=
    CalibratedOp.chain (hl _ (by decide))
      (CalibratedOp.const_bind (ctx.notConstantStateVariables ast) (fun vars =>
        CalibratedOp.ite (¬ vars = []) (CalibratedOp.chain hsv h3) h3))
  rcases h1 : pushLines "\n.macro\tc7_to_c4\nGETGLOB 2\nNEWC\nSTU 256\n" p with _ | p1
  · simp [generateC7ToT4Macro, h1] at h
  · have e1 := (pushEach_history _ p p1 h1).1
    have hlines : getlines [] "\n.macro\tc7_to_c4\nGETGLOB 2\nNEWC\nSTU 256\n".data =
        ["", ".macro\tc7_to_c4", "GETGLOB 2", "NEWC", "STU 256"] := by decide
    rw [hlines] at e1
    simp only [generateC7ToT4Macro, h1, Option.bind_eq_bind, Option.some_bind] at h
    obtain ⟨n2, e2, c2⟩ := (CalibratedOp.const_bind ctx.storeTimestampInC4 (fun storeTimestamp =>
      CalibratedOp.ite (storeTimestamp = true)
        (CalibratedOp.chain (hl (getlines [] "\nGETGLOB 3\nSTUR 64\n".data) (by decide)) h2)
        h2)) p1 q h
    refine ⟨(0, "STU 256") :: n2, ?_, ?_⟩
    · rw [e2, e1]
      simp
    · exact calibrated_append (a := [(0, "STU 256")])
        (calibrated_single 0 "STU 256" (fun hc => absurd hc (by decide))) c2

end StackPusherHelper
/-- A run from an empty history that records a calibrated line with another
delta than +1 shows that the operation is not calibrated. -/
theorem not_calibratedOp_of_run {f : StackPusherHelper → Option StackPusherHelper}
    {p : StackPusherHelper} {hist : List (Int × String)} {size : Int} {lines : List String}
    (h : (f p).map (fun q => (q.history, q.m_stack.m_size, q.m_code.lines)) =
      some (hist, size, lines))
    (hp : p.history = []) (e : Int × String) (he : e ∈ hist) (hl : IsCalibratedLine e.2)
    (hd : e.1 ≠ 1) : ¬ StackPusherHelper.CalibratedOp f := by
  intro hc
  simp only [Option.map_eq_some', Prod.mk.injEq] at h
  obtain ⟨q, hq, hh, _, _⟩ := h
  obtain ⟨new, en, cn⟩ := hc p q hq
  rw [hp, List.nil_append, hh] at en
  rw [en] at he
  exact hd (cn e he hl)

theorem spec_outside_calibrated : OutsideCalibrated specCollaborators specSurroundings where
  store := spec_store_not_calibrated
  tupleToBuilder := fun _ => StackPusherHelper.CalibratedOp.skip
  convertSliceToTuple := fun _ => StackPusherHelper.CalibratedOp.skip
  createDefaultStruct := fun _ _ => StackPusherHelper.CalibratedOp.skip
  stateVarsToBuilder := StackPusherHelper.CalibratedOp.skip
  compileNewExpr := fun _ => StackPusherHelper.CalibratedOp.skip

set_option maxHeartbeats 8000000 in
/-- C3 (counterexample): runs in which a calibrated line is written with another
delta than +1, one for every kind of exception of the amended claim; the
operations run with the collaborators of the specification on the context of a
contract with one state variable.

* `push(0, "NEWC")` on a pusher of size 1 records the step `(0, NEWC)`: the size
  is still 1. `pushLines("NEWC\n")` and `push(const CodeLines&)` with the line
  `DUP` record their line with delta 0, and `append` writes `NEWC` to the buffer
  with no step at all.
* `generateC7ToT4Macro` writes `NEWC` with delta 0 through `pushLines`; the size
  is 0 before and after.
* For key `uint32` and value `uint64` that is not yet a builder,
  `prepareValueForDictOperations` pushes `NEWC` and `STU 64` with delta 0 each.
* For the same types `getDict` pushes `DUP` with delta 0 with `Fetch` (in
  `fetchValue`) and with `Exist` (in `checkExist`).

None of these operations is calibrated. The last part shows that the
operations inherit the steps of the code outside the file: with a
`createDefaultStruct` that pushes `NEWC` with delta 0, with a
`storeIntegralOrAddress` that answers `NEWC`, or with a callback `appendBody`
that pushes `NEWC` with delta 0, `pushDefaultValue` and `sendMsg` are not
calibrated either. -/
theorem StackPusherHelper.calibrated_line_with_delta_zero :
    ((StackPusherHelper.push 0 "NEWC" (StackPusherHelper.ofSize 1)).map
        (fun q => (q.history, q.m_stack.m_size, q.m_code.lines)) =
      some ([(0, "NEWC")], 1, ["NEWC"]) ∧
    (StackPusherHelper.pushLines "NEWC\n" (StackPusherHelper.ofSize 1)).map
        (fun q => (q.history, q.m_stack.m_size, q.m_code.lines)) =
      some ([(0, "NEWC")], 1, ["NEWC"]) ∧
    (StackPusherHelper.pushCode ⟨["DUP"], 0⟩ (StackPusherHelper.ofSize 1)).map
        (fun q => (q.history, q.m_stack.m_size, q.m_code.lines)) =
      some ([(0, "DUP")], 1, ["DUP"]) ∧
    (StackPusherHelper.append ⟨["NEWC"], 0⟩ (StackPusherHelper.ofSize 1)).map
        (fun q => (q.history, q.m_stack.m_size, q.m_code.lines)) =
      some ([], 1, ["NEWC"]) ∧
    (StackPusherHelper.generateC7ToT4Macro specSurroundings plainAst oneVarContext
        (StackPusherHelper.ofSize 0)).map
        (fun q => (q.history, q.m_stack.m_size, q.m_code.lines)) =
      some ([(0, ""), (0, ".macro\tc7_to_c4"), (0, "GETGLOB 2"), (0, "NEWC"), (0, "STU 256"),
          (0, ""), (0, "GETGLOB 3"), (0, "STUR 64"), (0, ""), (0, "GETGLOB 6"), (0, "STUR 1"),
          (0, ""), (0, "ENDC"), (0, "POP C4"), (0, " ")], 0,
        [".macro\tc7_to_c4", "GETGLOB 2", "NEWC", "STU 256", "GETGLOB 3", "STUR 64",
          "GETGLOB 6", "STUR 1", "ENDC", "POP C4", ""]) ∧
    (StackPusherHelper.prepareValueForDictOperations specCollaborators (.integer 32 false)
        (.integer 64 false) false (StackPusherHelper.ofSize 1)).map
        (fun r => (r.1, r.2.history, r.2.m_stack.m_size, r.2.m_code.lines)) =
      some (true, [(0, "NEWC"), (0, "STU 64")], 1, ["NEWC", "STU 64"]) ∧
    (StackPusherHelper.getDict specCollaborators (.integer 32 false) (.integer 64 false)
        .Fetch false (StackPusherHelper.ofSize 2)).map
        (fun q => (q.history, q.m_stack.m_size, q.m_code.lines)) =
      some ([(1, "PUSHINT 32"), (-1, "DICTUGET"), (0, "DUP"), (0, "PUSHCONT \x7b"),
          (0, "\tSWAP"), (0, "\tPLDU 64"), (1, "\x7d"), (0, "PUSHCONT \x7b"),
          (0, "\tPUSHINT 0"), (1, "\x7d"), (-2, "IFELSE")], 2,
        ["PUSHINT 32", "DICTUGET", "DUP", "PUSHCONT \x7b", "\tSWAP", "\tPLDU 64", "\x7d",
          "PUSHCONT \x7b", "\tPUSHINT 0", "\x7d", "IFELSE"]) ∧
    (StackPusherHelper.getDict specCollaborators (.integer 32 false) (.integer 64 false)
        .Exist false (StackPusherHelper.ofSize 2)).map
        (fun q => (q.history, q.m_stack.m_size, q.m_code.lines)) =
      some ([(1, "PUSHINT 32"), (-1, "DICTUGET"), (0, "DUP"), (0, "PUSHCONT \x7b"),
          (0, "\tNIP"), (1, "\x7d"), (-2, "IF")], 1,
        ["PUSHINT 32", "DICTUGET", "DUP", "PUSHCONT \x7b", "\tNIP", "\x7d", "IF"])) ∧
    (∀ op ∈ [Operation.push 0 "NEWC", Operation.pushLines "NEWC\n",
        Operation.pushCode ⟨["DUP"], 0⟩, Operation.generateC7ToT4Macro,
        Operation.prepareValueForDictOperations (.integer 32 false) (.integer 64 false) false,
        Operation.getDict (.integer 32 false) (.integer 64 false) .Fetch false,
        Operation.getDict (.integer 32 false) (.integer 64 false) .Exist false],
      ¬ StackPusherHelper.CalibratedOp
        (op.run specCollaborators specSurroundings plainAst oneVarContext)) ∧
    (¬ StackPusherHelper.CalibratedOp ((Operation.pushDefaultValue (.struct 0) false).run
        { specCollaborators with
          createDefaultStruct := fun _ _ p => StackPusherHelper.push 0 "NEWC" p }
        specSurroundings plainAst oneVarContext) ∧
      ¬ StackPusherHelper.CalibratedOp ((Operation.pushDefaultValue (.integer 8 false) true).run
        { specCollaborators with storeIntegralOrAddress := fun _ _ => "NEWC" }
        specSurroundings plainAst oneVarContext) ∧
      ¬ StackPusherHelper.CalibratedOp ((Operation.sendMsg ∅ (fun _ => none)
        (some (fun _ p => StackPusherHelper.push 0 "NEWC" p)) none none false).run
        specCollaborators specSurroundings plainAst oneVarContext)) := by
  have h1 : (StackPusherHelper.push 0 "NEWC" (StackPusherHelper.ofSize 1)).map
      (fun q => (q.history, q.m_stack.m_size, q.m_code.lines)) =
        some ([(0, "NEWC")], 1, ["NEWC"]) := by decide
  have h2 : (StackPusherHelper.pushLines "NEWC\n" (StackPusherHelper.ofSize 1)).map
      (fun q => (q.history, q.m_stack.m_size, q.m_code.lines)) =
        some ([(0, "NEWC")], 1, ["NEWC"]) := by decide
  have h3 : (StackPusherHelper.pushCode ⟨["DUP"], 0⟩ (StackPusherHelper.ofSize 1)).map
      (fun q => (q.history, q.m_stack.m_size, q.m_code.lines)) =
        some ([(0, "DUP")], 1, ["DUP"]) := by decide
  have h4 : (StackPusherHelper.append ⟨["NEWC"], 0⟩ (StackPusherHelper.ofSize 1)).map
      (fun q => (q.history, q.m_stack.m_size, q.m_code.lines)) =
        some ([], 1, ["NEWC"]) := by decide
  have h5 : (StackPusherHelper.generateC7ToT4Macro specSurroundings plainAst oneVarContext
      (StackPusherHelper.ofSize 0)).map
      (fun q => (q.history, q.m_stack.m_size, q.m_code.lines)) =
        some ([(0, ""), (0, ".macro\tc7_to_c4"), (0, "GETGLOB 2"), (0, "NEWC"), (0, "STU 256"),
          (0, ""), (0, "GETGLOB 3"), (0, "STUR 64"), (0, ""), (0, "GETGLOB 6"), (0, "STUR 1"),
          (0, ""), (0, "ENDC"), (0, "POP C4"), (0, " ")], 0,
        [".macro\tc7_to_c4", "GETGLOB 2", "NEWC", "STU 256", "GETGLOB 3", "STUR 64",
          "GETGLOB 6", "STUR 1", "ENDC", "POP C4", ""]) := by
    set_option maxRecDepth 100000 in decide
  have h6 : (StackPusherHelper.prepareValueForDictOperations specCollaborators
      (.integer 32 false) (.integer 64 false) false (StackPusherHelper.ofSize 1)).map
      (fun r => (r.1, r.2.history, r.2.m_stack.m_size, r.2.m_code.lines)) =
        some (true, [(0, "NEWC"), (0, "STU 64")], 1, ["NEWC", "STU 64"]) := by decide
  have h7 : (StackPusherHelper.getDict specCollaborators (.integer 32 false)
      (.integer 64 false) .Fetch false (StackPusherHelper.ofSize 2)).map
      (fun q => (q.history, q.m_stack.m_size, q.m_code.lines)) =
        some ([(1, "PUSHINT 32"), (-1, "DICTUGET"), (0, "DUP"), (0, "PUSHCONT \x7b"),
          (0, "\tSWAP"), (0, "\tPLDU 64"), (1, "\x7d"), (0, "PUSHCONT \x7b"),
          (0, "\tPUSHINT 0"), (1, "\x7d"), (-2, "IFELSE")], 2,
        ["PUSHINT 32", "DICTUGET", "DUP", "PUSHCONT \x7b", "\tSWAP", "\tPLDU 64", "\x7d",
          "PUSHCONT \x7b", "\tPUSHINT 0", "\x7d", "IFELSE"]) := by
    set_option maxRecDepth 100000 in decide
  have h8 : (StackPusherHelper.getDict specCollaborators (.integer 32 false)
      (.integer 64 false) .Exist false (StackPusherHelper.ofSize 2)).map
      (fun q => (q.history, q.m_stack.m_size, q.m_code.lines)) =
        some ([(1, "PUSHINT 32"), (-1, "DICTUGET"), (0, "DUP"), (0, "PUSHCONT \x7b"),
          (0, "\tNIP"), (1, "\x7d"), (-2, "IF")], 1,
        ["PUSHINT 32", "DICTUGET", "DUP", "PUSHCONT \x7b", "\tNIP", "\x7d", "IF"]) := by
    set_option maxRecDepth 100000 in decide
  have h6' : ((StackPusherHelper.prepareValueForDictOperations specCollaborators
      (.integer 32 false) (.integer 64 false) false (StackPusherHelper.ofSize 1)).map
      Prod.snd).map (fun q => (q.history, q.m_stack.m_size, q.m_code.lines)) =
        some ([(0, "NEWC"), (0, "STU 64")], 1, ["NEWC", "STU 64"]) := by
    rcases hr : StackPusherHelper.prepareValueForDictOperations specCollaborators
      (.integer 32 false) (.integer 64 false) false (StackPusherHelper.ofSize 1) with _ | r
    · rw [hr] at h6; cases h6
    · rw [hr] at h6
      simp only [Option.map_some', Option.some.injEq, Prod.mk.injEq] at h6 ⊢
      exact h6.2
  have h9 : (StackPusherHelper.pushDefaultValue
      { specCollaborators with
        createDefaultStruct := fun _ _ p => StackPusherHelper.push 0 "NEWC" p }
      (.struct 0) false (StackPusherHelper.ofSize 0)).map
      (fun q => (q.history, q.m_stack.m_size, q.m_code.lines)) =
        some ([(0, "NEWC")], 0, ["NEWC"]) := by decide
  have h10 : (StackPusherHelper.pushDefaultValue
      { specCollaborators with storeIntegralOrAddress := fun _ _ => "NEWC" }
      (.integer 8 false) true (StackPusherHelper.ofSize 0)).map
      (fun q => (q.history, q.m_stack.m_size, q.m_code.lines)) =
        some ([(1, "PUSHINT 0"), (1, "NEWC"), (-1, "NEWC")], 1,
          ["PUSHINT 0", "NEWC", "NEWC"]) := by decide
  have h11 : (StackPusherHelper.sendMsg specCollaborators ∅ (fun _ => none)
      (some (fun _ p => StackPusherHelper.push 0 "NEWC" p)) none none false
      (StackPusherHelper.ofSize 0)).map
      (fun q => (q.history, q.m_stack.m_size, q.m_code.lines)) =
        some ([(1, "NEWC"), (1, "PUSHSLICE xc0000000000000000000000002_"), (-1, "STSLICER"),
          (0, "STSLICECONST 0"), (0, "NEWC"), (0, "ENDC"), (1, "PUSHINT 0"),
          (-2, "SENDRAWMSG")], 0,
        ["NEWC", "PUSHSLICE xc0000000000000000000000002_", "STSLICER", "STSLICECONST 0",
          "NEWC", "ENDC", "PUSHINT 0", "SENDRAWMSG"]) := by
    set_option maxRecDepth 100000 in decide
  refine ⟨⟨h1, h2, h3, h4, h5, h6, h7, h8⟩, ?_,
    not_calibratedOp_of_run h9 rfl (0, "NEWC") (by decide) (by decide) (by decide),
    not_calibratedOp_of_run h10 rfl (-1, "NEWC") (by decide) (by decide) (by decide),
    not_calibratedOp_of_run h11 rfl (0, "NEWC") (by decide) (by decide) (by decide)⟩
  intro op hop
  simp only [List.mem_cons, List.mem_singleton, List.not_mem_nil, or_false] at hop
  rcases hop with rfl | rfl | rfl | rfl | rfl | rfl | rfl
  · exact not_calibratedOp_of_run h1 rfl (0, "NEWC") (by decide) (by decide) (by decide)
  · exact not_calibratedOp_of_run h2 rfl (0, "NEWC") (by decide) (by decide) (by decide)
  · exact not_calibratedOp_of_run h3 rfl (0, "DUP") (by decide) (by decide) (by decide)
  · exact not_calibratedOp_of_run h5 rfl (0, "NEWC") (by decide) (by decide) (by decide)
  · exact not_calibratedOp_of_run (p := StackPusherHelper.ofSize 1) h6' rfl (0, "NEWC") (by decide) (by decide) (by decide)
  · exact not_calibratedOp_of_run h7 rfl (0, "DUP") (by decide) (by decide) (by decide)
  · exact not_calibratedOp_of_run h8 rfl (0, "DUP") (by decide) (by decide) (by decide)

theorem resetAllStateVars_oneVar_run :
    Operation.resetAllStateVars.run specCollaborators specSurroundings plainAst oneVarContext
        (StackPusherHelper.ofSize 0) =
      some (StackPusherHelper.emitted [(0, ";; set default state vars"), (1, "PUSHINT 0"),
        (-1, "SETGLOB 10"), (0, ";; end set default state vars")]
        (StackPusherHelper.ofSize 0)) := rfl

/-- C3 (amended): for every operation of `StackPusherHelper` defined in the file
(`Operation` has one constructor for each) and every input on which it succeeds,
every step that pushes `NEWC`, `DUP`, `NEWDICT` or `PUSHINT k` changes the
modelled size by exactly +1 in that step, when the code outside the file that
emits through the pusher (the struct compiler, the expression compiler, the
callbacks handed to `sendMsg` and `sendIntMsg`) does so, except at the calls of
`Operation.IsException`.

The further parts say what the exceptions and the writers without `push` do.
`startContinuation`, `endContinuation` and `append` write to the buffer without
a step and leave the stack model alone: the opening line, the closing brace,
and the lines of the caller. `push` records the delta of the caller;
`pushLines` and `push(const CodeLines&)` record every line of the caller with
delta 0; `pushCont` records the lines of the continuation behind a tab with
delta 0 and the closing brace with +1. `generateC7ToT4Macro` records its first
four lines, the fourth being `NEWC`, with delta 0, and only calibrated steps
after them. `prepareValueForDictOperations` for an integral value that is not
yet a builder pushes `NEWC` and the store line with delta 0 each (size
unchanged). In `getDict` the only step off the rule is `DUP` with delta 0, and
only for `Fetch` (`fetchValue`: `DUP` 0, two continuations +1 each, `IFELSE`
-2, size unchanged) and `Exist` (`checkExist`: `DUP` 0, one continuation +1,
`IF` -2). -/
theorem StackPusherHelper.calibrated_steps (env : Collaborators) (sur : Surroundings)
    (ast : AstView) (ctx : TVMCompilerContext) (hout : OutsideCalibrated env sur) :
    (∀ op : Operation, op.CallbacksCalibrated → ¬ op.IsException →
      StackPusherHelper.CalibratedOp (op.run env sur ast ctx)) ∧
    (∀ p q, StackPusherHelper.startContinuation p = some q →
      q.history = p.history ∧ q.m_stack = p.m_stack ∧
        q.m_code.lines = p.m_code.lines ++ [indented p.m_code.tabQty "PUSHCONT \x7b"]) ∧
    (∀ p q, StackPusherHelper.endContinuation p = some q →
      q.history = p.history ∧ q.m_stack = p.m_stack ∧
        q.m_code.lines = p.m_code.lines ++ [indented (p.m_code.tabQty - 1) "\x7d"]) ∧
    (∀ oth p q, StackPusherHelper.append oth p = some q →
      q.history = p.history ∧ q.m_stack = p.m_stack ∧
        q.m_code.lines = p.m_code.lines ++ oth.lines.map (indented p.m_code.tabQty)) ∧
    (∀ d cmd p q, StackPusherHelper.push d cmd p = some q →
      q.history = p.history ++ [(d, cmd)] ∧ q.m_stack.m_size = p.m_stack.m_size + d) ∧
    (∀ lines p q, StackPusherHelper.pushLines lines p = some q →
      q.history = p.history ++ (getlines [] lines.data).map (fun l => ((0 : Int), l)) ∧
        q.m_stack.m_size = p.m_stack.m_size) ∧
    (∀ codeLines p q, StackPusherHelper.pushCode codeLines p = some q →
      q.history = p.history ++ codeLines.lines.map (fun l => ((0 : Int), l)) ∧
        q.m_stack.m_size = p.m_stack.m_size) ∧
    (∀ cont p q, StackPusherHelper.pushCont cont "" p = some q →
      q.history = p.history ++ contSteps cont.lines ∧
        q.m_stack.m_size = p.m_stack.m_size + 1) ∧
    (∀ p q, StackPusherHelper.generateC7ToT4Macro sur ast ctx p = some q →
      ∃ rest, q.history = p.history ++ ([(0, ""), (0, ".macro\tc7_to_c4"), (0, "GETGLOB 2"),
        (0, "NEWC")] ++ rest) ∧ Calibrated rest) ∧
    (∀ kt vt p r, isIntegralType vt = true →
      StackPusherHelper.prepareValueForDictOperations env kt vt false p = some r →
      r.1 = true ∧
        r.2.history = p.history ++ [(0, "NEWC"), (0, env.storeIntegralOrAddress vt false)] ∧
        r.2.m_stack.m_size = p.m_stack.m_size) ∧
    (∀ kt vt op b p q, StackPusherHelper.getDict env kt vt op b p = some q →
      ∃ new, q.history = p.history ++ new ∧
        CalibratedButDup (op = .Fetch ∨ op = .Exist) new) ∧
    (∀ d d1, GetFromDict.fetchValue env d = some d1 →
      ∃ noValue : StackPusherHelper, d1.pusher.history = d.pusher.history ++
          ((0, "DUP") :: (contSteps d.haveValue.code.lines ++ contSteps noValue.code.lines ++
            [(-2, "IFELSE")])) ∧
        d1.pusher.m_stack.m_size = d.pusher.m_stack.m_size) ∧
    (∀ d d1, GetFromDict.checkExist d = some d1 →
      d1.pusher.history = d.pusher.history ++
          ((0, "DUP") :: (contSteps ["NIP"] ++ [(-2, "IF")])) ∧
        d1.pusher.m_stack.m_size = d.pusher.m_stack.m_size - 1) := by
  refine ⟨?_, StackPusherHelper.startContinuation_lines, StackPusherHelper.endContinuation_lines,
    StackPusherHelper.append_lines, StackPusherHelper.push_history,
    fun lines p q h => StackPusherHelper.pushEach_history _ p q h,
    fun codeLines p q h => StackPusherHelper.pushEach_history _ p q h,
    StackPusherHelper.pushCont_history,
    StackPusherHelper.generateC7ToT4Macro_history sur hout.stateVarsToBuilder ast ctx,
    ?_, ?_, ?_, ?_⟩
  · intro op hcb hex
    cases op with
    | tryPollLastRetOpcode => exact StackPusherHelper.calibrated_tryPollLastRetOpcode
    | pollLastOpcode => exact StackPusherHelper.calibrated_pollLastOpcode
    | append oth => exact StackPusherHelper.calibrated_append_call oth
    | addTabs qty => exact StackPusherHelper.calibrated_addTabs qty
    | subTabs qty => exact StackPusherHelper.calibrated_subTabs qty
    | pushCont cont comment => exact StackPusherHelper.calibrated_pushCont_comment cont comment
    | generateGlobl fname isPublic =>
      exact StackPusherHelper.calibrated_generateGlobl fname isPublic
    | generateInternal fname id => exact StackPusherHelper.calibrated_generateInternal fname id
    | generateMacro functionName => exact StackPusherHelper.calibrated_generateMacro functionName
    | push stackDiff cmd =>
      exact StackPusherHelper.CalibratedOp.step stackDiff cmd
        (fun hc => Classical.byContradiction (fun hd => hex ⟨hc, hd⟩))
    | startContinuation => exact StackPusherHelper.calibrated_startContinuation
    | endContinuation => exact StackPusherHelper.calibrated_endContinuation
    | pushLog str => exact StackPusherHelper.calibrated_pushLog sur str
    | pushLines lines =>
      exact StackPusherHelper.calibrated_pushEach _ (fun l hl hc => hex ⟨l, hl, hc⟩)
    | untuple n => exact StackPusherHelper.calibrated_untuple n
    | index idx => exact StackPusherHelper.calibrated_index idx
    | set_index idx => exact StackPusherHelper.calibrated_set_index idx
    | tuple qty => exact StackPusherHelper.calibrated_tuple qty
    | resetAllStateVars => exact StackPusherHelper.calibrated_resetAllStateVars env sur hout ast ctx
    | getGlobOf vd => exact StackPusherHelper.calibrated_getGlobOf ctx vd
    | getGlob idx => exact StackPusherHelper.calibrated_getGlob idx
    | setGlob idx => exact StackPusherHelper.calibrated_setGlob idx
    | setGlobOf vd => exact StackPusherHelper.calibrated_setGlobOf ctx vd
    | pushS i => exact StackPusherHelper.calibrated_pushS i
    | pushInt i => exact StackPusherHelper.calibrated_pushInt i
    | stzeroes qty => exact StackPusherHelper.calibrated_stzeroes qty
    | stones qty => exact StackPusherHelper.calibrated_stones qty
    | sendrawmsg => exact StackPusherHelper.calibrated_sendrawmsg
    | loadArray directOrder => exact StackPusherHelper.calibrated_loadArray directOrder
    | preLoadArray => exact StackPusherHelper.calibrated_preLoadArray
    | load type => exact StackPusherHelper.calibrated_load type
    | preload type => exact StackPusherHelper.calibrated_preload type
    | pushZeroAddress => exact StackPusherHelper.calibrated_pushZeroAddress
    | generateC7ToT4Macro => exact absurd trivial hex
    | literalToSliceAddress value pushSlice =>
      exact StackPusherHelper.calibrated_literalToSliceAddress value pushSlice
    | tryImplicitConvert leftType rightType =>
      exact StackPusherHelper.calibrated_tryImplicitConvert leftType rightType
    | pushCode codeLines =>
      exact StackPusherHelper.calibrated_pushEach _ (fun l hl hc => hex ⟨l, hl, hc⟩)
    | pushPrivateFunctionOrMacroCall stackDelta fname =>
      exact StackPusherHelper.calibrated_pushPrivateFunctionOrMacroCall stackDelta fname
    | pushCall functionName ps rs => exact StackPusherHelper.calibrated_pushCall functionName ps rs
    | drop cnt => exact StackPusherHelper.calibrated_drop cnt
    | blockSwap m n => exact StackPusherHelper.calibrated_blockSwap m n
    | reverse i j => exact StackPusherHelper.calibrated_reverse i j
    | dropUnder l d => exact StackPusherHelper.calibrated_dropUnder l d
    | exchange i j => exact StackPusherHelper.calibrated_exchange i j
    | prepareKeyForDictOperations key => exact StackPusherHelper.calibrated_prepareKey key
    | int_msg_info R C =>
      exact StackPusherHelper.CalibratedOp.of_pair
        (StackPusherHelper.calibrated_int_msg_info env R C)
    | ext_msg_info R =>
      exact StackPusherHelper.CalibratedOp.of_pair
        (StackPusherHelper.calibrated_ext_msg_info env R)
    | appendToBuilder bitString => exact StackPusherHelper.calibrated_appendToBuilder bitString
    | prepareValueForDictOperations kt vt b =>
      exact StackPusherHelper.calibrated_prepareValue_any env sur hout kt vt b hex
    | setDict kt vt b operation => exact StackPusherHelper.calibrated_setDict env kt vt b operation
    | tryAssignParam name => exact StackPusherHelper.calibrated_tryAssignParam name
    | getDict kt vt op b =>
      intro p q h
      obtain ⟨new, e, c⟩ := StackPusherHelper.calibrated_getDict_any env
        hout.convertSliceToTuple hout.createDefaultStruct kt vt op b p q h
      exact ⟨new, e, (c.allow (fun h => (hex h).elim)).strict⟩
    | ensureValueFitsType typeName =>
      exact StackPusherHelper.calibrated_ensureValueFitsType typeName
    | pushDefaultValue type b =>
      exact StackPusherHelper.calibrated_pushDefaultValue_any env sur hout type b
    | sendIntMsg exprs C appendBody pushSendrawmsgFlag =>
      exact StackPusherHelper.calibrated_sendIntMsg env sur hout exprs C appendBody
        pushSendrawmsgFlag hcb.1 hcb.2
    | sendMsg R C appendBody appendStateInit pushSendrawmsgFlag isInternalMessage =>
      exact StackPusherHelper.calibrated_sendMsg_callbacks env R C appendBody appendStateInit
        pushSendrawmsgFlag isInternalMessage hcb.1 hcb.2.1 hcb.2.2
  · intro kt vt p r h1 h2
    exact StackPusherHelper.prepareValue_integral env kt vt h1 p r h2
  · intro kt vt op b p q h
    exact StackPusherHelper.calibrated_getDict_any env hout.convertSliceToTuple
      hout.createDefaultStruct kt vt op b p q h
  · intro d d1 h
    obtain ⟨_, _, nv, e, s⟩ := GetFromDict.fetchValue_history env d d1 h
    exact ⟨nv, e, s⟩
  · intro d d1 h
    obtain ⟨_, _, e, s⟩ := GetFromDict.checkExist_history d d1 h
    exact ⟨e, s⟩

/-- Witness of C3 (amended): with the collaborators of the specification,
`resetAllStateVars` on the context of a contract with one state variable of type
`uint256`, from an empty pusher: it pushes `PUSHINT 0` with +1 between its two
comment lines and `SETGLOB 10`. -/
theorem StackPusherHelper.calibrated_steps_witness :
    OutsideCalibrated specCollaborators specSurroundings ∧
    Operation.resetAllStateVars.CallbacksCalibrated ∧
    ¬ Operation.resetAllStateVars.IsException ∧
    Operation.resetAllStateVars.run specCollaborators specSurroundings plainAst oneVarContext
        (StackPusherHelper.ofSize 0) =
      some (StackPusherHelper.emitted [(0, ";; set default state vars"), (1, "PUSHINT 0"),
        (-1, "SETGLOB 10"), (0, ";; end set default state vars")]
        (StackPusherHelper.ofSize 0)) ∧
    ∃ new, (StackPusherHelper.emitted [(0, ";; set default state vars"), (1, "PUSHINT 0"),
        (-1, "SETGLOB 10"), (0, ";; end set default state vars")]
        (StackPusherHelper.ofSize 0)).history = (StackPusherHelper.ofSize 0).history ++ new ∧
      Calibrated new :=
  ⟨spec_outside_calibrated, trivial, not_false, resetAllStateVars_oneVar_run,
    (StackPusherHelper.calibrated_steps specCollaborators specSurroundings plainAst oneVarContext
      spec_outside_calibrated).1 Operation.resetAllStateVars trivial not_false
      (StackPusherHelper.ofSize 0) _ resetAllStateVars_oneVar_run⟩
